import Mathlib

/-!
# LegacyEditor chunk codecs (v12 / v13)

A shallow embedding of `src/code/Chunk/v12.cpp` and `src/code/Chunk/v13.cpp`:
the palette based block-data codec of one chunk, over an explicit byte buffer
with a cursor.  Machine integers are naturals, truncated with `%` where the
source stores them in a narrower type.
-/

namespace LegacyEditor

/-! ## Constants -/

/-- Modelled from the spec: `GRID_SIZE` (declared outside the given sources) is the
byte size of one decoded 4×4×4 grid, 64 cells of two bytes ("reserve 128 bytes of
grid-header"). -/
def GRID_SIZE : Nat := 128

/-- Modelled from the spec: `GRID_COUNT` (declared outside the given sources), the
64 grids of a section and the 64 cells of a grid. -/
def GRID_COUNT : Nat := 64

/-- Modelled from the spec: `MAP_SIZE` (declared outside the given sources), the
"65 536-entry blockMap". -/
def MAP_SIZE : Nat := 65536

/-- Modelled from the spec: `SECTION_COUNT` (declared outside the given sources),
the 16 Y-stacked sections of a chunk. -/
def SECTION_COUNT : Nat := 16

/-- Modelled from the spec: the grid format tags of the table "Grid format tags
(v12)"; the enumerators are declared outside the given sources. -/
def V12_0_UNO : Nat := 0
/-- Modelled from the spec: tag 0x2 of the grid format table. -/
def V12_1_BIT : Nat := 2
/-- Modelled from the spec: tag 0x3 of the grid format table. -/
def V12_1_BIT_SUBMERGED : Nat := 3
/-- Modelled from the spec: tag 0x4 of the grid format table. -/
def V12_2_BIT : Nat := 4
/-- Modelled from the spec: tag 0x5 of the grid format table. -/
def V12_2_BIT_SUBMERGED : Nat := 5
/-- Modelled from the spec: tag 0x6 of the grid format table. -/
def V12_3_BIT : Nat := 6
/-- Modelled from the spec: tag 0x7 of the grid format table. -/
def V12_3_BIT_SUBMERGED : Nat := 7
/-- Modelled from the spec: tag 0x8 of the grid format table. -/
def V12_4_BIT : Nat := 8
/-- Modelled from the spec: tag 0x9 of the grid format table. -/
def V12_4_BIT_SUBMERGED : Nat := 9
/-- Modelled from the spec: tag 0xE of the grid format table. -/
def V12_8_FULL : Nat := 14
/-- Modelled from the spec: tag 0xF of the grid format table. -/
def V12_8_FULL_SUBMERGED : Nat := 15

/-- Modelled from the spec: the table `V12_GRID_SIZES` (declared outside the given
sources) holds the payload size in bytes of every format tag, as listed in the
grid format table; the tags the table does not list carry no payload. -/
def V12_GRID_SIZES (format : Nat) : Nat :=
  match format with
  | 2 => 12
  | 3 => 20
  | 4 => 24
  | 5 => 40
  | 6 => 40
  | 7 => 64
  | 8 => 64
  | 9 => 96
  | 14 => 128
  | 15 => 256
  | _ => 0

/-- Modelled from the spec: the v13 tags are those of v12 ("All bit-packing and
palette logic is identical to v12"), `0xF` being "8-FULL both-layers". -/
def V13_0_UNO : Nat := 0
/-- Modelled from the spec: tag 0x2 (v13). -/
def V13_1_BIT : Nat := 2
/-- Modelled from the spec: tag 0x3 (v13). -/
def V13_1_BIT_SUBMERGED : Nat := 3
/-- Modelled from the spec: tag 0x4 (v13). -/
def V13_2_BIT : Nat := 4
/-- Modelled from the spec: tag 0x5 (v13). -/
def V13_2_BIT_SUBMERGED : Nat := 5
/-- Modelled from the spec: tag 0x6 (v13). -/
def V13_3_BIT : Nat := 6
/-- Modelled from the spec: tag 0x7 (v13). -/
def V13_3_BIT_SUBMERGED : Nat := 7
/-- Modelled from the spec: tag 0x8 (v13). -/
def V13_4_BIT : Nat := 8
/-- Modelled from the spec: tag 0x9 (v13). -/
def V13_4_BIT_SUBMERGED : Nat := 9
/-- Modelled from the spec: tag 0xE (v13), "8-FULL (single layer)". -/
def V13_8_FULL : Nat := 14
/-- Modelled from the spec: tag 0xF (v13), "8-FULL both-layers". -/
def V13_8_FULL_BLOCKS_SUBMERGED : Nat := 15

/-- Modelled from the spec: `V13_GRID_SIZES` (declared outside the given sources),
the payload sizes of the v13 tags: those of v12, with 128 + 128 bytes for `0xF`. -/
def V13_GRID_SIZES (format : Nat) : Nat := V12_GRID_SIZES format

/-- Modelled from the spec: `DATA_HEADER_SIZE` (declared outside the given
sources); the v13 source comments it as the "28 chunk header". -/
def DATA_HEADER_SIZE : Nat := 28

/-- Modelled from the spec: `SECTION_HEADER_SIZE` (declared outside the given
sources); the source comments it as the "50 section header" (2 + 32 + 16 bytes). -/
def SECTION_HEADER_SIZE : Nat := 50

/-! ## Byte cursor -/

/-- Modelled from the spec: the byte cursor (`DataManager`, declared outside the
given sources): "a seekable window over a mutable byte buffer" with "an endianness
mode that affects multi-byte integer read/writes".  `data` is the memory the
buffer starts at (address 0 is `start()`), `size` the buffer size, `pos` the cursor.
"All primitive reads fail with OutOfRange if fewer than the required bytes
remain; writes to a fixed-size buffer fail the same way": that failure is
recorded in the sticky flag `oob`, and a run whose flag is raised stands for a
call that threw; the entry points return `none` for it. -/
structure DataManager where
  data : Nat → Nat
  size : Nat
  pos : Nat
  isBig : Bool
  oob : Bool

/-- The byte stored at an address (`c_u8` read through a raw pointer). -/
def byteAt (d : Nat → Nat) (a : Nat) : Nat := d a % 256

/-- Memory after storing the `width`-byte integer `v` at address `a`. -/
def storeInt (big : Bool) (width : Nat) (d : Nat → Nat) (a v : Nat) : Nat → Nat :=
  fun i =>
    if a ≤ i ∧ i < a + width then
      (if big then v / 256 ^ (width - 1 - (i - a)) % 256 else v / 256 ^ (i - a) % 256)
    else d i

/-- The big-endian integer held by the `width` bytes at address `a`. -/
def loadBE (d : Nat → Nat) (a : Nat) : Nat → Nat
  | 0 => 0
  | w + 1 => loadBE d a w * 256 + byteAt d (a + w)

/-- The little-endian integer held by the `width` bytes at address `a`. -/
def loadLE (d : Nat → Nat) (a : Nat) : Nat → Nat
  | 0 => 0
  | w + 1 => byteAt d a + 256 * loadLE d (a + 1) w

namespace DataManager

/-- Raw byte of the buffer at offset `a` from `start()`. -/
def byte (dm : DataManager) (a : Nat) : Nat := byteAt dm.data a

/-- Operation `seek(pos)`. -/
def seek (dm : DataManager) (p : Nat) : DataManager := { dm with pos := p }

/-- Operation `skip(n)` with `n ≥ 0`. -/
def skip (dm : DataManager) (n : Nat) : DataManager := { dm with pos := dm.pos + n }

/-- Operation `skip(-n)`: moves the cursor back. -/
def skipBack (dm : DataManager) (n : Nat) : DataManager := { dm with pos := dm.pos - n }

/-- Operation `setEndian(big)` (`setBigEndian` / `setLittleEndian` in v13). -/
def setEndian (dm : DataManager) (big : Bool) : DataManager := { dm with isBig := big }

/-- Primitive read of a `width`-byte unsigned integer at the cursor. -/
def read (dm : DataManager) (width : Nat) : Nat × DataManager :=
  ((if dm.isBig then loadBE dm.data dm.pos width else loadLE dm.data dm.pos width),
   { dm with pos := dm.pos + width, oob := dm.oob || decide (dm.size < dm.pos + width) })

/-- Primitive write of a `width`-byte unsigned integer at the cursor; the value
is truncated to `width` bytes. -/
def write (dm : DataManager) (width : Nat) (v : Nat) : DataManager :=
  { dm with data := storeInt dm.isBig width dm.data dm.pos v,
            pos := dm.pos + width,
            oob := dm.oob || decide (dm.size < dm.pos + width) }

/-- Operation `writeAtOffset<T>(off, v)`: "write_at(off, value) without moving the
cursor". -/
def writeAtOffset (dm : DataManager) (width : Nat) (off v : Nat) : DataManager :=
  { dm with data := storeInt dm.isBig width dm.data off v,
            oob := dm.oob || decide (dm.size < off + width) }

end DataManager

/-! ## Chunk data -/

/-- A `u16_vec`: its size and its cells. -/
structure U16Vec where
  size : Nat
  cells : Nat → Nat

namespace U16Vec

/-- The constructor `u16_vec(n)`: `n` zero cells. -/
def zeros (n : Nat) : U16Vec := { size := n, cells := fun _ => 0 }

/-- Read `vec[i]`, a 16-bit value. -/
def get (v : U16Vec) (i : Nat) : Nat := v.cells i % 65536

/-- Write `vec[i] = x`. -/
def set (v : U16Vec) (i x : Nat) : U16Vec := { v with cells := Function.update v.cells i (x % 65536) }

end U16Vec

/-- The fields of `ChunkData` (chunkData.hpp) that the block-data codec and the
chunk header use.  The light, height-map, biome and NBT fields are read and
written by helpers outside the given sources and are kept apart in `ChunkRest`. -/
structure ChunkData where
  newBlocks : U16Vec
  submerged : U16Vec
  hasSubmerged : Bool
  lastUpdate : Int
  inhabitedTime : Int
  DataGroupCount : Nat
  chunkX : Int
  chunkZ : Int
  lastVersion : Int
  validChunk : Bool

/-- A default constructed `ChunkData`, with the member initialisers of
chunkData.hpp. -/
def ChunkData.fresh : ChunkData :=
  { newBlocks := U16Vec.zeros 0, submerged := U16Vec.zeros 0, hasSubmerged := false,
    lastUpdate := 0, inhabitedTime := 0, DataGroupCount := 0, chunkX := 0, chunkZ := 0,
    lastVersion := 0, validChunk := false }

/-- The part of a chunk that `readChunk` reads after the block data: the light
sub-blocks, height map, `terrainPopulated`, biomes and NBT. -/
structure ChunkRest where
  skyLight : Nat → Nat
  blockLight : Nat → Nat
  heightMap : Nat → Nat
  terrainPopulated : Int
  biomes : Nat → Nat

/-- Conversion `static_cast<i32>` of a 32-bit pattern. -/
def toI32 (n : Nat) : Int := if n % 2 ^ 32 < 2 ^ 31 then (n % 2 ^ 32 : Nat) else (n % 2 ^ 32 : Nat) - 2 ^ 32

/-- Conversion `static_cast<i64>` of a 64-bit pattern. -/
def toI64 (n : Nat) : Int := if n % 2 ^ 64 < 2 ^ 63 then (n % 2 ^ 64 : Nat) else (n % 2 ^ 64 : Nat) - 2 ^ 64

/-- The 32-bit pattern of a signed value (implicit conversion to `u32`). -/
def ofI32 (x : Int) : Nat := (x % 2 ^ 32).toNat

/-- The 64-bit pattern of a signed value (implicit conversion to `u64`). -/
def ofI64 (x : Int) : Nat := (x % 2 ^ 64).toNat

/-! ## Control flow of the decoder loops -/

/-- Outcome of a loop body of the decoder: `run` goes on with the next iteration,
`ret` is the `return` statement, which leaves `readBlockData` at once. -/
inductive Flow (σ : Type) where
  | run (s : σ)
  | ret (s : σ)

/-- A `for` loop over `l` whose body may return from the enclosing function. -/
def forFlow {α σ : Type} (l : List α) (body : α → σ → Flow σ) (s : σ) : Flow σ :=
  match l with
  | [] => Flow.run s
  | a :: t =>
    match body a s with
    | Flow.run s1 => forFlow t body s1
    | Flow.ret s1 => Flow.ret s1

/-- The state a loop outcome carries. -/
def Flow.state {σ : Type} : Flow σ → σ
  | Flow.run s => s
  | Flow.ret s => s

/-- Whether the outcome is a `return`. -/
def Flow.returned {σ : Type} : Flow σ → Bool
  | Flow.run _ => false
  | Flow.ret _ => true

/-! ## v12 decoder -/

/-- The grid the decoders build for a UNO header word with the bytes `num1`,
`num2`: `blockGrid[i] = num1`, `blockGrid[i + 1] = num2` for the even `i < 128`. -/
def unoGrid (num1 num2 : Nat) : Nat → Nat :=
  fun i => if i < 128 then (if i % 2 = 0 then num1 else num2) else 0

namespace ChunkV12

/-- The function `ChunkV12::allocChunk`. -/
def allocChunk (c : ChunkData) : ChunkData :=
  { c with DataGroupCount := 0, newBlocks := U16Vec.zeros 65536, submerged := U16Vec.zeros 65536 }

/-- The function `placeBlocks` of v12.cpp: the 64 cells of a decoded grid (pairs
low byte, high byte) go to `writeVec`, cell `(xIter, zIter, yIter)` at
`yIter + zIter * 256 + xIter * 4096 + writeOffset`.  The running `readOffset` is
`2 * (xIter * 16 + zIter * 4 + yIter)`. -/
def placeBlocks (writeVec : U16Vec) (grid : Nat → Nat) (writeOffset : Nat) : U16Vec :=
  (List.range 4).foldl (fun w xIter =>
    (List.range 4).foldl (fun w zIter =>
      (List.range 4).foldl (fun w yIter =>
        let currentOffset := yIter + zIter * 256 + xIter * 4096
        let readOffset := 2 * (xIter * 16 + zIter * 4 + yIter)
        let num1 := grid readOffset % 256
        let num2 := grid (readOffset + 1) % 256
        w.set (currentOffset + writeOffset) (num1 ||| (num2 <<< 8))) w) w) writeVec

/-- The palette index of one cell as `readGrid` computes it: bit `k` of the index
is the `column` bit of byte `row` of bit plane `k`; `planes` is the address of
the first bit plane. -/
def cellIdx (BitsPerBlock : Nat) (d : Nat → Nat) (planes row column : Nat) : Nat :=
  (List.range BitsPerBlock).foldl (fun idx k =>
    (idx ||| (((byteAt d (planes + row + k * 8) &&& (128 >>> column)) >>> (7 - column)) <<< k))
      % 65536) 0

/-- The function `ChunkV12::readGrid<BitsPerBlock>`: `buffer` is the address of the
grid payload in the memory `d`; the result is the decoded `grid[GRID_SIZE]`, or
`none` where the source returns `false`. -/
def readGrid (BitsPerBlock : Nat) (d : Nat → Nat) (buffer : Nat) : Option (Nat → Nat) :=
  let size := (1 <<< BitsPerBlock) * 2
  let palette : Nat → Nat := fun i => if i < size then byteAt d (buffer + i) else 0
  (List.range 64).foldlM (fun (grid : Nat → Nat) index =>
    let row := index / 8
    let column := index % 8
    let idx := cellIdx BitsPerBlock d (buffer + size) row column
    if idx ≥ size then none
    else
      let gridIndex := index * 2
      let paletteIndex := idx * 2
      some (Function.update (Function.update grid (gridIndex + 0) (palette (paletteIndex + 0) % 256))
        (gridIndex + 1) (palette (paletteIndex + 1) % 256))) (fun _ => 0)

/-- The function `ChunkV12::readGridSubmerged<BitsPerBlock>`: the decoded block grid
and submerged grid, or `none` where the source returns `false`. -/
def readGridSubmerged (BitsPerBlock : Nat) (d : Nat → Nat) (buffer : Nat) :
    Option ((Nat → Nat) × (Nat → Nat)) :=
  let size := (1 <<< BitsPerBlock) * 2
  let palette : Nat → Nat := fun i => if i < size then byteAt d (buffer + i) else 0
  (List.range 8).foldlM (fun (grids : (Nat → Nat) × (Nat → Nat)) i =>
    (List.range 8).foldlM (fun (grids : (Nat → Nat) × (Nat → Nat)) j =>
      let idxBlock := cellIdx BitsPerBlock d (buffer + size) i j
      let idxSbmrg := cellIdx BitsPerBlock d (buffer + size + BitsPerBlock * 8) i j
      if idxBlock ≥ size ∨ idxSbmrg ≥ size then none
      else
        let gridIndex := (i * 8 + j) * 2
        let paletteIndexBlock := idxBlock * 2
        let paletteIndexSbmrg := idxSbmrg * 2
        some
          (Function.update (Function.update grids.1 (gridIndex + 0) (palette (paletteIndexBlock + 0) % 256))
            (gridIndex + 1) (palette (paletteIndexBlock + 1) % 256),
           Function.update (Function.update grids.2 (gridIndex + 0) (palette (paletteIndexSbmrg + 0) % 256))
            (gridIndex + 1) (palette (paletteIndexSbmrg + 1) % 256))) grids)
    (fun _ => 0, fun _ => 0)

/-- Modelled from the spec: the helper `fillAllBlocks<GRID_SIZE>` (helpers.hpp is
outside the given sources) copies the "64 raw 16-bit cells" of an 8-FULL payload,
128 bytes, into the grid. -/
def fillAllBlocks (d : Nat → Nat) (buffer : Nat) : Nat → Nat :=
  fun i => if i < GRID_SIZE then byteAt d (buffer + i) else 0

/-- The format switch of `readBlockData`: the decoded block grid and submerged grid
of a known tag.  `none` is the `default:` branch (unknown tag), `some none` a
`readGrid` / `readGridSubmerged` that returned `false`. -/
def decodeGrid (format num1 num2 : Nat) (d : Nat → Nat) (bufferPtr : Nat) :
    Option (Option ((Nat → Nat) × (Nat → Nat))) :=
  let zero : Nat → Nat := fun _ => 0
  let single (r : Option (Nat → Nat)) : Option (Option ((Nat → Nat) × (Nat → Nat))) :=
    some (r.map fun g => (g, zero))
  match format with
  | 0 => some (some (unoGrid num1 num2, zero))
  | 2 => single (readGrid 1 d bufferPtr)
  | 3 => some (readGridSubmerged 1 d bufferPtr)
  | 4 => single (readGrid 2 d bufferPtr)
  | 5 => some (readGridSubmerged 2 d bufferPtr)
  | 6 => single (readGrid 3 d bufferPtr)
  | 7 => some (readGridSubmerged 3 d bufferPtr)
  | 8 => single (readGrid 4 d bufferPtr)
  | 9 => some (readGridSubmerged 4 d bufferPtr)
  | 14 => some (some (fillAllBlocks d bufferPtr, zero))
  | 15 => some (some (fillAllBlocks d bufferPtr, fillAllBlocks d (bufferPtr + 128)))
  | _ => none

/-- The body of the innermost grid loop of `ChunkV12::readBlockData` for the grid
`(gridX, gridZ, gridY)` of section `sect`, whose jump-table entry is `address`
and whose 128-byte grid-header table lies at `sectionHeader`. -/
def readGridBody (sectionHeader address sect gridX gridZ gridY : Nat)
    (st : DataManager × ChunkData) : Flow (DataManager × ChunkData) :=
  let dm := st.1
  let chunk := st.2
  let gridIndex := gridX * 16 + gridZ * 4 + gridY
  let num1 := dm.byte (sectionHeader + gridIndex * 2)
  let num2 := dm.byte (sectionHeader + (gridIndex * 2 + 1))
  let format := num2 >>> 4
  let offset := (((0x0f &&& num2) <<< 8 ||| num1) * 4) % 65536
  let gridPosition := (0xcc + address + offset) % 65536
  let offsetInBlockWrite := (sect * 16 + gridY * 4) + gridZ * 1024 + gridX * 16384
  if gridPosition + V12_GRID_SIZES format ≥ dm.size ∧ format ≠ 0 then Flow.ret (dm, chunk)
  else
    let bufferPtr := gridPosition
    let dm := dm.seek (gridPosition + V12_GRID_SIZES format + 128)
    match decodeGrid format num1 num2 dm.data bufferPtr with
    | none => Flow.ret (dm, chunk)
    | some none => Flow.ret (dm, chunk)
    | some (some (blockGrid, sbmrgGrid)) =>
      let chunk := { chunk with newBlocks := placeBlocks chunk.newBlocks blockGrid offsetInBlockWrite }
      if format &&& 1 ≠ 0 then
        Flow.run (dm, { chunk with hasSubmerged := true,
                                   submerged := placeBlocks chunk.submerged sbmrgGrid offsetInBlockWrite })
      else Flow.run (dm, chunk)

/-- The three nested grid loops of one section of `readBlockData`. -/
def readSectionGrids (sectionHeader address sect : Nat) :
    DataManager × ChunkData → Flow (DataManager × ChunkData) :=
  forFlow (List.range 4) (fun gridX =>
    forFlow (List.range 4) (fun gridZ =>
      forFlow (List.range 4) (fun gridY =>
        readGridBody sectionHeader address sect gridX gridZ gridY)))

/-- The section loop of `readBlockData` over the sections `l`.  A `break` ends the
loop with `Flow.run`, a `return` inside a grid with `Flow.ret`. -/
def readSections (maxSectionAddress : Nat) (sectionJumpTable : List Nat) (sizeOfSubChunks : Nat) :
    List Nat → DataManager × ChunkData → Flow (DataManager × ChunkData)
  | [], st => Flow.run st
  | sect :: rest, st =>
    let address := sectionJumpTable.getD sect 0
    let dm := st.1.seek (76 + address)
    if address = maxSectionAddress then Flow.run (dm, st.2)
    else if dm.byte (sizeOfSubChunks + sect) = 0 then
      readSections maxSectionAddress sectionJumpTable sizeOfSubChunks rest (dm, st.2)
    else
      let sectionHeader := dm.pos
      let dm := dm.skip 128
      match readSectionGrids sectionHeader address sect (dm, st.2) with
      | Flow.ret st1 => Flow.ret st1
      | Flow.run st1 => readSections maxSectionAddress sectionJumpTable sizeOfSubChunks rest st1

/-- Reads `n` consecutive `u16` values (the section jump table). -/
def readTable : Nat → DataManager → List Nat × DataManager
  | 0, dm => ([], dm)
  | n + 1, dm =>
    let r := dm.read 2
    let t := readTable n r.2
    (r.1 :: t.1, t.2)

/-- The function `ChunkV12::readBlockData`.  `none` stands for an `OutOfRange`
raised by one of the table reads, which happens before any cell is written. -/
def readBlockData (dm : DataManager) (chunk : ChunkData) : Option (DataManager × ChunkData) :=
  let r := dm.read 2
  let maxSectionAddress := (r.1 <<< 8) % 2 ^ 32
  let t := readTable 16 r.2
  let sectionJumpTable := t.1
  let sizeOfSubChunks := t.2.pos
  let dm := t.2.skip 16
  if dm.oob then none
  else if maxSectionAddress = 0 then some (dm, chunk)
  else
    match readSections maxSectionAddress sectionJumpTable sizeOfSubChunks (List.range 16) (dm, chunk) with
    | Flow.ret st => some st
    | Flow.run st => some (st.1.seek (76 + maxSectionAddress), st.2)

/-- The function `ChunkV12::readChunk`, applied to a default constructed chunk.
`rest` stands for the reads that follow the block data (light sub-blocks, height
map, `terrainPopulated`, biomes, NBT), made by helpers outside the given
sources; it returns `none` when one of them raises.  An exception leaves the
chunk as it is at that point: a header read that raises `OutOfRange` leaves the
fields stored before it. -/
def readChunk (rest : DataManager → Option ChunkRest) (dm : DataManager) : ChunkData :=
  let chunk := allocChunk ChunkData.fresh
  let rx := dm.read 4
  let rz := rx.2.read 4
  let rl := rz.2.read 8
  let ri := rl.2.read 8
  if rx.2.oob then chunk
  else if rz.2.oob then { chunk with chunkX := toI32 rx.1 }
  else if rl.2.oob then { chunk with chunkX := toI32 rx.1, chunkZ := toI32 rz.1 }
  else if ri.2.oob then
    { chunk with chunkX := toI32 rx.1, chunkZ := toI32 rz.1, lastUpdate := toI64 rl.1 }
  else
    let chunk := { chunk with chunkX := toI32 rx.1, chunkZ := toI32 rz.1,
                              lastUpdate := toI64 rl.1, inhabitedTime := toI64 ri.1 }
    match readBlockData ri.2 chunk with
    | none => chunk
    | some st =>
      match rest st.1 with
      | none => st.2
      | some _ => { st.2 with lastVersion := 12, validChunk := true }

end ChunkV12

/-! ## v12 encoder -/

/-- The scratch state of one grid scan of `writeBlockData`: the palette
`blockVector`, the palette index of every cell in both layers, the flag
`noSubmerged` and the table `blockMap` (block value ↦ palette index + 1).
`u16FixVec_t` (a `FixedVector<u16, GRID_COUNT>`, declared outside the given
sources) is a list here, `push_back` appends and `current_size()` is the length.
The list stands for the vector as long as it holds at most `GRID_COUNT` entries:
what `push_back` does on a full vector is not in the given sources, so a scan
that pushes more than `GRID_COUNT` values is outside this state. -/
structure ScanState where
  blockVector : List Nat
  blockLocations : List Nat
  sbmgdLocations2 : List Nat
  noSubmerged : Bool
  blockMap : Nat → Nat

/-- The scan state at the start of a grid: the three vectors emptied and
`noSubmerged = true`. -/
def ScanState.init (blockMap : Nat → Nat) : ScanState :=
  { blockVector := [], blockLocations := [], sbmgdLocations2 := [], noSubmerged := true,
    blockMap := blockMap }

/-- What the encoder keeps while it goes through the grids of one section. -/
structure SectionState where
  dm : DataManager
  blockMap : Nat → Nat
  gridHeader : List Nat
  sectionSize : Nat

/-- What the encoder keeps from one section to the next. -/
structure WriteState where
  dm : DataManager
  blockMap : Nat → Nat
  last_section_jump : Nat
  last_section_size : Nat
  sectJumpTable : Nat → Nat
  sectSizeTable : Nat → Nat

/-- The encoder state before the first section: the cursor at `H_SECT_START = 76`
(`seek(H_SECT_START)`), `last_section_jump = 0`, zeroed tables and `blockMap`. -/
def WriteState.init (dm : DataManager) : WriteState :=
  { dm := dm.seek (26 + 50), blockMap := fun _ => 0, last_section_jump := 0,
    last_section_size := 0, sectJumpTable := fun _ => 0, sectSizeTable := fun _ => 0 }

/-- Modelled from the spec: the probe `is0_128_slow` (helpers.hpp is outside the
given sources) detects an empty section, "the zero-palette grid pattern that
encodes single block = 0 in every grid header": the 128 bytes at `p` are all 0. -/
def is0_128_slow (d : Nat → Nat) (p : Nat) : Bool :=
  (List.range 128).all fun i => byteAt d (p + i) == 0

/-- The loop of `writeBlockData` that writes the grid header of a section,
little-endian (the same statements in v12.cpp and v13.cpp). -/
def writeGridHeader (dm : DataManager) (start : Nat) (gridHeader : List Nat) : DataManager :=
  ((List.range GRID_COUNT).foldl (fun dm index =>
    dm.writeAtOffset 2 (start + 2 * index) (gridHeader.getD index 0)) (dm.setEndian false)).setEndian true

/-- The statements of the section loop body of `writeBlockData` that precede the
grid loops (the same in v12.cpp and v13.cpp): `sectionSize = 0`, `gridIndex = 0`
and the `seek` past the 128 bytes reserved for the grid header. -/
def sectionStart (w : WriteState) : SectionState :=
  let H_SECT_START := 26 + 50
  let CURRENT_INC_SECT_JUMP := (w.last_section_jump * 256) % 2 ^ 32
  { dm := w.dm.seek (H_SECT_START + CURRENT_INC_SECT_JUMP + GRID_SIZE),
    blockMap := w.blockMap, gridHeader := [], sectionSize := 0 }

/-- The statements of the section loop body of `writeBlockData` around the grid
loops (the same in v12.cpp and v13.cpp), given the state `ss` the grid loops end
in: the jump-table entry of the section, the grid header written at
`CURRENT_SECTION_START`, the `is0_128_slow` probe, and either the rewind with
size 0 or the size entry and the advance of `last_section_jump`. -/
def closeSection (sectionIndex : Nat) (w : WriteState) (ss : SectionState) : WriteState :=
  let H_SECT_START := 26 + 50
  let CURRENT_INC_SECT_JUMP := (w.last_section_jump * 256) % 2 ^ 32
  let CURRENT_SECTION_START := H_SECT_START + CURRENT_INC_SECT_JUMP
  let sectJumpTable := Function.update w.sectJumpTable sectionIndex (CURRENT_INC_SECT_JUMP % 65536)
  let dm := writeGridHeader ss.dm CURRENT_SECTION_START ss.gridHeader
  if is0_128_slow dm.data CURRENT_SECTION_START then
    { dm := dm.skipBack GRID_SIZE, blockMap := ss.blockMap,
      last_section_jump := w.last_section_jump, last_section_size := 0,
      sectJumpTable := sectJumpTable,
      sectSizeTable := Function.update w.sectSizeTable sectionIndex 0 }
  else
    let last_section_size := (GRID_SIZE + ss.sectionSize + 255) / 256
    { dm := dm, blockMap := ss.blockMap,
      last_section_jump := w.last_section_jump + last_section_size,
      last_section_size := last_section_size,
      sectJumpTable := sectJumpTable,
      sectSizeTable := Function.update w.sectSizeTable sectionIndex (last_section_size % 256) }

/-- The last statements of `writeBlockData` (the same in v12.cpp and v13.cpp, with
`H_BEGIN = 26`): the jump and size tables and `max_section_address` are patched
into the header, and the cursor is put behind the last section. -/
def patchHeader (w : WriteState) : DataManager :=
  let H_BEGIN := 26
  let H_SECT_JUMP_TABLE := H_BEGIN + 2
  let H_SECT_SIZE_TABLE := H_BEGIN + 34
  let H_SECT_START := H_BEGIN + 50
  let dm := (List.range SECTION_COUNT).foldl (fun dm sectionIndex =>
    (dm.writeAtOffset 2 (H_SECT_JUMP_TABLE + 2 * sectionIndex) (w.sectJumpTable sectionIndex)).writeAtOffset
      1 (H_SECT_SIZE_TABLE + sectionIndex) (w.sectSizeTable sectionIndex)) w.dm
  let final_val := (w.last_section_jump * 256) % 2 ^ 32
  let dm := dm.writeAtOffset 2 H_BEGIN ((final_val >>> 8) % 65536)
  dm.seek (H_SECT_START + final_val)

namespace ChunkV12

/-- The body of the innermost cell loop of `ChunkV12::writeBlockData`.  Each
`push_back` appends to its list; `blockVector` can get two values per cell, and
the list stands for the `FixedVector` of capacity `GRID_COUNT` only while it holds
at most `GRID_COUNT` entries (see `ScanState`). -/
def scanCell (c : ChunkData) (blockIndex : Nat) (s : ScanState) : ScanState :=
  let block := c.newBlocks.get blockIndex
  let s1 : ScanState :=
    if s.blockMap block ≠ 0 then
      { s with blockLocations := s.blockLocations ++ [(s.blockMap block - 1) % 65536] }
    else
      { s with blockMap := Function.update s.blockMap block ((s.blockVector.length + 1) % 256),
               blockVector := s.blockVector ++ [block],
               blockLocations := s.blockLocations ++ [s.blockVector.length % 65536] }
  let subBlock := c.submerged.get blockIndex
  if subBlock ≠ 0 then
    if s1.blockMap subBlock ≠ 0 then
      { s1 with noSubmerged := false,
                sbmgdLocations2 := s1.sbmgdLocations2 ++ [(s1.blockMap subBlock - 1) % 65536] }
    else
      { s1 with noSubmerged := false,
                blockMap := Function.update s1.blockMap subBlock ((s1.blockVector.length + 1) % 256),
                blockVector := s1.blockVector ++ [subBlock],
                sbmgdLocations2 := s1.sbmgdLocations2 ++ [s1.blockVector.length % 65536] }
  else
    { s1 with sbmgdLocations2 := s1.sbmgdLocations2 ++ [0] }

/-- The three nested cell loops of `writeBlockData` over the grid at
`offsetInBlock`, entered with the three vectors emptied (`set_size(0)`) and
`noSubmerged = true`. -/
def scanGrid (c : ChunkData) (offsetInBlock : Nat) (blockMap : Nat → Nat) : ScanState :=
  [0, 4096, 8192, 12288].foldl (fun s blockX =>
    [0, 256, 512, 768].foldl (fun s blockZ =>
      [0, 1, 2, 3].foldl (fun s blockY =>
        scanCell c (offsetInBlock + blockY + blockZ + blockX) s) s) s)
    (ScanState.init blockMap)

/-- The 64-bit word of bit plane `bitIndex`: bit `63 - locIndex` is bit `bitIndex`
of the palette index of cell `locIndex`. -/
def positionWord (blockLocations : List Nat) (bitIndex : Nat) : Nat :=
  (List.range GRID_COUNT).foldl (fun position locIndex =>
    (position ||| ((((blockLocations.getD locIndex 0) >>> bitIndex) &&& 1)
        <<< (GRID_COUNT - locIndex - 1))) % 2 ^ 64) 0

/-- The function `ChunkV12::writeGrid<BitsPerBlock, BlockCount, EmptyCount>`. -/
def writeGrid (BitsPerBlock BlockCount EmptyCount : Nat) (blockVector blockLocations : List Nat)
    (st : DataManager × (Nat → Nat)) : DataManager × (Nat → Nat) :=
  let dm := st.1.setEndian false
  let dm := (List.range BlockCount).foldl (fun dm blockIndex =>
    dm.write 2 (blockVector.getD blockIndex 0)) dm
  let dm := dm.setEndian true
  let dm := (List.range EmptyCount).foldl (fun dm _ => dm.write 2 0xFFFF) dm
  let dm := (List.range BitsPerBlock).foldl (fun dm bitIndex =>
    dm.write 8 (positionWord blockLocations bitIndex)) dm
  let blockMap := (List.range BlockCount).foldl (fun bm i =>
    Function.update bm (blockVector.getD i 0) 0) st.2
  (dm, blockMap)

/-- The function `ChunkV12::writeWithMaxBlocks`. -/
def writeWithMaxBlocks (blockVector blockLocations : List Nat)
    (st : DataManager × (Nat → Nat)) : DataManager × (Nat → Nat) :=
  let dm := st.1.setEndian false
  let dm := (List.range GRID_COUNT).foldl (fun dm i =>
    let blockPos := blockLocations.getD i 0
    dm.write 2 (blockVector.getD blockPos 0)) dm
  let dm := dm.setEndian true
  let blockMap := blockVector.foldl (fun bm block => Function.update bm block 0) st.2
  (dm, blockMap)

/-- The result of the format switch for one grid: the chosen tag, and the cursor
and `blockMap` after the payload is written.  `uno` tells the `goto SWITCH_END`
of `case 1`, where the header word is the block value. -/
structure GridChoice where
  gridFormat : Nat
  uno : Bool
  st : DataManager × (Nat → Nat)

/-- The format switch of `ChunkV12::writeBlockData`.  The source guards it with
`if (true /*noSubmerged*/)`, so the switch on the SUB variants that follows in
the `else` branch is never taken; `choosePaletteSubmerged` transcribes that
branch. -/
def choosePalette (s : ScanState) (dm : DataManager) : GridChoice :=
  let bv := s.blockVector
  let bl := s.blockLocations
  let st := (dm, s.blockMap)
  match bv.length with
  | 1 => { gridFormat := V12_0_UNO, uno := true, st := (dm, Function.update s.blockMap (bv.getD 0 0) 0) }
  | 2 => { gridFormat := V12_1_BIT, uno := false, st := writeGrid 1 2 0 bv bl st }
  | 3 => { gridFormat := V12_2_BIT, uno := false, st := writeGrid 2 3 1 bv bl st }
  | 4 => { gridFormat := V12_2_BIT, uno := false, st := writeGrid 2 4 0 bv bl st }
  | 5 => { gridFormat := V12_3_BIT, uno := false, st := writeGrid 3 5 3 bv bl st }
  | 6 => { gridFormat := V12_3_BIT, uno := false, st := writeGrid 3 6 2 bv bl st }
  | 7 => { gridFormat := V12_3_BIT, uno := false, st := writeGrid 3 7 1 bv bl st }
  | 8 => { gridFormat := V12_3_BIT, uno := false, st := writeGrid 3 8 0 bv bl st }
  | 9 => { gridFormat := V12_4_BIT, uno := false, st := writeGrid 4 9 7 bv bl st }
  | 10 => { gridFormat := V12_4_BIT, uno := false, st := writeGrid 4 10 6 bv bl st }
  | 11 => { gridFormat := V12_4_BIT, uno := false, st := writeGrid 4 11 5 bv bl st }
  | 12 => { gridFormat := V12_4_BIT, uno := false, st := writeGrid 4 12 4 bv bl st }
  | 13 => { gridFormat := V12_4_BIT, uno := false, st := writeGrid 4 13 3 bv bl st }
  | 14 => { gridFormat := V12_4_BIT, uno := false, st := writeGrid 4 14 2 bv bl st }
  | 15 => { gridFormat := V12_4_BIT, uno := false, st := writeGrid 4 15 1 bv bl st }
  | 16 => { gridFormat := V12_4_BIT, uno := false, st := writeGrid 4 16 0 bv bl st }
  | _ => { gridFormat := V12_8_FULL, uno := false, st := writeWithMaxBlocks bv bl st }

/-- The body of the innermost grid loop of `ChunkV12::writeBlockData` for the grid
at `offsetInBlock`: scan, format switch, header word, payload size. -/
def writeGridBody (c : ChunkData) (offsetInBlock : Nat) (ss : SectionState) : SectionState :=
  let s := scanGrid c offsetInBlock ss.blockMap
  let ch := choosePalette s ss.dm
  let gridID :=
    if ch.uno then s.blockVector.getD 0 0
    else (ss.sectionSize / 4 ||| (ch.gridFormat <<< 12)) % 65536
  { dm := ch.st.1, blockMap := ch.st.2,
    gridHeader := ss.gridHeader ++ [gridID],
    sectionSize := ss.sectionSize + V12_GRID_SIZES ch.gridFormat }

/-- The three nested grid loops of one section of `ChunkV12::writeBlockData`. -/
def writeSectionGrids (c : ChunkData) (sectionIndex : Nat) (ss : SectionState) : SectionState :=
  [0, 16384, 32768, 49152].foldl (fun ss gridX =>
    [0, 1024, 2048, 3072].foldl (fun ss gridZ =>
      [0, 4, 8, 12].foldl (fun ss gridY =>
        writeGridBody c (sectionIndex * 16 + gridY + gridZ + gridX) ss) ss) ss) ss

/-- The body of the section loop of `ChunkV12::writeBlockData`. -/
def writeSection (c : ChunkData) (sectionIndex : Nat) (w : WriteState) : WriteState :=
  closeSection sectionIndex w (writeSectionGrids c sectionIndex (sectionStart w))

/-- The first `n` iterations of the section loop of `ChunkV12::writeBlockData`. -/
def sectionsPrefix (n : Nat) (dm : DataManager) (c : ChunkData) : WriteState :=
  (List.range n).foldl (fun w sectionIndex => writeSection c sectionIndex w) (WriteState.init dm)

/-- The section loop of `ChunkV12::writeBlockData`, from the cursor at
`H_SECT_START` with empty tables and a zeroed `blockMap`. -/
def writeSections (dm : DataManager) (c : ChunkData) : WriteState :=
  sectionsPrefix SECTION_COUNT dm c

/-- The first statements of `ChunkV12::writeBlockData`: a cell vector whose size is
not 65536 is replaced by 65536 zero cells. -/
def normalize (c : ChunkData) : ChunkData :=
  { c with newBlocks := if c.newBlocks.size ≠ 65536 then U16Vec.zeros 65536 else c.newBlocks,
           submerged := if c.submerged.size ≠ 65536 then U16Vec.zeros 65536 else c.submerged }

/-- The run of `ChunkV12::writeBlockData`: the section loop over the chunk with its
cell vectors normalised, then the header patch and the final `seek`. -/
def writeBlockDataRun (dm : DataManager) (c : ChunkData) : DataManager :=
  patchHeader (writeSections dm (normalize c))

/-- The function `ChunkV12::writeBlockData`; `none` when a write raised
`OutOfRange`. -/
def writeBlockData (dm : DataManager) (c : ChunkData) : Option DataManager :=
  let r := writeBlockDataRun dm c
  if r.oob then none else some r

end ChunkV12

/-! ## v13 decoder -/

namespace ChunkV13

/-- The function `ChunkV13::allocChunk`. -/
def allocChunk (c : ChunkData) : ChunkData :=
  { c with DataGroupCount := 0, newBlocks := U16Vec.zeros 65536, submerged := U16Vec.zeros 65536 }

/-- The function `placeBlocks` of v13.cpp. -/
def placeBlocks (writeVec : U16Vec) (grid : Nat → Nat) (writeOffset : Nat) : U16Vec :=
  (List.range 4).foldl (fun w xIter =>
    (List.range 4).foldl (fun w zIter =>
      (List.range 4).foldl (fun w yIter =>
        let currentOffset := yIter + zIter * 256 + xIter * 4096
        let readOffset := 2 * (xIter * 16 + zIter * 4 + yIter)
        let num1 := grid readOffset % 256
        let num2 := grid (readOffset + 1) % 256
        let block := (num1 ||| (num2 <<< 8)) % 65536
        w.set (currentOffset + writeOffset) block) w) w) writeVec

/-- The function `ChunkV13::readGrid<BitsPerBlock>`. -/
def readGrid (BitsPerBlock : Nat) (d : Nat → Nat) (buffer : Nat) : Option (Nat → Nat) :=
  let size := (1 <<< BitsPerBlock) * 2
  let palette : Nat → Nat := fun i => if i < size then byteAt d (buffer + i) else 0
  (List.range 64).foldlM (fun (grid : Nat → Nat) index =>
    let row := index / 8
    let column := index % 8
    let idx := ChunkV12.cellIdx BitsPerBlock d (buffer + size) row column
    if idx ≥ size then none
    else
      let gridIndex := index * 2
      let paletteIndex := idx * 2
      some (Function.update (Function.update grid (gridIndex + 0) (palette (paletteIndex + 0) % 256))
        (gridIndex + 1) (palette (paletteIndex + 1) % 256))) (fun _ => 0)

/-- The function `ChunkV13::readGridSubmerged<BitsPerBlock>`. -/
def readGridSubmerged (BitsPerBlock : Nat) (d : Nat → Nat) (buffer : Nat) :
    Option ((Nat → Nat) × (Nat → Nat)) :=
  let size := (1 <<< BitsPerBlock) * 2
  let palette : Nat → Nat := fun i => if i < size then byteAt d (buffer + i) else 0
  (List.range 8).foldlM (fun (grids : (Nat → Nat) × (Nat → Nat)) i =>
    (List.range 8).foldlM (fun (grids : (Nat → Nat) × (Nat → Nat)) j =>
      let idxBlock := ChunkV12.cellIdx BitsPerBlock d (buffer + size) i j
      let idxSbmrg := ChunkV12.cellIdx BitsPerBlock d (buffer + size + BitsPerBlock * 8) i j
      if idxBlock ≥ size ∨ idxSbmrg ≥ size then none
      else
        let gridIndex := (i * 8 + j) * 2
        let paletteIndexBlock := idxBlock * 2
        let paletteIndexSbmrg := idxSbmrg * 2
        some
          (Function.update (Function.update grids.1 (gridIndex + 0) (palette (paletteIndexBlock + 0) % 256))
            (gridIndex + 1) (palette (paletteIndexBlock + 1) % 256),
           Function.update (Function.update grids.2 (gridIndex + 0) (palette (paletteIndexSbmrg + 0) % 256))
            (gridIndex + 1) (palette (paletteIndexSbmrg + 1) % 256))) grids)
    (fun _ => 0, fun _ => 0)

/-- The format switch of `ChunkV13::readBlockData`; `none` is the `default:` branch,
`some none` a grid reader that returned `false`. -/
def decodeGrid (format blockLower blockUpper : Nat) (d : Nat → Nat) (bufferPtr : Nat) :
    Option (Option ((Nat → Nat) × (Nat → Nat))) :=
  let zero : Nat → Nat := fun _ => 0
  let single (r : Option (Nat → Nat)) : Option (Option ((Nat → Nat) × (Nat → Nat))) :=
    some (r.map fun g => (g, zero))
  match format with
  | 0 => some (some (unoGrid blockLower blockUpper, zero))
  | 2 => single (readGrid 1 d bufferPtr)
  | 3 => some (readGridSubmerged 1 d bufferPtr)
  | 4 => single (readGrid 2 d bufferPtr)
  | 5 => some (readGridSubmerged 2 d bufferPtr)
  | 6 => single (readGrid 3 d bufferPtr)
  | 7 => some (readGridSubmerged 3 d bufferPtr)
  | 8 => single (readGrid 4 d bufferPtr)
  | 9 => some (readGridSubmerged 4 d bufferPtr)
  | 14 => some (some (ChunkV12.fillAllBlocks d bufferPtr, zero))
  | 15 => some (some (ChunkV12.fillAllBlocks d bufferPtr, ChunkV12.fillAllBlocks d (bufferPtr + 128)))
  | _ => none

/-- The body of the innermost grid loop of `ChunkV13::readBlockData`. -/
def readGridBody (sectionHeader address sect gridX gridZ gridY : Nat)
    (st : DataManager × ChunkData) : Flow (DataManager × ChunkData) :=
  let dm := st.1
  let chunk := st.2
  let gridIndex := gridX * 16 + gridZ * 4 + gridY
  let blockLower := dm.byte (sectionHeader + gridIndex * 2)
  let blockUpper := dm.byte (sectionHeader + (gridIndex * 2 + 1))
  let format := blockUpper >>> 4
  let offset := (((0x0F &&& blockUpper) <<< 8 ||| blockLower) * 4) % 65536
  let gridPosition := (0xCE + address + offset) % 65536
  let offsetInBlockWrite := (sect * 16 + gridY * 4) + gridZ * 1024 + gridX * 16384
  if gridPosition + V13_GRID_SIZES format ≥ dm.size ∧ format ≠ 0 then Flow.ret (dm, chunk)
  else
    let bufferPtr := gridPosition
    let dm := dm.seek (bufferPtr + V13_GRID_SIZES format + 128)
    match decodeGrid format blockLower blockUpper dm.data bufferPtr with
    | none => Flow.ret (dm, chunk)
    | some none => Flow.ret (dm, chunk)
    | some (some (blockGrid, sbmrgGrid)) =>
      let chunk := { chunk with newBlocks := placeBlocks chunk.newBlocks blockGrid offsetInBlockWrite }
      if format &&& 1 ≠ 0 then
        Flow.run (dm, { chunk with hasSubmerged := true,
                                   submerged := placeBlocks chunk.submerged sbmrgGrid offsetInBlockWrite })
      else Flow.run (dm, chunk)

/-- The three nested grid loops of one section of `ChunkV13::readBlockData`. -/
def readSectionGrids (sectionHeader address sect : Nat) :
    DataManager × ChunkData → Flow (DataManager × ChunkData) :=
  forFlow (List.range 4) (fun gridX =>
    forFlow (List.range 4) (fun gridZ =>
      forFlow (List.range 4) (fun gridY =>
        readGridBody sectionHeader address sect gridX gridZ gridY)))

/-- The section loop of `ChunkV13::readBlockData` over the sections `l`. -/
def readSections (maxSectionAddress : Nat) (sectionJumpTable : List Nat) (sizeOfSubChunks : Nat) :
    List Nat → DataManager × ChunkData → Flow (DataManager × ChunkData)
  | [], st => Flow.run st
  | sect :: rest, st =>
    let address := sectionJumpTable.getD sect 0
    let dm := st.1.seek (SECTION_HEADER_SIZE + DATA_HEADER_SIZE + address)
    if address = maxSectionAddress then Flow.run (dm, st.2)
    else if dm.byte (sizeOfSubChunks + sect) = 0 then
      readSections maxSectionAddress sectionJumpTable sizeOfSubChunks rest (dm, st.2)
    else
      let sectionHeader := dm.pos
      let dm := dm.skip 128
      match readSectionGrids sectionHeader address sect (dm, st.2) with
      | Flow.ret st1 => Flow.ret st1
      | Flow.run st1 => readSections maxSectionAddress sectionJumpTable sizeOfSubChunks rest st1

/-- The function `ChunkV13::readBlockData`; `none` stands for an `OutOfRange` raised
by one of the table reads. -/
def readBlockData (dm : DataManager) (chunk : ChunkData) : Option (DataManager × ChunkData) :=
  let r := dm.read 2
  let maxSectionAddress := (r.1 <<< 8) % 2 ^ 32
  let t := ChunkV12.readTable 16 r.2
  let sectionJumpTable := t.1
  let sizeOfSubChunks := t.2.pos
  let dm := t.2.skip 16
  if dm.oob then none
  else if maxSectionAddress = 0 then some (dm, chunk)
  else
    match readSections maxSectionAddress sectionJumpTable sizeOfSubChunks (List.range 16) (dm, chunk) with
    | Flow.ret st => some st
    | Flow.run st => some (st.1.seek (DATA_HEADER_SIZE + SECTION_HEADER_SIZE + maxSectionAddress), st.2)

/-- The function `ChunkV13::readChunk`, applied to a default constructed chunk; the
result is the member `maxGridAmount` after the call (`self` before it) and the
chunk.  `rest` stands for the reads that follow the block data, made by helpers
outside the given sources.  A header read that raises `OutOfRange` leaves the
fields stored before it. -/
def readChunk (rest : DataManager → Option ChunkRest) (self : Nat) (dm : DataManager) :
    Nat × ChunkData :=
  let chunk := allocChunk ChunkData.fresh
  let rg := dm.read 2
  let rx := rg.2.read 4
  let rz := rx.2.read 4
  let rl := rz.2.read 8
  let ri := rl.2.read 8
  if rg.2.oob then (self, chunk)
  else if rx.2.oob then (rg.1, chunk)
  else if rz.2.oob then (rg.1, { chunk with chunkX := toI32 rx.1 })
  else if rl.2.oob then (rg.1, { chunk with chunkX := toI32 rx.1, chunkZ := toI32 rz.1 })
  else if ri.2.oob then
    (rg.1, { chunk with chunkX := toI32 rx.1, chunkZ := toI32 rz.1, lastUpdate := toI64 rl.1 })
  else
    let chunk := { chunk with chunkX := toI32 rx.1, chunkZ := toI32 rz.1,
                              lastUpdate := toI64 rl.1, inhabitedTime := toI64 ri.1 }
    match readBlockData ri.2 chunk with
    | none => (rg.1, chunk)
    | some st =>
      match rest st.1 with
      | none => (rg.1, st.2)
      | some _ => (rg.1, { st.2 with validChunk := true })

/-! ## v13 encoder -/

/-- The body of the innermost cell loop of `ChunkV13::writeBlockData`; the vectors
are `std::vector`s, and the submerged layer is not looked at. -/
def scanCell (c : ChunkData) (blockIndex : Nat) (s : ScanState) : ScanState :=
  let block := c.newBlocks.get blockIndex
  if s.blockMap block ≠ 0 then
    { s with blockLocations := s.blockLocations ++ [(s.blockMap block - 1) % 65536] }
  else
    { s with blockMap := Function.update s.blockMap block ((s.blockVector.length + 1) % 256),
             blockVector := s.blockVector ++ [block],
             blockLocations := s.blockLocations ++ [s.blockVector.length % 65536] }

/-- The three nested cell loops of `ChunkV13::writeBlockData` over one grid, entered
with both vectors cleared. -/
def scanGrid (c : ChunkData) (offsetInBlock : Nat) (blockMap : Nat → Nat) : ScanState :=
  [0, 4096, 8192, 12288].foldl (fun s blockX =>
    [0, 256, 512, 768].foldl (fun s blockZ =>
      [0, 1, 2, 3].foldl (fun s blockY =>
        scanCell c (offsetInBlock + blockY + blockZ + blockX) s) s) s)
    (ScanState.init blockMap)

/-- The 64-bit word of one bit plane, as `ChunkV13::writeGrid` builds it. -/
def positionWord (blockLocations : List Nat) (bitIndex : Nat) : Nat :=
  (List.range GRID_COUNT).foldl (fun position locIndex =>
    (position ||| ((((blockLocations.getD locIndex 0) >>> bitIndex) &&& 1)
        <<< (GRID_COUNT - locIndex - 1))) % 2 ^ 64) 0

/-- The function `ChunkV13::writeGrid<BitsPerBlock, BlockCount, EmptyCount>`. -/
def writeGrid (BitsPerBlock BlockCount EmptyCount : Nat) (blockVector blockLocations : List Nat)
    (st : DataManager × (Nat → Nat)) : DataManager × (Nat → Nat) :=
  let dm := st.1.setEndian false
  let dm := (List.range BlockCount).foldl (fun dm blockIndex =>
    dm.write 2 (blockVector.getD blockIndex 0)) dm
  let dm := dm.setEndian true
  let dm := (List.range EmptyCount).foldl (fun dm _ => dm.write 2 0xFFFF) dm
  let dm := (List.range BitsPerBlock).foldl (fun dm bitIndex =>
    dm.write 8 (positionWord blockLocations bitIndex)) dm
  let blockMap := (List.range BlockCount).foldl (fun bm i =>
    Function.update bm (blockVector.getD i 0) 0) st.2
  (dm, blockMap)

/-- The function `ChunkV13::writeWithMaxBlocks`. -/
def writeWithMaxBlocks (blockVector blockLocations : List Nat)
    (st : DataManager × (Nat → Nat)) : DataManager × (Nat → Nat) :=
  let dm := st.1.setEndian false
  let dm := (List.range GRID_COUNT).foldl (fun dm i =>
    let blockPos := blockLocations.getD i 0
    dm.write 2 (blockVector.getD blockPos 0)) dm
  let dm := dm.setEndian true
  let blockMap := blockVector.foldl (fun bm block => Function.update bm block 0) st.2
  (dm, blockMap)

/-- The format switch of `ChunkV13::writeBlockData`. -/
def choosePalette (s : ScanState) (dm : DataManager) : ChunkV12.GridChoice :=
  let bv := s.blockVector
  let bl := s.blockLocations
  let st := (dm, s.blockMap)
  match bv.length with
  | 1 => { gridFormat := V13_0_UNO, uno := true, st := (dm, Function.update s.blockMap (bv.getD 0 0) 0) }
  | 2 => { gridFormat := V13_1_BIT, uno := false, st := writeGrid 1 2 0 bv bl st }
  | 3 => { gridFormat := V13_2_BIT, uno := false, st := writeGrid 2 3 1 bv bl st }
  | 4 => { gridFormat := V13_2_BIT, uno := false, st := writeGrid 2 4 0 bv bl st }
  | 5 => { gridFormat := V13_3_BIT, uno := false, st := writeGrid 3 5 3 bv bl st }
  | 6 => { gridFormat := V13_3_BIT, uno := false, st := writeGrid 3 6 2 bv bl st }
  | 7 => { gridFormat := V13_3_BIT, uno := false, st := writeGrid 3 7 1 bv bl st }
  | 8 => { gridFormat := V13_3_BIT, uno := false, st := writeGrid 3 8 0 bv bl st }
  | 9 => { gridFormat := V13_4_BIT, uno := false, st := writeGrid 4 9 7 bv bl st }
  | 10 => { gridFormat := V13_4_BIT, uno := false, st := writeGrid 4 10 6 bv bl st }
  | 11 => { gridFormat := V13_4_BIT, uno := false, st := writeGrid 4 11 5 bv bl st }
  | 12 => { gridFormat := V13_4_BIT, uno := false, st := writeGrid 4 12 4 bv bl st }
  | 13 => { gridFormat := V13_4_BIT, uno := false, st := writeGrid 4 13 3 bv bl st }
  | 14 => { gridFormat := V13_4_BIT, uno := false, st := writeGrid 4 14 2 bv bl st }
  | 15 => { gridFormat := V13_4_BIT, uno := false, st := writeGrid 4 15 1 bv bl st }
  | 16 => { gridFormat := V13_4_BIT, uno := false, st := writeGrid 4 16 0 bv bl st }
  | _ => { gridFormat := V13_8_FULL, uno := false, st := writeWithMaxBlocks bv bl st }

/-- The body of the innermost grid loop of `ChunkV13::writeBlockData`. -/
def writeGridBody (c : ChunkData) (offsetInBlock : Nat) (ss : SectionState) : SectionState :=
  let s := scanGrid c offsetInBlock ss.blockMap
  let ch := choosePalette s ss.dm
  let gridID :=
    if ch.uno then s.blockVector.getD 0 0
    else (ss.sectionSize / 4 ||| (ch.gridFormat <<< 12)) % 65536
  { dm := ch.st.1, blockMap := ch.st.2,
    gridHeader := ss.gridHeader ++ [gridID],
    sectionSize := ss.sectionSize + V13_GRID_SIZES ch.gridFormat }

/-- The three nested grid loops of one section of `ChunkV13::writeBlockData`. -/
def writeSectionGrids (c : ChunkData) (sectionIndex : Nat) (ss : SectionState) : SectionState :=
  [0, 16384, 32768, 49152].foldl (fun ss gridX =>
    [0, 1024, 2048, 3072].foldl (fun ss gridZ =>
      [0, 4, 8, 12].foldl (fun ss gridY =>
        writeGridBody c (sectionIndex * 16 + gridY + gridZ + gridX) ss) ss) ss) ss

/-- The body of the section loop of `ChunkV13::writeBlockData`. -/
def writeSection (c : ChunkData) (sectionIndex : Nat) (w : WriteState) : WriteState :=
  closeSection sectionIndex w (writeSectionGrids c sectionIndex (sectionStart w))

/-- The first `n` iterations of the section loop of `ChunkV13::writeBlockData`. -/
def sectionsPrefix (n : Nat) (dm : DataManager) (c : ChunkData) : WriteState :=
  (List.range n).foldl (fun w sectionIndex => writeSection c sectionIndex w) (WriteState.init dm)

/-- The section loop of `ChunkV13::writeBlockData`. -/
def writeSections (dm : DataManager) (c : ChunkData) : WriteState :=
  sectionsPrefix SECTION_COUNT dm c

/-- The run of `ChunkV13::writeBlockData`, with the header offsets of the source
(`H_BEGIN = 26`). -/
def writeBlockDataRun (dm : DataManager) (c : ChunkData) : DataManager :=
  patchHeader (writeSections dm c)

/-- The function `ChunkV13::writeBlockData`; `none` when a write raised
`OutOfRange`. -/
def writeBlockData (dm : DataManager) (c : ChunkData) : Option DataManager :=
  let r := writeBlockDataRun dm c
  if r.oob then none else some r

/-- The function `ChunkV13::writeChunk` up to and including `writeBlockData`: the
header fields in the order of the source (`chunkX`, `chunkZ`, `lastUpdate`,
`inhabitedTime`, then `maxGridAmount`) and the block data.  The light sub-blocks,
height map, `terrainPopulated`, biomes and NBT that follow are written at the
cursor by helpers outside the given sources. -/
def writeChunkRun (maxGridAmount : Nat) (dm : DataManager) (c : ChunkData) : DataManager :=
  let dm := dm.write 4 (ofI32 c.chunkX)
  let dm := dm.write 4 (ofI32 c.chunkZ)
  let dm := dm.write 8 (ofI64 c.lastUpdate)
  let dm := dm.write 8 (ofI64 c.inhabitedTime)
  let dm := dm.write 2 maxGridAmount
  writeBlockDataRun dm c

/-- The bytes `ChunkV13::writeChunk` leaves in the buffer up to the end of the block
data; `none` when a write raised `OutOfRange`. -/
def writeChunk (maxGridAmount : Nat) (dm : DataManager) (c : ChunkData) : Option DataManager :=
  let r := writeChunkRun maxGridAmount dm c
  if r.oob then none else some r

end ChunkV13

/-! ## Vocabulary of the statements -/

/-- Appends `x` to the palette unless it is there already. -/
def pushNew (bv : List Nat) (x : Nat) : List Nat := if x ∈ bv then bv else bv ++ [x]

/-- The insertion-ordered list of the distinct values of `l`. -/
def paletteOf (l : List Nat) : List Nat := l.foldl pushNew []

/-- The 64 cell indices of the grid at `offsetInBlock`, in scan order
(`blockX` outer, `blockZ`, `blockY` inner). -/
def gridCellIndices (offsetInBlock : Nat) : List Nat :=
  [0, 4096, 8192, 12288].flatMap fun blockX =>
    [0, 256, 512, 768].flatMap fun blockZ =>
      [0, 1, 2, 3].map fun blockY => offsetInBlock + blockY + blockZ + blockX

/-- The 64 grid offsets of section `sectionIndex`, in the order of the grid loops
(`gridX` outer, `gridZ`, `gridY` inner). -/
def sectionGridOffsets (sectionIndex : Nat) : List Nat :=
  [0, 16384, 32768, 49152].flatMap fun gridX =>
    [0, 1024, 2048, 3072].flatMap fun gridZ =>
      [0, 4, 8, 12].map fun gridY => sectionIndex * 16 + gridY + gridZ + gridX

/-- The block values of the 64 cells of a grid, in scan order. -/
def gridBlocks (c : ChunkData) (offsetInBlock : Nat) : List Nat :=
  (gridCellIndices offsetInBlock).map c.newBlocks.get

/-- The submerged values of the 64 cells of a grid, in scan order. -/
def gridSubmerged (c : ChunkData) (offsetInBlock : Nat) : List Nat :=
  (gridCellIndices offsetInBlock).map c.submerged.get

/-- The values the v12 scan meets in a list of cells: the block value of each cell,
followed by its submerged value when that is not 0. -/
def scannedValues (c : ChunkData) (cells : List Nat) : List Nat :=
  cells.flatMap fun i =>
    c.newBlocks.get i :: (if c.submerged.get i ≠ 0 then [c.submerged.get i] else [])

/-- The palette and `blockMap` of a scan that has met the values `vals`. -/
structure ScanInv (vals : List Nat) (s : ScanState) : Prop where
  palette : s.blockVector = paletteOf vals
  map : ∀ x, s.blockMap x = if x ∈ s.blockVector then s.blockVector.indexOf x + 1 else 0
  bound : s.blockVector.length ≤ 2 * s.blockLocations.length

/-! ## STFS package reader (BINSupport.cpp) -/

namespace Stfs

/-- Addition of `u32` values. -/
def add32 (a b : Nat) : Nat := (a + b) % 2 ^ 32

/-- Subtraction of `u32` values (wraps around). -/
def sub32 (a b : Nat) : Nat := (a + 2 ^ 32 - b % 2 ^ 32) % 2 ^ 32

/-- Multiplication of `u32` values. -/
def mul32 (a b : Nat) : Nat := (a * b) % 2 ^ 32

/-- Left shift of a `u32` value. -/
def shl32 (a s : Nat) : Nat := (a <<< s) % 2 ^ 32

/-- The errors the reader raises: the three `std::runtime_error`s of the block
functions, the one of `calculateTopLevel`, and the `OutOfRange` of the byte cursor. -/
inductive StfsError where
  | illegalBlock
  | blockNumberTooBig
  | lengthTooBig
  | invalidBlockCount
  | outOfRange
  deriving DecidableEq, Repr

/-- The fields of `StfsPackage` the block functions use.  `bytes` and `size` are the
package buffer; `topTableStatus i` is `topTable.entries[i].status`. -/
structure StfsPackage where
  bytes : Nat → Nat
  size : Nat
  blockSeparation : Nat
  allocBlockCount : Nat
  packageSex : Nat
  blockStep0 : Nat
  blockStep1 : Nat
  firstHashTableAddress : Nat
  topLevel : Nat
  topTableStatus : Nat → Nat

/-- The fields of `StfsFileEntry` that `extractFile` uses. -/
structure StfsFileEntry where
  flags : Nat
  blocksForFile : Nat
  startingBlockNum : Nat
  fileSize : Nat

/-- Modelled from the spec: `DataManager::readBytes` at position `pos` (dataManager.hpp
is outside the given sources): the `n` bytes from `pos`, or `OutOfRange` if fewer
than `n` bytes remain. -/
def readBytes (p : StfsPackage) (pos n : Nat) : Except StfsError (List Nat) :=
  if pos + n ≤ p.size then Except.ok ((List.range n).map fun i => byteAt p.bytes (pos + i))
  else Except.error StfsError.outOfRange

/-- The function `StfsPackage::calculateTopLevel`. -/
def calculateTopLevel (allocBlockCount : Nat) : Except StfsError Nat :=
  if allocBlockCount ≤ 0xAA then Except.ok 0
  else if allocBlockCount ≤ 0x70E4 then Except.ok 1
  else if allocBlockCount ≤ 0x4AF768 then Except.ok 2
  else Except.error StfsError.invalidBlockCount

/-- The statement of `StfsPackage::parse` that sets `firstHashTableAddress`. -/
def firstHashTableAddressOf (headerSize : Nat) : Nat :=
  (add32 headerSize 0x0FFF) &&& 0xFFFFF000

/-- The statement of `StfsPackage::parse` that sets `packageSex`
(`(~blockSeparation) & 1`). -/
def packageSexOf (blockSeparation : Nat) : Nat := if blockSeparation % 2 = 0 then 1 else 0

/-- The statements of `StfsPackage::parse` that set `blockStep[0]`. -/
def blockStep0Of (packageSex : Nat) : Nat := if packageSex = 0 then 0xAB else 0xAC

/-- The statements of `StfsPackage::parse` that set `blockStep[1]`. -/
def blockStep1Of (packageSex : Nat) : Nat := if packageSex = 0 then 0x718F else 0x723A

/-- The function `StfsPackage::computeBackingDataBlockNumber`. -/
def computeBackingDataBlockNumber (p : StfsPackage) (blockNum : Nat) : Nat :=
  let toReturn := add32 (shl32 (add32 blockNum 0xAA / 0xAA) p.packageSex) blockNum
  if blockNum < 0xAA then toReturn
  else if blockNum < 0x70E4 then
    add32 toReturn (shl32 (add32 blockNum 0x70E4 / 0x70E4) p.packageSex)
  else
    add32 (shl32 1 p.packageSex)
      (add32 toReturn (shl32 (add32 blockNum 0x70E4 / 0x70E4) p.packageSex))

/-- The function `StfsPackage::computeLevel0BackingHashBlockNumber`. -/
def computeLevel0BackingHashBlockNumber (p : StfsPackage) (blockNum : Nat) : Nat :=
  if blockNum < 0xAA then 0
  else
    let num := mul32 (blockNum / 0xAA) p.blockStep0
    let num := add32 num (shl32 (add32 (blockNum / 0x70E4) 1) p.packageSex)
    if blockNum / 0x70E4 = 0 then num
    else add32 num (shl32 1 p.packageSex)

/-- The function `StfsPackage::computeLevel1BackingHashBlockNumber`. -/
def computeLevel1BackingHashBlockNumber (p : StfsPackage) (blockNum : Nat) : Nat :=
  if blockNum < 0x70E4 then p.blockStep0
  else add32 (shl32 1 p.packageSex) (mul32 (blockNum / 0x70E4) p.blockStep1)

/-- The function `StfsPackage::blockToAddress`. -/
def blockToAddress (p : StfsPackage) (blockNum : Nat) : Except StfsError Nat :=
  if blockNum ≥ 0xFFFFFF then Except.error StfsError.blockNumberTooBig
  else Except.ok (add32 (shl32 (computeBackingDataBlockNumber p blockNum) 0x0C)
    p.firstHashTableAddress)

/-- The function `StfsPackage::getHashAddressOfBlock`.  In the level-2 case the
status byte of the level-1 entry is read from the buffer. -/
def getHashAddressOfBlock (p : StfsPackage) (blockNum : Nat) : Except StfsError Nat :=
  if blockNum ≥ p.allocBlockCount then Except.error StfsError.illegalBlock
  else
    let hashAddr := add32 (shl32 (computeLevel0BackingHashBlockNumber p blockNum) 0xC)
      p.firstHashTableAddress
    let hashAddr := add32 hashAddr (mul32 (blockNum % 0xAA) 0x18)
    match p.topLevel with
    | 0 => Except.ok (add32 hashAddr (shl32 (p.blockSeparation &&& 2) 0xB))
    | 1 => Except.ok (add32 hashAddr (shl32 (p.topTableStatus (blockNum / 0xAA) &&& 0x40) 6))
    | 2 =>
      let level1Off := shl32 (p.topTableStatus (blockNum / 0x70E4) &&& 0x40) 6
      let pos := add32 (add32 (add32 (shl32 (computeLevel1BackingHashBlockNumber p blockNum) 0xC)
        p.firstHashTableAddress) level1Off) (mul32 (blockNum % 0xAA) 0x18)
      match readBytes p (add32 pos 0x14) 1 with
      | Except.error e => Except.error e
      | Except.ok bs => Except.ok (add32 hashAddr (shl32 (bs.getD 0 0 &&& 0x40) 6))
    | _ => Except.ok hashAddr

/-- The function `StfsPackage::extractBlock`: the `length` bytes of the block. -/
def extractBlock (p : StfsPackage) (blockNum length : Nat) : Except StfsError (List Nat) :=
  if blockNum ≥ p.allocBlockCount then Except.error StfsError.illegalBlock
  else if length > 0x1000 then Except.error StfsError.lengthTooBig
  else
    match blockToAddress p blockNum with
    | Except.error e => Except.error e
    | Except.ok a => readBytes p a length

/-- The function `StfsPackage::getBlockHashEntry`: the `status` byte and the
big-endian 24-bit `nextBlock` that follow the 20 hash bytes. -/
def getBlockHashEntry (p : StfsPackage) (blockNum : Nat) : Except StfsError (Nat × Nat) :=
  if blockNum ≥ p.allocBlockCount then Except.error StfsError.illegalBlock
  else
    match getHashAddressOfBlock p blockNum with
    | Except.error e => Except.error e
    | Except.ok a =>
      match readBytes p a 0x18 with
      | Except.error e => Except.error e
      | Except.ok bs =>
        Except.ok (bs.getD 0x14 0,
          bs.getD 0x15 0 * 65536 + bs.getD 0x16 0 * 256 + bs.getD 0x17 0)

/-- The function `StfsPackage::GetHashTableSkipSize`. -/
def GetHashTableSkipSize (p : StfsPackage) (tableAddress : Nat) : Nat :=
  let trueBlockNumber := sub32 tableAddress p.firstHashTableAddress >>> 0xC
  if trueBlockNumber = 0 then shl32 0x1000 p.packageSex
  else if trueBlockNumber = p.blockStep1 then shl32 0x3000 p.packageSex
  else
    let trueBlockNumber :=
      if trueBlockNumber > p.blockStep1 then
        sub32 trueBlockNumber (add32 p.blockStep1 (shl32 1 p.packageSex))
      else trueBlockNumber
    if trueBlockNumber = p.blockStep0 ∨ trueBlockNumber % p.blockStep1 = 0 then
      shl32 0x2000 p.packageSex
    else shl32 0x1000 p.packageSex

/-- The `while (tempSize >= 0xAA000)` loop of the contiguous branch of
`extractFile`, run `n` times from the cursor `pos` with the output `out`. -/
def contiguousRuns (p : StfsPackage) : Nat → Nat → List Nat → Except StfsError (Nat × List Nat)
  | 0, pos, out => Except.ok (pos, out)
  | n + 1, pos, out =>
    let pos1 := add32 pos (GetHashTableSkipSize p pos)
    match readBytes p pos1 0xAA000 with
    | Except.error e => Except.error e
    | Except.ok bs => contiguousRuns p n (pos1 + 0xAA000) (out ++ bs)

/-- The `for` loop of the chained branch of `extractFile`, run `n` times from
`block` with the output `out`. -/
def chainedBlocks (p : StfsPackage) : Nat → Nat → List Nat → Except StfsError (Nat × List Nat)
  | 0, block, out => Except.ok (block, out)
  | n + 1, block, out =>
    match extractBlock p block 0x1000 with
    | Except.error e => Except.error e
    | Except.ok bs =>
      match getBlockHashEntry p block with
      | Except.error e => Except.error e
      | Except.ok he => chainedBlocks p n he.2 (out ++ bs)

/-- The function `StfsPackage::extractFile`: the bytes of the returned `Data`. -/
def extractFile (p : StfsPackage) (entry : StfsFileEntry) : Except StfsError (List Nat) :=
  let fileSize := entry.fileSize
  if fileSize = 0 then Except.ok []
  else if entry.flags &&& 1 ≠ 0 then
    match blockToAddress p entry.startingBlockNum with
    | Except.error e => Except.error e
    | Except.ok startAddress =>
      let blockCount :=
        sub32 (add32 (computeLevel0BackingHashBlockNumber p entry.startingBlockNum) p.blockStep0)
          (sub32 startAddress p.firstHashTableAddress >>> 0xC)
      if entry.blocksForFile ≤ blockCount then
        match readBytes p startAddress entry.fileSize with
        | Except.error e => Except.error e
        | Except.ok _ => Except.ok []
      else
        let amount := shl32 blockCount 0xC
        match readBytes p startAddress amount with
        | Except.error e => Except.error e
        | Except.ok bs =>
          let tempSize := sub32 entry.fileSize (shl32 blockCount 0xC)
          match contiguousRuns p (tempSize / 0xAA000) (startAddress + amount) bs with
          | Except.error e => Except.error e
          | Except.ok (pos, out) =>
            let tempSize := tempSize % 0xAA000
            if tempSize ≠ 0 then
              match readBytes p (add32 pos (GetHashTableSkipSize p pos)) tempSize with
              | Except.error e => Except.error e
              | Except.ok bs2 => Except.ok (out ++ bs2)
            else Except.ok out
  else
    let fullReadCounts := fileSize / 0x1000
    let fileSize := fileSize - fullReadCounts * 0x1000
    match chainedBlocks p fullReadCounts entry.startingBlockNum [] with
    | Except.error e => Except.error e
    | Except.ok (block, out) =>
      if fileSize ≠ 0 then
        match extractBlock p block fileSize with
        | Except.error e => Except.error e
        | Except.ok bs => Except.ok (out ++ bs)
      else Except.ok out

end Stfs

/-! ## File listing functions (FileListing/functions.cpp) -/

namespace FileListing

/-- Modelled from the spec: the enumeration `lce::FILETYPE` (declared outside the
given sources), with the kinds the sources and the spec name. -/
inductive FileType where
  | STRUCTURE | VILLAGE | DATA_MAPPING | MAP
  | REGION_NETHER | REGION_OVERWORLD | REGION_END
  | OLD_REGION_NETHER | OLD_REGION_OVERWORLD | OLD_REGION_END
  | PLAYER | LEVEL | GRF
  | ENTITY_NETHER | ENTITY_OVERWORLD | ENTITY_END
  | NONE
  deriving DecidableEq, Repr

/-- The fields of `LCEFile` the listing functions use: the type, the console, the
region coordinates that `getRegionX` and `getRegionZ` return, and the data. -/
structure LCEFile where
  fileType : FileType
  console : Nat
  regionX : Int
  regionZ : Int
  data : List Nat
  deriving DecidableEq

/-- Modelled from the spec: `LCEFile::isRegionType` (declared outside the given
sources), true for the three region kinds. -/
def isRegionType (f : LCEFile) : Bool :=
  f.fileType == FileType.REGION_NETHER || f.fileType == FileType.REGION_OVERWORLD ||
  f.fileType == FileType.REGION_END

/-- The `while` loop of `FileListing::removeFileTypes` over `myAllFiles`: an entry
whose type is in `typesToRemove` is erased and the iterator moves to the next one,
any other entry is stepped over. -/
def removeFileTypes (typesToRemove : List FileType) : List LCEFile → List LCEFile
  | [] => []
  | f :: rest =>
    if typesToRemove.contains f.fileType then removeFileTypes typesToRemove rest
    else f :: removeFileTypes typesToRemove rest

/-- The function `FileListing::convertRegions` on `myAllFiles`: every file the
dimension lists point to (the region files) gets the data `convert` produces from it
and the console `consoleOut`. -/
def convertRegions (convert : LCEFile → List Nat) (consoleOut : Nat) (files : List LCEFile) :
    List LCEFile :=
  files.map fun f => if isRegionType f then { f with data := convert f, console := consoleOut } else f

/-- The function `FileListing::convertTo`.  `findConsole`, which reads the archive
into `myAllFiles` and returns a status (0 is `SUCCESS`), the region conversion and
`write` lie outside the given sources: the first two are parameters and the result
is the status of `findConsole` with the list of files handed to `write`, if any. -/
def convertTo (findConsole : Nat × List LCEFile) (convert : LCEFile → List Nat)
    (consoleOut : Nat) : Nat × Option (List LCEFile) :=
  let status := findConsole.1
  if status ≠ 0 then (status, none)
  else
    let files := removeFileTypes [FileType.PLAYER, FileType.DATA_MAPPING] findConsole.2
    let files := convertRegions convert consoleOut files
    (status, some files)

/-- The loop of `FileListing::pruneRegions` over `myAllFiles`. -/
def pruneRegions : List LCEFile → List LCEFile
  | [] => []
  | f :: rest =>
    if isRegionType f ∧
        (¬ (f.regionX = 0 ∨ f.regionX = -1) ∨ ¬ (f.regionZ = 0 ∨ f.regionZ = -1)) then
      pruneRegions rest
    else f :: pruneRegions rest

end FileListing

/-- The cell coordinates `(xIter, zIter, yIter)` of a grid in the order of the
loops of `placeBlocks`. -/
def placeTriples : List (Nat × Nat × Nat) :=
  (List.range 4).flatMap fun xIter =>
    (List.range 4).flatMap fun zIter =>
      (List.range 4).map fun yIter => (xIter, zIter, yIter)

/-- State of the decoder inside a section `sect` whose grids all carry the UNO
word `v`, started from the chunk `c0` on the bytes `d`: the bytes are untouched,
only `newBlocks` differs from `c0`, and a cell differs only when it lies in the
section and holds `v`. -/
structure UnoInv (d : Nat → Nat) (c0 : ChunkData) (v sect : Nat)
    (s : DataManager × ChunkData) : Prop where
  data : s.1.data = d
  rest : { s.2 with newBlocks := c0.newBlocks } = c0
  vsize : s.2.newBlocks.size = c0.newBlocks.size
  cells : ∀ i, (s.2.newBlocks.cells i = v ∧ i < 65536 ∧ i % 256 / 16 = sect) ∨
    s.2.newBlocks.cells i = c0.newBlocks.cells i

/-- A chunk in the shape of scenario S1: every cell of section 0 (`y < 16`) holds
the block `v`, every other cell is 0, and a submerged cell is 0 or, inside
section 0, `v`. -/
structure LayerChunk (v : Nat) (c : ChunkData) : Prop where
  bsize : c.newBlocks.size = 65536
  ssize : c.submerged.size = 65536
  blocks : ∀ i, c.newBlocks.get i = if i % 256 < 16 then v else 0
  sub : ∀ i, c.submerged.get i = 0 ∨ (i % 256 < 16 ∧ c.submerged.get i = v)

/-- The format tag for a grid of `k` distinct values, as the spec words it: UNO for
one value, the narrowest of the 1, 2, 3 and 4 bit tags whose palette holds `k`,
8-FULL above 16. -/
def narrowestTag (k : Nat) : Nat :=
  if k = 1 then 0x0
  else if k = 2 then 0x2
  else if 3 ≤ k ∧ k ≤ 4 then 0x4
  else if 5 ≤ k ∧ k ≤ 8 then 0x6
  else if 9 ≤ k ∧ k ≤ 16 then 0x8
  else 0xE

/-- Modelled from the spec: the palette capacity of a format tag, from the grid
format table ("2-entry palette", "4-entry palette", "8-entry palette", "16-entry
palette"); the SUB variants share the capacity of their plain tag. -/
def paletteCapacity (tag : Nat) : Nat :=
  match tag with
  | 2 => 2
  | 3 => 2
  | 4 => 4
  | 5 => 4
  | 6 => 8
  | 7 => 8
  | 8 => 16
  | 9 => 16
  | _ => 0

/-- A chunk with the given block and submerged cells (65 536 each) and default
header fields. -/
def chunkOf (blocks submerged : Nat → Nat) : ChunkData :=
  { ChunkData.fresh with newBlocks := { size := 65536, cells := blocks },
                         submerged := { size := 65536, cells := submerged } }

/-- Scenario S4: the all-air chunk. -/
def airChunk : ChunkData := chunkOf (fun _ => 0) (fun _ => 0)

/-- Scenario S1: every cell of section 0 (`y < 16`, `y = index % 256`) is stone
`0x0010`, every other cell is 0, no submerged. -/
def stoneChunk : ChunkData := chunkOf (fun i => if i % 256 < 16 then 0x0010 else 0) (fun _ => 0)

/-- Scenario S3: the waterlogged fence, block `0x0055` with submerged `0x0800` at
cell `(5, 64, 5)`, index `64 + 5 * 256 + 5 * 4096`. -/
def fenceChunk : ChunkData :=
  chunkOf (fun i => if i = 64 + 5 * 256 + 5 * 4096 then 0x0055 else 0)
    (fun i => if i = 64 + 5 * 256 + 5 * 4096 then 0x0800 else 0)

/-- A chunk whose section 0 is water `0x0800` in every cell, with the submerged
layer holding water at cell `(0, 0, 0)` and 0 elsewhere. -/
def soakedChunk : ChunkData :=
  chunkOf (fun i => if i % 256 < 16 then 0x0800 else 0) (fun i => if i = 0 then 0x0800 else 0)

/-- A chunk whose every block cell is `v`, with no submerged cell. -/
def uniformChunk (v : Nat) : ChunkData := chunkOf (fun _ => v) (fun _ => 0)

/-- A 65 536-byte buffer that is zero except for one grid-header word at offsets 76
and 77 (the first header word of a section at address 0), holding `word`
little-endian. -/
def headerWordBuffer (word : Nat) : DataManager :=
  { data := fun i => if i = 76 then word % 256 else if i = 77 then word / 256 % 256 else 0,
    size := 65536, pos := 204, isBig := true, oob := false }

/-- The known v12 format tags. -/
def knownTagV12 (format : Nat) : Bool :=
  format == V12_0_UNO || format == V12_1_BIT || format == V12_1_BIT_SUBMERGED ||
  format == V12_2_BIT || format == V12_2_BIT_SUBMERGED || format == V12_3_BIT ||
  format == V12_3_BIT_SUBMERGED || format == V12_4_BIT || format == V12_4_BIT_SUBMERGED ||
  format == V12_8_FULL || format == V12_8_FULL_SUBMERGED

/-- A 65 536-byte chunk buffer, entered with the cursor at 2, whose block data (at
offset 26) has `max_section_address` 1, one present section at address 0 with size
entry 1, and in that section the grid-header words `0x0010` (UNO stone) for grid 0
and `0x1000` (format tag 1, not a known tag) for grid 1. -/
def badTagBuffer : DataManager :=
  { data := fun i =>
      if i = 27 then 1
      else if 30 ≤ i ∧ i < 60 ∧ i % 2 = 0 then 1
      else if i = 60 then 1
      else if i = 76 then 0x10
      else if i = 79 then 0x10
      else 0,
    size := 65536, pos := 2, isBig := true, oob := false }

/-- A reader of the remainder of the chunk that succeeds with zeroed light, height
map and biomes. -/
def restZero : DataManager → Option ChunkRest :=
  fun _ => some { skyLight := fun _ => 0, blockLight := fun _ => 0, heightMap := fun _ => 0,
                  terrainPopulated := 0, biomes := fun _ => 0 }

/-- Scenario S5: a package with `alloc_block_count == 0xAA`, top level 0, block
separation 1 (package sex 0, block steps `0xAB` and `0x718F`), header size
`0xA001` (first hash table at `0xB000`), in a buffer of `0x100000` bytes whose byte
at offset `i` is `i % 251`. -/
def s5Package : Stfs.StfsPackage :=
  { bytes := fun i => i % 251, size := 0x100000, blockSeparation := 1, allocBlockCount := 0xAA,
    packageSex := Stfs.packageSexOf 1, blockStep0 := Stfs.blockStep0Of (Stfs.packageSexOf 1),
    blockStep1 := Stfs.blockStep1Of (Stfs.packageSexOf 1),
    firstHashTableAddress := Stfs.firstHashTableAddressOf 0xA001,
    topLevel := 0, topTableStatus := fun _ => 0 }

/-- Scenario S5: the entry of a file of two blocks (8192 bytes) stored contiguously
from block 0. -/
def s5Entry : Stfs.StfsFileEntry :=
  { flags := 1, blocksForFile := 2, startingBlockNum := 0, fileSize := 8192 }

/-- A contiguous entry of one block whose starting block number `0xAA` is not below
the `alloc_block_count` `0xAA` of the S5 package. -/
def illegalStartEntry : Stfs.StfsFileEntry :=
  { flags := 1, blocksForFile := 1, startingBlockNum := 0xAA, fileSize := 4096 }

/-- The same entry without the contiguous flag. -/
def illegalStartChained : Stfs.StfsFileEntry :=
  { flags := 0, blocksForFile := 1, startingBlockNum := 0xAA, fileSize := 4096 }

/-- The block that the hash entry of `b` names as next (0 when the entry cannot be
read). -/
def nextBlock (p : Stfs.StfsPackage) (b : Nat) : Nat :=
  match Stfs.getBlockHashEntry p b with
  | Except.ok he => he.2
  | Except.error _ => 0

/-- The `i`-th block of the chain from `start`: `start`, `next(start)`, ... -/
def chainBlock (p : Stfs.StfsPackage) (start : Nat) : Nat → Nat
  | 0 => start
  | i + 1 => nextBlock p (chainBlock p start i)

/-- The first `len` bytes of the package at address `a`. -/
def bytesAt (p : Stfs.StfsPackage) (a len : Nat) : List Nat :=
  (List.range len).map fun i => byteAt p.bytes (a + i)

/-- The address `blockToAddress` gives for a block below `0xFFFFFF`. -/
def addressOf (p : Stfs.StfsPackage) (b : Nat) : Nat :=
  Stfs.add32 (Stfs.shl32 (Stfs.computeBackingDataBlockNumber p b) 0x0C) p.firstHashTableAddress

/-- A zero-filled package of `0x10000` bytes with one allocated block, top level 0:
the hash entry of block 0 names block 0 as next, a cyclic chain. -/
def loopPackage : Stfs.StfsPackage :=
  { bytes := fun _ => 0, size := 0x10000, blockSeparation := 1, allocBlockCount := 1,
    packageSex := Stfs.packageSexOf 1, blockStep0 := Stfs.blockStep0Of (Stfs.packageSexOf 1),
    blockStep1 := Stfs.blockStep1Of (Stfs.packageSexOf 1),
    firstHashTableAddress := Stfs.firstHashTableAddressOf 0xA001,
    topLevel := 0, topTableStatus := fun _ => 0 }

/-- A chained entry from block 0 whose size claims three blocks. -/
def loopEntry : Stfs.StfsFileEntry :=
  { flags := 0, blocksForFile := 3, startingBlockNum := 0, fileSize := 3 * 4096 }

/-- The S5 package cut to a buffer of `0x1000` bytes, which ends before the first
hash table. -/
def truncatedPackage : Stfs.StfsPackage := { s5Package with size := 0x1000 }

/-- A package of `0x10000` bytes with two allocated blocks, top level 0, in which
the hash entry of block 0 names block 1 as next and that of block 1 holds the
sentinel `0xFFFFFF`; every other byte at offset `i` is `i % 251`. -/
def chainPackage : Stfs.StfsPackage :=
  { bytes := fun i =>
      if i = 0xB015 ∨ i = 0xB016 then 0
      else if i = 0xB017 then 1
      else if i = 0xB02D ∨ i = 0xB02E ∨ i = 0xB02F then 0xFF
      else i % 251,
    size := 0x10000, blockSeparation := 1, allocBlockCount := 2,
    packageSex := Stfs.packageSexOf 1, blockStep0 := Stfs.blockStep0Of (Stfs.packageSexOf 1),
    blockStep1 := Stfs.blockStep1Of (Stfs.packageSexOf 1),
    firstHashTableAddress := Stfs.firstHashTableAddressOf 0xA001,
    topLevel := 0, topTableStatus := fun _ => 0 }

/-- A chained entry of 4196 bytes (one full block and 100 bytes) from block 0. -/
def chainEntry : Stfs.StfsFileEntry :=
  { flags := 0, blocksForFile := 2, startingBlockNum := 0, fileSize := 4096 + 100 }

/-- The index `placeBlocks` writes for the cell `(xIter, zIter, yIter)` of the grid
`(gridX, gridZ, gridY)` of section `sect` in `readBlockData`:
`currentOffset + writeOffset` with `writeOffset = offsetInBlockWrite`. -/
def decoderCellIndex (sect gridX gridZ gridY xIter zIter yIter : Nat) : Nat :=
  (yIter + zIter * 256 + xIter * 4096) + ((sect * 16 + gridY * 4) + gridZ * 1024 + gridX * 16384)

/-- The index `blockIndex` of `writeBlockData` for the same cell: the loop variables
are `gridX * 16384`, `gridZ * 1024`, `gridY * 4`, `xIter * 4096`, `zIter * 256` and
`yIter`. -/
def encoderCellIndex (sectionIndex gridX gridZ gridY xIter zIter yIter : Nat) : Nat :=
  (sectionIndex * 16 + gridY * 4 + gridZ * 1024 + gridX * 16384) + yIter + zIter * 256
    + xIter * 4096

/-- A chunk whose grid at offset 0 holds 64 different blocks (`1 + index`) and 64
different submerged values (`30001 + index`). -/
def crowdedChunk : ChunkData := chunkOf (fun i => 1 + i) (fun i => 30001 + i)

/-- A zero-filled buffer of `size` bytes with the cursor at `pos`, big-endian. -/
def emptyBuffer (size pos : Nat) : DataManager :=
  { data := fun _ => 0, size := size, pos := pos, isBig := true, oob := false }

/-- The invariant of the decoders: both cell vectors have 65 536 cells, and the
submerged cells are zero as long as `hasSubmerged` is false. -/
def SubInv (c : ChunkData) : Prop :=
  c.newBlocks.size = 65536 ∧ c.submerged.size = 65536 ∧
    (c.hasSubmerged = false → ∀ i, c.submerged.get i = 0)

/-- A 65 536-byte chunk buffer with the cursor at the block data (offset 26):
`max_section_address` 1, one present section at address 0 with size entry 1, and in
that section the grid-header words `0xF000` (8-FULL-SUBMERGED, offset 0, payload at
204) for grid 0 and `0x1000` (format tag 1, not a known tag) for grid 1.  The
payload is zero except for the first byte of its submerged half, at 332, which is
`v`. -/
def subTagBuffer (v : Nat) : DataManager :=
  { data := fun i =>
      if i = 27 then 1
      else if 30 ≤ i ∧ i < 60 ∧ i % 2 = 0 then 1
      else if i = 60 then 1
      else if i = 77 then 0xF0
      else if i = 79 then 0x10
      else if i = 332 then v
      else 0,
    size := 65536, pos := 26, isBig := true, oob := false }

/-- The chunk with the one grid of `subTagBuffer v` placed: the 128 payload bytes
at 204 in the blocks of grid 0 and the 128 bytes at 332 in its submerged cells,
with `hasSubmerged` set. -/
def subTagDecoded (v : Nat) : ChunkData :=
  { ChunkV12.allocChunk ChunkData.fresh with
    newBlocks := ChunkV12.placeBlocks (U16Vec.zeros 65536)
      (ChunkV12.fillAllBlocks (subTagBuffer v).data 204) 0,
    hasSubmerged := true,
    submerged := ChunkV12.placeBlocks (U16Vec.zeros 65536)
      (ChunkV12.fillAllBlocks (subTagBuffer v).data 332) 0 }

/-- The grid that a palette at `buffer` and bit planes at `planes` describe: byte
`a` of the grid (cell `a / 2`, low byte first) is byte `a % 2` of the palette entry
the cell's index selects. -/
def paletteGrid (BitsPerBlock : Nat) (d : Nat → Nat) (buffer planes : Nat) : Nat → Nat :=
  fun a =>
    if a < 128 then
      byteAt d (buffer + (ChunkV12.cellIdx BitsPerBlock d planes (a / 2 / 8) (a / 2 % 8) * 2 + a % 2))
    else 0

/-- The memory `d` with the `8·B` bytes after the palette of the grid payload at
`buffer` (the block bit planes) replaced by the `8·B` bytes that follow them. -/
def replacePlanes (BitsPerBlock : Nat) (d : Nat → Nat) (buffer : Nat) : Nat → Nat :=
  fun a =>
    if buffer + (1 <<< BitsPerBlock) * 2 ≤ a ∧ a < buffer + (1 <<< BitsPerBlock) * 2 + 8 * BitsPerBlock
    then d (a + 8 * BitsPerBlock) else d a

/-- Byte `b` of the palette entry that cell `(row, column)` selects, as `readGrid`
looks it up in its palette copy of `(1 << B) * 2` bytes. -/
def paletteByte (BitsPerBlock : Nat) (d : Nat → Nat) (buffer planes row column b : Nat) : Nat :=
  (if ChunkV12.cellIdx BitsPerBlock d planes row column * 2 + b < (1 <<< BitsPerBlock) * 2
   then byteAt d (buffer + (ChunkV12.cellIdx BitsPerBlock d planes row column * 2 + b))
   else 0) % 256

/-- A chunk buffer of exactly 76 bytes with the cursor at the block data (offset
26): `max_section_address` 1, jump-table entry 0 for section 0 and 256 for the
others, size entry 1 for section 0.  The buffer ends where the grid-header table of
section 0 would begin; `v` is the content of the memory at offset 76, and offset 79
holds `0x10` (format tag 1). -/
def shortBuffer (v : Nat) : DataManager :=
  { data := fun i =>
      if i = 27 then 1
      else if 30 ≤ i ∧ i < 60 ∧ i % 2 = 0 then 1
      else if i = 60 then 1
      else if i = 76 then v
      else if i = 79 then 0x10
      else 0,
    size := 76, pos := 26, isBig := true, oob := false }

/-- The positions of a scan that has met the block values `blocks`: one position
per cell, each the index of the cell's value in the palette. -/
structure LocInv (blocks : List Nat) (s : ScanState) : Prop where
  len : s.blockLocations.length = blocks.length
  idx : ∀ n, n < blocks.length →
    blocks.getD n 0 ∈ s.blockVector ∧
    s.blockLocations.getD n 0 = s.blockVector.indexOf (blocks.getD n 0)

/-- Scenario S2: cell `(0,0,0)` is water `0x0800`, cell `(0,0,1)` (index 256) is
`0x0010`, every other cell is 0, no submerged. -/
def waterChunk : ChunkData :=
  chunkOf (fun i => if i = 0 then 0x0800 else if i = 256 then 0x0010 else 0) (fun _ => 0)

/-- The palette the v12 scan collects for the grid at `offsetInBlock`, started with
a zeroed `blockMap`. -/
def gridPalette (c : ChunkData) (offsetInBlock : Nat) : List Nat :=
  paletteOf (scannedValues c (gridCellIndices offsetInBlock))

/-- The payload size of the grid at `offsetInBlock`: the size of the tag chosen for
its palette. -/
def gridPayload (c : ChunkData) (offsetInBlock : Nat) : Nat :=
  V12_GRID_SIZES (narrowestTag (gridPalette c offsetInBlock).length)

/-- The header word of the grid at `offsetInBlock` when `sectionSize` payload bytes
precede it in its section: the block value for a one-entry palette, else
`sectionSize / 4 | format << 12` as a `u16`. -/
def gridWord (c : ChunkData) (offsetInBlock sectionSize : Nat) : Nat :=
  if (gridPalette c offsetInBlock).length = 1 then (gridPalette c offsetInBlock).getD 0 0
  else (sectionSize / 4 ||| (narrowestTag (gridPalette c offsetInBlock).length <<< 12)) % 65536

/-- The header words of the grids at the offsets of a list, the first one preceded
by `sectionSize` payload bytes. -/
def gridWordsFrom (c : ChunkData) : List Nat → Nat → List Nat
  | [], _ => []
  | off :: t, sectionSize =>
    gridWord c off sectionSize :: gridWordsFrom c t (sectionSize + gridPayload c off)

/-- The sum of the payload sizes of the grids at the offsets of a list. -/
def payloadSum (c : ChunkData) (offs : List Nat) : Nat := (offs.map (gridPayload c)).sum

/-- The payload bytes that precede grid `g` in section `s`. -/
def payloadBefore (c : ChunkData) (s g : Nat) : Nat :=
  payloadSum c ((sectionGridOffsets s).take g)

/-- The 64 header words of section `s`. -/
def sectionHeaderWords (c : ChunkData) (s : Nat) : List Nat :=
  gridWordsFrom c (sectionGridOffsets s) 0

/-- The size-table entry of section `s`: 0 when its 64 header words are all 0 (the
section is absent), else `ceil((128 + payload) / 256)`. -/
def sectionSizeEntry (c : ChunkData) (s : Nat) : Nat :=
  if (sectionHeaderWords c s).all (fun x => x == 0) then 0
  else (128 + payloadSum c (sectionGridOffsets s) + 255) / 256

/-- The sum of the size-table entries of the sections before `s`. -/
def jumpBefore (c : ChunkData) (s : Nat) : Nat :=
  ((List.range s).map (sectionSizeEntry c)).sum

/-- A fresh big-endian cursor at position `p` over the bytes of `dm`. -/
def reopen (dm : DataManager) (p : Nat) : DataManager :=
  { data := dm.data, size := dm.size, pos := p, isBig := true, oob := false }

/-- The bytes are `d` and cell 0 of the blocks is 0. -/
def CellZero (d : Nat → Nat) (st : DataManager × ChunkData) : Prop :=
  st.1.data = d ∧ st.2.newBlocks.cells 0 = 0

/-- A package of top level 2 (`alloc_block_count == 0x70E5`) in a buffer of `0x1000`
bytes, the other fields those of the S5 package. -/
def deepPackage : Stfs.StfsPackage :=
  { s5Package with allocBlockCount := 0x70E5, topLevel := 2, size := 0x1000 }

/-! ## Flat archive listing (SaveFile/fileListing.cpp) -/

/-- The integer a primitive read of `width` bytes at address `a` returns. -/
def loadInt (big : Bool) (d : Nat → Nat) (a width : Nat) : Nat :=
  if big then loadBE d a width else loadLE d a width

namespace DataManager

/-- Modelled from the spec: `DataWriter::writeBytes` ("write_bytes(slice)", declared
outside the given sources): the bytes of the slice are stored at the cursor, which
moves past them; bounds-checked like the primitive writes. -/
def writeBytes (dm : DataManager) (bytes : List Nat) : DataManager :=
  { dm with data := fun i =>
              if dm.pos ≤ i ∧ i < dm.pos + bytes.length then bytes.getD (i - dm.pos) 0 % 256
              else dm.data i,
            pos := dm.pos + bytes.length,
            oob := dm.oob || decide (dm.size < dm.pos + bytes.length) }

/-- Modelled from the spec: `DataReader::readSpan` ("read_bytes(n) → slice", declared
outside the given sources): the `n` bytes at the cursor, which moves past them;
bounds-checked like the primitive reads. -/
def readSpan (dm : DataManager) (n : Nat) : List Nat × DataManager :=
  ((List.range n).map fun i => byteAt dm.data (dm.pos + i),
   { dm with pos := dm.pos + n, oob := dm.oob || decide (dm.size < dm.pos + n) })

/-- Modelled from the spec: `DataWriter::writeWStringFromString(str, maxSize)`
(declared outside the given sources; "fixed-width wide-string write (UTF-16,
null-terminated within a padded window)"): `maxSize` 16-bit characters are
written, those of `str` first and zeros after them. -/
def writeWStringFromString (dm : DataManager) (str : List Nat) (maxSize : Nat) : DataManager :=
  (List.range maxSize).foldl (fun w i => w.write 2 (str.getD i 0)) dm

/-- Modelled from the spec: `DataReader::readWAsString(length)` (declared outside the
given sources; "fixed-width wide-string read (UTF-16, null-terminated within a
padded window)"): the window of `length` 16-bit characters is consumed, and the
string is made of the characters before the first null, each narrowed to a byte. -/
def readWAsString (dm : DataManager) (length : Nat) : List Nat × DataManager :=
  let chars := (List.range length).map fun i => loadInt dm.isBig dm.data (dm.pos + 2 * i) 2
  ((chars.takeWhile fun c => decide (c ≠ 0)).map (fun c => c % 256),
   { dm with pos := dm.pos + 2 * length,
             oob := dm.oob || decide (dm.size < dm.pos + 2 * length) })

end DataManager

/-- The writer `w2` continues the writer `w1`: the cursor has not moved back, the
bytes before the cursor of `w1` are as they were, and no write has failed as long
as the cursor of `w2` is inside the buffer. -/
structure Ext (w1 w2 : DataManager) : Prop where
  pos : w1.pos ≤ w2.pos
  data : ∀ a, a < w1.pos → w2.data a = w1.data a
  size : w2.size = w1.size
  big : w2.isBig = w1.isBig
  oob : w2.pos ≤ w2.size → w1.oob = false → w2.oob = false

namespace FileListing

/-- One file as `readListing` leaves it: the `fileName` and `timestamp` handed to the
`LCEFile` constructor, and the bytes `DataWriter::writeFile` gets for the scratch
file of that name. -/
structure ReadFile where
  fileName : List Nat
  timestamp : Nat
  payload : List Nat
  deriving DecidableEq

/-- What `readListing` leaves in the save project: the two versions and
`m_allFiles`. -/
structure ReadResult where
  oldestVersion : Nat
  currentVersion : Nat
  allFiles : List ReadFile
  deriving DecidableEq

/-- The body of the loop of `FileListing::readListing` for the entry `fileIndex`. -/
def readEntry (indexOffset footerEntrySize currentVersion : Nat)
    (st : DataManager × List ReadFile) (fileIndex : Nat) : DataManager × List ReadFile :=
  let reader := st.1.seek ((indexOffset + fileIndex * footerEntrySize) % 2 ^ 32)
  let n := reader.readWAsString 64
  let s := n.2.read 4
  let x := s.2.read 4
  let t := if currentVersion > 1 then x.2.read 8 else (0, x.2)
  let reader := t.2.seek x.1
  let p := reader.readSpan s.1
  (p.2, st.2 ++ [{ fileName := n.1, timestamp := t.1, payload := p.1 }])

/-- The function `FileListing::readListing` on the buffer `bufferIn` of `size` bytes,
read with the endianness of the console; `none` stands for an `OutOfRange` raised
by one of the reads. -/
def readListing (bufferIn : Nat → Nat) (size : Nat) (isBig : Bool) : Option ReadResult :=
  let reader : DataManager := { data := bufferIn, size := size, pos := 0, isBig := isBig, oob := false }
  let io := reader.read 4
  let fc := io.2.read 4
  let ov := fc.2.read 2
  let cv := ov.2.read 2
  let indexOffset := io.1
  let currentVersion := cv.1
  let footerEntrySize := if currentVersion ≤ 1 then 136 else 144
  let fileCount := if currentVersion ≤ 1 then fc.1 / 136 else fc.1
  let r := (List.range fileCount).foldl (readEntry indexOffset footerEntrySize currentVersion)
    (cv.2, [])
  if r.1.oob then none
  else some { oldestVersion := ov.1, currentVersion := currentVersion, allFiles := r.2 }

/-- One file of `fileRange` as `writeListing` uses it: the name
`constructFileName(consoleOut)` returns, `m_timestamp`, and the contents
`DataReader::readFile(file.path())` returns.  The range itself comes from
`saveProject.view_of(TYPES_TO_WRITE)`, declared outside the given sources. -/
structure WriteFile where
  fileName : List Nat
  timestamp : Nat
  data : List Nat
  deriving DecidableEq

/-- The local `FileStruct` of `writeListing`. -/
structure FileStruct where
  file : WriteFile
  buffer : List Nat
  offset : Nat

/-- Step 1 of `FileListing::writeListing`: the list `fileStructs` and the final
`fileInfoOffset` (a `u32`). -/
def collectFiles (fileRange : List WriteFile) : List FileStruct × Nat :=
  fileRange.foldl (fun acc file =>
    (acc.1 ++ [{ file := file, buffer := file.data, offset := acc.2 }],
     (acc.2 + file.data.length) % 2 ^ 32)) ([], 12)

/-- Step 5 of `FileListing::writeListing` for one file. -/
def writeEntry (currentVersion : Nat) (writer : DataManager) (fileStruct : FileStruct) :
    DataManager :=
  let w := writer.writeWStringFromString fileStruct.file.fileName 64
  let w := w.write 4 fileStruct.buffer.length
  let w := w.write 4 fileStruct.offset
  if currentVersion > 1 then w.write 8 fileStruct.file.timestamp else w

/-- The run of `FileListing::writeListing`: the writer after step 5. -/
def writeListingRun (oldestVersion currentVersion : Nat) (isBig : Bool)
    (fileRange : List WriteFile) : DataManager :=
  let footerEntrySize := if currentVersion > 1 then 144 else 136
  let multiplier := if currentVersion > 1 then 1 else 136
  let c := collectFiles fileRange
  let fileStructs := c.1
  let fileInfoOffset := c.2
  let totalFileSize := (fileInfoOffset + footerEntrySize * fileStructs.length) % 2 ^ 32
  let writer : DataManager :=
    { data := fun _ => 0, size := totalFileSize, pos := 0, isBig := isBig, oob := false }
  let writer := writer.write 4 fileInfoOffset
  let writer := writer.write 4 (fileStructs.length * multiplier)
  let writer := writer.write 2 oldestVersion
  let writer := writer.write 2 currentVersion
  let writer := fileStructs.foldl (fun w fs => w.writeBytes fs.buffer) writer
  fileStructs.foldl (writeEntry currentVersion) writer

/-- The function `FileListing::writeListing`: the bytes and the size of the buffer
`writer.take()` returns; `none` when a write raised `OutOfRange`. -/
def writeListing (oldestVersion currentVersion : Nat) (isBig : Bool)
    (fileRange : List WriteFile) : Option ((Nat → Nat) × Nat) :=
  let r := writeListingRun oldestVersion currentVersion isBig fileRange
  if r.oob then none else some (r.data, r.size)

/-- The list `fileStructs` that step 1 of `writeListing` builds from the files of a
list when `fileInfoOffset` is `offset` before the first of them. -/
def structsFrom : List WriteFile → Nat → List FileStruct
  | [], _ => []
  | file :: rest, offset =>
    { file := file, buffer := file.data, offset := offset } ::
      structsFrom rest ((offset + file.data.length) % 2 ^ 32)

/-- The value of `fileInfoOffset` after the files of a list, `offset` before them. -/
def offsetAfter : List WriteFile → Nat → Nat
  | [], offset => offset
  | file :: rest, offset => offsetAfter rest ((offset + file.data.length) % 2 ^ 32)

/-- The sum of the payload sizes of a list of files. -/
def payloadTotal (files : List WriteFile) : Nat := (files.map fun f => f.data.length).sum

/-- The offset of the payload of file `i`: 12 plus the sizes of the files before it. -/
def payloadOffset (files : List WriteFile) (i : Nat) : Nat := 12 + payloadTotal (files.take i)

/-- The footer-entry size of a version. -/
def entrySize (currentVersion : Nat) : Nat := if currentVersion > 1 then 144 else 136

/-- The conditions on a file name under which it survives the 64-character window:
at most 63 characters, none of them null, each a byte. -/
def validName (name : List Nat) : Prop := name.length ≤ 63 ∧ ∀ c ∈ name, 0 < c ∧ c < 256

/-- The string `readWAsString(64)` returns for the window at address `p`. -/
def nameAt (big : Bool) (d : Nat → Nat) (p : Nat) : List Nat :=
  (((List.range 64).map fun i => loadInt big d (p + 2 * i) 2).takeWhile
    fun c => decide (c ≠ 0)).map (fun c => c % 256)

/-- The file that the footer entry at address `p` describes: the name in its 64
wide characters, the timestamp in the `u64` at `p + 136` when the version has one,
and the `size` bytes at `data_offset`, with `size` the `u32` at `p + 128` and
`data_offset` the `u32` at `p + 132`. -/
def entryAt (big : Bool) (d : Nat → Nat) (currentVersion p : Nat) : ReadFile :=
  { fileName := nameAt big d p,
    timestamp := if currentVersion > 1 then loadInt big d (p + 136) 8 else 0,
    payload := (List.range (loadInt big d (p + 128) 4)).map
      fun k => byteAt d (loadInt big d (p + 132) 4 + k) }

/-- The footer entry at address `p` and the payload it names lie inside a buffer of
`size` bytes. -/
def entryInBounds (big : Bool) (d : Nat → Nat) (size currentVersion p : Nat) : Bool :=
  decide (p + entrySize currentVersion ≤ size) &&
  decide (loadInt big d (p + 132) 4 + loadInt big d (p + 128) 4 ≤ size)

/-- Scenario S6: a big-endian listing of version 1 with two files of sizes 100 and
200 (all payload bytes 0, empty names): `index_offset = 312`, count field
`2 * 136 = 272`, entries at 312 and 448. -/
def s6Data : Nat → Nat := fun a =>
  if a = 2 then 0x01 else if a = 3 then 0x38
  else if a = 6 then 0x01 else if a = 7 then 0x10
  else if a = 9 then 1 else if a = 11 then 1
  else if a = 443 then 100 else if a = 447 then 12
  else if a = 579 then 200 else if a = 583 then 112
  else 0

/-- Two files for a sample listing: names `a` and `b`, three and two payload bytes. -/
def sampleFiles : List WriteFile :=
  [{ fileName := [0x61], timestamp := 5, data := [1, 2, 3] },
   { fileName := [0x62], timestamp := 6, data := [4, 5] }]

/-- The file `readListing` is expected to recover from a written file. -/
def recovered (currentVersion : Nat) (f : WriteFile) : ReadFile :=
  { fileName := f.fileName, timestamp := if currentVersion > 1 then f.timestamp else 0,
    payload := f.data }

end FileListing

/-! # Theorems -/

/-! ### Projections of the cursor operations -/

namespace DataManager

@[simp] theorem seek_data (dm : DataManager) (p : Nat) : (dm.seek p).data = dm.data := rfl
@[simp] theorem seek_size (dm : DataManager) (p : Nat) : (dm.seek p).size = dm.size := rfl
@[simp] theorem seek_pos (dm : DataManager) (p : Nat) : (dm.seek p).pos = p := rfl
@[simp] theorem seek_isBig (dm : DataManager) (p : Nat) : (dm.seek p).isBig = dm.isBig := rfl
@[simp] theorem seek_oob (dm : DataManager) (p : Nat) : (dm.seek p).oob = dm.oob := rfl

@[simp] theorem skip_data (dm : DataManager) (n : Nat) : (dm.skip n).data = dm.data := rfl
@[simp] theorem skip_size (dm : DataManager) (n : Nat) : (dm.skip n).size = dm.size := rfl
@[simp] theorem skip_pos (dm : DataManager) (n : Nat) : (dm.skip n).pos = dm.pos + n := rfl
@[simp] theorem skip_isBig (dm : DataManager) (n : Nat) : (dm.skip n).isBig = dm.isBig := rfl
@[simp] theorem skip_oob (dm : DataManager) (n : Nat) : (dm.skip n).oob = dm.oob := rfl

@[simp] theorem skipBack_data (dm : DataManager) (n : Nat) : (dm.skipBack n).data = dm.data := rfl
@[simp] theorem skipBack_size (dm : DataManager) (n : Nat) : (dm.skipBack n).size = dm.size := rfl
@[simp] theorem skipBack_pos (dm : DataManager) (n : Nat) : (dm.skipBack n).pos = dm.pos - n := rfl
@[simp] theorem skipBack_isBig (dm : DataManager) (n : Nat) : (dm.skipBack n).isBig = dm.isBig := rfl
@[simp] theorem skipBack_oob (dm : DataManager) (n : Nat) : (dm.skipBack n).oob = dm.oob := rfl

@[simp] theorem setEndian_data (dm : DataManager) (b : Bool) : (dm.setEndian b).data = dm.data := rfl
@[simp] theorem setEndian_size (dm : DataManager) (b : Bool) : (dm.setEndian b).size = dm.size := rfl
@[simp] theorem setEndian_pos (dm : DataManager) (b : Bool) : (dm.setEndian b).pos = dm.pos := rfl
@[simp] theorem setEndian_isBig (dm : DataManager) (b : Bool) : (dm.setEndian b).isBig = b := rfl
@[simp] theorem setEndian_oob (dm : DataManager) (b : Bool) : (dm.setEndian b).oob = dm.oob := rfl

@[simp] theorem write_data (dm : DataManager) (w v : Nat) :
    (dm.write w v).data = storeInt dm.isBig w dm.data dm.pos v := rfl
@[simp] theorem write_size (dm : DataManager) (w v : Nat) : (dm.write w v).size = dm.size := rfl
@[simp] theorem write_pos (dm : DataManager) (w v : Nat) : (dm.write w v).pos = dm.pos + w := rfl
@[simp] theorem write_isBig (dm : DataManager) (w v : Nat) : (dm.write w v).isBig = dm.isBig := rfl
@[simp] theorem write_oob (dm : DataManager) (w v : Nat) :
    (dm.write w v).oob = (dm.oob || decide (dm.size < dm.pos + w)) := rfl

@[simp] theorem writeAtOffset_data (dm : DataManager) (w off v : Nat) :
    (dm.writeAtOffset w off v).data = storeInt dm.isBig w dm.data off v := rfl
@[simp] theorem writeAtOffset_size (dm : DataManager) (w off v : Nat) :
    (dm.writeAtOffset w off v).size = dm.size := rfl
@[simp] theorem writeAtOffset_pos (dm : DataManager) (w off v : Nat) :
    (dm.writeAtOffset w off v).pos = dm.pos := rfl
@[simp] theorem writeAtOffset_isBig (dm : DataManager) (w off v : Nat) :
    (dm.writeAtOffset w off v).isBig = dm.isBig := rfl
@[simp] theorem writeAtOffset_oob (dm : DataManager) (w off v : Nat) :
    (dm.writeAtOffset w off v).oob = (dm.oob || decide (dm.size < off + w)) := rfl

@[simp] theorem read_fst (dm : DataManager) (w : Nat) :
    (dm.read w).1 = if dm.isBig then loadBE dm.data dm.pos w else loadLE dm.data dm.pos w := rfl
@[simp] theorem read_data (dm : DataManager) (w : Nat) : (dm.read w).2.data = dm.data := rfl
@[simp] theorem read_size (dm : DataManager) (w : Nat) : (dm.read w).2.size = dm.size := rfl
@[simp] theorem read_pos (dm : DataManager) (w : Nat) : (dm.read w).2.pos = dm.pos + w := rfl
@[simp] theorem read_isBig (dm : DataManager) (w : Nat) : (dm.read w).2.isBig = dm.isBig := rfl
@[simp] theorem read_oob (dm : DataManager) (w : Nat) :
    (dm.read w).2.oob = (dm.oob || decide (dm.size < dm.pos + w)) := rfl

theorem ext_fields {a b : DataManager} (h1 : a.data = b.data) (h2 : a.size = b.size)
    (h3 : a.pos = b.pos) (h4 : a.isBig = b.isBig) (h5 : a.oob = b.oob) : a = b := by
  cases a; cases b; simp only [mk.injEq]; exact ⟨h1, h2, h3, h4, h5⟩

end DataManager

theorem foldl_flatMap {α β σ : Type} (f : σ → β → σ) (g : α → List β) (l : List α) (s : σ) :
    (l.flatMap g).foldl f s = l.foldl (fun s a => (g a).foldl f s) s := by
  induction l generalizing s with
  | nil => rfl
  | cons a t ih => simp [List.flatMap_cons, List.foldl_append, ih]

theorem scanGrid_eq (c : ChunkData) (off : Nat) (bm : Nat → Nat) :
    ChunkV12.scanGrid c off bm = (gridCellIndices off).foldl (fun s i => ChunkV12.scanCell c i s)
      (ScanState.init bm) := by
  unfold ChunkV12.scanGrid gridCellIndices
  simp only [foldl_flatMap, List.foldl_map]

theorem pushNew_mem (bv : List Nat) (x y : Nat) : y ∈ pushNew bv x ↔ y ∈ bv ∨ y = x := by
  unfold pushNew
  split
  · constructor
    · intro h; exact Or.inl h
    · rintro (h | h)
      · exact h
      · subst h; assumption
  · simp

theorem pushNew_nodup (bv : List Nat) (x : Nat) (h : bv.Nodup) : (pushNew bv x).Nodup := by
  unfold pushNew
  split
  · exact h
  · rw [List.nodup_append]
    refine ⟨h, List.nodup_singleton x, ?_⟩
    intro a ha hb
    simp at hb
    subst hb
    contradiction

theorem foldl_pushNew_mem (l : List Nat) (bv : List Nat) (y : Nat) :
    y ∈ l.foldl pushNew bv ↔ y ∈ bv ∨ y ∈ l := by
  induction l generalizing bv with
  | nil => simp
  | cons a t ih =>
    simp only [List.foldl_cons, ih, pushNew_mem, List.mem_cons]
    tauto

theorem foldl_pushNew_nodup (l : List Nat) (bv : List Nat) (h : bv.Nodup) :
    (l.foldl pushNew bv).Nodup := by
  induction l generalizing bv with
  | nil => simpa
  | cons a t ih => exact ih _ (pushNew_nodup bv a h)

theorem paletteOf_mem (l : List Nat) (y : Nat) : y ∈ paletteOf l ↔ y ∈ l := by
  simp [paletteOf, foldl_pushNew_mem]

theorem paletteOf_nodup (l : List Nat) : (paletteOf l).Nodup :=
  foldl_pushNew_nodup l [] List.nodup_nil

theorem paletteOf_length (l : List Nat) : (paletteOf l).length = l.toFinset.card := by
  rw [← List.toFinset_card_of_nodup (paletteOf_nodup l)]
  congr 1
  ext y
  simp [paletteOf_mem]

theorem paletteOf_append (l m : List Nat) : paletteOf (l ++ m) = m.foldl pushNew (paletteOf l) := by
  simp [paletteOf, List.foldl_append]



theorem paletteOf_snoc (l : List Nat) (x : Nat) : paletteOf (l ++ [x]) = pushNew (paletteOf l) x := by
  simp [paletteOf, List.foldl_append]

theorem map_update_push (bv : List Nat) (bm : Nat → Nat) (x : Nat)
    (hm : ∀ y, bm y = if y ∈ bv then bv.indexOf y + 1 else 0) (hx : x ∉ bv) (y : Nat) :
    Function.update bm x (bv.length + 1) y =
      if y ∈ bv ++ [x] then (bv ++ [x]).indexOf y + 1 else 0 := by
  by_cases hy : y = x
  · subst hy
    simp [List.indexOf_append_of_not_mem hx]
  · rw [Function.update_noteq hy, hm]
    by_cases hb : y ∈ bv
    · simp [hb, List.indexOf_append_of_mem hb]
    · simp [hb, hy]

theorem scanCell_inv (c : ChunkData) (i : Nat) (vals : List Nat) (s : ScanState)
    (h : ScanInv vals s) (hlen : s.blockLocations.length < 64) :
    ScanInv (vals ++ scannedValues c [i]) (ChunkV12.scanCell c i s) := by
  obtain ⟨hp, hm, hb⟩ := h
  have key1 : ∀ x, s.blockMap x ≠ 0 ↔ x ∈ s.blockVector := by
    intro x; rw [hm x]; by_cases hx : x ∈ s.blockVector <;> simp [hx]
  simp only [scannedValues, List.flatMap_cons, List.flatMap_nil, List.append_nil]
  unfold ChunkV12.scanCell
  by_cases hblk : c.newBlocks.get i ∈ s.blockVector
  · -- block known
    have e1 : s.blockMap (c.newBlocks.get i) ≠ 0 := (key1 _).2 hblk
    simp only [e1, ne_eq, not_false_eq_true, if_true]
    have hp1 : s.blockVector = paletteOf (vals ++ [c.newBlocks.get i]) := by
      rw [paletteOf_snoc, ← hp, pushNew, if_pos hblk]
    by_cases hsub : c.submerged.get i = 0
    · simp only [hsub, ne_eq, not_true_eq_false, if_false]
      refine ⟨?_, ?_, ?_⟩
      · simpa using hp1
      · simpa using hm
      · simp; omega
    · simp only [hsub, ne_eq, not_false_eq_true, if_true]
      by_cases hk : c.submerged.get i ∈ s.blockVector
      · have e2 : s.blockMap (c.submerged.get i) ≠ 0 := (key1 _).2 hk
        simp only [e2, ne_eq, not_false_eq_true, if_true]
        refine ⟨?_, ?_, ?_⟩
        · show s.blockVector = _
          rw [show vals ++ [c.newBlocks.get i, c.submerged.get i] = (vals ++ [c.newBlocks.get i]) ++ [c.submerged.get i] by simp, paletteOf_snoc, ← hp1, pushNew, if_pos hk]
        · simpa using hm
        · simp; omega
      · have e2 : ¬ s.blockMap (c.submerged.get i) ≠ 0 := fun h => hk ((key1 _).1 h)
        simp only [e2, if_false]
        have hl : (s.blockVector.length + 1) % 256 = s.blockVector.length + 1 := by
          apply Nat.mod_eq_of_lt; omega
        refine ⟨?_, ?_, ?_⟩
        · show s.blockVector ++ [_] = _
          rw [show vals ++ [c.newBlocks.get i, c.submerged.get i] = (vals ++ [c.newBlocks.get i]) ++ [c.submerged.get i] by simp, paletteOf_snoc, ← hp1, pushNew, if_neg hk]
        · intro y
          show Function.update s.blockMap _ _ y = _
          rw [hl]
          exact map_update_push _ _ _ hm hk y
        · simp; omega
  · -- block new
    have e1 : ¬ s.blockMap (c.newBlocks.get i) ≠ 0 := fun h => hblk ((key1 _).1 h)
    simp only [e1, if_false]
    have hl : (s.blockVector.length + 1) % 256 = s.blockVector.length + 1 := by
      apply Nat.mod_eq_of_lt; omega
    have hp1 : s.blockVector ++ [c.newBlocks.get i] = paletteOf (vals ++ [c.newBlocks.get i]) := by
      rw [paletteOf_snoc, ← hp, pushNew, if_neg hblk]
    have hm1 := map_update_push _ _ _ hm hblk
    rw [← hl] at hm1
    have key2 : ∀ x, Function.update s.blockMap (c.newBlocks.get i) ((s.blockVector.length + 1) % 256) x ≠ 0
        ↔ x ∈ s.blockVector ++ [c.newBlocks.get i] := by
      intro x; rw [hm1 x]; by_cases hx : x ∈ s.blockVector ++ [c.newBlocks.get i] <;> simp only [hx, if_true, if_false] <;> simp
    by_cases hsub : c.submerged.get i = 0
    · simp only [hsub, ne_eq, not_true_eq_false, if_false]
      refine ⟨?_, ?_, ?_⟩
      · simpa using hp1
      · exact hm1
      · simp; omega
    · simp only [hsub, ne_eq, not_false_eq_true, if_true]
      by_cases hk : c.submerged.get i ∈ s.blockVector ++ [c.newBlocks.get i]
      · have e2 := (key2 _).2 hk
        simp only [e2, ne_eq, not_false_eq_true, if_true]
        refine ⟨?_, ?_, ?_⟩
        · show s.blockVector ++ [_] = _
          rw [show vals ++ [c.newBlocks.get i, c.submerged.get i] = (vals ++ [c.newBlocks.get i]) ++ [c.submerged.get i] by simp, paletteOf_snoc, ← hp1, pushNew, if_pos hk]
        · exact hm1
        · simp; omega
      · have e2 : ¬ _ := fun h => hk ((key2 _).1 h)
        simp only [e2, if_false]
        have hl2 : ((s.blockVector ++ [c.newBlocks.get i]).length + 1) % 256
            = (s.blockVector ++ [c.newBlocks.get i]).length + 1 := by
          apply Nat.mod_eq_of_lt; simp; omega
        refine ⟨?_, ?_, ?_⟩
        · show (s.blockVector ++ [_]) ++ [_] = _
          rw [show vals ++ [c.newBlocks.get i, c.submerged.get i] = (vals ++ [c.newBlocks.get i]) ++ [c.submerged.get i] by simp, paletteOf_snoc, ← hp1, pushNew, if_neg hk]
        · intro y
          show Function.update _ _ _ y = _
          rw [hl2]
          refine map_update_push _ _ _ ?_ hk y
          intro z; rw [hm1 z]
        · simp; omega


theorem scanCell_locations_length (c : ChunkData) (i : Nat) (s : ScanState) :
    (ChunkV12.scanCell c i s).blockLocations.length = s.blockLocations.length + 1 := by
  simp only [ChunkV12.scanCell]
  split_ifs <;> simp

theorem scannedValues_append (c : ChunkData) (l m : List Nat) :
    scannedValues c (l ++ m) = scannedValues c l ++ scannedValues c m := by
  simp [scannedValues]

theorem scan_foldl_inv (c : ChunkData) (cells : List Nat) (vals : List Nat) (s : ScanState)
    (h : ScanInv vals s) (hlen : s.blockLocations.length + cells.length ≤ 64) :
    ScanInv (vals ++ scannedValues c cells) (cells.foldl (fun s i => ChunkV12.scanCell c i s) s) := by
  induction cells generalizing vals s with
  | nil => simpa [scannedValues] using h
  | cons i t ih =>
    simp only [List.foldl_cons]
    have h1 := scanCell_inv c i vals s h (by simp at hlen; omega)
    have h2 := ih _ _ h1 (by rw [scanCell_locations_length]; simp at hlen; omega)
    rw [show i :: t = [i] ++ t by rfl, scannedValues_append, ← List.append_assoc]
    exact h2

theorem gridCellIndices_length (off : Nat) : (gridCellIndices off).length = 64 := by
  simp [gridCellIndices]

theorem scanGrid_inv (c : ChunkData) (off : Nat) :
    ScanInv (scannedValues c (gridCellIndices off)) (ChunkV12.scanGrid c off (fun _ => 0)) := by
  rw [scanGrid_eq]
  have h0 : ScanInv [] (ScanState.init fun _ => 0) :=
    ⟨rfl, by intro x; simp [ScanState.init], by simp [ScanState.init]⟩
  have hl : (ScanState.init fun _ => 0).blockLocations.length + (gridCellIndices off).length ≤ 64 := by
    rw [gridCellIndices_length]; simp [ScanState.init]
  have := scan_foldl_inv c (gridCellIndices off) [] _ h0 hl
  rw [List.nil_append] at this
  exact this

theorem clear_foldl (bv : List Nat) (bm : Nat → Nat) :
    bv.foldl (fun bm b => Function.update bm b 0) bm = fun x => if x ∈ bv then 0 else bm x := by
  induction bv generalizing bm with
  | nil => simp
  | cons a t ih =>
    rw [List.foldl_cons, ih]
    funext x
    by_cases hx : x ∈ t
    · simp [hx]
    · by_cases hxa : x = a
      · subst hxa; simp [hx]
      · simp [hx, hxa, Function.update_noteq hxa]

theorem range_map_getD (bv : List Nat) : (List.range bv.length).map (fun i => bv.getD i 0) = bv := by
  apply List.ext_getElem
  · simp
  · intro n h1 h2
    simp [List.getElem?_eq_getElem h2]

theorem clear_range (bv : List Nat) (bm : Nat → Nat) :
    (List.range bv.length).foldl (fun bm i => Function.update bm (bv.getD i 0) 0) bm
      = fun x => if x ∈ bv then 0 else bm x := by
  rw [← clear_foldl]
  conv_rhs => rw [← range_map_getD bv]
  rw [List.foldl_map]

theorem ScanInv.clean {vals : List Nat} {s : ScanState} (h : ScanInv vals s) :
    (fun x => if x ∈ s.blockVector then 0 else s.blockMap x) = fun _ => 0 := by
  funext x
  by_cases hx : x ∈ s.blockVector
  · simp [hx]
  · simp [hx, h.map x]

theorem writeGrid_snd (B k e : Nat) (bv bl : List Nat) (st : DataManager × (Nat → Nat)) :
    (ChunkV12.writeGrid B k e bv bl st).2
      = (List.range k).foldl (fun bm i => Function.update bm (bv.getD i 0) 0) st.2 := rfl

theorem writeWithMaxBlocks_snd (bv bl : List Nat) (st : DataManager × (Nat → Nat)) :
    (ChunkV12.writeWithMaxBlocks bv bl st).2
      = bv.foldl (fun bm b => Function.update bm b 0) st.2 := rfl

theorem choosePalette_clean {vals : List Nat} {s : ScanState} (h : ScanInv vals s)
    (dm : DataManager) :
    (ChunkV12.choosePalette s dm).st.2 = fun _ => 0 := by
  have hc := h.clean
  simp only [ChunkV12.choosePalette]
  split
  case h_1 heq =>
    obtain ⟨a, ha⟩ := List.length_eq_one.1 heq
    simp only [ha, List.getD_cons_zero]
    rw [← hc, ha]
    funext x
    by_cases hx : x = a
    · subst hx; simp
    · simp [hx, Function.update_noteq hx]
  case h_17 => simp only [writeWithMaxBlocks_snd, clear_foldl]; exact hc
  all_goals (rename_i heq; simp only [writeGrid_snd, ← heq, clear_range]; exact hc)

theorem choosePalette_format (s : ScanState) (dm : DataManager) :
    (ChunkV12.choosePalette s dm).gridFormat = narrowestTag s.blockVector.length := by
  simp only [ChunkV12.choosePalette]
  split <;> rename_i heq <;> first
    | (rw [heq]; rfl)
    | skip
  simp only [imp_false] at *
  have h3 : s.blockVector.length = 0 ∨ 17 ≤ s.blockVector.length := by omega
  rcases h3 with h3 | h3
  · rw [h3]; rfl
  · simp only [V12_8_FULL, narrowestTag]
    rw [if_neg (by omega), if_neg (by omega), if_neg (by omega), if_neg (by omega), if_neg (by omega)]

/-! ### v13 scan -/

theorem scanGrid13_eq (c : ChunkData) (off : Nat) (bm : Nat → Nat) :
    ChunkV13.scanGrid c off bm = (gridCellIndices off).foldl (fun s i => ChunkV13.scanCell c i s)
      (ScanState.init bm) := by
  unfold ChunkV13.scanGrid gridCellIndices
  simp only [foldl_flatMap, List.foldl_map]

theorem scanCell13_inv (c : ChunkData) (i : Nat) (vals : List Nat) (s : ScanState)
    (h : ScanInv vals s) (hlen : s.blockLocations.length < 128) :
    ScanInv (vals ++ [c.newBlocks.get i]) (ChunkV13.scanCell c i s) := by
  obtain ⟨hp, hm, hb⟩ := h
  have key1 : ∀ x, s.blockMap x ≠ 0 ↔ x ∈ s.blockVector := by
    intro x; rw [hm x]; by_cases hx : x ∈ s.blockVector <;> simp [hx]
  unfold ChunkV13.scanCell
  by_cases hblk : c.newBlocks.get i ∈ s.blockVector
  · have e1 : s.blockMap (c.newBlocks.get i) ≠ 0 := (key1 _).2 hblk
    simp only [e1, ne_eq, not_false_eq_true, if_true]
    refine ⟨?_, ?_, ?_⟩
    · show s.blockVector = _
      rw [paletteOf_snoc, ← hp, pushNew, if_pos hblk]
    · simpa using hm
    · simp; omega
  · have e1 : ¬ s.blockMap (c.newBlocks.get i) ≠ 0 := fun h => hblk ((key1 _).1 h)
    simp only [e1, if_false]
    have hl : (s.blockVector.length + 1) % 256 = s.blockVector.length + 1 := by
      apply Nat.mod_eq_of_lt; omega
    refine ⟨?_, ?_, ?_⟩
    · show s.blockVector ++ [_] = _
      rw [paletteOf_snoc, ← hp, pushNew, if_neg hblk]
    · intro y
      show Function.update _ _ _ y = _
      rw [hl]
      exact map_update_push _ _ _ hm hblk y
    · simp; omega

theorem scanCell13_locations_length (c : ChunkData) (i : Nat) (s : ScanState) :
    (ChunkV13.scanCell c i s).blockLocations.length = s.blockLocations.length + 1 := by
  simp only [ChunkV13.scanCell]
  split_ifs <;> simp

theorem scan13_foldl_inv (c : ChunkData) (cells : List Nat) (vals : List Nat) (s : ScanState)
    (h : ScanInv vals s) (hlen : s.blockLocations.length + cells.length ≤ 64) :
    ScanInv (vals ++ cells.map c.newBlocks.get)
      (cells.foldl (fun s i => ChunkV13.scanCell c i s) s) := by
  induction cells generalizing vals s with
  | nil => simpa using h
  | cons i t ih =>
    simp only [List.foldl_cons]
    have h1 := scanCell13_inv c i vals s h (by simp at hlen; omega)
    have h2 := ih _ _ h1 (by rw [scanCell13_locations_length]; simp at hlen; omega)
    rw [List.map_cons, show c.newBlocks.get i :: List.map c.newBlocks.get t
      = [c.newBlocks.get i] ++ List.map c.newBlocks.get t by rfl, ← List.append_assoc]
    exact h2

theorem scanGrid13_inv (c : ChunkData) (off : Nat) :
    ScanInv (gridBlocks c off) (ChunkV13.scanGrid c off (fun _ => 0)) := by
  rw [scanGrid13_eq]
  have h0 : ScanInv [] (ScanState.init fun _ => 0) :=
    ⟨rfl, by intro x; simp [ScanState.init], by simp [ScanState.init]⟩
  have hl : (ScanState.init fun _ => 0).blockLocations.length + (gridCellIndices off).length ≤ 64 := by
    rw [gridCellIndices_length]; simp [ScanState.init]
  have := scan13_foldl_inv c (gridCellIndices off) [] _ h0 hl
  rw [List.nil_append] at this
  exact this

theorem writeGrid13_snd (B k e : Nat) (bv bl : List Nat) (st : DataManager × (Nat → Nat)) :
    (ChunkV13.writeGrid B k e bv bl st).2
      = (List.range k).foldl (fun bm i => Function.update bm (bv.getD i 0) 0) st.2 := rfl

theorem writeWithMaxBlocks13_snd (bv bl : List Nat) (st : DataManager × (Nat → Nat)) :
    (ChunkV13.writeWithMaxBlocks bv bl st).2
      = bv.foldl (fun bm b => Function.update bm b 0) st.2 := rfl

theorem choosePalette13_clean {vals : List Nat} {s : ScanState} (h : ScanInv vals s)
    (dm : DataManager) :
    (ChunkV13.choosePalette s dm).st.2 = fun _ => 0 := by
  have hc := h.clean
  simp only [ChunkV13.choosePalette]
  split
  case h_1 heq =>
    obtain ⟨a, ha⟩ := List.length_eq_one.1 heq
    simp only [ha, List.getD_cons_zero]
    rw [← hc, ha]
    funext x
    by_cases hx : x = a
    · subst hx; simp
    · simp [hx, Function.update_noteq hx]
  case h_17 => simp only [writeWithMaxBlocks13_snd, clear_foldl]; exact hc
  all_goals (rename_i heq; simp only [writeGrid13_snd, ← heq, clear_range]; exact hc)

theorem choosePalette13_format (s : ScanState) (dm : DataManager) :
    (ChunkV13.choosePalette s dm).gridFormat = narrowestTag s.blockVector.length := by
  simp only [ChunkV13.choosePalette]
  split <;> rename_i heq <;> first
    | (rw [heq]; rfl)
    | skip
  simp only [imp_false] at *
  have h3 : s.blockVector.length = 0 ∨ 17 ≤ s.blockVector.length := by omega
  rcases h3 with h3 | h3
  · rw [h3]; rfl
  · simp only [V13_8_FULL, narrowestTag]
    rw [if_neg (by omega), if_neg (by omega), if_neg (by omega), if_neg (by omega), if_neg (by omega)]

theorem scannedValues_noSub (c : ChunkData) (cells : List Nat)
    (h : ∀ i ∈ cells, c.submerged.get i = 0) :
    scannedValues c cells = cells.map c.newBlocks.get := by
  induction cells with
  | nil => rfl
  | cons a t ih =>
    have ha : c.submerged.get a = 0 := h a (List.mem_cons_self a t)
    have ht := ih (fun i hi => h i (List.mem_cons_of_mem a hi))
    simp only [scannedValues, List.flatMap_cons, ha, ne_eq, not_true_eq_false, if_false,
      List.map_cons, List.singleton_append, List.cons.injEq, true_and]
    exact ht

theorem gridBlocks_card_pos (c : ChunkData) (off : Nat) : 1 ≤ (gridBlocks c off).toFinset.card := by
  rw [← paletteOf_length]
  have hm : c.newBlocks.get (off + 0 + 0 + 0) ∈ gridBlocks c off := by
    simp [gridBlocks, gridCellIndices]
  have := (paletteOf_mem _ _).2 hm
  exact List.length_pos_of_mem this

theorem clog_capacity (k : Nat) (h2 : 2 ≤ k) (h16 : k ≤ 16) :
    paletteCapacity (narrowestTag k) = 2 ^ Nat.clog 2 (max k 2) := by
  rw [max_eq_left h2]
  interval_cases k <;> simp [narrowestTag, paletteCapacity, Nat.clog]

/-- C3: for every 4×4×4 grid whose submerged cells are all zero, with `k` distinct
block values, the v12 and the v13 encoder choose the same tag: UNO (0x0) for
`k = 1`, 1-BIT (0x2) for `k = 2`, 2-BIT (0x4) for `3 ≤ k ≤ 4`, 3-BIT (0x6) for
`5 ≤ k ≤ 8`, 4-BIT (0x8) for `9 ≤ k ≤ 16` and 8-FULL (0xE) for `k > 16`; for
`2 ≤ k ≤ 16` the palette capacity of the tag is `2 ^ ⌈log2 max(k,2)⌉`, the least
power of two that is at least `k`. -/
theorem narrowest_format_selection (c : ChunkData) (offsetInBlock : Nat) (dm : DataManager)
    (hsub : ∀ i ∈ gridCellIndices offsetInBlock, c.submerged.get i = 0) :
    let k := (gridBlocks c offsetInBlock).toFinset.card
    let f12 := (ChunkV12.choosePalette (ChunkV12.scanGrid c offsetInBlock fun _ => 0) dm).gridFormat
    let f13 := (ChunkV13.choosePalette (ChunkV13.scanGrid c offsetInBlock fun _ => 0) dm).gridFormat
    f13 = f12 ∧ 1 ≤ k ∧
      (k = 1 → f12 = 0x0) ∧ (k = 2 → f12 = 0x2) ∧ (3 ≤ k ∧ k ≤ 4 → f12 = 0x4) ∧
      (5 ≤ k ∧ k ≤ 8 → f12 = 0x6) ∧ (9 ≤ k ∧ k ≤ 16 → f12 = 0x8) ∧ (16 < k → f12 = 0xE) ∧
      (2 ≤ k → k ≤ 16 →
        paletteCapacity f12 = 2 ^ Nat.clog 2 (max k 2) ∧ k ≤ paletteCapacity f12 ∧
        ∀ n, k ≤ 2 ^ n → paletteCapacity f12 ≤ 2 ^ n) := by
  intro k f12 f13
  have h12 : f12 = narrowestTag k := by
    show (ChunkV12.choosePalette _ dm).gridFormat = _
    rw [choosePalette_format, (scanGrid_inv c offsetInBlock).palette,
      scannedValues_noSub c _ hsub, paletteOf_length]
    rfl
  have h13 : f13 = narrowestTag k := by
    show (ChunkV13.choosePalette _ dm).gridFormat = _
    rw [choosePalette13_format, (scanGrid13_inv c offsetInBlock).palette, paletteOf_length]
  have hk : 1 ≤ k := gridBlocks_card_pos c offsetInBlock
  refine ⟨by rw [h12, h13], hk, ?_, ?_, ?_, ?_, ?_, ?_, ?_⟩
  · intro h; rw [h12, h]; rfl
  · intro h; rw [h12, h]; rfl
  · intro h; rw [h12]; simp only [narrowestTag]
    rw [if_neg (by omega), if_neg (by omega), if_pos h]
  · intro h; rw [h12]; simp only [narrowestTag]
    rw [if_neg (by omega), if_neg (by omega), if_neg (by omega), if_pos h]
  · intro h; rw [h12]; simp only [narrowestTag]
    rw [if_neg (by omega), if_neg (by omega), if_neg (by omega), if_neg (by omega), if_pos h]
  · intro h; rw [h12]; simp only [narrowestTag]
    rw [if_neg (by omega), if_neg (by omega), if_neg (by omega), if_neg (by omega),
      if_neg (by omega)]
  · intro h2 h16
    rw [h12]
    refine ⟨clog_capacity k h2 h16, ?_, ?_⟩
    · rw [clog_capacity k h2 h16, max_eq_left h2]
      exact Nat.le_pow_clog (by norm_num) k
    · intro n hn
      rw [clog_capacity k h2 h16, max_eq_left h2]
      exact Nat.pow_le_pow_right (by norm_num) ((Nat.le_pow_iff_clog_le (by norm_num)).1 hn)

/-- Witness of C3 on the grid of the all-air chunk at offset 0: its submerged
cells are zero, and the encoders choose the tag the claim names. -/
theorem narrowest_format_selection_witness :
    (∀ i ∈ gridCellIndices 0, airChunk.submerged.get i = 0) ∧
    (let k := (gridBlocks airChunk 0).toFinset.card
     let f12 := (ChunkV12.choosePalette (ChunkV12.scanGrid airChunk 0 fun _ => 0)
       (emptyBuffer 65536 204)).gridFormat
     let f13 := (ChunkV13.choosePalette (ChunkV13.scanGrid airChunk 0 fun _ => 0)
       (emptyBuffer 65536 204)).gridFormat
     f13 = f12 ∧ 1 ≤ k ∧
      (k = 1 → f12 = 0x0) ∧ (k = 2 → f12 = 0x2) ∧ (3 ≤ k ∧ k ≤ 4 → f12 = 0x4) ∧
      (5 ≤ k ∧ k ≤ 8 → f12 = 0x6) ∧ (9 ≤ k ∧ k ≤ 16 → f12 = 0x8) ∧ (16 < k → f12 = 0xE) ∧
      (2 ≤ k → k ≤ 16 →
        paletteCapacity f12 = 2 ^ Nat.clog 2 (max k 2) ∧ k ≤ paletteCapacity f12 ∧
        ∀ n, k ≤ 2 ^ n → paletteCapacity f12 ≤ 2 ^ n)) :=
  ⟨fun _ _ => rfl,
   narrowest_format_selection airChunk 0 (emptyBuffer 65536 204) (fun _ _ => rfl)⟩

set_option maxRecDepth 100000 in
/-- C4 (code_bug), the code at the failing input: in the grid of scenario S3 the
cell `(5,64,5)` holds block `0x0055` and submerged `0x0800`; the scan sees the
submerged value (`noSubmerged = false`, palette `{0x0000, 0x0055, 0x0800}`), yet
the format switch of `ChunkV12::writeBlockData` picks the plain 2-BIT tag `0x4`,
whose low bit is 0, and the header word is `0x4000`; no grid ever gets a tag with
the low bit set. -/
theorem fence_grid_gets_plain_tag :
    fenceChunk.submerged.get (64 + 5 * 256 + 5 * 4096) = 0x0800 ∧
    64 + 5 * 256 + 5 * 4096 ∈ gridCellIndices 17472 ∧
    (ChunkV12.scanGrid fenceChunk 17472 fun _ => 0).noSubmerged = false ∧
    (ChunkV12.scanGrid fenceChunk 17472 fun _ => 0).blockVector = [0x0000, 0x0055, 0x0800] ∧
    (ChunkV12.choosePalette (ChunkV12.scanGrid fenceChunk 17472 fun _ => 0)
      (emptyBuffer 65536 204)).gridFormat = V12_2_BIT ∧
    V12_2_BIT &&& 1 = 0 ∧
    (ChunkV12.writeGridBody fenceChunk 17472
      { dm := emptyBuffer 65536 204, blockMap := fun _ => 0, gridHeader := [],
        sectionSize := 0 }).gridHeader = [0x4000] ∧
    ∀ (s : ScanState) (dm : DataManager), (ChunkV12.choosePalette s dm).gridFormat &&& 1 = 0 := by
  refine ⟨by decide, by decide, by decide, by decide, by decide, by decide, by decide, ?_⟩
  intro s dm
  rw [choosePalette_format]
  simp only [narrowestTag]
  split_ifs <;> decide

/-! ### Palette indices of the decoder -/

theorem plane_bit_le_one (x column : Nat) (h : column < 8) :
    (x &&& (128 >>> column)) >>> (7 - column) ≤ 1 := by
  have hm : 128 >>> column = 2 ^ (7 - column) := by
    interval_cases column <;> rfl
  rw [hm, Nat.shiftRight_eq_div_pow]
  have h1 : x &&& 2 ^ (7 - column) ≤ 2 ^ (7 - column) := Nat.and_le_right
  have hpos : 0 < 2 ^ (7 - column) := by positivity
  calc (x &&& 2 ^ (7 - column)) / 2 ^ (7 - column) ≤ 2 ^ (7 - column) / 2 ^ (7 - column) :=
        Nat.div_le_div_right h1
    _ = 1 := Nat.div_self hpos

theorem cellIdx_succ (B : Nat) (d : Nat → Nat) (planes row column : Nat) :
    ChunkV12.cellIdx (B + 1) d planes row column =
      (ChunkV12.cellIdx B d planes row column |||
        (((byteAt d (planes + row + B * 8) &&& (128 >>> column)) >>> (7 - column)) <<< B)) % 65536 := by
  simp only [ChunkV12.cellIdx, List.range_succ, List.foldl_append, List.foldl_cons, List.foldl_nil]

theorem cellIdx_lt (B : Nat) (d : Nat → Nat) (planes row column : Nat) (h : column < 8) :
    ChunkV12.cellIdx B d planes row column < 2 ^ B := by
  induction B with
  | zero => simp [ChunkV12.cellIdx]
  | succ n ih =>
    rw [cellIdx_succ]
    apply lt_of_le_of_lt (Nat.mod_le _ _)
    apply Nat.or_lt_two_pow
    · exact lt_of_lt_of_le ih (Nat.pow_le_pow_right (by norm_num) (Nat.le_succ n))
    · have hb := plane_bit_le_one (byteAt d (planes + row + n * 8)) column h
      rw [Nat.shiftLeft_eq]
      calc _ ≤ 1 * 2 ^ n := Nat.mul_le_mul_right _ hb
        _ < 2 ^ (n + 1) := by rw [Nat.pow_succ]; omega

theorem foldlM_some_of_forall {α β : Type} (f : β → α → Option β) (l : List α) (b : β)
    (h : ∀ b, ∀ a ∈ l, (f b a).isSome) : (l.foldlM f b).isSome := by
  induction l generalizing b with
  | nil => simp
  | cons a t ih =>
    simp only [List.foldlM_cons]
    have ha := h b a (List.mem_cons_self a t)
    obtain ⟨b1, hb1⟩ := Option.isSome_iff_exists.1 ha
    rw [hb1]
    exact ih b1 (fun b a ha => h b a (List.mem_cons_of_mem _ ha))

theorem readGrid_isSome (B : Nat) (d : Nat → Nat) (buffer : Nat) :
    (ChunkV12.readGrid B d buffer).isSome := by
  unfold ChunkV12.readGrid
  apply foldlM_some_of_forall
  intro grid index _
  have hlt := cellIdx_lt B d (buffer + (1 <<< B) * 2) (index / 8) (index % 8) (Nat.mod_lt _ (by norm_num))
  have hsz : 2 ^ B ≤ (1 <<< B) * 2 := by rw [Nat.shiftLeft_eq, Nat.one_mul]; omega
  simp only [ge_iff_le]
  rw [if_neg (by omega)]
  rfl

theorem readGridSubmerged_isSome (B : Nat) (d : Nat → Nat) (buffer : Nat) :
    (ChunkV12.readGridSubmerged B d buffer).isSome := by
  unfold ChunkV12.readGridSubmerged
  apply foldlM_some_of_forall
  intro grids i hi
  apply foldlM_some_of_forall
  intro grids j hj
  have hj8 : j < 8 := List.mem_range.1 hj
  have h1 := cellIdx_lt B d (buffer + (1 <<< B) * 2) i j hj8
  have h2 := cellIdx_lt B d (buffer + (1 <<< B) * 2 + B * 8) i j hj8
  have hsz : 2 ^ B ≤ (1 <<< B) * 2 := by rw [Nat.shiftLeft_eq, Nat.one_mul]; omega
  simp only [ge_iff_le]
  rw [if_neg (by omega)]
  rfl

/-! ### Uniform grids and the clean `blockMap` -/

theorem paletteOf_uniform (l : List Nat) (v : Nat) (hne : l ≠ []) (h : ∀ x ∈ l, x = v) :
    paletteOf l = [v] := by
  have hmem : ∀ y, y ∈ paletteOf l ↔ y = v := by
    intro y
    rw [paletteOf_mem]
    constructor
    · exact h y
    · intro hy
      obtain ⟨a, t, rfl⟩ := List.exists_cons_of_ne_nil hne
      have := h a (List.mem_cons_self a t)
      rw [hy, ← this]
      exact List.mem_cons_self a t
  have hnd := paletteOf_nodup l
  generalize paletteOf l = p at hmem hnd
  match p, hmem, hnd with
  | [], hmem, _ => exact absurd ((hmem v).2 rfl) (List.not_mem_nil v)
  | [a], hmem, _ =>
    have := (hmem a).1 (List.mem_singleton_self a)
    rw [this]
  | a :: b :: t, hmem, hnd =>
    have ha := (hmem a).1 (List.mem_cons_self a _)
    have hb := (hmem b).1 (List.mem_cons_of_mem a (List.mem_cons_self b t))
    rw [List.nodup_cons] at hnd
    exact absurd (by rw [ha, hb]; exact List.mem_cons_self v t) hnd.1

theorem gridCellIndices_ne_nil (off : Nat) : gridCellIndices off ≠ [] := by
  intro h
  have := gridCellIndices_length off
  rw [h] at this
  exact absurd this (by decide)

theorem scannedValues_ne_nil (c : ChunkData) (cells : List Nat) (h : cells ≠ []) :
    scannedValues c cells ≠ [] := by
  obtain ⟨a, t, rfl⟩ := List.exists_cons_of_ne_nil h
  simp [scannedValues]

theorem scannedValues_mem (c : ChunkData) (cells : List Nat) (x : Nat)
    (h : x ∈ scannedValues c cells) :
    ∃ i ∈ cells, x = c.newBlocks.get i ∨ (x = c.submerged.get i ∧ c.submerged.get i ≠ 0) := by
  simp only [scannedValues, List.mem_flatMap, List.mem_cons] at h
  obtain ⟨i, hi, hx⟩ := h
  refine ⟨i, hi, ?_⟩
  rcases hx with hx | hx
  · exact Or.inl hx
  · right
    by_cases h0 : c.submerged.get i = 0
    · simp [h0] at hx
    · simp [h0] at hx
      exact ⟨hx, h0⟩

/-- The grid at `off` is uniform: every block cell is `v`, every submerged cell is
0 or `v`. -/
theorem scanGrid_uniform (c : ChunkData) (off v : Nat)
    (h : ∀ i ∈ gridCellIndices off,
      c.newBlocks.get i = v ∧ (c.submerged.get i = 0 ∨ c.submerged.get i = v)) :
    (ChunkV12.scanGrid c off fun _ => 0).blockVector = [v] := by
  rw [(scanGrid_inv c off).palette]
  apply paletteOf_uniform
  · exact scannedValues_ne_nil c _ (gridCellIndices_ne_nil off)
  · intro x hx
    obtain ⟨i, hi, hx⟩ := scannedValues_mem c _ x hx
    rcases hx with hx | ⟨hx, hne⟩
    · rw [hx]; exact (h i hi).1
    · rcases (h i hi).2 with h0 | hv
      · exact absurd h0 hne
      · rw [hx]; exact hv

theorem scanGrid13_uniform (c : ChunkData) (off v : Nat)
    (h : ∀ i ∈ gridCellIndices off, c.newBlocks.get i = v) :
    (ChunkV13.scanGrid c off fun _ => 0).blockVector = [v] := by
  rw [(scanGrid13_inv c off).palette]
  apply paletteOf_uniform
  · intro hnil
    have := gridCellIndices_length off
    have h2 : (gridBlocks c off).length = 0 := by rw [hnil]; rfl
    rw [gridBlocks, List.length_map] at h2
    omega
  · intro x hx
    rw [gridBlocks, List.mem_map] at hx
    obtain ⟨i, hi, rfl⟩ := hx
    exact h i hi

theorem choosePalette_uno (s : ScanState) (dm : DataManager) (v : Nat) (h : s.blockVector = [v]) :
    ChunkV12.choosePalette s dm =
      { gridFormat := V12_0_UNO, uno := true, st := (dm, Function.update s.blockMap v 0) } := by
  simp only [ChunkV12.choosePalette, h, List.length_singleton, List.getD_cons_zero]

theorem choosePalette13_uno (s : ScanState) (dm : DataManager) (v : Nat) (h : s.blockVector = [v]) :
    ChunkV13.choosePalette s dm =
      { gridFormat := V13_0_UNO, uno := true, st := (dm, Function.update s.blockMap v 0) } := by
  simp only [ChunkV13.choosePalette, h, List.length_singleton, List.getD_cons_zero]

/-- The grid body on a uniform grid: the header word is the block value, nothing is
written and the payload size does not grow. -/
theorem writeGridBody_uniform (c : ChunkData) (off v : Nat) (ss : SectionState)
    (hbm : ss.blockMap = fun _ => 0)
    (h : ∀ i ∈ gridCellIndices off,
      c.newBlocks.get i = v ∧ (c.submerged.get i = 0 ∨ c.submerged.get i = v)) :
    ChunkV12.writeGridBody c off ss =
      { dm := ss.dm, blockMap := fun _ => 0, gridHeader := ss.gridHeader ++ [v],
        sectionSize := ss.sectionSize } := by
  have hbv := scanGrid_uniform c off v h
  have hclean := choosePalette_clean (scanGrid_inv c off) ss.dm
  rw [choosePalette_uno _ _ v hbv] at hclean
  simp only at hclean
  simp only [ChunkV12.writeGridBody, hbm, choosePalette_uno _ _ v hbv, hbv, List.getD_cons_zero,
    if_true, hclean, V12_0_UNO, V12_GRID_SIZES, Nat.add_zero]

theorem writeGridBody13_uniform (c : ChunkData) (off v : Nat) (ss : SectionState)
    (hbm : ss.blockMap = fun _ => 0)
    (h : ∀ i ∈ gridCellIndices off, c.newBlocks.get i = v) :
    ChunkV13.writeGridBody c off ss =
      { dm := ss.dm, blockMap := fun _ => 0, gridHeader := ss.gridHeader ++ [v],
        sectionSize := ss.sectionSize } := by
  have hbv := scanGrid13_uniform c off v h
  have hclean := choosePalette13_clean (scanGrid13_inv c off) ss.dm
  rw [choosePalette13_uno _ _ v hbv] at hclean
  simp only at hclean
  simp only [ChunkV13.writeGridBody, hbm, choosePalette13_uno _ _ v hbv, hbv, List.getD_cons_zero,
    if_true, hclean, V13_0_UNO, V13_GRID_SIZES, V12_GRID_SIZES, Nat.add_zero]

/-- Every grid body leaves the `blockMap` zeroed when it finds it zeroed. -/
theorem writeGridBody_clean (c : ChunkData) (off : Nat) (ss : SectionState)
    (hbm : ss.blockMap = fun _ => 0) :
    (ChunkV12.writeGridBody c off ss).blockMap = fun _ => 0 := by
  simp only [ChunkV12.writeGridBody, hbm]
  exact choosePalette_clean (scanGrid_inv c off) ss.dm

set_option maxRecDepth 10000 in
theorem writeSectionGrids_eq (c : ChunkData) (sectionIndex : Nat) (ss : SectionState) :
    ChunkV12.writeSectionGrids c sectionIndex ss =
      (sectionGridOffsets sectionIndex).foldl (fun ss off => ChunkV12.writeGridBody c off ss) ss := by
  unfold ChunkV12.writeSectionGrids sectionGridOffsets
  simp only [foldl_flatMap, List.foldl_map]

set_option maxRecDepth 10000 in
theorem writeSectionGrids13_eq (c : ChunkData) (sectionIndex : Nat) (ss : SectionState) :
    ChunkV13.writeSectionGrids c sectionIndex ss =
      (sectionGridOffsets sectionIndex).foldl (fun ss off => ChunkV13.writeGridBody c off ss) ss := by
  unfold ChunkV13.writeSectionGrids sectionGridOffsets
  simp only [foldl_flatMap, List.foldl_map]

theorem grids_foldl_clean (c : ChunkData) (l : List Nat) (ss : SectionState)
    (hbm : ss.blockMap = fun _ => 0) :
    (l.foldl (fun ss off => ChunkV12.writeGridBody c off ss) ss).blockMap = fun _ => 0 := by
  induction l generalizing ss with
  | nil => exact hbm
  | cons a t ih =>
    rw [List.foldl_cons]
    exact ih (ChunkV12.writeGridBody c a ss) (writeGridBody_clean c a ss hbm)

theorem writeSectionGrids_clean (c : ChunkData) (sectionIndex : Nat) (ss : SectionState)
    (hbm : ss.blockMap = fun _ => 0) :
    (ChunkV12.writeSectionGrids c sectionIndex ss).blockMap = fun _ => 0 := by
  rw [writeSectionGrids_eq]; exact grids_foldl_clean c (sectionGridOffsets sectionIndex) ss hbm

theorem grids_foldl_uniform (c : ChunkData) (f : Nat → Nat) (l : List Nat) (ss : SectionState)
    (hbm : ss.blockMap = fun _ => 0)
    (h : ∀ off ∈ l, ∀ i ∈ gridCellIndices off,
      c.newBlocks.get i = f off ∧ (c.submerged.get i = 0 ∨ c.submerged.get i = f off)) :
    l.foldl (fun ss off => ChunkV12.writeGridBody c off ss) ss =
      { dm := ss.dm, blockMap := fun _ => 0, gridHeader := ss.gridHeader ++ l.map f,
        sectionSize := ss.sectionSize } := by
  induction l generalizing ss with
  | nil =>
    cases ss
    simp only [List.foldl_nil, List.map_nil, List.append_nil] at *
    rw [hbm]
  | cons a t ih =>
    rw [List.foldl_cons, writeGridBody_uniform c a (f a) ss hbm (h a (List.mem_cons_self a t))]
    rw [ih _ rfl (fun off ho => h off (List.mem_cons_of_mem a ho))]
    simp

theorem headerFold_spec (dm : DataManager) (start : Nat) (hdr : List Nat) (n : Nat) :
    let r := (List.range n).foldl (fun dm index =>
      dm.writeAtOffset 2 (start + 2 * index) (hdr.getD index 0)) (dm.setEndian false)
    r.pos = dm.pos ∧ r.size = dm.size ∧ r.isBig = false ∧
    (r.oob = (dm.oob || decide (0 < n ∧ dm.size < start + 2 * n))) ∧
    ∀ a, r.data a =
      if start ≤ a ∧ a < start + 2 * n then
        hdr.getD ((a - start) / 2) 0 / 256 ^ ((a - start) % 2) % 256
      else dm.data a := by
  induction n with
  | zero =>
    refine ⟨rfl, rfl, rfl, by simp, ?_⟩
    intro a
    rw [if_neg (by omega)]
    rfl
  | succ n ih =>
    simp only [List.range_succ, List.foldl_append, List.foldl_cons, List.foldl_nil]
    simp only at ih
    revert ih
    generalize (List.range n).foldl (fun dm index =>
      dm.writeAtOffset 2 (start + 2 * index) (hdr.getD index 0)) (dm.setEndian false) = r
    rintro ⟨h1, h2, h3, h4, h5⟩
    refine ⟨?_, ?_, ?_, ?_, ?_⟩
    · simpa using h1
    · simpa using h2
    · simpa using h3
    · simp only [DataManager.writeAtOffset_oob, h4, h2]
      by_cases hob : dm.oob = true
      · simp [hob]
      · simp only [Bool.not_eq_true] at hob
        simp only [hob, Bool.false_or]
        by_cases hsz : dm.size < start + 2 * (n + 1)
        · have : dm.size < start + 2 * n + 2 := by omega
          simp [hsz, this]
        · have e1 : ¬ dm.size < start + 2 * n + 2 := by omega
          have e2 : ¬ (0 < n ∧ dm.size < start + 2 * n) := by omega
          simp [hsz, e1, e2]
    · intro a
      simp only [DataManager.writeAtOffset_data, storeInt, h3, h5 a]
      by_cases hnew : start + 2 * n ≤ a ∧ a < start + 2 * n + 2
      · have e1 : start ≤ a ∧ a < start + 2 * (n + 1) := by omega
        have e2 : (a - start) / 2 = n := by omega
        have e3 : (a - start) % 2 = a - (start + 2 * n) := by omega
        simp only [hnew, e1, e2, e3, and_self, if_true, Bool.false_eq_true, if_false]
      · simp only [hnew, if_false]
        by_cases hold : start ≤ a ∧ a < start + 2 * n
        · have e1 : start ≤ a ∧ a < start + 2 * (n + 1) := by omega
          simp only [hold, e1, and_self, if_true]
        · have e1 : ¬ (start ≤ a ∧ a < start + 2 * (n + 1)) := by omega
          simp only [hold, e1, if_false]

theorem writeGridHeader_spec (dm : DataManager) (start : Nat) (hdr : List Nat) :
    (writeGridHeader dm start hdr).pos = dm.pos ∧
    (writeGridHeader dm start hdr).size = dm.size ∧
    (writeGridHeader dm start hdr).isBig = true ∧
    (writeGridHeader dm start hdr).oob = (dm.oob || decide (dm.size < start + 128)) ∧
    ∀ a, (writeGridHeader dm start hdr).data a =
      if start ≤ a ∧ a < start + 128 then
        hdr.getD ((a - start) / 2) 0 / 256 ^ ((a - start) % 2) % 256
      else dm.data a := by
  obtain ⟨h1, h2, _, h4, h5⟩ := headerFold_spec dm start hdr 64
  simp only [writeGridHeader, GRID_COUNT, DataManager.setEndian_pos,
    DataManager.setEndian_size, DataManager.setEndian_isBig, DataManager.setEndian_oob,
    DataManager.setEndian_data]
  refine ⟨h1, h2, trivial, ?_, ?_⟩
  · rw [h4]; simp
  · intro a; rw [h5 a]

theorem is0_128_slow_iff (d : Nat → Nat) (p : Nat) :
    is0_128_slow d p = true ↔ ∀ i, i < 128 → byteAt d (p + i) = 0 := by
  simp [is0_128_slow, List.all_eq_true]

/-- The header bytes of a section read 0 exactly when all 64 header words are 0. -/
theorem header_is0_iff (dm : DataManager) (start : Nat) (hdr : List Nat)
    (hlt : ∀ g, g < 64 → hdr.getD g 0 < 65536) :
    is0_128_slow (writeGridHeader dm start hdr).data start = true ↔
      ∀ g, g < 64 → hdr.getD g 0 = 0 := by
  obtain ⟨_, _, _, _, h5⟩ := writeGridHeader_spec dm start hdr
  rw [is0_128_slow_iff]
  constructor
  · intro h g hg
    have b0 := h (2 * g) (by omega)
    have b1 := h (2 * g + 1) (by omega)
    rw [byteAt, h5, if_pos (by omega)] at b0 b1
    have e0 : (start + 2 * g - start) / 2 = g := by omega
    have e0' : (start + 2 * g - start) % 2 = 0 := by omega
    have e1 : (start + (2 * g + 1) - start) / 2 = g := by omega
    have e1' : (start + (2 * g + 1) - start) % 2 = 1 := by omega
    rw [e0, e0'] at b0
    rw [e1, e1'] at b1
    have := hlt g hg
    simp only [pow_zero, Nat.div_one, pow_one, Nat.mod_mod] at b0 b1
    omega
  · intro h i hi
    rw [byteAt, h5, if_pos (by omega), h ((start + i - start) / 2) (by omega)]
    simp


/-! ### Closing a section -/

theorem closeSection_blockMap (s : Nat) (w : WriteState) (ss : SectionState) :
    (closeSection s w ss).blockMap = ss.blockMap := by
  simp only [closeSection, apply_ite WriteState.blockMap, ite_self]

theorem closeSection_tables_other (s t : Nat) (w : WriteState) (ss : SectionState) (h : t ≠ s) :
    (closeSection s w ss).sectSizeTable t = w.sectSizeTable t ∧
    (closeSection s w ss).sectJumpTable t = w.sectJumpTable t := by
  constructor
  · simp only [closeSection, apply_ite WriteState.sectSizeTable]
    split <;> exact Function.update_noteq h _ _
  · simp only [closeSection, apply_ite WriteState.sectJumpTable, ite_self]
    exact Function.update_noteq h _ _

theorem closeSection_absent (s : Nat) (w : WriteState) (ss : SectionState)
    (h : is0_128_slow (writeGridHeader ss.dm (76 + w.last_section_jump * 256 % 2 ^ 32)
      ss.gridHeader).data (76 + w.last_section_jump * 256 % 2 ^ 32) = true) :
    closeSection s w ss =
      { dm := (writeGridHeader ss.dm (76 + w.last_section_jump * 256 % 2 ^ 32)
          ss.gridHeader).skipBack 128,
        blockMap := ss.blockMap,
        last_section_jump := w.last_section_jump, last_section_size := 0,
        sectJumpTable := Function.update w.sectJumpTable s
          (w.last_section_jump * 256 % 2 ^ 32 % 65536),
        sectSizeTable := Function.update w.sectSizeTable s 0 } := by
  simp only [closeSection, Nat.reduceAdd, GRID_SIZE]
  rw [if_pos h]

theorem closeSection_present (s : Nat) (w : WriteState) (ss : SectionState)
    (h : ¬ is0_128_slow (writeGridHeader ss.dm (76 + w.last_section_jump * 256 % 2 ^ 32)
      ss.gridHeader).data (76 + w.last_section_jump * 256 % 2 ^ 32) = true) :
    closeSection s w ss =
      { dm := writeGridHeader ss.dm (76 + w.last_section_jump * 256 % 2 ^ 32) ss.gridHeader,
        blockMap := ss.blockMap,
        last_section_jump := w.last_section_jump + (128 + ss.sectionSize + 255) / 256,
        last_section_size := (128 + ss.sectionSize + 255) / 256,
        sectJumpTable := Function.update w.sectJumpTable s
          (w.last_section_jump * 256 % 2 ^ 32 % 65536),
        sectSizeTable := Function.update w.sectSizeTable s
          ((128 + ss.sectionSize + 255) / 256 % 256) } := by
  simp only [closeSection, Nat.reduceAdd, GRID_SIZE]
  rw [if_neg h]

theorem sectionStart_eq (w : WriteState) :
    sectionStart w =
      { dm := w.dm.seek (76 + w.last_section_jump * 256 % 2 ^ 32 + 128),
        blockMap := w.blockMap, gridHeader := [], sectionSize := 0 } := by
  simp only [sectionStart, Nat.reduceAdd, GRID_SIZE]

/-! ### One iteration of the section loop -/

theorem writeSection_blockMap (c : ChunkData) (s : Nat) (w : WriteState)
    (hbm : w.blockMap = fun _ => 0) : (ChunkV12.writeSection c s w).blockMap = fun _ => 0 := by
  rw [ChunkV12.writeSection, closeSection_blockMap]
  exact writeSectionGrids_clean c s (sectionStart w) hbm

theorem writeSection_tables_other (c : ChunkData) (s t : Nat) (w : WriteState) (h : t ≠ s) :
    (ChunkV12.writeSection c s w).sectSizeTable t = w.sectSizeTable t ∧
    (ChunkV12.writeSection c s w).sectJumpTable t = w.sectJumpTable t :=
  closeSection_tables_other s t w _ h

theorem map_const_getD (l : List Nat) (v g : Nat) (h : g < l.length) :
    (l.map fun _ => v).getD g 0 = v := by
  rw [List.getD_eq_getElem _ _ (by simpa using h)]
  simp

theorem sectionGridOffsets_length (s : Nat) : (sectionGridOffsets s).length = 64 := by
  simp [sectionGridOffsets]

/-- The grid loops of a section whose 64 grids are uniform, grid `off` with the
value `f off`: no payload is written and the header words are the block values. -/
theorem writeSectionGrids_uniform (c : ChunkData) (s : Nat) (w : WriteState) (f : Nat → Nat)
    (hbm : w.blockMap = fun _ => 0)
    (h : ∀ off ∈ sectionGridOffsets s, ∀ i ∈ gridCellIndices off,
      c.newBlocks.get i = f off ∧ (c.submerged.get i = 0 ∨ c.submerged.get i = f off)) :
    ChunkV12.writeSectionGrids c s (sectionStart w) =
      { dm := w.dm.seek (76 + w.last_section_jump * 256 % 2 ^ 32 + 128),
        blockMap := fun _ => 0, gridHeader := (sectionGridOffsets s).map f, sectionSize := 0 } := by
  rw [writeSectionGrids_eq, sectionStart_eq,
    grids_foldl_uniform c f (sectionGridOffsets s) _ hbm h]
  simp only [List.nil_append]

theorem header_zero_is0 (dm : DataManager) (start : Nat) (l : List Nat) (hl : l.length = 64) :
    is0_128_slow (writeGridHeader dm start (l.map fun _ => 0)).data start = true := by
  rw [header_is0_iff]
  · intro g hg; exact map_const_getD l 0 g (by omega)
  · intro g hg; rw [map_const_getD l 0 g (by omega)]; decide

/-- The state after an absent section: the header of the section (64 zero words)
is in the buffer, the cursor is back at the section start, the size entry is 0
and `last_section_jump` has not moved. -/
theorem absent_section_state (s : Nat) (w : WriteState) :
    closeSection s w
      { dm := w.dm.seek (76 + w.last_section_jump * 256 % 2 ^ 32 + 128),
        blockMap := fun _ => 0, gridHeader := (sectionGridOffsets s).map fun _ => 0,
        sectionSize := 0 } =
      { dm := (writeGridHeader (w.dm.seek (76 + w.last_section_jump * 256 % 2 ^ 32 + 128))
          (76 + w.last_section_jump * 256 % 2 ^ 32)
          ((sectionGridOffsets s).map fun _ => 0)).skipBack 128,
        blockMap := fun _ => 0,
        last_section_jump := w.last_section_jump, last_section_size := 0,
        sectJumpTable := Function.update w.sectJumpTable s
          (w.last_section_jump * 256 % 2 ^ 32 % 65536),
        sectSizeTable := Function.update w.sectSizeTable s 0 } :=
  closeSection_absent s w _ (header_zero_is0 _ _ _ (sectionGridOffsets_length s))

/-- The section body on an all-zero section: the size entry is 0 and
`last_section_jump` does not move. -/
theorem writeSection_zero (c : ChunkData) (s : Nat) (w : WriteState)
    (hbm : w.blockMap = fun _ => 0)
    (h : ∀ off ∈ sectionGridOffsets s, ∀ i ∈ gridCellIndices off,
      c.newBlocks.get i = 0 ∧ c.submerged.get i = 0) :
    ChunkV12.writeSection c s w =
      { dm := (writeGridHeader (w.dm.seek (76 + w.last_section_jump * 256 % 2 ^ 32 + 128))
          (76 + w.last_section_jump * 256 % 2 ^ 32)
          ((sectionGridOffsets s).map fun _ => 0)).skipBack 128,
        blockMap := fun _ => 0,
        last_section_jump := w.last_section_jump, last_section_size := 0,
        sectJumpTable := Function.update w.sectJumpTable s
          (w.last_section_jump * 256 % 2 ^ 32 % 65536),
        sectSizeTable := Function.update w.sectSizeTable s 0 } := by
  rw [ChunkV12.writeSection, writeSectionGrids_uniform c s w (fun _ => 0) hbm
    (fun off ho i hi => ⟨(h off ho i hi).1, Or.inl (h off ho i hi).2⟩)]
  exact absent_section_state s w

theorem sectionsPrefix_succ (n : Nat) (dm : DataManager) (c : ChunkData) :
    ChunkV12.sectionsPrefix (n + 1) dm c = ChunkV12.writeSection c n (ChunkV12.sectionsPrefix n dm c) := by
  simp only [ChunkV12.sectionsPrefix, List.range_succ, List.foldl_append, List.foldl_cons,
    List.foldl_nil]

theorem sectionsPrefix13_succ (n : Nat) (dm : DataManager) (c : ChunkData) :
    ChunkV13.sectionsPrefix (n + 1) dm c = ChunkV13.writeSection c n (ChunkV13.sectionsPrefix n dm c) := by
  simp only [ChunkV13.sectionsPrefix, List.range_succ, List.foldl_append, List.foldl_cons,
    List.foldl_nil]

theorem sectionsPrefix_clean (n : Nat) (dm : DataManager) (c : ChunkData) :
    (ChunkV12.sectionsPrefix n dm c).blockMap = fun _ => 0 := by
  induction n with
  | zero => rfl
  | succ n ih => rw [sectionsPrefix_succ]; exact writeSection_blockMap c n _ ih

theorem mem_four (x a b c d : Nat) (h : x ∈ [a, b, c, d]) : x = a ∨ x = b ∨ x = c ∨ x = d := by
  simpa using h

theorem mem_sectionGridOffsets (s off : Nat) (ho : off ∈ sectionGridOffsets s) :
    ∃ gx gz gy, gx < 4 ∧ gz < 4 ∧ gy < 4 ∧ off = s * 16 + gy * 4 + gz * 1024 + gx * 16384 := by
  simp only [sectionGridOffsets, List.mem_flatMap, List.mem_map] at ho
  obtain ⟨gx, hgx, gz, hgz, gy, hgy, rfl⟩ := ho
  have hx := mem_four _ _ _ _ _ hgx
  have hz := mem_four _ _ _ _ _ hgz
  have hy := mem_four _ _ _ _ _ hgy
  refine ⟨gx / 16384, gz / 1024, gy / 4, ?_, ?_, ?_, ?_⟩ <;> omega

theorem mem_gridCellIndices (off i : Nat) (hi : i ∈ gridCellIndices off) :
    ∃ x z y, x < 4 ∧ z < 4 ∧ y < 4 ∧ i = off + y + z * 256 + x * 4096 := by
  simp only [gridCellIndices, List.mem_flatMap, List.mem_map] at hi
  obtain ⟨bx, hbx, bz, hbz, b, hb, rfl⟩ := hi
  have hx := mem_four _ _ _ _ _ hbx
  have hz := mem_four _ _ _ _ _ hbz
  have hy := mem_four _ _ _ _ _ hb
  refine ⟨bx / 4096, bz / 256, b, ?_, ?_, ?_, ?_⟩ <;> omega

theorem section_cell (s off i : Nat) (hs : s < 16) (ho : off ∈ sectionGridOffsets s)
    (hi : i ∈ gridCellIndices off) : i < 65536 ∧ i % 256 / 16 = s := by
  obtain ⟨gx, gz, gy, h1, h2, h3, rfl⟩ := mem_sectionGridOffsets s off ho
  obtain ⟨x, z, y, h4, h5, h6, rfl⟩ := mem_gridCellIndices _ i hi
  omega

/-! ### The header patch -/

theorem tableFold_spec (w : WriteState) (dm : DataManager) (hbig : dm.isBig = true) (n : Nat)
    (hn : n ≤ 16) :
    let r := (List.range n).foldl (fun dm sectionIndex =>
      (dm.writeAtOffset 2 (26 + 2 + 2 * sectionIndex) (w.sectJumpTable sectionIndex)).writeAtOffset
        1 (26 + 34 + sectionIndex) (w.sectSizeTable sectionIndex)) dm
    r.pos = dm.pos ∧ r.size = dm.size ∧ r.isBig = true ∧
    (r.oob = (dm.oob || decide (0 < n ∧ dm.size < 60 + n))) ∧
    ∀ a, r.data a =
      if 28 ≤ a ∧ a < 28 + 2 * n then
        w.sectJumpTable ((a - 28) / 2) / 256 ^ (1 - (a - 28) % 2) % 256
      else if 60 ≤ a ∧ a < 60 + n then w.sectSizeTable (a - 60) % 256
      else dm.data a := by
  induction n with
  | zero =>
    refine ⟨rfl, rfl, hbig, by simp, ?_⟩
    intro a
    rw [if_neg (by omega), if_neg (by omega)]
    rfl
  | succ n ih =>
    simp only [List.range_succ, List.foldl_append, List.foldl_cons, List.foldl_nil]
    have ih := ih (by omega)
    simp only at ih
    revert ih
    generalize (List.range n).foldl (fun dm sectionIndex =>
      (dm.writeAtOffset 2 (26 + 2 + 2 * sectionIndex) (w.sectJumpTable sectionIndex)).writeAtOffset
        1 (26 + 34 + sectionIndex) (w.sectSizeTable sectionIndex)) dm = r
    rintro ⟨h1, h2, h3, h4, h5⟩
    refine ⟨?_, ?_, ?_, ?_, ?_⟩
    · simpa using h1
    · simpa using h2
    · simpa using h3
    · simp only [DataManager.writeAtOffset_oob, DataManager.writeAtOffset_size, h4, h2]
      by_cases hob : dm.oob = true
      · simp [hob]
      · simp only [Bool.not_eq_true] at hob
        simp only [hob, Bool.false_or]
        by_cases hsz : dm.size < 60 + (n + 1)
        · have e1 : dm.size < 26 + 34 + n + 1 := by omega
          simp [hsz, e1]
        · have e1 : ¬ dm.size < 26 + 34 + n + 1 := by omega
          have e2 : ¬ dm.size < 26 + 2 + 2 * n + 2 := by omega
          have e3 : ¬ (0 < n ∧ dm.size < 60 + n) := by omega
          simp [hsz, e1, e2, e3]
    · intro a
      simp only [DataManager.writeAtOffset_data, DataManager.writeAtOffset_isBig, storeInt, h3,
        h5 a, if_true]
      by_cases hs : 26 + 34 + n ≤ a ∧ a < 26 + 34 + n + 1
      · have e1 : ¬ (28 ≤ a ∧ a < 28 + 2 * (n + 1)) := by omega
        have e2 : 60 ≤ a ∧ a < 60 + (n + 1) := by omega
        have e3 : a - 60 = n := by omega
        have e4 : 1 - 1 - (a - (26 + 34 + n)) = 0 := by omega
        simp only [hs, e1, e2, e3, e4, and_self, if_true, if_false, pow_zero, Nat.div_one]
      · simp only [hs, if_false]
        by_cases hj : 26 + 2 + 2 * n ≤ a ∧ a < 26 + 2 + 2 * n + 2
        · have e1 : 28 ≤ a ∧ a < 28 + 2 * (n + 1) := by omega
          have e2 : (a - 28) / 2 = n := by omega
          have e3 : 2 - 1 - (a - (26 + 2 + 2 * n)) = 1 - (a - 28) % 2 := by omega
          simp only [hj, e1, e2, e3, and_self, if_true]
        · simp only [hj, if_false]
          by_cases hold : 28 ≤ a ∧ a < 28 + 2 * n
          · have e1 : 28 ≤ a ∧ a < 28 + 2 * (n + 1) := by omega
            simp only [hold, e1, and_self, if_true]
          · have e1 : ¬ (28 ≤ a ∧ a < 28 + 2 * (n + 1)) := by omega
            simp only [hold, e1, if_false]
            by_cases hsz : 60 ≤ a ∧ a < 60 + n
            · have e2 : 60 ≤ a ∧ a < 60 + (n + 1) := by omega
              simp only [hsz, e2, and_self, if_true]
            · have e2 : ¬ (60 ≤ a ∧ a < 60 + (n + 1)) := by omega
              simp only [hsz, e2, if_false]

/-- The buffer after the header patch: `max_section_address` at 26, the jump table
at 28, the size table at 60, everything else as the section loop left it. -/
theorem patchHeader_spec (w : WriteState) (hbig : w.dm.isBig = true) :
    (patchHeader w).pos = 76 + w.last_section_jump * 256 % 2 ^ 32 ∧
    (patchHeader w).size = w.dm.size ∧
    (patchHeader w).isBig = true ∧
    (patchHeader w).oob = (w.dm.oob || decide (w.dm.size < 76)) ∧
    ∀ a, (patchHeader w).data a =
      if 26 ≤ a ∧ a < 28 then
        (w.last_section_jump * 256 % 2 ^ 32) >>> 8 % 65536 / 256 ^ (1 - (a - 26)) % 256
      else if 28 ≤ a ∧ a < 60 then
        w.sectJumpTable ((a - 28) / 2) / 256 ^ (1 - (a - 28) % 2) % 256
      else if 60 ≤ a ∧ a < 76 then w.sectSizeTable (a - 60) % 256
      else w.dm.data a := by
  obtain ⟨h1, h2, h3, h4, h5⟩ := tableFold_spec w w.dm hbig 16 (le_refl 16)
  simp only [patchHeader, SECTION_COUNT, DataManager.seek_pos, DataManager.seek_size,
    DataManager.seek_isBig, DataManager.seek_oob, DataManager.seek_data,
    DataManager.writeAtOffset_size, DataManager.writeAtOffset_isBig,
    DataManager.writeAtOffset_oob, DataManager.writeAtOffset_data]
  refine ⟨trivial, h2, h3, ?_, ?_⟩
  · rw [h4, h2]
    by_cases hob : w.dm.oob = true
    · simp [hob]
    · simp only [Bool.not_eq_true] at hob
      by_cases hsz : w.dm.size < 76
      · have e1 : w.dm.size < 60 + 16 := by omega
        simp [hob, hsz, e1]
      · have e1 : ¬ w.dm.size < 60 + 16 := by omega
        have e2 : ¬ w.dm.size < 26 + 2 := by omega
        simp [hob, hsz, e1, e2]
  · intro a
    simp only [storeInt, h3, h5 a, if_true]

theorem closeSection_isBig (s : Nat) (w : WriteState) (ss : SectionState) :
    (closeSection s w ss).dm.isBig = true := by
  have hspec := (writeGridHeader_spec ss.dm (76 + w.last_section_jump * 256 % 2 ^ 32)
    ss.gridHeader).2.2.1
  by_cases h : is0_128_slow (writeGridHeader ss.dm (76 + w.last_section_jump * 256 % 2 ^ 32)
      ss.gridHeader).data (76 + w.last_section_jump * 256 % 2 ^ 32) = true
  · rw [closeSection_absent s w ss h]
    simp only [DataManager.skipBack_isBig, hspec]
  · rw [closeSection_present s w ss h]
    simp only [hspec]

theorem closeSection_size (s : Nat) (w : WriteState) (ss : SectionState) :
    (closeSection s w ss).dm.size = ss.dm.size := by
  have hspec := (writeGridHeader_spec ss.dm (76 + w.last_section_jump * 256 % 2 ^ 32)
    ss.gridHeader).2.1
  by_cases h : is0_128_slow (writeGridHeader ss.dm (76 + w.last_section_jump * 256 % 2 ^ 32)
      ss.gridHeader).data (76 + w.last_section_jump * 256 % 2 ^ 32) = true
  · rw [closeSection_absent s w ss h]
    simp only [DataManager.skipBack_size, hspec]
  · rw [closeSection_present s w ss h]
    simp only [hspec]

theorem writeSections_eq (dm : DataManager) (c : ChunkData) :
    ChunkV12.writeSections dm c = ChunkV12.sectionsPrefix 16 dm c := rfl

theorem sectionsPrefix_isBig (n : Nat) (hn : 0 < n) (dm : DataManager) (c : ChunkData) :
    (ChunkV12.sectionsPrefix n dm c).dm.isBig = true := by
  obtain ⟨m, rfl⟩ : ∃ m, n = m + 1 := ⟨n - 1, by omega⟩
  rw [sectionsPrefix_succ, ChunkV12.writeSection]
  exact closeSection_isBig _ _ _

theorem normalize_of_size (c : ChunkData) (h1 : c.newBlocks.size = 65536)
    (h2 : c.submerged.size = 65536) : ChunkV12.normalize c = c := by
  cases c
  simp only [ChunkV12.normalize] at *
  simp [h1, h2]

theorem foldl_set_size {α : Type} (l : List α) (idx val : α → Nat) (w : U16Vec) :
    (l.foldl (fun w a => w.set (idx a) (val a)) w).size = w.size := by
  induction l generalizing w with
  | nil => rfl
  | cons a t ih => rw [List.foldl_cons, ih]; rfl

/-- A run of `vec[idx a] = val a` that always stores the same value `v`. -/
theorem foldl_set_const {α : Type} (l : List α) (idx val : α → Nat) (v : Nat)
    (hv : ∀ a ∈ l, val a % 65536 = v) (w : U16Vec) (i : Nat) :
    (l.foldl (fun w a => w.set (idx a) (val a)) w).cells i =
      if i ∈ l.map idx then v else w.cells i := by
  induction l generalizing w with
  | nil => simp
  | cons a t ih =>
    rw [List.foldl_cons, ih (fun b hb => hv b (List.mem_cons_of_mem a hb))]
    by_cases ht : i ∈ t.map idx
    · rw [if_pos ht, if_pos (by rw [List.map_cons]; exact List.mem_cons_of_mem _ ht)]
    · rw [if_neg ht]
      by_cases hia : i = idx a
      · rw [if_pos (by rw [List.map_cons, hia]; exact List.mem_cons_self _ _)]
        simp only [U16Vec.set, hia, Function.update_same]
        exact hv a (List.mem_cons_self a t)
      · rw [if_neg (by
          rw [List.map_cons, List.mem_cons]
          exact fun h => h.elim hia ht)]
        simp only [U16Vec.set]
        exact Function.update_noteq hia _ _

theorem placeBlocks_eq (w : U16Vec) (grid : Nat → Nat) (off : Nat) :
    ChunkV12.placeBlocks w grid off =
      (placeTriples.foldl (fun w t =>
        w.set (t.2.2 + t.2.1 * 256 + t.1 * 4096 + off)
          (grid (2 * (t.1 * 16 + t.2.1 * 4 + t.2.2)) % 256 |||
            (grid (2 * (t.1 * 16 + t.2.1 * 4 + t.2.2) + 1) % 256) <<< 8)) w) := by
  unfold ChunkV12.placeBlocks placeTriples
  simp only [foldl_flatMap, List.foldl_map]

theorem mem_range_four (x : Nat) (h : x < 4) : x ∈ List.range 4 := List.mem_range.2 h

theorem mem_placeTriples (t : Nat × Nat × Nat) :
    t ∈ placeTriples ↔ t.1 < 4 ∧ t.2.1 < 4 ∧ t.2.2 < 4 := by
  obtain ⟨x, z, y⟩ := t
  simp only [placeTriples, List.mem_flatMap, List.mem_map, List.mem_range, Prod.mk.injEq]
  constructor
  · rintro ⟨a, ha, b, hb, c, hc, rfl, rfl, rfl⟩
    exact ⟨ha, hb, hc⟩
  · rintro ⟨ha, hb, hc⟩
    exact ⟨x, ha, z, hb, y, hc, rfl, rfl, rfl⟩

theorem mem_gridCellIndices_iff (off i : Nat) :
    i ∈ gridCellIndices off ↔
      ∃ x z y, x < 4 ∧ z < 4 ∧ y < 4 ∧ i = off + y + z * 256 + x * 4096 := by
  constructor
  · exact mem_gridCellIndices off i
  · rintro ⟨x, z, y, hx, hz, hy, rfl⟩
    simp only [gridCellIndices, List.mem_flatMap, List.mem_map]
    refine ⟨x * 4096, ?_, z * 256, ?_, y, ?_, rfl⟩
    · interval_cases x <;> simp
    · interval_cases z <;> simp
    · interval_cases y <;> simp

theorem mem_place_indices (off i : Nat) :
    i ∈ placeTriples.map (fun t => t.2.2 + t.2.1 * 256 + t.1 * 4096 + off) ↔
      i ∈ gridCellIndices off := by
  rw [mem_gridCellIndices_iff, List.mem_map]
  constructor
  · rintro ⟨⟨x, z, y⟩, ht, rfl⟩
    rw [mem_placeTriples] at ht
    simp only at ht
    exact ⟨x, z, y, ht.1, ht.2.1, ht.2.2, by simp only; omega⟩
  · rintro ⟨x, z, y, hx, hz, hy, rfl⟩
    exact ⟨(x, z, y), (mem_placeTriples _).2 ⟨hx, hz, hy⟩, by simp only; omega⟩

theorem byte_pair (v : Nat) (h : v < 65536) :
    (v % 256) % 256 ||| ((v / 256) % 256) <<< 8 = v := by
  have h1 : v / 256 < 256 := by omega
  rw [Nat.mod_mod, Nat.mod_eq_of_lt h1, Nat.or_comm, Nat.shiftLeft_eq, Nat.mul_comm,
    ← Nat.mul_add_lt_is_or (Nat.mod_lt _ (by norm_num))]
  omega

/-- Placing the grid of a UNO header word `v`: the 64 cells of the grid get `v`, all
other cells stay. -/
theorem placeBlocks_uno (w : U16Vec) (v off : Nat) (hv : v < 65536) :
    (ChunkV12.placeBlocks w (unoGrid (v % 256) (v / 256)) off).size = w.size ∧
    ∀ i, (ChunkV12.placeBlocks w (unoGrid (v % 256) (v / 256)) off).cells i =
      if i ∈ gridCellIndices off then v else w.cells i := by
  rw [placeBlocks_eq]
  refine ⟨foldl_set_size _ _ _ _, ?_⟩
  intro i
  rw [foldl_set_const placeTriples _ _ v ?_ w i]
  · by_cases h : i ∈ gridCellIndices off
    · rw [if_pos h, if_pos ((mem_place_indices off i).2 h)]
    · rw [if_neg h, if_neg (fun h2 => h ((mem_place_indices off i).1 h2))]
  · rintro ⟨x, z, y⟩ ht
    rw [mem_placeTriples] at ht
    simp only at ht
    obtain ⟨hx, hz, hy⟩ := ht
    have e1 : 2 * (x * 16 + z * 4 + y) < 128 := by omega
    have e2 : 2 * (x * 16 + z * 4 + y) + 1 < 128 := by omega
    have e3 : 2 * (x * 16 + z * 4 + y) % 2 = 0 := by omega
    have e4 : ¬ (2 * (x * 16 + z * 4 + y) + 1) % 2 = 0 := by omega
    simp only [unoGrid, e1, e2, e3, e4, if_true, if_false]
    rw [show v / 256 % 256 = v / 256 % 256 from rfl]
    have hb := byte_pair v hv
    rw [Nat.mod_eq_of_lt (show v / 256 < 256 by omega)] at hb
    rw [Nat.mod_eq_of_lt (show v / 256 < 256 by omega), hb]
    exact Nat.mod_eq_of_lt hv

/-! ### The decoder on UNO grids -/

/-- A loop whose bodies all go on: `P` is kept, each `R j` is stable, and `R j` holds
once an element with `E j` has been met. -/
theorem forFlow_cover {α σ ι : Type} (P : σ → Prop) (R : ι → σ → Prop) (E : ι → α → Prop)
    (body : α → σ → Flow σ) (l : List α)
    (h : ∀ a ∈ l, ∀ s, P s → ∃ s1, body a s = Flow.run s1 ∧ P s1 ∧
      ∀ j, (R j s → R j s1) ∧ (E j a → R j s1))
    (s : σ) (hs : P s) :
    ∃ s1, forFlow l body s = Flow.run s1 ∧ P s1 ∧
      ∀ j, (R j s → R j s1) ∧ ((∃ a ∈ l, E j a) → R j s1) := by
  induction l generalizing s with
  | nil => exact ⟨s, rfl, hs, fun j => ⟨id, by rintro ⟨a, ha, _⟩; cases ha⟩⟩
  | cons a t ih =>
    obtain ⟨s1, e1, p1, c1⟩ := h a (List.mem_cons_self a t) s hs
    obtain ⟨s2, e2, p2, c2⟩ := ih (fun b hb => h b (List.mem_cons_of_mem a hb)) s1 p1
    refine ⟨s2, ?_, p2, fun j => ⟨fun hr => (c2 j).1 ((c1 j).1 hr), ?_⟩⟩
    · rw [forFlow, e1]; exact e2
    · rintro ⟨b, hb, eb⟩
      rcases List.mem_cons.1 hb with rfl | hb
      · exact (c2 j).1 ((c1 j).2 eb)
      · exact (c2 j).2 ⟨b, hb, eb⟩

theorem uno_format (v : Nat) (hv : v < 4096) : (v / 256) >>> 4 = 0 := by
  rw [Nat.shiftRight_eq_div_pow]
  omega

/-- The grid body on a header word `v < 0x1000`: the loop goes on, the cursor is
moved, and the grid is placed from `unoGrid`. -/
theorem readGridBody_uno (sectionHeader address sect gridX gridZ gridY v : Nat)
    (st : DataManager × ChunkData) (hv : v < 4096)
    (h1 : st.1.byte (sectionHeader + (gridX * 16 + gridZ * 4 + gridY) * 2) = v % 256)
    (h2 : st.1.byte (sectionHeader + ((gridX * 16 + gridZ * 4 + gridY) * 2 + 1)) = v / 256) :
    ∃ p, ChunkV12.readGridBody sectionHeader address sect gridX gridZ gridY st =
      Flow.run (st.1.seek p,
        { st.2 with
          newBlocks := ChunkV12.placeBlocks st.2.newBlocks (unoGrid (v % 256) (v / 256))
            (sect * 16 + gridY * 4 + gridZ * 1024 + gridX * 16384) }) := by
  simp only [ChunkV12.readGridBody, h1, h2, uno_format v hv, ChunkV12.decodeGrid]
  simp only [ne_eq, not_true_eq_false, and_false, if_false, Nat.zero_and]
  exact ⟨_, rfl⟩

theorem grid_in_section (sect gx gz gy i : Nat) (hs : sect < 16) (hx : gx < 4) (hz : gz < 4)
    (hy : gy < 4) (hi : i ∈ gridCellIndices (sect * 16 + gy * 4 + gz * 1024 + gx * 16384)) :
    i < 65536 ∧ i % 256 / 16 = sect := by
  obtain ⟨x, z, y, h4, h5, h6, rfl⟩ := mem_gridCellIndices _ i hi
  omega

theorem section_cell_grid (sect i : Nat) (hi : i < 65536) (hs : i % 256 / 16 = sect) :
    ∃ gx ∈ List.range 4, ∃ gz ∈ List.range 4, ∃ gy ∈ List.range 4,
      i ∈ gridCellIndices (sect * 16 + gy * 4 + gz * 1024 + gx * 16384) := by
  refine ⟨i / 16384, List.mem_range.2 (by omega), i % 4096 / 1024, List.mem_range.2 (by omega),
    i % 16 / 4, List.mem_range.2 (by omega), ?_⟩
  rw [mem_gridCellIndices_iff]
  exact ⟨i / 4096 % 4, i % 1024 / 256, i % 4, by omega, by omega, by omega, by omega⟩

/-- One grid of a section whose header words are all `v`. -/
theorem readGridBody_uno_inv (sectionHeader address sect v : Nat) (d : Nat → Nat)
    (c0 : ChunkData) (hs : sect < 16) (hv : v < 4096)
    (hdr : ∀ g, g < 64 → byteAt d (sectionHeader + g * 2) = v % 256 ∧
      byteAt d (sectionHeader + (g * 2 + 1)) = v / 256)
    (gridX gridZ gridY : Nat) (hx : gridX < 4) (hz : gridZ < 4) (hy : gridY < 4)
    (s : DataManager × ChunkData) (hinv : UnoInv d c0 v sect s) :
    ∃ s1, ChunkV12.readGridBody sectionHeader address sect gridX gridZ gridY s = Flow.run s1 ∧
      UnoInv d c0 v sect s1 ∧
      ∀ i : Nat, (s.2.newBlocks.cells i = v → s1.2.newBlocks.cells i = v) ∧
        (i ∈ gridCellIndices (sect * 16 + gridY * 4 + gridZ * 1024 + gridX * 16384) →
          s1.2.newBlocks.cells i = v) := by
  obtain ⟨hb1, hb2⟩ := hdr (gridX * 16 + gridZ * 4 + gridY) (by omega)
  obtain ⟨p, hp⟩ := readGridBody_uno sectionHeader address sect gridX gridZ gridY v s hv
    (by rw [DataManager.byte, hinv.data]; exact hb1)
    (by rw [DataManager.byte, hinv.data]; exact hb2)
  obtain ⟨psize, pcells⟩ := placeBlocks_uno s.2.newBlocks v
    (sect * 16 + gridY * 4 + gridZ * 1024 + gridX * 16384) (by omega)
  generalize ChunkV12.placeBlocks s.2.newBlocks (unoGrid (v % 256) (v / 256))
    (sect * 16 + gridY * 4 + gridZ * 1024 + gridX * 16384) = pb at hp psize pcells
  refine ⟨_, hp, ⟨hinv.data, hinv.rest, psize.trans hinv.vsize, ?_⟩, ?_⟩
  · intro i
    dsimp only
    rw [pcells i]
    by_cases hi : i ∈ gridCellIndices (sect * 16 + gridY * 4 + gridZ * 1024 + gridX * 16384)
    · rw [if_pos hi]
      exact Or.inl ⟨rfl, grid_in_section sect gridX gridZ gridY i hs hx hz hy hi⟩
    · rw [if_neg hi]
      exact hinv.cells i
  · intro i
    dsimp only
    rw [pcells i]
    constructor
    · intro h
      by_cases hi : i ∈ gridCellIndices (sect * 16 + gridY * 4 + gridZ * 1024 + gridX * 16384)
      · rw [if_pos hi]
      · rw [if_neg hi]; exact h
    · intro hi
      rw [if_pos hi]

/-- A whole section whose 64 header words are `v`: the three loops run to their end
and every cell of the section holds `v`. -/
theorem readSectionGrids_uno (sectionHeader address sect v : Nat) (d : Nat → Nat)
    (c0 : ChunkData) (hs : sect < 16) (hv : v < 4096)
    (hdr : ∀ g, g < 64 → byteAt d (sectionHeader + g * 2) = v % 256 ∧
      byteAt d (sectionHeader + (g * 2 + 1)) = v / 256)
    (s : DataManager × ChunkData) (hinv : UnoInv d c0 v sect s) :
    ∃ s1, ChunkV12.readSectionGrids sectionHeader address sect s = Flow.run s1 ∧
      UnoInv d c0 v sect s1 ∧
      ∀ i, i < 65536 → i % 256 / 16 = sect → s1.2.newBlocks.cells i = v := by
  obtain ⟨s1, e1, p1, c1⟩ := forFlow_cover (UnoInv d c0 v sect)
    (fun (i : Nat) (s : DataManager × ChunkData) => s.2.newBlocks.cells i = v)
    (fun i gridX => ∃ gridZ ∈ List.range 4, ∃ gridY ∈ List.range 4,
      i ∈ gridCellIndices (sect * 16 + gridY * 4 + gridZ * 1024 + gridX * 16384))
    (fun gridX => forFlow (List.range 4) (fun gridZ => forFlow (List.range 4) (fun gridY =>
      ChunkV12.readGridBody sectionHeader address sect gridX gridZ gridY)))
    (List.range 4)
    (fun gridX hx s hP => forFlow_cover (UnoInv d c0 v sect)
      (fun (i : Nat) (s : DataManager × ChunkData) => s.2.newBlocks.cells i = v)
      (fun i gridZ => ∃ gridY ∈ List.range 4,
        i ∈ gridCellIndices (sect * 16 + gridY * 4 + gridZ * 1024 + gridX * 16384))
      (fun gridZ => forFlow (List.range 4) (fun gridY =>
        ChunkV12.readGridBody sectionHeader address sect gridX gridZ gridY))
      (List.range 4)
      (fun gridZ hz s hP => forFlow_cover (UnoInv d c0 v sect)
        (fun (i : Nat) (s : DataManager × ChunkData) => s.2.newBlocks.cells i = v)
        (fun i gridY =>
          i ∈ gridCellIndices (sect * 16 + gridY * 4 + gridZ * 1024 + gridX * 16384))
        (fun gridY => ChunkV12.readGridBody sectionHeader address sect gridX gridZ gridY)
        (List.range 4)
        (fun gridY hy s hP => readGridBody_uno_inv sectionHeader address sect v d c0 hs hv hdr
          gridX gridZ gridY (List.mem_range.1 hx) (List.mem_range.1 hz) (List.mem_range.1 hy)
          s hP)
        s hP)
      s hP)
    s hinv
  exact ⟨s1, e1, p1, fun i hi hsec => (c1 i).2 (section_cell_grid sect i hi hsec)⟩

/-! ### The section loop and the tables -/

theorem readSections_break (maxSectionAddress : Nat) (tbl : List Nat) (sizeOfSubChunks sect : Nat)
    (rest : List Nat) (st : DataManager × ChunkData)
    (h : tbl.getD sect 0 = maxSectionAddress) :
    ChunkV12.readSections maxSectionAddress tbl sizeOfSubChunks (sect :: rest) st =
      Flow.run (st.1.seek (76 + maxSectionAddress), st.2) := by
  simp only [ChunkV12.readSections, h, if_true]

theorem readSections_skip (maxSectionAddress : Nat) (tbl : List Nat) (sizeOfSubChunks sect : Nat)
    (rest : List Nat) (st : DataManager × ChunkData)
    (h1 : tbl.getD sect 0 ≠ maxSectionAddress)
    (h2 : byteAt st.1.data (sizeOfSubChunks + sect) = 0) :
    ChunkV12.readSections maxSectionAddress tbl sizeOfSubChunks (sect :: rest) st =
      ChunkV12.readSections maxSectionAddress tbl sizeOfSubChunks rest
        (st.1.seek (76 + tbl.getD sect 0), st.2) := by
  simp only [ChunkV12.readSections, h1, if_false, DataManager.byte, DataManager.seek_data, h2,
    if_true]

theorem readSections_read (maxSectionAddress : Nat) (tbl : List Nat) (sizeOfSubChunks sect : Nat)
    (rest : List Nat) (st s1 : DataManager × ChunkData)
    (h1 : tbl.getD sect 0 ≠ maxSectionAddress)
    (h2 : byteAt st.1.data (sizeOfSubChunks + sect) ≠ 0)
    (h3 : ChunkV12.readSectionGrids (76 + tbl.getD sect 0) (tbl.getD sect 0) sect
      ((st.1.seek (76 + tbl.getD sect 0)).skip 128, st.2) = Flow.run s1) :
    ChunkV12.readSections maxSectionAddress tbl sizeOfSubChunks (sect :: rest) st =
      ChunkV12.readSections maxSectionAddress tbl sizeOfSubChunks rest s1 := by
  simp only [ChunkV12.readSections, h1, if_false, DataManager.byte, DataManager.seek_data, h2,
    DataManager.seek_pos, h3]

theorem readSections_return (maxSectionAddress : Nat) (tbl : List Nat)
    (sizeOfSubChunks sect : Nat) (rest : List Nat) (st s1 : DataManager × ChunkData)
    (h1 : tbl.getD sect 0 ≠ maxSectionAddress)
    (h2 : byteAt st.1.data (sizeOfSubChunks + sect) ≠ 0)
    (h3 : ChunkV12.readSectionGrids (76 + tbl.getD sect 0) (tbl.getD sect 0) sect
      ((st.1.seek (76 + tbl.getD sect 0)).skip 128, st.2) = Flow.ret s1) :
    ChunkV12.readSections maxSectionAddress tbl sizeOfSubChunks (sect :: rest) st =
      Flow.ret s1 := by
  simp only [ChunkV12.readSections, h1, if_false, DataManager.byte, DataManager.seek_data, h2,
    DataManager.seek_pos, h3]

theorem readTable_frame (n : Nat) (dm : DataManager) :
    (ChunkV12.readTable n dm).2.pos = dm.pos + 2 * n ∧
    (ChunkV12.readTable n dm).2.size = dm.size ∧
    (ChunkV12.readTable n dm).2.isBig = dm.isBig ∧
    (ChunkV12.readTable n dm).2.data = dm.data ∧
    ((ChunkV12.readTable n dm).2.oob = true ↔ (dm.oob = true ∨ (0 < n ∧ dm.size < dm.pos + 2 * n)))
      := by
  induction n generalizing dm with
  | zero =>
    refine ⟨rfl, rfl, rfl, rfl, ?_⟩
    simp [ChunkV12.readTable]
  | succ n ih =>
    obtain ⟨h1, h2, h3, h4, h5⟩ := ih (dm.read 2).2
    simp only [ChunkV12.readTable]
    refine ⟨?_, ?_, ?_, ?_, ?_⟩
    · rw [h1]; simp only [DataManager.read_pos]; omega
    · rw [h2]; rfl
    · rw [h3]; rfl
    · rw [h4]; rfl
    · rw [h5]
      simp only [DataManager.read_oob, DataManager.read_size, DataManager.read_pos,
        Bool.or_eq_true, decide_eq_true_eq]
      constructor
      · rintro ((h | h) | ⟨_, h⟩)
        · exact Or.inl h
        · exact Or.inr ⟨by omega, by omega⟩
        · exact Or.inr ⟨by omega, by omega⟩
      · rintro (h | ⟨_, h⟩)
        · exact Or.inl (Or.inl h)
        · by_cases h2 : dm.size < dm.pos + 2
          · exact Or.inl (Or.inr h2)
          · exact Or.inr ⟨by omega, by omega⟩

theorem readTable_getD (n : Nat) (dm : DataManager) (hbig : dm.isBig = true) (i : Nat)
    (hi : i < n) :
    (ChunkV12.readTable n dm).1.getD i 0 = loadBE dm.data (dm.pos + 2 * i) 2 := by
  induction n generalizing dm i with
  | zero => omega
  | succ n ih =>
    simp only [ChunkV12.readTable]
    cases i with
    | zero =>
      simp only [List.getD_cons_zero, DataManager.read_fst, hbig, if_true, Nat.mul_zero,
        Nat.add_zero]
    | succ i =>
      simp only [List.getD_cons_succ]
      rw [ih (dm.read 2).2 (by rw [DataManager.read_isBig]; exact hbig) i (by omega)]
      simp only [DataManager.read_data, DataManager.read_pos]
      rw [show dm.pos + 2 + 2 * i = dm.pos + 2 * (i + 1) by omega]

/-- The cursor `readBlockData` hands to the section loop. -/
theorem readBlockData_cursor (dm : DataManager) :
    ((ChunkV12.readTable 16 (dm.read 2).2).2.skip 16).data = dm.data ∧
    ((ChunkV12.readTable 16 (dm.read 2).2).2.skip 16).pos = dm.pos + 50 ∧
    ((ChunkV12.readTable 16 (dm.read 2).2).2.skip 16).size = dm.size ∧
    (((ChunkV12.readTable 16 (dm.read 2).2).2.skip 16).oob = true ↔
      (dm.oob = true ∨ dm.size < dm.pos + 34)) := by
  obtain ⟨h1, h2, h3, h4, h5⟩ := readTable_frame 16 (dm.read 2).2
  refine ⟨?_, ?_, ?_, ?_⟩
  · rw [DataManager.skip_data, h4]; rfl
  · rw [DataManager.skip_pos, h1, DataManager.read_pos]
  · rw [DataManager.skip_size, h2]; rfl
  · rw [DataManager.skip_oob, h5]
    simp only [DataManager.read_oob, DataManager.read_size, DataManager.read_pos,
      Bool.or_eq_true, decide_eq_true_eq]
    constructor
    · rintro ((h | h) | ⟨_, h⟩)
      · exact Or.inl h
      · exact Or.inr (by omega)
      · exact Or.inr (by omega)
    · rintro (h | h)
      · exact Or.inl (Or.inl h)
      · exact Or.inr ⟨by omega, by omega⟩

/-- The function `readBlockData` on a big-endian cursor whose tables lie inside the
buffer and whose `max_section_address` is not 0, when the section loop ends without
a `return`: the final `seek`. -/
theorem readBlockData_run (dm : DataManager) (chunk : ChunkData) (hbig : dm.isBig = true)
    (hoob : dm.oob = false) (hsz : dm.pos + 34 ≤ dm.size)
    (hmax : (loadBE dm.data dm.pos 2 <<< 8) % 2 ^ 32 ≠ 0) (st : DataManager × ChunkData)
    (hrun : ChunkV12.readSections ((loadBE dm.data dm.pos 2 <<< 8) % 2 ^ 32)
      (ChunkV12.readTable 16 (dm.read 2).2).1 (dm.pos + 34) (List.range 16)
      ((ChunkV12.readTable 16 (dm.read 2).2).2.skip 16, chunk) = Flow.run st) :
    ChunkV12.readBlockData dm chunk =
      some (st.1.seek (76 + (loadBE dm.data dm.pos 2 <<< 8) % 2 ^ 32), st.2) := by
  obtain ⟨c1, c2, c3, c4⟩ := readBlockData_cursor dm
  have hno : ((ChunkV12.readTable 16 (dm.read 2).2).2.skip 16).oob = false := by
    rw [← Bool.not_eq_true, c4]
    rintro (h | h)
    · rw [hoob] at h; cases h
    · omega
  have hpos : (ChunkV12.readTable 16 (dm.read 2).2).2.pos = dm.pos + 34 := by
    rw [(readTable_frame 16 (dm.read 2).2).1, DataManager.read_pos]
  simp only [ChunkV12.readBlockData, hno, DataManager.read_fst, hbig, if_true, hmax, if_false,
    hpos, Bool.false_eq_true, hrun]

/-- The same when a grid body executes `return`: the state is left as it is. -/
theorem readBlockData_ret (dm : DataManager) (chunk : ChunkData) (hbig : dm.isBig = true)
    (hoob : dm.oob = false) (hsz : dm.pos + 34 ≤ dm.size)
    (hmax : (loadBE dm.data dm.pos 2 <<< 8) % 2 ^ 32 ≠ 0) (st : DataManager × ChunkData)
    (hrun : ChunkV12.readSections ((loadBE dm.data dm.pos 2 <<< 8) % 2 ^ 32)
      (ChunkV12.readTable 16 (dm.read 2).2).1 (dm.pos + 34) (List.range 16)
      ((ChunkV12.readTable 16 (dm.read 2).2).2.skip 16, chunk) = Flow.ret st) :
    ChunkV12.readBlockData dm chunk = some st := by
  obtain ⟨c1, c2, c3, c4⟩ := readBlockData_cursor dm
  have hno : ((ChunkV12.readTable 16 (dm.read 2).2).2.skip 16).oob = false := by
    rw [← Bool.not_eq_true, c4]
    rintro (h | h)
    · rw [hoob] at h; cases h
    · omega
  have hpos : (ChunkV12.readTable 16 (dm.read 2).2).2.pos = dm.pos + 34 := by
    rw [(readTable_frame 16 (dm.read 2).2).1, DataManager.read_pos]
  simp only [ChunkV12.readBlockData, hno, DataManager.read_fst, hbig, if_true, hmax, if_false,
    hpos, Bool.false_eq_true, hrun]

/-- The function `readBlockData` when `max_section_address` is 0: nothing is read
after the tables. -/
theorem readBlockData_empty (dm : DataManager) (chunk : ChunkData) (hbig : dm.isBig = true)
    (hoob : dm.oob = false) (hsz : dm.pos + 34 ≤ dm.size)
    (hmax : loadBE dm.data dm.pos 2 = 0) :
    ChunkV12.readBlockData dm chunk =
      some ((ChunkV12.readTable 16 (dm.read 2).2).2.skip 16, chunk) := by
  obtain ⟨c1, c2, c3, c4⟩ := readBlockData_cursor dm
  have hno : ((ChunkV12.readTable 16 (dm.read 2).2).2.skip 16).oob = false := by
    rw [← Bool.not_eq_true, c4]
    rintro (h | h)
    · rw [hoob] at h; cases h
    · omega
  simp only [ChunkV12.readBlockData, hno, DataManager.read_fst, hbig, if_true, hmax,
    Nat.zero_shiftLeft, Nat.zero_mod, Bool.false_eq_true, if_false]

theorem loadBE_two (d : Nat → Nat) (a : Nat) :
    loadBE d a 2 = byteAt d a * 256 + byteAt d (a + 1) := by
  simp [loadBE]

theorem range_sixteen :
    List.range 16 = 0 :: 1 :: [2, 3, 4, 5, 6, 7, 8, 9, 10, 11, 12, 13, 14, 15] := by
  decide

/-! ### Encoding a chunk whose section 0 is one block -/

theorem layer_section0 (v : Nat) (c : ChunkData) (hc : LayerChunk v c) :
    ∀ off ∈ sectionGridOffsets 0, ∀ i ∈ gridCellIndices off,
      c.newBlocks.get i = (fun _ => v) off ∧
        (c.submerged.get i = 0 ∨ c.submerged.get i = (fun _ => v) off) := by
  intro off ho i hi
  obtain ⟨_, h2⟩ := section_cell 0 off i (by decide) ho hi
  have h16 : i % 256 < 16 := by omega
  refine ⟨?_, ?_⟩
  · rw [hc.blocks i, if_pos h16]
  · rcases hc.sub i with h | ⟨_, h⟩
    · exact Or.inl h
    · exact Or.inr h

theorem layer_section_above (v : Nat) (c : ChunkData) (hc : LayerChunk v c) (s : Nat)
    (hs : 0 < s) (hs16 : s < 16) :
    ∀ off ∈ sectionGridOffsets s, ∀ i ∈ gridCellIndices off,
      c.newBlocks.get i = 0 ∧ c.submerged.get i = 0 := by
  intro off ho i hi
  obtain ⟨_, h2⟩ := section_cell s off i hs16 ho hi
  have h16 : ¬ i % 256 < 16 := by omega
  refine ⟨?_, ?_⟩
  · rw [hc.blocks i, if_neg h16]
  · rcases hc.sub i with h | ⟨h, _⟩
    · exact h
    · exact absurd h h16

/-- The encoder state after section 0 of a layer chunk: the section is present with
the 64 header words `v`, its size entry is 1 and `last_section_jump` is 1. -/
theorem layer_first (v : Nat) (c : ChunkData) (hc : LayerChunk v c) (hv0 : 0 < v)
    (hv : v < 65536) (dm : DataManager) :
    ChunkV12.sectionsPrefix 1 dm c =
      { dm := writeGridHeader (dm.seek 204) 76 ((sectionGridOffsets 0).map fun _ => v),
        blockMap := fun _ => 0,
        last_section_jump := 1, last_section_size := 1,
        sectJumpTable := Function.update (fun _ => 0) 0 0,
        sectSizeTable := Function.update (fun _ => 0) 0 1 } := by
  have hg := writeSectionGrids_uniform c 0 (WriteState.init dm) (fun _ => v) rfl
    (layer_section0 v c hc)
  have hp := closeSection_present 0 (WriteState.init dm)
    { dm := (WriteState.init dm).dm.seek (76 + (WriteState.init dm).last_section_jump * 256 % 2 ^ 32 + 128),
      blockMap := fun _ => 0, gridHeader := (sectionGridOffsets 0).map fun _ => v,
      sectionSize := 0 }
    (by
      intro h
      rw [header_is0_iff] at h
      · have := h 0 (by decide)
        rw [map_const_getD _ _ _ (by rw [sectionGridOffsets_length]; decide)] at this
        omega
      · intro g hg
        rw [map_const_getD _ _ _ (by rw [sectionGridOffsets_length]; exact hg)]
        exact hv)
  have e := sectionsPrefix_succ 0 dm c
  rw [show ChunkV12.sectionsPrefix 0 dm c = WriteState.init dm from rfl] at e
  rw [e, ChunkV12.writeSection, hg, hp]
  simp only [WriteState.init, Nat.zero_mul, Nat.zero_mod, Nat.add_zero, Nat.zero_add,
    Nat.reduceAdd, Nat.reduceDiv, Nat.reduceMod]
  rfl

/-- The encoder state after `n + 1` sections of a layer chunk. -/
theorem layer_prefix (v : Nat) (c : ChunkData) (hc : LayerChunk v c) (hv0 : 0 < v)
    (hv : v < 65536) (dm : DataManager) (n : Nat) (hn : n < 16) :
    (ChunkV12.sectionsPrefix (n + 1) dm c).last_section_jump = 1 ∧
    (ChunkV12.sectionsPrefix (n + 1) dm c).sectSizeTable = (fun t => if t = 0 then 1 else 0) ∧
    (ChunkV12.sectionsPrefix (n + 1) dm c).sectJumpTable
      = (fun t => if 1 ≤ t ∧ t ≤ n then 256 else 0) ∧
    (ChunkV12.sectionsPrefix (n + 1) dm c).dm.size = dm.size ∧
    (ChunkV12.sectionsPrefix (n + 1) dm c).dm.oob
      = (dm.oob || decide (dm.size < 204) || decide (0 < n ∧ dm.size < 460)) ∧
    ∀ a, (ChunkV12.sectionsPrefix (n + 1) dm c).dm.data a =
      if 76 ≤ a ∧ a < 204 then v / 256 ^ ((a - 76) % 2) % 256
      else if 0 < n ∧ 332 ≤ a ∧ a < 460 then 0 else dm.data a := by
  induction n with
  | zero =>
    obtain ⟨g1, g2, g3, g4, g5⟩ := writeGridHeader_spec (dm.seek 204) 76
      ((sectionGridOffsets 0).map fun _ => v)
    rw [layer_first v c hc hv0 hv dm]
    dsimp only
    refine ⟨rfl, ?_, ?_, ?_, ?_, ?_⟩
    · funext t
      by_cases ht : t = 0
      · rw [ht, Function.update_same, if_pos rfl]
      · rw [Function.update_noteq ht, if_neg ht]
    · funext t
      rw [if_neg (by omega)]
      by_cases ht : t = 0
      · rw [ht, Function.update_same]
      · rw [Function.update_noteq ht]
    · simp only [g2, DataManager.seek_size]
    · simp only [g4, DataManager.seek_oob, DataManager.seek_size]
      have e : decide (0 < 0 ∧ dm.size < 460) = false := by
        rw [decide_eq_false_iff_not]; omega
      rw [e, Bool.or_false]
    · intro a
      simp only [g5 a, DataManager.seek_data]
      by_cases ha : 76 ≤ a ∧ a < 204
      · rw [if_pos (by omega), if_pos ha,
          map_const_getD _ _ _ (by rw [sectionGridOffsets_length]; omega)]
      · rw [if_neg (by omega), if_neg ha, if_neg (by omega)]
  | succ n ih =>
    obtain ⟨h1, h2, h3, h5, h6, h7⟩ := ih (by omega)
    have hw := writeSection_zero c (n + 1) (ChunkV12.sectionsPrefix (n + 1) dm c)
      (sectionsPrefix_clean (n + 1) dm c)
      (layer_section_above v c hc (n + 1) (by omega) hn)
    rw [← sectionsPrefix_succ, h1] at hw
    simp only [Nat.one_mul, Nat.reducePow, Nat.reduceMod, Nat.reduceAdd] at hw
    obtain ⟨g1, g2, g3, g4, g5⟩ := writeGridHeader_spec
      ((ChunkV12.sectionsPrefix (n + 1) dm c).dm.seek 460) 332
      ((sectionGridOffsets (n + 1)).map fun _ => 0)
    rw [hw]
    refine ⟨rfl, ?_, ?_, ?_, ?_, ?_⟩
    · simp only [h2]
      funext t
      by_cases ht : t = n + 1
      · rw [ht, Function.update_same, if_neg (by omega)]
      · rw [Function.update_noteq ht]
    · simp only [h3]
      funext t
      by_cases ht : t = n + 1
      · rw [ht, Function.update_same, if_pos (by omega)]
      · rw [Function.update_noteq ht]
        by_cases c1 : 1 ≤ t ∧ t ≤ n
        · rw [if_pos c1, if_pos (by omega)]
        · rw [if_neg c1, if_neg (by omega)]
    · simp only [DataManager.skipBack_size, g2, DataManager.seek_size, h5]
    · simp only [DataManager.skipBack_oob, g4, DataManager.seek_oob, DataManager.seek_size, h5, h6]
      by_cases hob : dm.oob = true
      · simp [hob]
      · simp only [Bool.not_eq_true] at hob
        by_cases hsz : dm.size < 460
        · by_cases hsz2 : dm.size < 204
          · simp [hob, hsz, hsz2]
          · simp [hob, hsz, hsz2]
        · have hsz2 : ¬ dm.size < 204 := by omega
          simp [hob, hsz, hsz2]
    · intro a
      simp only [DataManager.skipBack_data, g5 a, DataManager.seek_data, h7 a]
      by_cases c1 : 76 ≤ a ∧ a < 204
      · rw [if_neg (by omega), if_pos c1, if_pos c1]
      · rw [if_neg c1, if_neg c1]
        by_cases c2 : 332 ≤ a ∧ a < 460
        · rw [if_pos (by omega), if_pos (by omega),
            map_const_getD _ _ _ (by rw [sectionGridOffsets_length]; omega)]
          simp
        · rw [if_neg (by omega), if_neg (by omega), if_neg (by omega)]

/-! ### The bytes of an encoded layer chunk -/

/-- The block data `ChunkV12::writeBlockData` produces for a layer chunk. -/
theorem layer_bytes (v : Nat) (c : ChunkData) (hc : LayerChunk v c) (hv0 : 0 < v)
    (hv : v < 4096) (dm : DataManager) (hsize : 460 ≤ dm.size) (hoob : dm.oob = false) :
    ChunkV12.writeBlockData dm c = some (ChunkV12.writeBlockDataRun dm c) ∧
    (ChunkV12.writeBlockDataRun dm c).size = dm.size ∧
    (ChunkV12.writeBlockDataRun dm c).isBig = true ∧
    (ChunkV12.writeBlockDataRun dm c).oob = false ∧
    (ChunkV12.writeBlockDataRun dm c).pos = 332 ∧
    (ChunkV12.writeBlockDataRun dm c).data 26 = 0 ∧
    (ChunkV12.writeBlockDataRun dm c).data 27 = 1 ∧
    (∀ s, s < 16 → (ChunkV12.writeBlockDataRun dm c).data (28 + 2 * s) = (if s = 0 then 0 else 1) ∧
      (ChunkV12.writeBlockDataRun dm c).data (28 + 2 * s + 1) = 0) ∧
    (∀ s, s < 16 → (ChunkV12.writeBlockDataRun dm c).data (60 + s) = if s = 0 then 1 else 0) ∧
    (∀ g, g < 64 → (ChunkV12.writeBlockDataRun dm c).data (76 + 2 * g) = v % 256 ∧
      (ChunkV12.writeBlockDataRun dm c).data (76 + 2 * g + 1) = v / 256) ∧
    (∀ a, a < 26 → (ChunkV12.writeBlockDataRun dm c).data a = dm.data a) := by
  obtain ⟨h1, h2, h3, h5, h6, h7⟩ := layer_prefix v c hc hv0 (by omega) dm 15 (by decide)
  have hbig := sectionsPrefix_isBig 16 (by decide) dm c
  obtain ⟨p1, p2, p3, p4, p5⟩ := patchHeader_spec (ChunkV12.sectionsPrefix 16 dm c) hbig
  have hrun : ChunkV12.writeBlockDataRun dm c = patchHeader (ChunkV12.sectionsPrefix 16 dm c) := by
    rw [ChunkV12.writeBlockDataRun, normalize_of_size c hc.bsize hc.ssize, writeSections_eq]
  have hoobr : (ChunkV12.writeBlockDataRun dm c).oob = false := by
    rw [hrun, p4, h6, h5, hoob]
    have e1 : decide (dm.size < 204) = false := by
      rw [decide_eq_false_iff_not]; omega
    have e2 : decide (0 < 15 ∧ dm.size < 460) = false := by
      rw [decide_eq_false_iff_not]; omega
    have e3 : decide (dm.size < 76) = false := by
      rw [decide_eq_false_iff_not]; omega
    rw [e1, e2, e3]
    rfl
  have hd : ∀ a, (ChunkV12.writeBlockDataRun dm c).data a =
      if 26 ≤ a ∧ a < 28 then 1 / 256 ^ (1 - (a - 26)) % 256
      else if 28 ≤ a ∧ a < 60 then
        (if 1 ≤ (a - 28) / 2 ∧ (a - 28) / 2 ≤ 15 then 256 else 0) / 256 ^ (1 - (a - 28) % 2) % 256
      else if 60 ≤ a ∧ a < 76 then (if a - 60 = 0 then 1 else 0) % 256
      else if 76 ≤ a ∧ a < 204 then v / 256 ^ ((a - 76) % 2) % 256
      else if 0 < 15 ∧ 332 ≤ a ∧ a < 460 then 0 else dm.data a := by
    intro a
    rw [hrun, p5 a, h1, h2, h3, h7 a]
    rfl
  refine ⟨?_, ?_, ?_, hoobr, ?_, ?_, ?_, ?_, ?_, ?_, ?_⟩
  · simp only [ChunkV12.writeBlockData, hoobr, Bool.false_eq_true, if_false]
  · rw [hrun, p2, h5]
  · rw [hrun, p3]
  · rw [hrun, p1, h1]
    norm_num
  · rw [hd 26, if_pos (by omega)]
    decide
  · rw [hd 27, if_pos (by omega)]
    decide
  · intro s hs
    have hA := hd (28 + 2 * s)
    have hB := hd (28 + 2 * s + 1)
    rw [if_neg (by omega), if_pos (by omega), show (28 + 2 * s - 28) / 2 = s by omega,
      show (28 + 2 * s - 28) % 2 = 0 by omega] at hA
    rw [if_neg (by omega), if_pos (by omega), show (28 + 2 * s + 1 - 28) / 2 = s by omega,
      show (28 + 2 * s + 1 - 28) % 2 = 1 by omega] at hB
    rw [hA, hB]
    by_cases hs0 : s = 0
    · rw [if_pos hs0, if_neg (by omega)]
      exact ⟨by decide, by decide⟩
    · rw [if_neg hs0, if_pos (by omega)]
      exact ⟨by decide, by decide⟩
  · intro s hs
    rw [hd (60 + s), if_neg (by omega), if_neg (by omega), if_pos (by omega),
      show 60 + s - 60 = s by omega]
    by_cases hs0 : s = 0
    · rw [if_pos hs0]
    · rw [if_neg hs0]
  · intro g hg
    have hA := hd (76 + 2 * g)
    have hB := hd (76 + 2 * g + 1)
    rw [if_neg (by omega), if_neg (by omega), if_neg (by omega), if_pos (by omega),
      show (76 + 2 * g - 76) % 2 = 0 by omega, Nat.pow_zero, Nat.div_one] at hA
    rw [if_neg (by omega), if_neg (by omega), if_neg (by omega), if_pos (by omega),
      show (76 + 2 * g + 1 - 76) % 2 = 1 by omega, Nat.pow_one] at hB
    rw [hA, hB]
    exact ⟨rfl, by omega⟩
  · intro a ha
    rw [hd a, if_neg (by omega), if_neg (by omega), if_neg (by omega), if_neg (by omega),
      if_neg (by omega)]

/-! ### Decoding the bytes of a layer chunk -/

/-- The decoder on block data whose tables are those of a layer chunk and whose
section at address 0 holds 64 header words `v`. -/
theorem layer_decode (v : Nat) (hv : v < 4096) (R : DataManager) (hbig : R.isBig = true)
    (hoob : R.oob = false) (hpos : R.pos = 26) (hsz : 60 ≤ R.size)
    (d26 : R.data 26 = 0) (d27 : R.data 27 = 1)
    (dj : ∀ s, s < 16 → R.data (28 + 2 * s) = (if s = 0 then 0 else 1) ∧
      R.data (28 + 2 * s + 1) = 0)
    (ds : R.data 60 = 1)
    (dh : ∀ g, g < 64 → R.data (76 + 2 * g) = v % 256 ∧ R.data (76 + 2 * g + 1) = v / 256)
    (c0 : ChunkData) :
    ∃ st, ChunkV12.readBlockData R c0 = some st ∧ st.1.pos = 332 ∧ UnoInv R.data c0 v 0 st ∧
      ∀ i, i < 65536 → i % 256 / 16 = 0 → st.2.newBlocks.cells i = v := by
  have hmaxv : loadBE R.data R.pos 2 = 1 := by
    rw [loadBE_two, hpos, byteAt, byteAt, d26, d27]
  have hmax : (loadBE R.data R.pos 2 <<< 8) % 2 ^ 32 = 256 := by
    rw [hmaxv]; decide
  obtain ⟨c1, c2, c3, c4⟩ := readBlockData_cursor R
  have htab : ∀ s, s < 16 → (ChunkV12.readTable 16 (R.read 2).2).1.getD s 0 =
      if s = 0 then 0 else 256 := by
    intro s hs
    rw [readTable_getD 16 (R.read 2).2 (by rw [DataManager.read_isBig]; exact hbig) s hs,
      DataManager.read_data, DataManager.read_pos, hpos, loadBE_two, byteAt, byteAt,
      show 26 + 2 + 2 * s = 28 + 2 * s by omega, (dj s hs).1, (dj s hs).2]
    by_cases hs0 : s = 0
    · rw [if_pos hs0, if_pos hs0]
    · rw [if_neg hs0, if_neg hs0]
  have hdr : ∀ g, g < 64 → byteAt R.data (76 + 0 + g * 2) = v % 256 ∧
      byteAt R.data (76 + 0 + (g * 2 + 1)) = v / 256 := by
    intro g hg
    rw [byteAt, byteAt, show 76 + 0 + g * 2 = 76 + 2 * g by omega,
      show 76 + 0 + (g * 2 + 1) = 76 + 2 * g + 1 by omega, (dh g hg).1, (dh g hg).2]
    exact ⟨by omega, by omega⟩
  obtain ⟨s1, e1, inv1, cells1⟩ := readSectionGrids_uno (76 + 0) 0 0 v R.data c0 (by decide) hv
    hdr ((((ChunkV12.readTable 16 (R.read 2).2).2.skip 16).seek (76 + 0)).skip 128, c0)
    ⟨by rw [DataManager.skip_data, DataManager.seek_data, c1], rfl, rfl, fun i => Or.inr rfl⟩
  have t0 := htab 0 (by decide)
  have t1 := htab 1 (by decide)
  rw [if_pos rfl] at t0
  rw [if_neg (by decide)] at t1
  have hsec : ChunkV12.readSections ((loadBE R.data R.pos 2 <<< 8) % 2 ^ 32)
      (ChunkV12.readTable 16 (R.read 2).2).1 (R.pos + 34) (List.range 16)
      ((ChunkV12.readTable 16 (R.read 2).2).2.skip 16, c0) =
      Flow.run (s1.1.seek (76 + 256), s1.2) := by
    rw [hmax, hpos, range_sixteen,
      readSections_read 256 _ (26 + 34) 0 _ _ s1 (by rw [t0]; decide)
        (by
          show byteAt ((ChunkV12.readTable 16 (R.read 2).2).2.skip 16).data (26 + 34 + 0) ≠ 0
          rw [c1, byteAt, show 26 + 34 + 0 = 60 by rfl, ds]
          decide)
        (by rw [t0]; exact e1),
      readSections_break 256 _ (26 + 34) 1 _ s1 t1]
  have hb := readBlockData_run R c0 hbig hoob (by omega) (by rw [hmax]; decide) _ hsec
  rw [hmax] at hb
  refine ⟨_, hb, rfl, ⟨inv1.data, inv1.rest, inv1.vsize, inv1.cells⟩, cells1⟩

/-! ### Encode then decode for a layer chunk -/

/-- Encoding a layer chunk with `ChunkV12::writeBlockData` and decoding the bytes with
`ChunkV12::readBlockData` into a fresh chunk: the blocks come back, the submerged
layer comes back all 0. -/
theorem layer_roundtrip (v : Nat) (c : ChunkData) (hc : LayerChunk v c) (hv0 : 0 < v)
    (hv : v < 4096) (dm : DataManager) (hsize : 460 ≤ dm.size) (hoob : dm.oob = false) :
    ∃ st, ChunkV12.readBlockData ((ChunkV12.writeBlockDataRun dm c).seek 26)
        (ChunkV12.allocChunk ChunkData.fresh) = some st ∧
      (∀ i, i < 65536 → st.2.newBlocks.get i = c.newBlocks.get i) ∧
      (∀ i, st.2.submerged.get i = 0) ∧ st.2.hasSubmerged = false := by
  obtain ⟨_, b2, b3, b4, _, b6, b7, b8, b9, b10, _⟩ := layer_bytes v c hc hv0 hv dm hsize hoob
  generalize ChunkV12.writeBlockDataRun dm c = r at b2 b3 b4 b6 b7 b8 b9 b10 ⊢
  obtain ⟨st, e, _, inv, cells⟩ := layer_decode v hv (r.seek 26)
    b3 b4 rfl (by rw [DataManager.seek_size, b2]; omega) b6 b7 b8
    (by have := b9 0 (by decide); rw [if_pos rfl] at this; exact this) b10
    (ChunkV12.allocChunk ChunkData.fresh)
  refine ⟨st, e, ?_, ?_, ?_⟩
  · intro i hi
    rw [hc.blocks i]
    by_cases h16 : i % 256 < 16
    · rw [if_pos h16, U16Vec.get, cells i hi (by omega)]
      omega
    · rw [if_neg h16]
      rcases inv.cells i with ⟨_, _, h⟩ | h
      · omega
      · rw [U16Vec.get, h]
        rfl
  · intro i
    have := congrArg ChunkData.submerged inv.rest
    dsimp only at this
    rw [this]
    rfl
  · have := congrArg ChunkData.hasSubmerged inv.rest
    dsimp only at this
    rw [this]
    rfl

theorem stoneChunk_layer : LayerChunk 0x0010 stoneChunk := by
  refine ⟨rfl, rfl, ?_, fun i => Or.inl rfl⟩
  intro i
  show (if i % 256 < 16 then 0x0010 else 0) % 65536 = _
  by_cases h : i % 256 < 16
  · rw [if_pos h]
  · rw [if_neg h]

theorem soakedChunk_layer : LayerChunk 0x0800 soakedChunk := by
  refine ⟨rfl, rfl, ?_, ?_⟩
  · intro i
    show (if i % 256 < 16 then 0x0800 else 0) % 65536 = _
    by_cases h : i % 256 < 16
    · rw [if_pos h]
    · rw [if_neg h]
  · intro i
    show (if i = 0 then 0x0800 else 0) % 65536 = 0 ∨
      i % 256 < 16 ∧ (if i = 0 then 0x0800 else 0) % 65536 = 0x0800
    by_cases h : i = 0
    · rw [if_pos h, h]
      exact Or.inr ⟨by decide, rfl⟩
    · rw [if_neg h]
      exact Or.inl rfl

/-- C8 (scenario S1): for the stone chunk, on a buffer with room for the section
stream, `ChunkV12::writeBlockData` succeeds; the size-table entry of section 0 is 1
and that of every other section is 0; the 64 grid-header words of section 0 have the
bytes `0x10`, `0x00`; the grid loops of section 0 write no payload (`sectionSize`
stays 0 and the stream ends after one 256-byte block, at offset 332); and
`ChunkV12::readBlockData` on those bytes returns the blocks and the all-zero
submerged layer of the stone chunk. -/
theorem stone_chunk_roundtrip (dm : DataManager) (hsize : 460 ≤ dm.size)
    (hoob : dm.oob = false) :
    ∃ r, ChunkV12.writeBlockData dm stoneChunk = some r ∧
      r.data 60 = 1 ∧ (∀ s, 0 < s → s < 16 → r.data (60 + s) = 0) ∧
      (∀ g, g < 64 → r.data (76 + 2 * g) = 0x10 ∧ r.data (76 + 2 * g + 1) = 0x00) ∧
      (ChunkV12.writeSectionGrids stoneChunk 0 (sectionStart (WriteState.init dm))).sectionSize
        = 0 ∧
      r.pos = 332 ∧
      ∃ st, ChunkV12.readBlockData (r.seek 26) (ChunkV12.allocChunk ChunkData.fresh) = some st ∧
        ∀ i, i < 65536 → st.2.newBlocks.get i = stoneChunk.newBlocks.get i ∧
          st.2.submerged.get i = stoneChunk.submerged.get i := by
  obtain ⟨b1, _, _, _, b5, _, _, _, b9, b10, _⟩ :=
    layer_bytes 0x0010 stoneChunk stoneChunk_layer (by decide) (by decide) dm hsize hoob
  obtain ⟨st, e, hb, hs, _⟩ :=
    layer_roundtrip 0x0010 stoneChunk stoneChunk_layer (by decide) (by decide) dm hsize hoob
  refine ⟨_, b1, ?_, ?_, ?_, ?_, b5, st, e, fun i hi => ⟨hb i hi, (hs i).trans rfl⟩⟩
  · have := b9 0 (by decide)
    rw [if_pos rfl] at this
    exact this
  · intro s h0 hs16
    have := b9 s hs16
    rw [if_neg (by omega)] at this
    exact this
  · intro g hg
    exact b10 g hg
  · rw [writeSectionGrids_uniform stoneChunk 0 (WriteState.init dm) (fun _ => 0x0010) rfl
      (layer_section0 0x0010 stoneChunk stoneChunk_layer)]

/-- Witness of C8 on a zero-filled buffer of 65 536 bytes with the cursor at 26. -/
theorem stone_chunk_roundtrip_witness :
    (460 ≤ (emptyBuffer 65536 26).size ∧ (emptyBuffer 65536 26).oob = false) ∧
    ∃ r, ChunkV12.writeBlockData (emptyBuffer 65536 26) stoneChunk = some r ∧
      r.data 60 = 1 ∧ (∀ s, 0 < s → s < 16 → r.data (60 + s) = 0) ∧
      (∀ g, g < 64 → r.data (76 + 2 * g) = 0x10 ∧ r.data (76 + 2 * g + 1) = 0x00) ∧
      (ChunkV12.writeSectionGrids stoneChunk 0
        (sectionStart (WriteState.init (emptyBuffer 65536 26)))).sectionSize = 0 ∧
      r.pos = 332 ∧
      ∃ st, ChunkV12.readBlockData (r.seek 26) (ChunkV12.allocChunk ChunkData.fresh) = some st ∧
        ∀ i, i < 65536 → st.2.newBlocks.get i = stoneChunk.newBlocks.get i ∧
          st.2.submerged.get i = stoneChunk.submerged.get i :=
  ⟨⟨by decide, rfl⟩, stone_chunk_roundtrip (emptyBuffer 65536 26) (by decide) rfl⟩

/-- C1, at a failing input: for the chunk whose section 0 is water with one
submerged water cell, `ChunkV12::writeBlockData` succeeds and
`ChunkV12::readBlockData` on the bytes returns the blocks, but the submerged cell
`(0, 0, 0)`, which is `0x0800` in the chunk, comes back 0 and `hasSubmerged` false. -/
theorem submerged_layer_lost (dm : DataManager) (hsize : 460 ≤ dm.size)
    (hoob : dm.oob = false) :
    ∃ r, ChunkV12.writeBlockData dm soakedChunk = some r ∧
      ∃ st, ChunkV12.readBlockData (r.seek 26) (ChunkV12.allocChunk ChunkData.fresh) = some st ∧
        (∀ i, i < 65536 → st.2.newBlocks.get i = soakedChunk.newBlocks.get i) ∧
        soakedChunk.submerged.get 0 = 0x0800 ∧
        st.2.submerged.get 0 = 0 ∧ st.2.hasSubmerged = false := by
  obtain ⟨b1, _⟩ :=
    layer_bytes 0x0800 soakedChunk soakedChunk_layer (by decide) (by decide) dm hsize hoob
  obtain ⟨st, e, hb, hs, hh⟩ :=
    layer_roundtrip 0x0800 soakedChunk soakedChunk_layer (by decide) (by decide) dm hsize hoob
  exact ⟨_, b1, st, e, hb, rfl, hs 0, hh⟩

/-- Witness of the C1 theorem on a zero-filled buffer of 65 536 bytes. -/
theorem submerged_layer_lost_witness :
    (460 ≤ (emptyBuffer 65536 26).size ∧ (emptyBuffer 65536 26).oob = false) ∧
    ∃ r, ChunkV12.writeBlockData (emptyBuffer 65536 26) soakedChunk = some r ∧
      ∃ st, ChunkV12.readBlockData (r.seek 26) (ChunkV12.allocChunk ChunkData.fresh) = some st ∧
        (∀ i, i < 65536 → st.2.newBlocks.get i = soakedChunk.newBlocks.get i) ∧
        soakedChunk.submerged.get 0 = 0x0800 ∧
        st.2.submerged.get 0 = 0 ∧ st.2.hasSubmerged = false :=
  ⟨⟨by decide, rfl⟩, submerged_layer_lost (emptyBuffer 65536 26) (by decide) rfl⟩

/-! ### UNO grids -/

set_option maxRecDepth 100000 in
/-- C5, counterexample: for `v = 0x1000` the encoder does emit the header word
`0x1000` with no payload, but the decoder takes the top nibble of that word as the
format tag 1, which is no known tag: it returns and cell 0 keeps the value 0. -/
theorem uno_wide_value_counterexample :
    (ChunkV12.writeGridBody (uniformChunk 0x1000) 0
      { dm := emptyBuffer 65536 204, blockMap := fun _ => 0, gridHeader := [],
        sectionSize := 0 }).gridHeader = [0x1000] ∧
    (headerWordBuffer 0x1000).byte 76 = 0x00 ∧ (headerWordBuffer 0x1000).byte 77 = 0x10 ∧
    (ChunkV12.readGridBody 76 0 0 0 0 0
      (headerWordBuffer 0x1000, ChunkV12.allocChunk ChunkData.fresh)).returned = true ∧
    ¬ ((ChunkV12.readGridBody 76 0 0 0 0 0
      (headerWordBuffer 0x1000, ChunkV12.allocChunk ChunkData.fresh)).state.2.newBlocks.get 0
        = 0x1000) := by
  refine ⟨?_, by decide, by decide, by decide, by decide⟩
  rw [writeGridBody_uniform (uniformChunk 0x1000) 0 0x1000 _ rfl (fun i _ => ⟨rfl, Or.inl rfl⟩)]
  rfl

/-- C5, amended: for every value `v < 0x1000`, a grid whose 64 block cells are `v`
with no submerged cell is encoded by the v12 and the v13 encoder as the header word
`v`, with the cursor and `sectionSize` unchanged (no payload byte); and the decoder,
on a header word whose two bytes are those of `v` (low byte first), goes on to the
next grid with the 64 cells of the grid set to `v` and all other cells as before. -/
theorem uno_grid_roundtrip (v : Nat) (hv : v < 0x1000) (c : ChunkData) (off : Nat)
    (ss : SectionState) (hbm : ss.blockMap = fun _ => 0)
    (h : ∀ i ∈ gridCellIndices off, c.newBlocks.get i = v ∧ c.submerged.get i = 0) :
    ChunkV12.writeGridBody c off ss =
      { dm := ss.dm, blockMap := fun _ => 0, gridHeader := ss.gridHeader ++ [v],
        sectionSize := ss.sectionSize } ∧
    ChunkV13.writeGridBody c off ss =
      { dm := ss.dm, blockMap := fun _ => 0, gridHeader := ss.gridHeader ++ [v],
        sectionSize := ss.sectionSize } ∧
    ∀ (sectionHeader address sect gridX gridZ gridY : Nat) (st : DataManager × ChunkData),
      st.1.byte (sectionHeader + (gridX * 16 + gridZ * 4 + gridY) * 2) = v % 256 →
      st.1.byte (sectionHeader + ((gridX * 16 + gridZ * 4 + gridY) * 2 + 1)) = v / 256 →
      ∃ st1, ChunkV12.readGridBody sectionHeader address sect gridX gridZ gridY st
          = Flow.run st1 ∧
        st1.2.submerged = st.2.submerged ∧
        ∀ i, st1.2.newBlocks.get i =
          if i ∈ gridCellIndices (sect * 16 + gridY * 4 + gridZ * 1024 + gridX * 16384) then v
          else st.2.newBlocks.get i := by
  refine ⟨writeGridBody_uniform c off v ss hbm (fun i hi => ⟨(h i hi).1, Or.inl (h i hi).2⟩),
    writeGridBody13_uniform c off v ss hbm (fun i hi => (h i hi).1), ?_⟩
  intro sectionHeader address sect gridX gridZ gridY st h1 h2
  obtain ⟨p, hp⟩ := readGridBody_uno sectionHeader address sect gridX gridZ gridY v st hv h1 h2
  obtain ⟨_, pcells⟩ := placeBlocks_uno st.2.newBlocks v
    (sect * 16 + gridY * 4 + gridZ * 1024 + gridX * 16384) (by omega)
  generalize ChunkV12.placeBlocks st.2.newBlocks (unoGrid (v % 256) (v / 256))
    (sect * 16 + gridY * 4 + gridZ * 1024 + gridX * 16384) = pb at hp pcells
  refine ⟨_, hp, rfl, ?_⟩
  intro i
  dsimp only
  rw [U16Vec.get, pcells i]
  by_cases hi : i ∈ gridCellIndices (sect * 16 + gridY * 4 + gridZ * 1024 + gridX * 16384)
  · rw [if_pos hi, if_pos hi]
    omega
  · rw [if_neg hi, if_neg hi]
    rfl

/-- Witness of the amended C5 at `v = 0x0010`, the grid at offset 0 of the stone
chunk. -/
theorem uno_grid_roundtrip_witness :
    (0x0010 < 0x1000 ∧
      (∀ i ∈ gridCellIndices 0, stoneChunk.newBlocks.get i = 0x0010 ∧
        stoneChunk.submerged.get i = 0)) ∧
    (ChunkV12.writeGridBody stoneChunk 0
        { dm := emptyBuffer 65536 204, blockMap := fun _ => 0, gridHeader := [],
          sectionSize := 0 } =
      { dm := emptyBuffer 65536 204, blockMap := fun _ => 0, gridHeader := [] ++ [0x0010],
        sectionSize := 0 } ∧
    ChunkV13.writeGridBody stoneChunk 0
        { dm := emptyBuffer 65536 204, blockMap := fun _ => 0, gridHeader := [],
          sectionSize := 0 } =
      { dm := emptyBuffer 65536 204, blockMap := fun _ => 0, gridHeader := [] ++ [0x0010],
        sectionSize := 0 } ∧
    ∀ (sectionHeader address sect gridX gridZ gridY : Nat) (st : DataManager × ChunkData),
      st.1.byte (sectionHeader + (gridX * 16 + gridZ * 4 + gridY) * 2) = 0x0010 % 256 →
      st.1.byte (sectionHeader + ((gridX * 16 + gridZ * 4 + gridY) * 2 + 1)) = 0x0010 / 256 →
      ∃ st1, ChunkV12.readGridBody sectionHeader address sect gridX gridZ gridY st
          = Flow.run st1 ∧
        st1.2.submerged = st.2.submerged ∧
        ∀ i, st1.2.newBlocks.get i =
          if i ∈ gridCellIndices (sect * 16 + gridY * 4 + gridZ * 1024 + gridX * 16384)
          then 0x0010 else st.2.newBlocks.get i) :=
  ⟨⟨by decide, by decide⟩,
    uno_grid_roundtrip 0x0010 (by decide) stoneChunk 0
      { dm := emptyBuffer 65536 204, blockMap := fun _ => 0, gridHeader := [],
        sectionSize := 0 } rfl (by decide)⟩

/-! ### STFS: levels, guards and block arithmetic -/

/-- C17: `StfsPackage::calculateTopLevel` returns 0 exactly for counts up to `0xAA`,
1 exactly for counts above `0xAA` up to `0x70E4`, 2 exactly for counts above
`0x70E4` up to `0x4AF768`, and raises exactly for larger counts. -/
theorem top_level_thresholds (allocBlockCount : Nat) :
    (Stfs.calculateTopLevel allocBlockCount = Except.ok 0 ↔ allocBlockCount ≤ 0xAA) ∧
    (Stfs.calculateTopLevel allocBlockCount = Except.ok 1 ↔
      0xAA < allocBlockCount ∧ allocBlockCount ≤ 0x70E4) ∧
    (Stfs.calculateTopLevel allocBlockCount = Except.ok 2 ↔
      0x70E4 < allocBlockCount ∧ allocBlockCount ≤ 0x4AF768) ∧
    (Stfs.calculateTopLevel allocBlockCount = Except.error Stfs.StfsError.invalidBlockCount ↔
      0x4AF768 < allocBlockCount) := by
  unfold Stfs.calculateTopLevel
  split_ifs <;> simp <;> omega

theorem getHashAddressOfBlock_guard (p : Stfs.StfsPackage) (b : Nat) :
    Stfs.getHashAddressOfBlock p b = Except.error Stfs.StfsError.illegalBlock ↔
      b ≥ p.allocBlockCount := by
  unfold Stfs.getHashAddressOfBlock
  by_cases h : b ≥ p.allocBlockCount
  · simp [h]
  · simp only [h, if_false, iff_false]
    split
    · simp
    · simp
    · simp only [Stfs.readBytes]
      split_ifs <;> simp
    · simp

theorem getBlockHashEntry_guard (p : Stfs.StfsPackage) (b : Nat) :
    Stfs.getBlockHashEntry p b = Except.error Stfs.StfsError.illegalBlock ↔
      b ≥ p.allocBlockCount := by
  have hg := getHashAddressOfBlock_guard p b
  unfold Stfs.getBlockHashEntry
  by_cases h : b ≥ p.allocBlockCount
  · simp [h]
  · simp only [h, if_false, iff_false]
    cases hh : Stfs.getHashAddressOfBlock p b with
    | error e =>
      simp only
      intro he
      injection he with he
      rw [he] at hh
      exact h (hg.1 hh)
    | ok a =>
      simp only [Stfs.readBytes]
      split_ifs <;> simp

theorem getHashAddressOfBlock_error (p : Stfs.StfsPackage) (b : Nat) (e : Stfs.StfsError)
    (hb : b < p.allocBlockCount) (h : Stfs.getHashAddressOfBlock p b = Except.error e) :
    e = Stfs.StfsError.outOfRange ∧ p.topLevel = 2 := by
  unfold Stfs.getHashAddressOfBlock at h
  rw [if_neg (by omega)] at h
  dsimp only at h
  split at h
  · cases h
  · cases h
  · simp only [Stfs.readBytes] at h
    split_ifs at h
    cases h
    exact ⟨rfl, by assumption⟩
  · cases h

theorem getBlockHashEntry_error (p : Stfs.StfsPackage) (b : Nat) (e : Stfs.StfsError)
    (hb : b < p.allocBlockCount) (h : Stfs.getBlockHashEntry p b = Except.error e) :
    e = Stfs.StfsError.outOfRange := by
  unfold Stfs.getBlockHashEntry at h
  rw [if_neg (by omega)] at h
  cases hh : Stfs.getHashAddressOfBlock p b with
  | error e1 =>
    rw [hh] at h
    simp only [Except.error.injEq] at h
    rw [← h]
    exact (getHashAddressOfBlock_error p b e1 hb hh).1
  | ok a =>
    rw [hh] at h
    simp only [Stfs.readBytes] at h
    split_ifs at h
    cases h
    rfl

theorem extractBlock_guard_illegal (p : Stfs.StfsPackage) (b length : Nat) :
    Stfs.extractBlock p b length = Except.error Stfs.StfsError.illegalBlock ↔
      b ≥ p.allocBlockCount := by
  unfold Stfs.extractBlock Stfs.blockToAddress Stfs.readBytes
  by_cases h1 : b ≥ p.allocBlockCount
  · simp [h1]
  · simp only [h1, if_false, iff_false]
    intro h
    split_ifs at h <;> simp at h <;> split_ifs at h <;> simp at h

theorem extractBlock_guard_length (p : Stfs.StfsPackage) (b length : Nat) :
    Stfs.extractBlock p b length = Except.error Stfs.StfsError.lengthTooBig ↔
      b < p.allocBlockCount ∧ length > 0x1000 := by
  unfold Stfs.extractBlock Stfs.blockToAddress Stfs.readBytes
  by_cases h1 : b ≥ p.allocBlockCount
  · simp only [h1, if_true]
    constructor
    · intro h
      simp at h
    · intro h
      omega
  · by_cases h2 : length > 0x1000
    · simp only [h1, h2, if_false, if_true, true_iff]
      exact ⟨by omega, trivial⟩
    · simp only [h1, h2, if_false, and_false, iff_false]
      intro h
      split_ifs at h <;> simp at h <;> split_ifs at h <;> simp at h

/-- C34, counterexample: block 0 is below `alloc_block_count` in both packages, yet
`getBlockHashEntry(0)` raises on the truncated S5 package and
`getHashAddressOfBlock(0)` raises on the truncated package of top level 2: the
read of the hash entry fails with `OutOfRange`, because the hash table lies
beyond the `0x1000` bytes of the buffer. -/
theorem block_guard_counterexample :
    0 < truncatedPackage.allocBlockCount ∧
    Stfs.getBlockHashEntry truncatedPackage 0 = Except.error Stfs.StfsError.outOfRange ∧
    0 < deepPackage.allocBlockCount ∧
    Stfs.getHashAddressOfBlock deepPackage 0 = Except.error Stfs.StfsError.outOfRange := by
  refine ⟨by decide, rfl, by decide, rfl⟩

/-- C34, amended: `getHashAddressOfBlock(b)` and `getBlockHashEntry(b)` raise
"illegal block number" exactly when `b ≥ alloc_block_count`; below
`alloc_block_count` the only error they can raise is the `OutOfRange` of a read
(for `getHashAddressOfBlock` only at top level 2, where it reads a status byte).
`extractBlock(b, length)` raises "illegal block number" exactly when
`b ≥ alloc_block_count`, "length" exactly when `b < alloc_block_count` and
`length > 0x1000`, so it raises whenever one of the two holds;
`blockToAddress(b)` raises exactly when `b ≥ 0xFFFFFF`.  In each of these guard
cases no byte of the package is read: the result is the same guard error for
every content and size of the buffer, an empty buffer (on which every read
raises `OutOfRange`) included, and `blockToAddress` does not depend on the buffer
at all. -/
theorem block_number_guards (p : Stfs.StfsPackage) (b length : Nat) :
    (Stfs.getHashAddressOfBlock p b = Except.error Stfs.StfsError.illegalBlock ↔
      b ≥ p.allocBlockCount) ∧
    (Stfs.getBlockHashEntry p b = Except.error Stfs.StfsError.illegalBlock ↔
      b ≥ p.allocBlockCount) ∧
    (b < p.allocBlockCount → ∀ e, Stfs.getHashAddressOfBlock p b = Except.error e →
      e = Stfs.StfsError.outOfRange ∧ p.topLevel = 2) ∧
    (b < p.allocBlockCount → ∀ e, Stfs.getBlockHashEntry p b = Except.error e →
      e = Stfs.StfsError.outOfRange) ∧
    (Stfs.extractBlock p b length = Except.error Stfs.StfsError.illegalBlock ↔
      b ≥ p.allocBlockCount) ∧
    (Stfs.extractBlock p b length = Except.error Stfs.StfsError.lengthTooBig ↔
      b < p.allocBlockCount ∧ length > 0x1000) ∧
    (b ≥ p.allocBlockCount ∨ length > 0x1000 →
      ∃ e, Stfs.extractBlock p b length = Except.error e) ∧
    ((∃ e, Stfs.blockToAddress p b = Except.error e) ↔ b ≥ 0xFFFFFF) ∧
    (Stfs.blockToAddress p b = Except.error Stfs.StfsError.blockNumberTooBig ↔ b ≥ 0xFFFFFF) ∧
    (∀ (bytes : Nat → Nat) (size : Nat),
      (b ≥ p.allocBlockCount →
        Stfs.getHashAddressOfBlock { p with bytes := bytes, size := size } b =
          Except.error Stfs.StfsError.illegalBlock ∧
        Stfs.getBlockHashEntry { p with bytes := bytes, size := size } b =
          Except.error Stfs.StfsError.illegalBlock ∧
        Stfs.extractBlock { p with bytes := bytes, size := size } b length =
          Except.error Stfs.StfsError.illegalBlock) ∧
      (b < p.allocBlockCount → length > 0x1000 →
        Stfs.extractBlock { p with bytes := bytes, size := size } b length =
          Except.error Stfs.StfsError.lengthTooBig) ∧
      Stfs.blockToAddress { p with bytes := bytes, size := size } b =
        Stfs.blockToAddress p b) := by
  refine ⟨getHashAddressOfBlock_guard p b, getBlockHashEntry_guard p b,
    fun hb e h => getHashAddressOfBlock_error p b e hb h,
    fun hb e h => getBlockHashEntry_error p b e hb h,
    extractBlock_guard_illegal p b length, extractBlock_guard_length p b length, ?_, ?_, ?_, ?_⟩
  · rintro (h | h)
    · exact ⟨_, (extractBlock_guard_illegal p b length).2 h⟩
    · by_cases hb : b ≥ p.allocBlockCount
      · exact ⟨_, (extractBlock_guard_illegal p b length).2 hb⟩
      · exact ⟨_, (extractBlock_guard_length p b length).2 ⟨by omega, h⟩⟩
  · unfold Stfs.blockToAddress
    split_ifs <;> simp <;> omega
  · unfold Stfs.blockToAddress
    split_ifs <;> simp <;> omega
  · intro bytes size
    refine ⟨fun hb => ⟨?_, ?_, ?_⟩, fun hb hl => ?_, rfl⟩
    · exact (getHashAddressOfBlock_guard { p with bytes := bytes, size := size } b).2 hb
    · exact (getBlockHashEntry_guard { p with bytes := bytes, size := size } b).2 hb
    · exact (extractBlock_guard_illegal { p with bytes := bytes, size := size } b length).2 hb
    · exact (extractBlock_guard_length { p with bytes := bytes, size := size } b length).2 ⟨hb, hl⟩

/-- Witness of the amended C34: block 0 of the truncated S5 package, whose read of
the hash entry raises `OutOfRange`. -/
theorem block_number_guards_witness :
    0 < truncatedPackage.allocBlockCount ∧
    ∀ e, Stfs.getBlockHashEntry truncatedPackage 0 = Except.error e →
      e = Stfs.StfsError.outOfRange :=
  ⟨by decide, (block_number_guards truncatedPackage 0 0).2.2.2.1 (by decide)⟩

theorem shl32_zero (a : Nat) : Stfs.shl32 a 0 = a % 2 ^ 32 := rfl

theorem shl32_one (a : Nat) : Stfs.shl32 a 1 = a * 2 % 2 ^ 32 := by
  simp [Stfs.shl32, Nat.shiftLeft_eq]

/-- The closed form of `computeBackingDataBlockNumber` for a sex `s ≤ 1`. -/
theorem backing_closed_form (p : Stfs.StfsPackage) (b : Nat) (hs : p.packageSex ≤ 1)
    (hb : b < 0x4AF768) :
    Stfs.computeBackingDataBlockNumber p b =
      b + (b / 0xAA + 1 + (if b < 0xAA then 0 else b / 0x70E4 + 1) +
        (if b < 0x70E4 then 0 else 1)) * 2 ^ p.packageSex := by
  unfold Stfs.computeBackingDataBlockNumber Stfs.add32
  have h01 : p.packageSex = 0 ∨ p.packageSex = 1 := by omega
  rcases h01 with h | h
  · rw [h]
    simp only [shl32_zero, Nat.pow_zero, Nat.mul_one]
    split_ifs <;> omega
  · rw [h]
    simp only [shl32_one, Nat.pow_one]
    split_ifs <;> omega

/-- The closed form of `computeLevel0BackingHashBlockNumber` for a sex `s ≤ 1` and
`blockStep[0] = 0xAA + 2^s`. -/
theorem level0_closed_form (p : Stfs.StfsPackage) (b : Nat) (hs : p.packageSex ≤ 1)
    (hstep : p.blockStep0 = 0xAA + 2 ^ p.packageSex) (hb : b < 0x4AF768) :
    Stfs.computeLevel0BackingHashBlockNumber p b =
      b / 0xAA * 0xAA + (b / 0xAA + (if b < 0xAA then 0 else b / 0x70E4 + 1) +
        (if b < 0x70E4 then 0 else 1)) * 2 ^ p.packageSex := by
  unfold Stfs.computeLevel0BackingHashBlockNumber Stfs.add32 Stfs.mul32
  have h01 : p.packageSex = 0 ∨ p.packageSex = 1 := by omega
  rcases h01 with h | h
  · rw [hstep, h]
    simp only [shl32_zero, Nat.pow_zero, Nat.mul_one]
    split_ifs <;> omega
  · rw [hstep, h]
    simp only [shl32_one, Nat.pow_one]
    split_ifs <;> omega

/-- C36: with `packageSex = s ≤ 1` and `blockStep[0] = 0xAA + 2^s`, for every block
number `b < 0x4AF768` the true block number of the data block is that of its level-0
hash table plus `2^s + b mod 0xAA`; `computeBackingDataBlockNumber` is strictly
increasing below `0x4AF768`; and no data block has the true block number of a level-0
hash table. -/
theorem data_block_after_hash_table (p : Stfs.StfsPackage) (hs : p.packageSex ≤ 1)
    (hstep : p.blockStep0 = 0xAA + 2 ^ p.packageSex) :
    (∀ b, b < 0x4AF768 → Stfs.computeBackingDataBlockNumber p b =
      Stfs.computeLevel0BackingHashBlockNumber p b + 2 ^ p.packageSex + b % 0xAA) ∧
    (∀ b b2, b < b2 → b2 < 0x4AF768 →
      Stfs.computeBackingDataBlockNumber p b < Stfs.computeBackingDataBlockNumber p b2) ∧
    (∀ b b2, b < 0x4AF768 → b2 < 0x4AF768 →
      Stfs.computeBackingDataBlockNumber p b ≠ Stfs.computeLevel0BackingHashBlockNumber p b2) := by
  have h01 : p.packageSex = 0 ∨ p.packageSex = 1 := by omega
  refine ⟨?_, ?_, ?_⟩
  · intro b hb
    rw [backing_closed_form p b hs hb, level0_closed_form p b hs hstep hb]
    rcases h01 with h | h <;> rw [h] <;> simp only [Nat.pow_zero, Nat.pow_one] <;>
      split_ifs <;> omega
  · intro b b2 hlt hb2
    rw [backing_closed_form p b hs (by omega), backing_closed_form p b2 hs hb2]
    rcases h01 with h | h <;> rw [h] <;> simp only [Nat.pow_zero, Nat.pow_one] <;>
      split_ifs <;> omega
  · intro b b2 hb hb2
    rw [backing_closed_form p b hs hb, level0_closed_form p b2 hs hstep hb2]
    have e1 : b / 0x70E4 = b / 0xAA / 0xAA := by rw [Nat.div_div_eq_div_mul]
    have e2 : b2 / 0x70E4 = b2 / 0xAA / 0xAA := by rw [Nat.div_div_eq_div_mul]
    have hq : b / 0xAA < b2 / 0xAA ∨ b2 / 0xAA ≤ b / 0xAA := by omega
    rcases h01 with h | h <;> rw [h] <;> simp only [Nat.pow_zero, Nat.pow_one] <;>
      rcases hq with hq | hq <;> split_ifs <;> omega

/-- Witness of C36 on the package of scenario S5. -/
theorem data_block_after_hash_table_witness :
    (s5Package.packageSex ≤ 1 ∧ s5Package.blockStep0 = 0xAA + 2 ^ s5Package.packageSex) ∧
    ((∀ b, b < 0x4AF768 → Stfs.computeBackingDataBlockNumber s5Package b =
      Stfs.computeLevel0BackingHashBlockNumber s5Package b + 2 ^ s5Package.packageSex
        + b % 0xAA) ∧
    (∀ b b2, b < b2 → b2 < 0x4AF768 →
      Stfs.computeBackingDataBlockNumber s5Package b
        < Stfs.computeBackingDataBlockNumber s5Package b2) ∧
    (∀ b b2, b < 0x4AF768 → b2 < 0x4AF768 →
      Stfs.computeBackingDataBlockNumber s5Package b
        ≠ Stfs.computeLevel0BackingHashBlockNumber s5Package b2)) :=
  ⟨⟨by decide, by decide⟩, data_block_after_hash_table s5Package (by decide) (by decide)⟩

/-! ### The address of the first hash table -/

theorem mask_testBit (i : Nat) : Nat.testBit 0xFFFFF000 i = (decide (12 ≤ i) && decide (i < 32)) := by
  by_cases h : i < 32
  · interval_cases i <;> rfl
  · rw [Nat.testBit_lt_two_pow (lt_of_lt_of_le (by decide : 0xFFFFF000 < 2 ^ 32)
      (Nat.pow_le_pow_right (by decide) (by omega)))]
    simp [h]

theorem and_page_mask (x : Nat) (hx : x < 2 ^ 32) : x &&& 0xFFFFF000 = x / 4096 * 4096 := by
  apply Nat.eq_of_testBit_eq
  intro i
  rw [Nat.testBit_and, mask_testBit, show x / 4096 * 4096 = (x >>> 12) <<< 12 by
    rw [Nat.shiftLeft_eq, Nat.shiftRight_eq_div_pow], Nat.testBit_shiftLeft,
    Nat.testBit_shiftRight]
  by_cases h12 : 12 ≤ i
  · by_cases h32 : i < 32
    · simp [h12, h32, show 12 + (i - 12) = i by omega]
    · have : x.testBit i = false :=
        Nat.testBit_lt_two_pow (lt_of_lt_of_le hx (Nat.pow_le_pow_right (by decide) (by omega)))
      simp [h12, h32, this]
  · simp [h12]

/-- C35: for every `header_size ≤ 0xFFFFF000`, the `firstHashTableAddress` that
`StfsPackage::parse` computes is a multiple of 4096, is at least `header_size` and
below `header_size + 4096`, and no smaller multiple of 4096 is at least
`header_size`. -/
theorem first_hash_table_aligned (headerSize : Nat) (h : headerSize ≤ 0xFFFFF000) :
    4096 ∣ Stfs.firstHashTableAddressOf headerSize ∧
    headerSize ≤ Stfs.firstHashTableAddressOf headerSize ∧
    Stfs.firstHashTableAddressOf headerSize < headerSize + 4096 ∧
    ∀ m, 4096 ∣ m → headerSize ≤ m → Stfs.firstHashTableAddressOf headerSize ≤ m := by
  have e : Stfs.firstHashTableAddressOf headerSize = (headerSize + 4095) / 4096 * 4096 := by
    unfold Stfs.firstHashTableAddressOf Stfs.add32
    rw [Nat.mod_eq_of_lt (by omega), and_page_mask _ (by omega)]
  rw [e]
  refine ⟨Dvd.intro_left _ rfl, by omega, by omega, ?_⟩
  rintro m ⟨k, rfl⟩ hm
  omega

/-- Witness of C35 at the header size `0xA001` of scenario S5. -/
theorem first_hash_table_aligned_witness :
    0xA001 ≤ 0xFFFFF000 ∧
    (4096 ∣ Stfs.firstHashTableAddressOf 0xA001 ∧
    0xA001 ≤ Stfs.firstHashTableAddressOf 0xA001 ∧
    Stfs.firstHashTableAddressOf 0xA001 < 0xA001 + 4096 ∧
    ∀ m, 4096 ∣ m → 0xA001 ≤ m → Stfs.firstHashTableAddressOf 0xA001 ≤ m) :=
  ⟨by decide, first_hash_table_aligned 0xA001 (by decide)⟩

/-! ### Walking contiguous blocks -/

/-- C33, counterexample: for package sex 0 (first hash table at `0xB000`) and
`b = 1069299`, where `(b + 1) mod 0xAA = 0` and `b + 1 < 0x4AF768`, the address
of block `b + 1` is not the address the contiguous reader reaches from block `b`:
the `u32` addresses have wrapped, and `GetHashTableSkipSize` takes the level-1
boundary for a level-0 one. -/
theorem contiguous_walk_counterexample :
    s5Package.packageSex = 0 ∧ 1069299 + 1 < 0x4AF768 ∧ (1069299 + 1) % 0xAA = 0 ∧
    Stfs.blockToAddress s5Package 1069299 = Except.ok 110845952 ∧
    Stfs.blockToAddress s5Package (1069299 + 1) = Except.ok 110858240 ∧
    Stfs.add32 (110845952 + 0x1000)
      (Stfs.GetHashTableSkipSize s5Package (110845952 + 0x1000)) = 110854144 ∧
    ¬ (110858240 = 110854144) := by
  refine ⟨by decide, by decide, by decide, rfl, rfl, by decide, by decide⟩

/-- The skip size as a function of the true block number of the table. -/
theorem skip_of_true_block (p : Stfs.StfsPackage) (a t : Nat)
    (ht : Stfs.sub32 a p.firstHashTableAddress >>> 0xC = t) :
    Stfs.GetHashTableSkipSize p a =
      if t = 0 then Stfs.shl32 0x1000 p.packageSex
      else if t = p.blockStep1 then Stfs.shl32 0x3000 p.packageSex
      else if (if t > p.blockStep1 then
            Stfs.sub32 t (Stfs.add32 p.blockStep1 (Stfs.shl32 1 p.packageSex)) else t)
            = p.blockStep0 ∨
          (if t > p.blockStep1 then
            Stfs.sub32 t (Stfs.add32 p.blockStep1 (Stfs.shl32 1 p.packageSex)) else t)
            % p.blockStep1 = 0 then
        Stfs.shl32 0x2000 p.packageSex
      else Stfs.shl32 0x1000 p.packageSex := by
  unfold Stfs.GetHashTableSkipSize
  simp only [ht]

/-- The true block number behind a table address reached from a data block. -/
theorem true_block_of_address (first x : Nat) (hx : x + 1 < 2 ^ 20) :
    Stfs.sub32 (Stfs.add32 (Stfs.add32 (Stfs.shl32 x 0x0C) first) 0x1000) first >>> 0xC
      = x + 1 := by
  unfold Stfs.sub32 Stfs.add32 Stfs.shl32
  rw [Nat.shiftLeft_eq, Nat.shiftRight_eq_div_pow]
  norm_num
  omega

theorem blockToAddress_ok (p : Stfs.StfsPackage) (n : Nat) (hn : n < 0xFFFFFF) :
    Stfs.blockToAddress p n = Except.ok
      (Stfs.add32 (Stfs.shl32 (Stfs.computeBackingDataBlockNumber p n) 0x0C)
        p.firstHashTableAddress) := by
  unfold Stfs.blockToAddress
  rw [if_neg (by omega)]

/-- The step of the contiguous walk in true block numbers: the next data block is
the next true block, or lies one, two or three tables further. -/
theorem backing_step (p : Stfs.StfsPackage) (b : Nat) (hs : p.packageSex ≤ 1)
    (hb : b + 1 < 0x4AF768) :
    Stfs.computeBackingDataBlockNumber p (b + 1) =
      Stfs.computeBackingDataBlockNumber p b + 1 +
        (if (b + 1) % 0xAA ≠ 0 then 0
         else if b + 1 = 0x70E4 then 3 * 2 ^ p.packageSex
         else if (b + 1) % 0x70E4 = 0 ∨ b + 1 = 0xAA then 2 * 2 ^ p.packageSex
         else 2 ^ p.packageSex) := by
  rw [backing_closed_form p b hs (by omega), backing_closed_form p (b + 1) hs hb]
  have h01 : p.packageSex = 0 ∨ p.packageSex = 1 := by omega
  have e1 : b / 0x70E4 = b / 0xAA / 0xAA := by rw [Nat.div_div_eq_div_mul]
  have e2 : (b + 1) / 0x70E4 = (b + 1) / 0xAA / 0xAA := by rw [Nat.div_div_eq_div_mul]
  rcases h01 with h | h <;> rw [h] <;> simp only [Nat.pow_zero, Nat.pow_one] <;>
    split_ifs <;> omega

/-- The skip the contiguous reader takes at the table that follows block `b`, when
`b + 1` is a multiple of `0xAA`. -/
theorem skip_after_block (p : Stfs.StfsPackage) (b a : Nat) (hs : p.packageSex ≤ 1)
    (h0 : p.blockStep0 = Stfs.blockStep0Of p.packageSex)
    (h1 : p.blockStep1 = Stfs.blockStep1Of p.packageSex)
    (hb : b + 1 < 0x4AF768) (hmod : (b + 1) % 0xAA = 0)
    (ht : Stfs.sub32 a p.firstHashTableAddress >>> 0xC
      = Stfs.computeBackingDataBlockNumber p b + 1)
    (hfit : Stfs.computeBackingDataBlockNumber p b + 1 < 2 ^ 20) :
    Stfs.GetHashTableSkipSize p a =
      4096 * (if b + 1 = 0x70E4 then 3 * 2 ^ p.packageSex
         else if (b + 1) % 0x70E4 = 0 ∨ b + 1 = 0xAA then 2 * 2 ^ p.packageSex
         else 2 ^ p.packageSex) := by
  rw [skip_of_true_block p a _ ht, h0, h1]
  have hcf := backing_closed_form p b hs (by omega)
  generalize Stfs.computeBackingDataBlockNumber p b = x at hcf hfit ⊢
  have h01 : p.packageSex = 0 ∨ p.packageSex = 1 := by omega
  have e1 : b / 0x70E4 = b / 0xAA / 0xAA := by rw [Nat.div_div_eq_div_mul]
  have e2 : (b + 1) / 0x70E4 = (b + 1) / 0xAA / 0xAA := by rw [Nat.div_div_eq_div_mul]
  have e3 : b / 0xAA + 1 = (b + 1) / 0xAA := by omega
  rcases h01 with h | h
  · rw [h] at hcf ⊢
    simp only [Stfs.blockStep0Of, Stfs.blockStep1Of, shl32_zero, Stfs.sub32, Stfs.add32,
      Nat.pow_zero, if_true] at hcf ⊢
    norm_num at hcf ⊢
    by_cases hgt : 29071 < x + 1
    · have e4 : (x + 1 + 4294967296 - 29072) % 4294967296 = x + 1 - 29072 := by omega
      simp only [hgt, if_true, e4]
      split_ifs at hcf ⊢ <;> omega
    · simp only [hgt, if_false]
      split_ifs at hcf ⊢ <;> omega
  · rw [h] at hcf ⊢
    simp only [Stfs.blockStep0Of, Stfs.blockStep1Of, shl32_one, Stfs.sub32, Stfs.add32,
      Nat.pow_one, Nat.one_ne_zero, if_false] at hcf ⊢
    norm_num at hcf ⊢
    by_cases hgt : 29242 < x + 1
    · have e4 : (x + 1 + 4294967296 - 29244) % 4294967296 = x + 1 - 29244 := by omega
      simp only [hgt, if_true, e4]
      split_ifs at hcf ⊢ <;> omega
    · simp only [hgt, if_false]
      split_ifs at hcf ⊢ <;> omega

/-- C33, amended: for either package sex, with the block steps `parse` sets, and
every block number `b` with `b + 1 < 0x4AF768` whose successor lies less than
`2^32` bytes behind the first hash table (true block number below `2^20`):
`blockToAddress(b + 1)` is `blockToAddress(b) + 0x1000` if `(b + 1) mod 0xAA ≠ 0`,
and otherwise `A + GetHashTableSkipSize(A)` with `A = blockToAddress(b) + 0x1000`
(sums of `u32` values). -/
theorem contiguous_walk (p : Stfs.StfsPackage) (hs : p.packageSex ≤ 1)
    (h0 : p.blockStep0 = Stfs.blockStep0Of p.packageSex)
    (h1 : p.blockStep1 = Stfs.blockStep1Of p.packageSex) (b : Nat)
    (hb : b + 1 < 0x4AF768)
    (hfit : Stfs.computeBackingDataBlockNumber p (b + 1) < 2 ^ 20) :
    ∃ a, Stfs.blockToAddress p b = Except.ok a ∧
      Stfs.blockToAddress p (b + 1) = Except.ok
        (if (b + 1) % 0xAA ≠ 0 then Stfs.add32 a 0x1000
         else Stfs.add32 (Stfs.add32 a 0x1000)
           (Stfs.GetHashTableSkipSize p (Stfs.add32 a 0x1000))) := by
  refine ⟨_, blockToAddress_ok p b (by omega), ?_⟩
  rw [blockToAddress_ok p (b + 1) (by omega)]
  have hstep := backing_step p b hs hb
  have hx : Stfs.computeBackingDataBlockNumber p b + 1 < 2 ^ 20 := by omega
  have h01 : p.packageSex = 0 ∨ p.packageSex = 1 := by omega
  by_cases hmod : (b + 1) % 0xAA ≠ 0
  · rw [if_pos hmod] at hstep ⊢
    rw [hstep]
    unfold Stfs.add32 Stfs.shl32
    rw [Nat.shiftLeft_eq, Nat.shiftLeft_eq]
    norm_num
    omega
  · rw [if_neg hmod] at hstep ⊢
    have hsk := skip_after_block p b
      (Stfs.add32 (Stfs.add32 (Stfs.shl32 (Stfs.computeBackingDataBlockNumber p b) 0x0C)
        p.firstHashTableAddress) 0x1000) hs h0 h1 hb (by omega)
      (true_block_of_address p.firstHashTableAddress _ hx) hx
    rw [hsk, hstep]
    generalize Stfs.computeBackingDataBlockNumber p b = x at hx
    generalize p.firstHashTableAddress = first
    unfold Stfs.add32 Stfs.shl32
    rw [Nat.shiftLeft_eq, Nat.shiftLeft_eq]
    rcases h01 with h | h <;> rw [h] <;> norm_num <;> split_ifs <;> omega

/-- Witness of the amended C33: the S5 package and `b = 0xA9`, the last block before
the first table boundary. -/
theorem contiguous_walk_witness :
    (s5Package.packageSex ≤ 1 ∧
      s5Package.blockStep0 = Stfs.blockStep0Of s5Package.packageSex ∧
      s5Package.blockStep1 = Stfs.blockStep1Of s5Package.packageSex ∧
      0xA9 + 1 < 0x4AF768 ∧ Stfs.computeBackingDataBlockNumber s5Package (0xA9 + 1) < 2 ^ 20) ∧
    ∃ a, Stfs.blockToAddress s5Package 0xA9 = Except.ok a ∧
      Stfs.blockToAddress s5Package (0xA9 + 1) = Except.ok
        (if (0xA9 + 1) % 0xAA ≠ 0 then Stfs.add32 a 0x1000
         else Stfs.add32 (Stfs.add32 a 0x1000)
           (Stfs.GetHashTableSkipSize s5Package (Stfs.add32 a 0x1000))) :=
  ⟨⟨by decide, rfl, rfl, by decide, by decide⟩,
    contiguous_walk s5Package (by decide) rfl rfl 0xA9 (by decide) (by decide)⟩

/-! ### STFS: extracting files -/

/-- C13, at the failing input of scenario S5: the two blocks of the entry lie in the
buffer (the read of 8192 bytes at the address of block 0 succeeds), but
`StfsPackage::extractFile` returns an empty `Data`, not the 8192 bytes. -/
theorem contiguous_small_file_returns_nothing :
    s5Package.allocBlockCount = 0xAA ∧ s5Package.topLevel = 0 ∧
    s5Entry.flags &&& 1 = 1 ∧ s5Entry.fileSize = 8192 ∧
    Stfs.blockToAddress s5Package s5Entry.startingBlockNum = Except.ok 0xC000 ∧
    Stfs.readBytes s5Package 0xC000 8192 = Except.ok (bytesAt s5Package 0xC000 8192) ∧
    Stfs.extractFile s5Package s5Entry = Except.ok [] := by
  refine ⟨rfl, rfl, by decide, rfl, rfl, ?_, ?_⟩
  · unfold Stfs.readBytes
    rw [if_pos (by decide)]
    rfl
  · unfold Stfs.extractFile
    rw [if_neg (by decide), if_pos (by decide)]
    rw [show Stfs.blockToAddress s5Package s5Entry.startingBlockNum = Except.ok 0xC000 from rfl]
    simp only
    rw [if_pos (by decide)]
    unfold Stfs.readBytes
    rw [if_pos (by decide)]

/-- C12, at a failing input: for the contiguous entry that starts at block `0xAA`
of the S5 package (`alloc_block_count == 0xAA`), `StfsPackage::extractFile` raises
no error; the same entry without the contiguous flag is rejected with "illegal
block number". -/
theorem contiguous_illegal_start_not_rejected :
    illegalStartEntry.startingBlockNum ≥ s5Package.allocBlockCount ∧
    illegalStartEntry.fileSize ≠ 0 ∧ illegalStartEntry.flags &&& 1 = 1 ∧
    Stfs.extractFile s5Package illegalStartEntry = Except.ok [] ∧
    Stfs.extractFile s5Package illegalStartChained
      = Except.error Stfs.StfsError.illegalBlock := by
  refine ⟨by decide, by decide, by decide, ?_, ?_⟩
  · unfold Stfs.extractFile
    rw [if_neg (by decide), if_pos (by decide)]
    rw [show Stfs.blockToAddress s5Package illegalStartEntry.startingBlockNum
      = Except.ok 0xB8000 from rfl]
    simp only
    rw [if_pos (by decide)]
    unfold Stfs.readBytes
    rw [if_pos (by decide)]
  · rfl

/-! #### The chained branch -/

theorem readBytes_ok (p : Stfs.StfsPackage) (a n : Nat) (h : a + n ≤ p.size) :
    Stfs.readBytes p a n = Except.ok (bytesAt p a n) := by
  unfold Stfs.readBytes
  rw [if_pos h]
  rfl

theorem bytesAt_length (p : Stfs.StfsPackage) (a n : Nat) : (bytesAt p a n).length = n := by
  simp [bytesAt]

theorem extractBlock_ok (p : Stfs.StfsPackage) (b len : Nat) (hb : b < p.allocBlockCount)
    (hbig : b < 0xFFFFFF) (hlen : len ≤ 0x1000) (hin : addressOf p b + len ≤ p.size) :
    Stfs.extractBlock p b len = Except.ok (bytesAt p (addressOf p b) len) := by
  unfold Stfs.extractBlock
  rw [if_neg (by omega), if_neg (by omega), blockToAddress_ok p b hbig]
  exact readBytes_ok p _ len hin

theorem extractBlock_illegal (p : Stfs.StfsPackage) (b len : Nat)
    (h : b ≥ p.allocBlockCount) :
    Stfs.extractBlock p b len = Except.error Stfs.StfsError.illegalBlock := by
  unfold Stfs.extractBlock
  rw [if_pos h]

theorem chainBlock_next (p : Stfs.StfsPackage) (b i : Nat) :
    chainBlock p (nextBlock p b) i = chainBlock p b (i + 1) := by
  induction i with
  | zero => rfl
  | succ i ih =>
    rw [chainBlock, ih]
    rfl

/-- The `for` loop of the chained branch: `n` blocks along the chain, each read at
its address, and the chain followed `n` times. -/
theorem chainedBlocks_spec (p : Stfs.StfsPackage) (n : Nat) (block : Nat) (out : List Nat)
    (hlegal : ∀ i, i < n → chainBlock p block i < p.allocBlockCount ∧
      chainBlock p block i < 0xFFFFFF ∧
      addressOf p (chainBlock p block i) + 0x1000 ≤ p.size ∧
      ∃ he, Stfs.getBlockHashEntry p (chainBlock p block i) = Except.ok he) :
    Stfs.chainedBlocks p n block out =
      Except.ok (chainBlock p block n,
        out ++ (List.range n).flatMap fun i =>
          bytesAt p (addressOf p (chainBlock p block i)) 0x1000) := by
  induction n generalizing block out with
  | zero => simp [Stfs.chainedBlocks, chainBlock]
  | succ n ih =>
    obtain ⟨h1, h2, h3, he, h4⟩ := hlegal 0 (by omega)
    simp only [chainBlock] at h1 h2 h3 h4
    have hnext : nextBlock p block = he.2 := by
      unfold nextBlock
      rw [h4]
    simp only [Stfs.chainedBlocks, extractBlock_ok p block 0x1000 h1 h2 (le_refl _) h3, h4]
    rw [← hnext, ih (nextBlock p block) _ (by
      intro i hi
      rw [chainBlock_next]
      exact hlegal (i + 1) (by omega))]
    rw [chainBlock_next, List.range_succ_eq_map, List.flatMap_cons, List.flatMap_map,
      List.append_assoc]
    simp only [chainBlock_next, chainBlock, Function.comp]

theorem flatMap_blocks_length (p : Stfs.StfsPackage) (f : Nat → Nat) (n : Nat) :
    ((List.range n).flatMap fun i => bytesAt p (f i) 0x1000).length = n * 0x1000 := by
  induction n with
  | zero => rfl
  | succ n ih =>
    rw [List.range_succ, List.flatMap_append, List.length_append, ih]
    simp [bytesAt_length]
    omega

/-- The chained branch of `extractFile` on a chain of legal, readable blocks. -/
theorem extractFile_chained (p : Stfs.StfsPackage) (e : Stfs.StfsFileEntry)
    (hflag : e.flags &&& 1 = 0) (hsize : 0 < e.fileSize)
    (hlegal : ∀ i, i < (e.fileSize + 4095) / 4096 →
      chainBlock p e.startingBlockNum i < p.allocBlockCount ∧
      chainBlock p e.startingBlockNum i < 0xFFFFFF ∧
      addressOf p (chainBlock p e.startingBlockNum i) + 0x1000 ≤ p.size)
    (hhash : ∀ i, i < e.fileSize / 4096 →
      ∃ he, Stfs.getBlockHashEntry p (chainBlock p e.startingBlockNum i) = Except.ok he) :
    Stfs.extractFile p e = Except.ok
      (((List.range (e.fileSize / 4096)).flatMap fun i =>
          bytesAt p (addressOf p (chainBlock p e.startingBlockNum i)) 0x1000) ++
        (if e.fileSize % 4096 ≠ 0 then
          bytesAt p (addressOf p (chainBlock p e.startingBlockNum (e.fileSize / 4096)))
            (e.fileSize % 4096)
         else [])) := by
  unfold Stfs.extractFile
  rw [if_neg (by omega), if_neg (by rw [hflag]; decide)]
  have hspec := chainedBlocks_spec p (e.fileSize / 0x1000) e.startingBlockNum [] (by
    intro i hi
    obtain ⟨a1, a2, a3⟩ := hlegal i (by omega)
    exact ⟨a1, a2, a3, hhash i hi⟩)
  simp only [hspec, List.nil_append]
  have hrem : e.fileSize - e.fileSize / 0x1000 * 0x1000 = e.fileSize % 4096 := by omega
  rw [hrem]
  by_cases h0 : e.fileSize % 4096 ≠ 0
  · rw [if_pos h0, if_pos h0]
    obtain ⟨a1, a2, a3⟩ := hlegal (e.fileSize / 4096) (by omega)
    rw [extractBlock_ok p _ _ a1 a2 (by omega) (by omega)]
  · rw [if_neg h0, if_neg h0, List.append_nil]

theorem chained_length (p : Stfs.StfsPackage) (f : Nat → Nat) (a size : Nat) :
    (((List.range (size / 4096)).flatMap fun i => bytesAt p (f i) 0x1000) ++
      (if size % 4096 ≠ 0 then bytesAt p a (size % 4096) else [])).length = size := by
  rw [List.length_append, flatMap_blocks_length]
  by_cases h : size % 4096 ≠ 0
  · rw [if_pos h, bytesAt_length]
    omega
  · rw [if_neg h]
    simp only [List.length_nil]
    omega

/-- C14: for every entry without the contiguous flag and with `fileSize > 0` whose
first `⌈fileSize/4096⌉` chain blocks are below `alloc_block_count` (and below
`0xFFFFFF`, lie inside the buffer, and have readable hash entries where the chain
is followed), `StfsPackage::extractFile` returns exactly `fileSize` bytes: the
blocks `start`, `next(start)`, ... each read at `blockToAddress` of that block, the
last one cut to `fileSize mod 4096` bytes when that is not 0. -/
theorem chained_extraction (p : Stfs.StfsPackage) (e : Stfs.StfsFileEntry)
    (hflag : e.flags &&& 1 = 0) (hsize : 0 < e.fileSize)
    (hlegal : ∀ i, i < (e.fileSize + 4095) / 4096 →
      chainBlock p e.startingBlockNum i < p.allocBlockCount ∧
      chainBlock p e.startingBlockNum i < 0xFFFFFF ∧
      addressOf p (chainBlock p e.startingBlockNum i) + 0x1000 ≤ p.size)
    (hhash : ∀ i, i < e.fileSize / 4096 →
      ∃ he, Stfs.getBlockHashEntry p (chainBlock p e.startingBlockNum i) = Except.ok he) :
    ∃ out, Stfs.extractFile p e = Except.ok out ∧ out.length = e.fileSize ∧
      out = ((List.range (e.fileSize / 4096)).flatMap fun i =>
          bytesAt p (addressOf p (chainBlock p e.startingBlockNum i)) 0x1000) ++
        (if e.fileSize % 4096 ≠ 0 then
          bytesAt p (addressOf p (chainBlock p e.startingBlockNum (e.fileSize / 4096)))
            (e.fileSize % 4096)
         else []) ∧
      ∀ i, i < (e.fileSize + 4095) / 4096 →
        Stfs.blockToAddress p (chainBlock p e.startingBlockNum i)
          = Except.ok (addressOf p (chainBlock p e.startingBlockNum i)) :=
  ⟨_, extractFile_chained p e hflag hsize hlegal hhash, chained_length p _ _ _, rfl,
    fun i hi => blockToAddress_ok p _ (hlegal i hi).2.1⟩

theorem chainPackage_chain : chainBlock chainPackage 0 0 = 0 ∧ chainBlock chainPackage 0 1 = 1 :=
  ⟨rfl, rfl⟩

/-- Witness of C14: the file of 4196 bytes in blocks 0 and 1 of `chainPackage`. -/
theorem chained_extraction_witness :
    (chainEntry.flags &&& 1 = 0 ∧ 0 < chainEntry.fileSize ∧
      (∀ i, i < (chainEntry.fileSize + 4095) / 4096 →
        chainBlock chainPackage chainEntry.startingBlockNum i < chainPackage.allocBlockCount ∧
        chainBlock chainPackage chainEntry.startingBlockNum i < 0xFFFFFF ∧
        addressOf chainPackage (chainBlock chainPackage chainEntry.startingBlockNum i) + 0x1000
          ≤ chainPackage.size) ∧
      (∀ i, i < chainEntry.fileSize / 4096 →
        ∃ he, Stfs.getBlockHashEntry chainPackage
          (chainBlock chainPackage chainEntry.startingBlockNum i) = Except.ok he)) ∧
    ∃ out, Stfs.extractFile chainPackage chainEntry = Except.ok out ∧
      out.length = chainEntry.fileSize ∧
      out = ((List.range (chainEntry.fileSize / 4096)).flatMap fun i =>
          bytesAt chainPackage
            (addressOf chainPackage (chainBlock chainPackage chainEntry.startingBlockNum i))
            0x1000) ++
        (if chainEntry.fileSize % 4096 ≠ 0 then
          bytesAt chainPackage (addressOf chainPackage
            (chainBlock chainPackage chainEntry.startingBlockNum (chainEntry.fileSize / 4096)))
            (chainEntry.fileSize % 4096)
         else []) ∧
      ∀ i, i < (chainEntry.fileSize + 4095) / 4096 →
        Stfs.blockToAddress chainPackage (chainBlock chainPackage chainEntry.startingBlockNum i)
          = Except.ok
            (addressOf chainPackage (chainBlock chainPackage chainEntry.startingBlockNum i)) := by
  have hl : ∀ i, i < (chainEntry.fileSize + 4095) / 4096 →
      chainBlock chainPackage chainEntry.startingBlockNum i < chainPackage.allocBlockCount ∧
      chainBlock chainPackage chainEntry.startingBlockNum i < 0xFFFFFF ∧
      addressOf chainPackage (chainBlock chainPackage chainEntry.startingBlockNum i) + 0x1000
        ≤ chainPackage.size := by
    intro i hi
    have hi2 : i < 2 := hi
    interval_cases i
    · exact ⟨by decide, by decide, by decide⟩
    · exact ⟨by decide, by decide, by decide⟩
  have hh : ∀ i, i < chainEntry.fileSize / 4096 →
      ∃ he, Stfs.getBlockHashEntry chainPackage
        (chainBlock chainPackage chainEntry.startingBlockNum i) = Except.ok he := by
    intro i hi
    have hi2 : i < 1 := hi
    interval_cases i
    exact ⟨_, rfl⟩
  exact ⟨⟨by decide, by decide, hl, hh⟩,
    chained_extraction chainPackage chainEntry (by decide) (by decide) hl hh⟩

/-! #### How far the chain is followed -/

theorem loop_chain (i : Nat) : chainBlock loopPackage 0 i = 0 := by
  induction i with
  | zero => rfl
  | succ i ih =>
    rw [chainBlock, ih]
    rfl

/-- C16, counterexample: in `loopPackage` one block is allocated and the hash entry
of block 0 names block 0 as next; for the entry whose size claims three blocks,
`StfsPackage::extractFile` follows the cycle and returns 12288 bytes, no error. -/
theorem cyclic_chain_counterexample :
    loopPackage.allocBlockCount = 1 ∧ nextBlock loopPackage 0 = 0 ∧
    loopEntry.startingBlockNum = 0 ∧ loopEntry.fileSize / 4096 = 3 ∧
    ∃ out, Stfs.extractFile loopPackage loopEntry = Except.ok out ∧ out.length = 3 * 4096 := by
  refine ⟨rfl, rfl, rfl, rfl, _, extractFile_chained loopPackage loopEntry (by decide)
    (by decide) ?_ ?_, chained_length loopPackage _ _ _⟩
  · intro i _
    rw [show loopEntry.startingBlockNum = 0 from rfl, loop_chain i]
    exact ⟨by decide, by decide, by decide⟩
  · intro i _
    rw [show loopEntry.startingBlockNum = 0 from rfl, loop_chain i]
    exact ⟨_, rfl⟩

/-- The chain is followed once per full block: the loop ends at the `n`-th block of
the chain. -/
theorem chainedBlocks_end (p : Stfs.StfsPackage) (n : Nat) (block : Nat) (out : List Nat)
    (r : Nat × List Nat) (h : Stfs.chainedBlocks p n block out = Except.ok r) :
    r.1 = chainBlock p block n := by
  induction n generalizing block out with
  | zero =>
    simp only [Stfs.chainedBlocks] at h
    injection h with h
    rw [← h]
    rfl
  | succ n ih =>
    simp only [Stfs.chainedBlocks] at h
    cases hb : Stfs.extractBlock p block 0x1000 with
    | error e => rw [hb] at h; cases h
    | ok bs =>
      rw [hb] at h
      cases hh : Stfs.getBlockHashEntry p block with
      | error e => rw [hh] at h; cases h
      | ok he =>
        rw [hh] at h
        have := ih he.2 _ h
        rw [this, ← chainBlock_next]
        unfold nextBlock
        rw [hh]

/-- A block of the chain that is not allocated stops the loop with an error. -/
theorem chainedBlocks_illegal (p : Stfs.StfsPackage) (n : Nat) (block : Nat) (out : List Nat)
    (j : Nat) (hj : j < n) (hbad : chainBlock p block j ≥ p.allocBlockCount) :
    ∃ err, Stfs.chainedBlocks p n block out = Except.error err := by
  induction n generalizing block out j with
  | zero => omega
  | succ n ih =>
    simp only [Stfs.chainedBlocks]
    cases hb : Stfs.extractBlock p block 0x1000 with
    | error e => exact ⟨e, rfl⟩
    | ok bs =>
      cases hh : Stfs.getBlockHashEntry p block with
      | error e => exact ⟨e, rfl⟩
      | ok he =>
        simp only
        cases j with
        | zero =>
          exfalso
          have hg := extractBlock_illegal p block 0x1000 hbad
          rw [hb] at hg
          cases hg
        | succ j =>
          have hn : nextBlock p block = he.2 := by
            unfold nextBlock
            rw [hh]
          rw [← hn]
          exact ih (nextBlock p block) _ j (by omega) (by rw [chainBlock_next]; exact hbad)

theorem cycle_chain (p : Stfs.StfsPackage) (b : Nat) (h : nextBlock p b = b) (i : Nat) :
    chainBlock p b i = b := by
  induction i with
  | zero => rfl
  | succ i ih => rw [chainBlock, ih, h]

/-- C16, amended: the chained branch of `StfsPackage::extractFile` follows the chain
once per full block of `fileSize` (it always terminates, after `⌊fileSize/4096⌋`
links); an entry is rejected with an error when one of its first `⌈fileSize/4096⌉`
chain blocks is not below `alloc_block_count`; but a cyclic chain of an allocated,
readable block is read, whatever `fileSize` claims: `fileSize` bytes come back. -/
theorem chain_traversal_bounded_by_size (p : Stfs.StfsPackage) (e : Stfs.StfsFileEntry)
    (hflag : e.flags &&& 1 = 0) (hsize : 0 < e.fileSize) :
    (∀ r, Stfs.chainedBlocks p (e.fileSize / 4096) e.startingBlockNum [] = Except.ok r →
      r.1 = chainBlock p e.startingBlockNum (e.fileSize / 4096)) ∧
    (∀ j, j < (e.fileSize + 4095) / 4096 →
      chainBlock p e.startingBlockNum j ≥ p.allocBlockCount →
      ∃ err, Stfs.extractFile p e = Except.error err) ∧
    (nextBlock p e.startingBlockNum = e.startingBlockNum →
      e.startingBlockNum < p.allocBlockCount → e.startingBlockNum < 0xFFFFFF →
      addressOf p e.startingBlockNum + 0x1000 ≤ p.size →
      (∃ he, Stfs.getBlockHashEntry p e.startingBlockNum = Except.ok he) →
      ∃ out, Stfs.extractFile p e = Except.ok out ∧ out.length = e.fileSize) := by
  refine ⟨fun r h => chainedBlocks_end p _ _ _ r h, ?_, ?_⟩
  · intro j hj hbad
    unfold Stfs.extractFile
    rw [if_neg (by omega), if_neg (by rw [hflag]; decide)]
    simp only
    by_cases hjf : j < e.fileSize / 0x1000
    · obtain ⟨err, herr⟩ := chainedBlocks_illegal p _ e.startingBlockNum [] j hjf hbad
      rw [herr]
      exact ⟨err, rfl⟩
    · have hjeq : j = e.fileSize / 0x1000 := by omega
      have hrem : e.fileSize - e.fileSize / 0x1000 * 0x1000 ≠ 0 := by omega
      cases hc : Stfs.chainedBlocks p (e.fileSize / 0x1000) e.startingBlockNum [] with
      | error err => exact ⟨err, rfl⟩
      | ok r =>
        obtain ⟨block, out⟩ := r
        have hend := chainedBlocks_end p _ _ _ _ hc
        simp only at hend
        simp only [if_pos hrem]
        rw [extractBlock_illegal p block _ (by rw [hend, ← hjeq]; exact hbad)]
        exact ⟨_, rfl⟩
  · intro hcyc h1 h2 h3 h4
    refine ⟨_, extractFile_chained p e hflag hsize ?_ ?_, chained_length p _ _ _⟩
    · intro i _
      rw [cycle_chain p _ hcyc i]
      exact ⟨h1, h2, h3⟩
    · intro i _
      rw [cycle_chain p _ hcyc i]
      exact h4

/-- Witness of the amended C16: the cyclic chain of `loopPackage`. -/
theorem chain_traversal_bounded_by_size_witness :
    (loopEntry.flags &&& 1 = 0 ∧ 0 < loopEntry.fileSize) ∧
    ((∀ r, Stfs.chainedBlocks loopPackage (loopEntry.fileSize / 4096)
        loopEntry.startingBlockNum [] = Except.ok r →
      r.1 = chainBlock loopPackage loopEntry.startingBlockNum (loopEntry.fileSize / 4096)) ∧
    (∀ j, j < (loopEntry.fileSize + 4095) / 4096 →
      chainBlock loopPackage loopEntry.startingBlockNum j ≥ loopPackage.allocBlockCount →
      ∃ err, Stfs.extractFile loopPackage loopEntry = Except.error err) ∧
    (nextBlock loopPackage loopEntry.startingBlockNum = loopEntry.startingBlockNum →
      loopEntry.startingBlockNum < loopPackage.allocBlockCount →
      loopEntry.startingBlockNum < 0xFFFFFF →
      addressOf loopPackage loopEntry.startingBlockNum + 0x1000 ≤ loopPackage.size →
      (∃ he, Stfs.getBlockHashEntry loopPackage loopEntry.startingBlockNum = Except.ok he) →
      ∃ out, Stfs.extractFile loopPackage loopEntry = Except.ok out ∧
        out.length = loopEntry.fileSize)) :=
  ⟨⟨by decide, by decide⟩,
    chain_traversal_bounded_by_size loopPackage loopEntry (by decide) (by decide)⟩

/-! #### Hash entries -/

/-- C15, counterexample: in `truncatedPackage` (buffer of `0x1000` bytes) the hash
address of block 0 is `0xB000`, not below the buffer size; and in the S5 package the
hash entry of block 0 holds the `next_block` value 9737622, which is neither below
`alloc_block_count = 0xAA` nor the sentinel `0xFFFFFF`. -/
theorem hash_navigation_counterexample :
    0 < truncatedPackage.allocBlockCount ∧
    Stfs.getHashAddressOfBlock truncatedPackage 0 = Except.ok 0xB000 ∧
    ¬ (0xB000 < truncatedPackage.size) ∧
    0 < s5Package.allocBlockCount ∧
    Stfs.getBlockHashEntry s5Package 0 = Except.ok (147, 9737622) ∧
    ¬ (9737622 < s5Package.allocBlockCount ∨ 9737622 = 0xFFFFFF) := by
  refine ⟨by decide, rfl, by decide, by decide, rfl, by decide⟩

theorem readBytes_inv (p : Stfs.StfsPackage) (a n : Nat) (bs : List Nat)
    (h : Stfs.readBytes p a n = Except.ok bs) : a + n ≤ p.size ∧ bs = bytesAt p a n := by
  unfold Stfs.readBytes at h
  by_cases hin : a + n ≤ p.size
  · rw [if_pos hin] at h
    injection h with h
    exact ⟨hin, h.symm⟩
  · rw [if_neg hin] at h
    cases h

theorem bytesAt_getD_lt (p : Stfs.StfsPackage) (a n i : Nat) : (bytesAt p a n).getD i 0 < 256 := by
  unfold bytesAt
  by_cases hi : i < n
  · rw [List.getD_eq_getElem _ _ (by simp [hi])]
    simp only [List.getElem_map, List.getElem_range, byteAt]
    exact Nat.mod_lt _ (by decide)
  · rw [List.getD_eq_default _ _ (by simp; omega)]
    decide

theorem and_le_mask (x m : Nat) : x &&& m ≤ m := Nat.and_le_right

theorem add32_of_lt (a b : Nat) (h : a + b < 2 ^ 32) : Stfs.add32 a b = a + b :=
  Nat.mod_eq_of_lt h

theorem mul32_of_lt (a b : Nat) (h : a * b < 2 ^ 32) : Stfs.mul32 a b = a * b :=
  Nat.mod_eq_of_lt h

theorem shl32_of_lt (a s : Nat) (h : a * 2 ^ s < 2 ^ 32) : Stfs.shl32 a s = a * 2 ^ s := by
  unfold Stfs.shl32
  rw [Nat.shiftLeft_eq]
  exact Nat.mod_eq_of_lt h

/-- For top levels 0 and 1 the hash address is the address of the level-0 table plus
the entry offset plus at most `0x1000`. -/
theorem hash_address_low_levels (p : Stfs.StfsPackage) (b : Nat) (hb : b < p.allocBlockCount)
    (htop : p.topLevel ≤ 1)
    (hfit : Stfs.computeLevel0BackingHashBlockNumber p b * 4096 + p.firstHashTableAddress
      + 0x2000 ≤ 2 ^ 32) :
    ∃ a, Stfs.getHashAddressOfBlock p b = Except.ok a ∧ p.firstHashTableAddress ≤ a := by
  unfold Stfs.getHashAddressOfBlock
  rw [if_neg (by omega)]
  have hm : b % 0xAA * 0x18 < 4096 := by omega
  have h2 : p.blockSeparation &&& 2 ≤ 2 := and_le_mask _ _
  have h40 : p.topTableStatus (b / 0xAA) &&& 0x40 ≤ 0x40 := and_le_mask _ _
  have e1 : Stfs.shl32 (Stfs.computeLevel0BackingHashBlockNumber p b) 0xC
      = Stfs.computeLevel0BackingHashBlockNumber p b * 4096 :=
    shl32_of_lt _ _ (by norm_num; omega)
  have e2 : Stfs.mul32 (b % 0xAA) 0x18 = b % 0xAA * 0x18 := mul32_of_lt _ _ (by omega)
  have e3 : Stfs.add32 (Stfs.computeLevel0BackingHashBlockNumber p b * 4096)
      p.firstHashTableAddress
      = Stfs.computeLevel0BackingHashBlockNumber p b * 4096 + p.firstHashTableAddress :=
    add32_of_lt _ _ (by omega)
  have e4 : Stfs.add32 (Stfs.computeLevel0BackingHashBlockNumber p b * 4096
      + p.firstHashTableAddress) (b % 0xAA * 0x18)
      = Stfs.computeLevel0BackingHashBlockNumber p b * 4096 + p.firstHashTableAddress
        + b % 0xAA * 0x18 :=
    add32_of_lt _ _ (by omega)
  simp only [e1, e2, e3, e4]
  have h01 : p.topLevel = 0 ∨ p.topLevel = 1 := by omega
  rcases h01 with h | h
  · rw [h]
    refine ⟨_, rfl, ?_⟩
    rw [shl32_of_lt _ _ (by norm_num; omega), add32_of_lt _ _ (by norm_num; omega)]
    omega
  · rw [h]
    refine ⟨_, rfl, ?_⟩
    rw [shl32_of_lt _ _ (by norm_num; omega), add32_of_lt _ _ (by norm_num; omega)]
    omega

/-- C15, amended: for every package with top level 0 or 1 and every block number
`b < alloc_block_count` whose level-0 table lies where `u32` addresses do not wrap,
`getHashAddressOfBlock(b)` returns an address that is at least
`first_hash_table_address`; and whenever `getBlockHashEntry(b)` returns an entry, the
24 bytes of the entry lie inside the buffer and `next_block` is a 24-bit value, at
most `0xFFFFFF`. -/
theorem hash_navigation (p : Stfs.StfsPackage) (b : Nat) (hb : b < p.allocBlockCount)
    (htop : p.topLevel ≤ 1)
    (hfit : Stfs.computeLevel0BackingHashBlockNumber p b * 4096 + p.firstHashTableAddress
      + 0x2000 ≤ 2 ^ 32) :
    ∃ a, Stfs.getHashAddressOfBlock p b = Except.ok a ∧ p.firstHashTableAddress ≤ a ∧
      ∀ he, Stfs.getBlockHashEntry p b = Except.ok he →
        a + 0x18 ≤ p.size ∧ he.2 ≤ 0xFFFFFF := by
  obtain ⟨a, ha, hle⟩ := hash_address_low_levels p b hb htop hfit
  refine ⟨a, ha, hle, ?_⟩
  intro he hhe
  unfold Stfs.getBlockHashEntry at hhe
  rw [if_neg (by omega), ha] at hhe
  simp only at hhe
  cases hr : Stfs.readBytes p a 0x18 with
  | error e => rw [hr] at hhe; cases hhe
  | ok bs =>
    rw [hr] at hhe
    obtain ⟨hin, hbs⟩ := readBytes_inv p a 0x18 bs hr
    injection hhe with hhe
    rw [← hhe, hbs]
    have g1 := bytesAt_getD_lt p a 0x18 0x15
    have g2 := bytesAt_getD_lt p a 0x18 0x16
    have g3 := bytesAt_getD_lt p a 0x18 0x17
    exact ⟨hin, by simp only; omega⟩

/-- Witness of the amended C15: block 0 of the S5 package. -/
theorem hash_navigation_witness :
    (0 < s5Package.allocBlockCount ∧ s5Package.topLevel ≤ 1 ∧
      Stfs.computeLevel0BackingHashBlockNumber s5Package 0 * 4096
        + s5Package.firstHashTableAddress + 0x2000 ≤ 2 ^ 32) ∧
    ∃ a, Stfs.getHashAddressOfBlock s5Package 0 = Except.ok a ∧
      s5Package.firstHashTableAddress ≤ a ∧
      ∀ he, Stfs.getBlockHashEntry s5Package 0 = Except.ok he →
        a + 0x18 ≤ s5Package.size ∧ he.2 ≤ 0xFFFFFF :=
  ⟨⟨by decide, by decide, by decide⟩,
    hash_navigation s5Package 0 (by decide) (by decide) (by decide)⟩

/-! ### Removing and pruning files -/

theorem removeFileTypes_eq_filter (S : List FileListing.FileType)
    (l : List FileListing.LCEFile) :
    FileListing.removeFileTypes S l = l.filter fun f => !S.contains f.fileType := by
  induction l with
  | nil => rfl
  | cons f rest ih =>
    rw [FileListing.removeFileTypes, List.filter_cons]
    by_cases h : S.contains f.fileType = true
    · rw [if_pos h, ih]
      have hm : f.fileType ∈ S := by simpa using h
      simp [hm]
    · rw [if_neg h, ih]
      have hm : ¬ f.fileType ∈ S := by simpa using h
      simp [hm]

theorem convertRegions_types (convert : FileListing.LCEFile → List Nat) (consoleOut : Nat)
    (l : List FileListing.LCEFile) :
    (FileListing.convertRegions convert consoleOut l).map (fun f => f.fileType)
      = l.map fun f => f.fileType := by
  unfold FileListing.convertRegions
  rw [List.map_map]
  apply List.map_congr_left
  intro f _
  simp only [Function.comp]
  split_ifs <;> rfl

/-- C20: `FileListing::removeFileTypes(S)` leaves exactly the entries whose type is
not in `S`, in their original relative order; and when `findConsole` succeeds,
`FileListing::convertTo` hands to `write` a list whose types are those of the read
files without the `PLAYER` and `DATA_MAPPING` entries, in order, so no entry of
these two types is in it. -/
theorem conversion_drops_player_and_mapping (S : List FileListing.FileType)
    (l : List FileListing.LCEFile) (convert : FileListing.LCEFile → List Nat)
    (consoleOut : Nat) :
    FileListing.removeFileTypes S l = (l.filter fun f => !S.contains f.fileType) ∧
    (FileListing.removeFileTypes S l).Sublist l ∧
    (∀ f, f ∈ FileListing.removeFileTypes S l ↔ f ∈ l ∧ ¬ f.fileType ∈ S) ∧
    ∃ out, FileListing.convertTo (0, l) convert consoleOut = (0, some out) ∧
      out.map (fun f => f.fileType) =
        (l.filter fun f => f.fileType ≠ FileListing.FileType.PLAYER ∧
          f.fileType ≠ FileListing.FileType.DATA_MAPPING).map (fun f => f.fileType) ∧
      ∀ f ∈ out, f.fileType ≠ FileListing.FileType.PLAYER ∧
        f.fileType ≠ FileListing.FileType.DATA_MAPPING := by
  have hf := removeFileTypes_eq_filter S l
  refine ⟨hf, ?_, ?_, ?_⟩
  · rw [hf]
    exact List.filter_sublist l
  · intro f
    rw [hf, List.mem_filter]
    simp
  · have hout : (FileListing.convertRegions convert consoleOut
        (FileListing.removeFileTypes [FileListing.FileType.PLAYER,
          FileListing.FileType.DATA_MAPPING] l)).map (fun f => f.fileType) =
        (l.filter fun f => f.fileType ≠ FileListing.FileType.PLAYER ∧
          f.fileType ≠ FileListing.FileType.DATA_MAPPING).map (fun f => f.fileType) := by
      rw [convertRegions_types, removeFileTypes_eq_filter]
      congr 1
      apply List.filter_congr
      intro f _
      simp
    refine ⟨_, rfl, hout, ?_⟩
    intro f hfmem
    have hm : f.fileType ∈ (FileListing.convertRegions convert consoleOut
        (FileListing.removeFileTypes [FileListing.FileType.PLAYER,
          FileListing.FileType.DATA_MAPPING] l)).map (fun f => f.fileType) :=
      List.mem_map_of_mem _ hfmem
    rw [hout, List.mem_map] at hm
    obtain ⟨g, hg, hgt⟩ := hm
    rw [List.mem_filter] at hg
    rw [← hgt]
    simpa using hg.2

/-- C40: after `FileListing::pruneRegions` a file remains exactly if it was in the
list and, when it is of a region type, its `regionX` and `regionZ` are both 0 or −1;
so every file that is not of a region type remains; and the surviving files keep
their relative order. -/
theorem prune_keeps_central_regions (l : List FileListing.LCEFile) :
    (∀ f, f ∈ FileListing.pruneRegions l ↔
      f ∈ l ∧ (FileListing.isRegionType f = true →
        (f.regionX = 0 ∨ f.regionX = -1) ∧ (f.regionZ = 0 ∨ f.regionZ = -1))) ∧
    (∀ f ∈ l, FileListing.isRegionType f = false → f ∈ FileListing.pruneRegions l) ∧
    (FileListing.pruneRegions l).Sublist l := by
  have key : FileListing.pruneRegions l = l.filter fun f =>
      decide (FileListing.isRegionType f = true →
        (f.regionX = 0 ∨ f.regionX = -1) ∧ (f.regionZ = 0 ∨ f.regionZ = -1)) := by
    induction l with
    | nil => rfl
    | cons f rest ih =>
      rw [FileListing.pruneRegions, List.filter_cons, ih]
      by_cases h : FileListing.isRegionType f = true ∧
          (¬ (f.regionX = 0 ∨ f.regionX = -1) ∨ ¬ (f.regionZ = 0 ∨ f.regionZ = -1))
      · rw [if_pos h, if_neg]
        simp only [decide_eq_true_eq]
        intro hc
        have := hc h.1
        tauto
      · rw [if_neg h, if_pos]
        simp only [decide_eq_true_eq]
        intro hr
        by_contra hc
        exact h ⟨hr, by tauto⟩
  refine ⟨?_, ?_, ?_⟩
  · intro f
    rw [key, List.mem_filter]
    simp only [decide_eq_true_eq]
  · intro f hf hnr
    rw [key, List.mem_filter]
    refine ⟨hf, ?_⟩
    simp only [decide_eq_true_eq]
    intro hr
    rw [hnr] at hr
    cases hr
  · rw [key]
    exact List.filter_sublist l

/-! ### Cell addressing -/

/-- C27: the index the decoder and the encoder compute for the cell
`(xIter, zIter, yIter)` of the grid `(gridX, gridZ, gridY)` of a section is
`(section·16 + gridY·4 + yIter) + (gridZ·4 + zIter)·256 + (gridX·4 + xIter)·4096`,
that is `y + z·256 + x·4096`, and lies below 65 536; different cells get different
indices; and every index below 65 536 is the index of a cell. -/
theorem cell_addressing_bijection :
    (∀ s gx gz gy x z y, s < 16 → gx < 4 → gz < 4 → gy < 4 → x < 4 → z < 4 → y < 4 →
      decoderCellIndex s gx gz gy x z y
        = (s * 16 + gy * 4 + y) + (gz * 4 + z) * 256 + (gx * 4 + x) * 4096 ∧
      encoderCellIndex s gx gz gy x z y = decoderCellIndex s gx gz gy x z y ∧
      decoderCellIndex s gx gz gy x z y < 65536) ∧
    (∀ s gx gz gy x z y s2 gx2 gz2 gy2 x2 z2 y2,
      s < 16 → gx < 4 → gz < 4 → gy < 4 → x < 4 → z < 4 → y < 4 →
      s2 < 16 → gx2 < 4 → gz2 < 4 → gy2 < 4 → x2 < 4 → z2 < 4 → y2 < 4 →
      decoderCellIndex s gx gz gy x z y = decoderCellIndex s2 gx2 gz2 gy2 x2 z2 y2 →
      s = s2 ∧ gx = gx2 ∧ gz = gz2 ∧ gy = gy2 ∧ x = x2 ∧ z = z2 ∧ y = y2) ∧
    (∀ i, i < 65536 → ∃ s gx gz gy x z y,
      s < 16 ∧ gx < 4 ∧ gz < 4 ∧ gy < 4 ∧ x < 4 ∧ z < 4 ∧ y < 4 ∧
      decoderCellIndex s gx gz gy x z y = i) ∧
    (∀ s gx gz gy x z y, s < 16 → gx < 4 → gz < 4 → gy < 4 → x < 4 → z < 4 → y < 4 →
      s * 16 + gy * 4 + gz * 1024 + gx * 16384 ∈ sectionGridOffsets s ∧
      decoderCellIndex s gx gz gy x z y
        ∈ gridCellIndices (s * 16 + gy * 4 + gz * 1024 + gx * 16384)) := by
  refine ⟨?_, ?_, ?_, ?_⟩
  · intro s gx gz gy x z y _ _ _ _ _ _ _
    unfold decoderCellIndex encoderCellIndex
    omega
  · intro s gx gz gy x z y s2 gx2 gz2 gy2 x2 z2 y2 _ _ _ _ _ _ _ _ _ _ _ _ _ _ h
    unfold decoderCellIndex at h
    omega
  · intro i hi
    refine ⟨i % 256 / 16, i / 16384, i % 4096 / 1024, i % 16 / 4, i / 4096 % 4, i % 1024 / 256,
      i % 4, ?_⟩
    unfold decoderCellIndex
    omega
  · intro s gx gz gy x z y _ hgx hgz hgy hx hz hy
    constructor
    · simp only [sectionGridOffsets, List.mem_flatMap, List.mem_map]
      refine ⟨gx * 16384, ?_, gz * 1024, ?_, gy * 4, ?_, by omega⟩
      · interval_cases gx <;> simp
      · interval_cases gz <;> simp
      · interval_cases gy <;> simp
    · rw [mem_gridCellIndices_iff]
      exact ⟨x, z, y, hx, hz, hy, by unfold decoderCellIndex; omega⟩

/-! ### The scratch state of the encoder -/

set_option maxRecDepth 100000 in
/-- C38, at a failing input: the scan of the grid at offset 0 of `crowdedChunk`,
whose 64 cells hold 64 different blocks and 64 different submerged values, pushes
128 entries into `blockVector`, twice `GRID_COUNT`; `blockLocations` and
`sbmgdLocations2` get 64 entries each. -/
theorem crowded_grid_overflows_palette :
    GRID_COUNT = 64 ∧
    (ChunkV12.scanGrid crowdedChunk 0 fun _ => 0).blockVector.length = 128 ∧
    (ChunkV12.scanGrid crowdedChunk 0 fun _ => 0).blockLocations.length = 64 ∧
    (ChunkV12.scanGrid crowdedChunk 0 fun _ => 0).sbmgdLocations2.length = 64 := by
  refine ⟨rfl, by decide, by decide, by decide⟩

/-! ### v13 against v12 -/

theorem writeGrid13_eq : @ChunkV13.writeGrid = @ChunkV12.writeGrid := rfl

theorem writeWithMaxBlocks13_eq : @ChunkV13.writeWithMaxBlocks = @ChunkV12.writeWithMaxBlocks :=
  rfl

/-- The two format switches agree on scans with the same palette, positions and map. -/
theorem choosePalette13_eq (s s2 : ScanState) (dm : DataManager)
    (h1 : s.blockVector = s2.blockVector) (h2 : s.blockLocations = s2.blockLocations)
    (h3 : s.blockMap = s2.blockMap) :
    ChunkV13.choosePalette s dm = ChunkV12.choosePalette s2 dm := by
  simp only [ChunkV13.choosePalette, ChunkV12.choosePalette, h1, h2, h3, writeGrid13_eq,
    writeWithMaxBlocks13_eq]
  rfl

set_option maxRecDepth 100000 in
/-- C30, counterexample: for the grid of the waterlogged fence (scenario S3) the
v12 scan builds the palette `[0, 0x55, 0x800]` and picks the tag 4, the v13 scan
builds `[0, 0x55]` and picks the tag 2. -/
theorem v13_ignores_submerged_counterexample :
    (ChunkV12.scanGrid fenceChunk 17472 fun _ => 0).blockVector = [0x0000, 0x0055, 0x0800] ∧
    (ChunkV13.scanGrid fenceChunk 17472 fun _ => 0).blockVector = [0x0000, 0x0055] ∧
    (ChunkV12.choosePalette (ChunkV12.scanGrid fenceChunk 17472 fun _ => 0)
      (emptyBuffer 65536 204)).gridFormat = 4 ∧
    (ChunkV13.choosePalette (ChunkV13.scanGrid fenceChunk 17472 fun _ => 0)
      (emptyBuffer 65536 204)).gridFormat = 2 := by
  refine ⟨by decide, by decide, by decide, by decide⟩

theorem scanCell13_agrees (c : ChunkData) (i : Nat) (s s2 : ScanState)
    (hsub : c.submerged.get i = 0)
    (h1 : s.blockVector = s2.blockVector) (h2 : s.blockLocations = s2.blockLocations)
    (h3 : s.blockMap = s2.blockMap) :
    (ChunkV13.scanCell c i s).blockVector = (ChunkV12.scanCell c i s2).blockVector ∧
    (ChunkV13.scanCell c i s).blockLocations = (ChunkV12.scanCell c i s2).blockLocations ∧
    (ChunkV13.scanCell c i s).blockMap = (ChunkV12.scanCell c i s2).blockMap := by
  simp only [ChunkV13.scanCell, ChunkV12.scanCell, hsub, h1, h2, h3, ne_eq, not_true_eq_false,
    if_false]
  split_ifs <;> exact ⟨rfl, rfl, rfl⟩

theorem scan13_agrees (c : ChunkData) (l : List Nat) (s s2 : ScanState)
    (hsub : ∀ i ∈ l, c.submerged.get i = 0)
    (h1 : s.blockVector = s2.blockVector) (h2 : s.blockLocations = s2.blockLocations)
    (h3 : s.blockMap = s2.blockMap) :
    (l.foldl (fun s i => ChunkV13.scanCell c i s) s).blockVector
      = (l.foldl (fun s i => ChunkV12.scanCell c i s) s2).blockVector ∧
    (l.foldl (fun s i => ChunkV13.scanCell c i s) s).blockLocations
      = (l.foldl (fun s i => ChunkV12.scanCell c i s) s2).blockLocations ∧
    (l.foldl (fun s i => ChunkV13.scanCell c i s) s).blockMap
      = (l.foldl (fun s i => ChunkV12.scanCell c i s) s2).blockMap := by
  induction l generalizing s s2 with
  | nil => exact ⟨h1, h2, h3⟩
  | cons a t ih =>
    rw [List.foldl_cons, List.foldl_cons]
    obtain ⟨g1, g2, g3⟩ := scanCell13_agrees c a s s2 (hsub a (List.mem_cons_self a t)) h1 h2 h3
    exact ih _ _ (fun i hi => hsub i (List.mem_cons_of_mem a hi)) g1 g2 g3

/-- C30, amended: for every grid whose 64 submerged cells are 0, the palette, the
positions and the `blockMap` of the ChunkV13 scan are those of the ChunkV12 scan,
the format switch picks the same tag and writes the same bytes, and the grid body
leaves the same header word, cursor and payload size; and for every `B` and buffer
`ChunkV13::readGrid<B>` and `readGridSubmerged<B>` return what their ChunkV12
namesakes return. -/
theorem v13_grid_logic_equals_v12 (c : ChunkData) (off : Nat) (ss : SectionState)
    (hsub : ∀ i ∈ gridCellIndices off, c.submerged.get i = 0) :
    (ChunkV13.scanGrid c off ss.blockMap).blockVector
      = (ChunkV12.scanGrid c off ss.blockMap).blockVector ∧
    (ChunkV13.scanGrid c off ss.blockMap).blockLocations
      = (ChunkV12.scanGrid c off ss.blockMap).blockLocations ∧
    ChunkV13.choosePalette (ChunkV13.scanGrid c off ss.blockMap) ss.dm
      = ChunkV12.choosePalette (ChunkV12.scanGrid c off ss.blockMap) ss.dm ∧
    ChunkV13.writeGridBody c off ss = ChunkV12.writeGridBody c off ss ∧
    ∀ (B : Nat) (d : Nat → Nat) (buffer : Nat),
      ChunkV13.readGrid B d buffer = ChunkV12.readGrid B d buffer ∧
      ChunkV13.readGridSubmerged B d buffer = ChunkV12.readGridSubmerged B d buffer := by
  have hs : (ChunkV13.scanGrid c off ss.blockMap).blockVector
        = (ChunkV12.scanGrid c off ss.blockMap).blockVector ∧
      (ChunkV13.scanGrid c off ss.blockMap).blockLocations
        = (ChunkV12.scanGrid c off ss.blockMap).blockLocations ∧
      (ChunkV13.scanGrid c off ss.blockMap).blockMap
        = (ChunkV12.scanGrid c off ss.blockMap).blockMap := by
    rw [scanGrid13_eq, scanGrid_eq]
    exact scan13_agrees c _ _ _ hsub rfl rfl rfl
  obtain ⟨g1, g2, g3⟩ := hs
  have hch := choosePalette13_eq _ _ ss.dm g1 g2 g3
  refine ⟨g1, g2, hch, ?_, fun B d buffer => ⟨rfl, rfl⟩⟩
  simp only [ChunkV13.writeGridBody, ChunkV12.writeGridBody, hch, g1]
  rfl

set_option maxRecDepth 100000 in
/-- Witness of the amended C30: the grid at offset 0 of the stone chunk. -/
theorem v13_grid_logic_equals_v12_witness :
    (∀ i ∈ gridCellIndices 0, stoneChunk.submerged.get i = 0) ∧
    ((ChunkV13.scanGrid stoneChunk 0
        ({ dm := emptyBuffer 65536 204, blockMap := fun _ => 0, gridHeader := [],
           sectionSize := 0 } : SectionState).blockMap).blockVector
      = (ChunkV12.scanGrid stoneChunk 0
        ({ dm := emptyBuffer 65536 204, blockMap := fun _ => 0, gridHeader := [],
           sectionSize := 0 } : SectionState).blockMap).blockVector ∧
    (ChunkV13.scanGrid stoneChunk 0
        ({ dm := emptyBuffer 65536 204, blockMap := fun _ => 0, gridHeader := [],
           sectionSize := 0 } : SectionState).blockMap).blockLocations
      = (ChunkV12.scanGrid stoneChunk 0
        ({ dm := emptyBuffer 65536 204, blockMap := fun _ => 0, gridHeader := [],
           sectionSize := 0 } : SectionState).blockMap).blockLocations ∧
    ChunkV13.choosePalette (ChunkV13.scanGrid stoneChunk 0
        ({ dm := emptyBuffer 65536 204, blockMap := fun _ => 0, gridHeader := [],
           sectionSize := 0 } : SectionState).blockMap)
        ({ dm := emptyBuffer 65536 204, blockMap := fun _ => 0, gridHeader := [],
           sectionSize := 0 } : SectionState).dm
      = ChunkV12.choosePalette (ChunkV12.scanGrid stoneChunk 0
        ({ dm := emptyBuffer 65536 204, blockMap := fun _ => 0, gridHeader := [],
           sectionSize := 0 } : SectionState).blockMap)
        ({ dm := emptyBuffer 65536 204, blockMap := fun _ => 0, gridHeader := [],
           sectionSize := 0 } : SectionState).dm ∧
    ChunkV13.writeGridBody stoneChunk 0
        { dm := emptyBuffer 65536 204, blockMap := fun _ => 0, gridHeader := [],
          sectionSize := 0 }
      = ChunkV12.writeGridBody stoneChunk 0
        { dm := emptyBuffer 65536 204, blockMap := fun _ => 0, gridHeader := [],
          sectionSize := 0 } ∧
    ∀ (B : Nat) (d : Nat → Nat) (buffer : Nat),
      ChunkV13.readGrid B d buffer = ChunkV12.readGrid B d buffer ∧
      ChunkV13.readGridSubmerged B d buffer = ChunkV12.readGridSubmerged B d buffer) :=
  ⟨by decide, v13_grid_logic_equals_v12 stoneChunk 0
    { dm := emptyBuffer 65536 204, blockMap := fun _ => 0, gridHeader := [], sectionSize := 0 }
    (by decide)⟩

/-! ### The submerged invariant of the decoders -/

/-- A property of the state that every loop body keeps holds after the loop. -/
theorem forFlow_state_inv {α σ : Type} (P : σ → Prop) (body : α → σ → Flow σ)
    (hb : ∀ a s, P s → P (body a s).state) (l : List α) (s : σ) (hs : P s) :
    P (forFlow l body s).state := by
  induction l generalizing s with
  | nil => exact hs
  | cons a t ih =>
    have h1 := hb a s hs
    unfold forFlow
    cases hr : body a s with
    | run s1 => rw [hr] at h1; exact ih s1 h1
    | ret s1 => rw [hr] at h1; exact h1

theorem placeBlocks_size (w : U16Vec) (grid : Nat → Nat) (off : Nat) :
    (ChunkV12.placeBlocks w grid off).size = w.size := by
  rw [placeBlocks_eq]
  exact foldl_set_size _ _ _ w

theorem set_mod (w : U16Vec) (i x : Nat) : w.set i (x % 65536) = w.set i x := by
  simp only [U16Vec.set, Nat.mod_mod]

theorem placeBlocks13_eq : ChunkV13.placeBlocks = ChunkV12.placeBlocks := by
  funext w grid off
  simp only [ChunkV13.placeBlocks, ChunkV12.placeBlocks, set_mod]

theorem decodeGrid13_eq : ChunkV13.decodeGrid = ChunkV12.decodeGrid := by
  funext format a b d p
  rfl

theorem readGridBody_inv (sectionHeader address sect gridX gridZ gridY : Nat)
    (st : DataManager × ChunkData) (h : SubInv st.2) :
    SubInv (ChunkV12.readGridBody sectionHeader address sect gridX gridZ gridY st).state.2 := by
  obtain ⟨h1, h2, h3⟩ := h
  unfold ChunkV12.readGridBody
  dsimp only
  split_ifs with hg hf
  · exact ⟨h1, h2, h3⟩
  · split
    · exact ⟨h1, h2, h3⟩
    · exact ⟨h1, h2, h3⟩
    · unfold SubInv
      dsimp only [Flow.state]
      refine ⟨?_, ?_, ?_⟩
      · rw [placeBlocks_size]; exact h1
      · rw [placeBlocks_size]; exact h2
      · intro hh; exact absurd hh (by decide)
  · split
    · exact ⟨h1, h2, h3⟩
    · exact ⟨h1, h2, h3⟩
    · unfold SubInv
      dsimp only [Flow.state]
      refine ⟨?_, h2, h3⟩
      rw [placeBlocks_size]; exact h1

theorem readGridBody13_inv (sectionHeader address sect gridX gridZ gridY : Nat)
    (st : DataManager × ChunkData) (h : SubInv st.2) :
    SubInv (ChunkV13.readGridBody sectionHeader address sect gridX gridZ gridY st).state.2 := by
  obtain ⟨h1, h2, h3⟩ := h
  unfold ChunkV13.readGridBody
  dsimp only
  rw [placeBlocks13_eq]
  split_ifs with hg hf
  · exact ⟨h1, h2, h3⟩
  · split
    · exact ⟨h1, h2, h3⟩
    · exact ⟨h1, h2, h3⟩
    · unfold SubInv
      dsimp only [Flow.state]
      refine ⟨?_, ?_, ?_⟩
      · rw [placeBlocks_size]; exact h1
      · rw [placeBlocks_size]; exact h2
      · intro hh; exact absurd hh (by decide)
  · split
    · exact ⟨h1, h2, h3⟩
    · exact ⟨h1, h2, h3⟩
    · unfold SubInv
      dsimp only [Flow.state]
      refine ⟨?_, h2, h3⟩
      rw [placeBlocks_size]; exact h1

theorem readSectionGrids_inv (sectionHeader address sect : Nat)
    (st : DataManager × ChunkData) (h : SubInv st.2) :
    SubInv (ChunkV12.readSectionGrids sectionHeader address sect st).state.2 := by
  unfold ChunkV12.readSectionGrids
  refine forFlow_state_inv (fun s => SubInv s.2) _ ?_ _ st h
  intro gx s hs
  refine forFlow_state_inv (fun s => SubInv s.2) _ ?_ _ s hs
  intro gz s hs
  refine forFlow_state_inv (fun s => SubInv s.2) _ ?_ _ s hs
  intro gy s hs
  exact readGridBody_inv _ _ _ _ _ _ s hs

theorem readSectionGrids13_inv (sectionHeader address sect : Nat)
    (st : DataManager × ChunkData) (h : SubInv st.2) :
    SubInv (ChunkV13.readSectionGrids sectionHeader address sect st).state.2 := by
  unfold ChunkV13.readSectionGrids
  refine forFlow_state_inv (fun s => SubInv s.2) _ ?_ _ st h
  intro gx s hs
  refine forFlow_state_inv (fun s => SubInv s.2) _ ?_ _ s hs
  intro gz s hs
  refine forFlow_state_inv (fun s => SubInv s.2) _ ?_ _ s hs
  intro gy s hs
  exact readGridBody13_inv _ _ _ _ _ _ s hs

theorem readSections_inv (m : Nat) (tbl : List Nat) (sz : Nat) (l : List Nat)
    (st : DataManager × ChunkData) (h : SubInv st.2) :
    SubInv (ChunkV12.readSections m tbl sz l st).state.2 := by
  induction l generalizing st with
  | nil => exact h
  | cons sect rest ih =>
    unfold ChunkV12.readSections
    dsimp only
    split_ifs with ha hb
    · exact h
    · exact ih _ h
    · have hg := readSectionGrids_inv
        (DataManager.pos (st.1.seek (76 + tbl.getD sect 0))) (tbl.getD sect 0) sect
        (DataManager.skip (st.1.seek (76 + tbl.getD sect 0)) 128, st.2) h
      revert hg
      cases ChunkV12.readSectionGrids
        (DataManager.pos (st.1.seek (76 + tbl.getD sect 0))) (tbl.getD sect 0) sect
        (DataManager.skip (st.1.seek (76 + tbl.getD sect 0)) 128, st.2) with
      | run s1 => intro hg; exact ih s1 hg
      | ret s1 => intro hg; exact hg

theorem readSections13_inv (m : Nat) (tbl : List Nat) (sz : Nat) (l : List Nat)
    (st : DataManager × ChunkData) (h : SubInv st.2) :
    SubInv (ChunkV13.readSections m tbl sz l st).state.2 := by
  induction l generalizing st with
  | nil => exact h
  | cons sect rest ih =>
    unfold ChunkV13.readSections
    dsimp only
    split_ifs with ha hb
    · exact h
    · exact ih _ h
    · have hg := readSectionGrids13_inv
        (DataManager.pos (st.1.seek (SECTION_HEADER_SIZE + DATA_HEADER_SIZE + tbl.getD sect 0)))
        (tbl.getD sect 0) sect
        (DataManager.skip (st.1.seek (SECTION_HEADER_SIZE + DATA_HEADER_SIZE + tbl.getD sect 0)) 128,
          st.2) h
      revert hg
      cases ChunkV13.readSectionGrids
        (DataManager.pos (st.1.seek (SECTION_HEADER_SIZE + DATA_HEADER_SIZE + tbl.getD sect 0)))
        (tbl.getD sect 0) sect
        (DataManager.skip (st.1.seek (SECTION_HEADER_SIZE + DATA_HEADER_SIZE + tbl.getD sect 0)) 128,
          st.2) with
      | run s1 => intro hg; exact ih s1 hg
      | ret s1 => intro hg; exact hg

theorem readBlockData_inv (dm : DataManager) (c : ChunkData) (h : SubInv c)
    (st : DataManager × ChunkData) (hr : ChunkV12.readBlockData dm c = some st) : SubInv st.2 := by
  unfold ChunkV12.readBlockData at hr
  dsimp only at hr
  split_ifs at hr with ho hm
  · cases hr; exact h
  · have hs := readSections_inv ((dm.read 2).1 <<< 8 % 2 ^ 32) (ChunkV12.readTable 16 (dm.read 2).2).1
      (ChunkV12.readTable 16 (dm.read 2).2).2.pos (List.range 16)
      ((ChunkV12.readTable 16 (dm.read 2).2).2.skip 16, c) h
    revert hr hs
    cases ChunkV12.readSections ((dm.read 2).1 <<< 8 % 2 ^ 32) (ChunkV12.readTable 16 (dm.read 2).2).1
      (ChunkV12.readTable 16 (dm.read 2).2).2.pos (List.range 16)
      ((ChunkV12.readTable 16 (dm.read 2).2).2.skip 16, c) with
    | run s1 => intro hr hs; cases hr; exact hs
    | ret s1 => intro hr hs; cases hr; exact hs

theorem readBlockData13_inv (dm : DataManager) (c : ChunkData) (h : SubInv c)
    (st : DataManager × ChunkData) (hr : ChunkV13.readBlockData dm c = some st) : SubInv st.2 := by
  unfold ChunkV13.readBlockData at hr
  dsimp only at hr
  split_ifs at hr with ho hm
  · cases hr; exact h
  · have hs := readSections13_inv ((dm.read 2).1 <<< 8 % 2 ^ 32) (ChunkV12.readTable 16 (dm.read 2).2).1
      (ChunkV12.readTable 16 (dm.read 2).2).2.pos (List.range 16)
      ((ChunkV12.readTable 16 (dm.read 2).2).2.skip 16, c) h
    revert hr hs
    cases ChunkV13.readSections ((dm.read 2).1 <<< 8 % 2 ^ 32) (ChunkV12.readTable 16 (dm.read 2).2).1
      (ChunkV12.readTable 16 (dm.read 2).2).2.pos (List.range 16)
      ((ChunkV12.readTable 16 (dm.read 2).2).2.skip 16, c) with
    | run s1 => intro hr hs; cases hr; exact hs
    | ret s1 => intro hr hs; cases hr; exact hs

theorem subInv_alloc12 (x z : Int) (l i : Int) :
    SubInv { ChunkV12.allocChunk ChunkData.fresh with
      chunkX := x, chunkZ := z, lastUpdate := l, inhabitedTime := i } :=
  ⟨rfl, rfl, fun _ _ => rfl⟩

theorem subInv_alloc13 (x z : Int) (l i : Int) :
    SubInv { ChunkV13.allocChunk ChunkData.fresh with
      chunkX := x, chunkZ := z, lastUpdate := l, inhabitedTime := i } :=
  ⟨rfl, rfl, fun _ _ => rfl⟩

theorem readChunk12_inv (rest : DataManager → Option ChunkRest) (dm : DataManager) :
    SubInv (ChunkV12.readChunk rest dm) := by
  unfold ChunkV12.readChunk
  dsimp only
  split_ifs with ho1 ho2 ho3 ho
  · exact ⟨rfl, rfl, fun _ _ => rfl⟩
  · exact ⟨rfl, rfl, fun _ _ => rfl⟩
  · exact ⟨rfl, rfl, fun _ _ => rfl⟩
  · exact ⟨rfl, rfl, fun _ _ => rfl⟩
  · split
    · exact subInv_alloc12 _ _ _ _
    · next st hst =>
      have h := readBlockData_inv _ _ (subInv_alloc12 _ _ _ _) st hst
      split
      · exact h
      · exact h

theorem readChunk13_inv (rest : DataManager → Option ChunkRest) (self : Nat) (dm : DataManager) :
    SubInv (ChunkV13.readChunk rest self dm).2 := by
  unfold ChunkV13.readChunk
  dsimp only
  split_ifs with ho1 ho2 ho3 ho4 ho
  · exact ⟨rfl, rfl, fun _ _ => rfl⟩
  · exact ⟨rfl, rfl, fun _ _ => rfl⟩
  · exact ⟨rfl, rfl, fun _ _ => rfl⟩
  · exact ⟨rfl, rfl, fun _ _ => rfl⟩
  · exact ⟨rfl, rfl, fun _ _ => rfl⟩
  · split
    · exact subInv_alloc13 _ _ _ _
    · next st hst =>
      have h := readBlockData13_inv _ _ (subInv_alloc13 _ _ _ _) st hst
      split
      · exact h
      · exact h

/-- C11: for every buffer, cursor and continuation, the chunk that
`ChunkV12::readChunk` and `ChunkV13::readChunk` produce from a freshly constructed
chunk has 65 536 cells in `newBlocks` and in `submerged`, and when `hasSubmerged`
is false every submerged cell is 0. -/
theorem submerged_invariant_after_decode (rest : DataManager → Option ChunkRest)
    (self : Nat) (dm : DataManager) :
    ((ChunkV12.readChunk rest dm).newBlocks.size = 65536 ∧
      (ChunkV12.readChunk rest dm).submerged.size = 65536 ∧
      ((ChunkV12.readChunk rest dm).hasSubmerged = false →
        ∀ i, (ChunkV12.readChunk rest dm).submerged.get i = 0)) ∧
    ((ChunkV13.readChunk rest self dm).2.newBlocks.size = 65536 ∧
      (ChunkV13.readChunk rest self dm).2.submerged.size = 65536 ∧
      ((ChunkV13.readChunk rest self dm).2.hasSubmerged = false →
        ∀ i, (ChunkV13.readChunk rest self dm).2.submerged.get i = 0)) :=
  ⟨readChunk12_inv rest dm, readChunk13_inv rest self dm⟩

/-! ### Unknown format tags -/

set_option maxRecDepth 100000 in
/-- C9, counterexample: on `badTagBuffer`, whose present section 0 holds the unknown
tag 1 in its second grid-header word, `ChunkV12::readChunk` ends with
`validChunk == true`, and the cell 0 of the grid decoded before the bad word holds
`0x0010`. -/
theorem unknown_tag_counterexample :
    (badTagBuffer.byte 79) >>> 4 = 1 ∧ knownTagV12 1 = false ∧
    (ChunkV12.readChunk restZero badTagBuffer).validChunk = true ∧
    (ChunkV12.readChunk restZero badTagBuffer).newBlocks.get 0 = 0x0010 := by
  refine ⟨by decide, by decide, ?_, ?_⟩
  · decide
  · decide

theorem byte_format_lt (dm : DataManager) (a : Nat) : dm.byte a >>> 4 < 16 := by
  rw [Nat.shiftRight_eq_div_pow, DataManager.byte, byteAt]
  have : dm.data a % 256 < 256 := Nat.mod_lt _ (by decide)
  omega

/-- A grid body whose header word carries no known tag executes `return` and leaves
the chunk as it is. -/
theorem readGridBody_unknown (sectionHeader address sect gridX gridZ gridY : Nat)
    (st : DataManager × ChunkData)
    (h : knownTagV12
      (st.1.byte (sectionHeader + ((gridX * 16 + gridZ * 4 + gridY) * 2 + 1)) >>> 4) = false) :
    (ChunkV12.readGridBody sectionHeader address sect gridX gridZ gridY st).returned = true ∧
    (ChunkV12.readGridBody sectionHeader address sect gridX gridZ gridY st).state.2 = st.2 := by
  have hlt := byte_format_lt st.1 (sectionHeader + ((gridX * 16 + gridZ * 4 + gridY) * 2 + 1))
  simp only [ChunkV12.readGridBody]
  generalize st.1.byte (sectionHeader + ((gridX * 16 + gridZ * 4 + gridY) * 2 + 1)) >>> 4 = f
    at h hlt
  interval_cases f
  all_goals first
    | (exfalso; revert h; decide)
    | (simp only [ChunkV12.decodeGrid]; split_ifs <;> exact ⟨rfl, rfl⟩)

/-! #### A `return` inside the loops ends them -/

theorem forFlow_append {α σ : Type} (l1 l2 : List α) (body : α → σ → Flow σ) (s : σ) :
    forFlow (l1 ++ l2) body s =
      match forFlow l1 body s with
      | Flow.run s1 => forFlow l2 body s1
      | Flow.ret s1 => Flow.ret s1 := by
  induction l1 generalizing s with
  | nil => rfl
  | cons a t ih =>
    simp only [List.cons_append, forFlow]
    cases body a s with
    | run s1 => exact ih s1
    | ret s1 => rfl

/-- A loop whose body returns at the element `a`, reached in the state `s1` after
the elements before it, returns there, whatever follows `a` in the list. -/
theorem forFlow_stop {α σ : Type} (l pre : List α) (a : α) (post : List α)
    (hl : l = pre ++ a :: post) (body : α → σ → Flow σ)
    (s s1 s2 : σ) (h1 : forFlow pre body s = Flow.run s1) (h2 : body a s1 = Flow.ret s2) :
    forFlow l body s = Flow.ret s2 := by
  rw [hl, forFlow_append, h1]
  simp only [forFlow, h2]

theorem range_four_split (g : Nat) (h : g < 4) :
    List.range 4 = List.range g ++ g :: List.range' (g + 1) (3 - g) := by
  interval_cases g <;> rfl

/-- The three grid loops of a section return at the grid `(gridX, gridZ, gridY)`
when the grids before it ran and its body returns. -/
theorem readSectionGrids_stop (sectionHeader address sect gridX gridZ gridY : Nat)
    (hx : gridX < 4) (hz : gridZ < 4) (hy : gridY < 4) (st sa sb sc s2 : DataManager × ChunkData)
    (h1 : forFlow (List.range gridX) (fun x =>
      forFlow (List.range 4) (fun z =>
        forFlow (List.range 4) (ChunkV12.readGridBody sectionHeader address sect x z))) st =
      Flow.run sa)
    (h2 : forFlow (List.range gridZ) (fun z =>
      forFlow (List.range 4) (ChunkV12.readGridBody sectionHeader address sect gridX z)) sa =
      Flow.run sb)
    (h3 : forFlow (List.range gridY) (ChunkV12.readGridBody sectionHeader address sect gridX gridZ)
      sb = Flow.run sc)
    (h4 : ChunkV12.readGridBody sectionHeader address sect gridX gridZ gridY sc = Flow.ret s2) :
    ChunkV12.readSectionGrids sectionHeader address sect st = Flow.ret s2 := by
  unfold ChunkV12.readSectionGrids
  have e3 : forFlow (List.range 4) (ChunkV12.readGridBody sectionHeader address sect gridX gridZ)
      sb = Flow.ret s2 := by
    exact forFlow_stop _ _ _ _ (range_four_split gridY hy) _ sb sc s2 h3 h4
  have e2 : forFlow (List.range 4) (fun z =>
      forFlow (List.range 4) (ChunkV12.readGridBody sectionHeader address sect gridX z)) sa =
      Flow.ret s2 := by
    exact forFlow_stop _ _ _ _ (range_four_split gridZ hz) _ sa sb s2 h2 e3
  exact forFlow_stop _ _ _ _ (range_four_split gridX hx) _ st sa s2 h1 e2

/-- The section loop goes on after the sections of `pre` when none of them ends the
loop and the loop over them alone ends without a `return`. -/
theorem readSections_prefix (m : Nat) (tbl : List Nat) (sz : Nat) (pre post : List Nat) :
    ∀ (st ss : DataManager × ChunkData), (∀ s ∈ pre, tbl.getD s 0 ≠ m) →
      ChunkV12.readSections m tbl sz pre st = Flow.run ss →
      ChunkV12.readSections m tbl sz (pre ++ post) st = ChunkV12.readSections m tbl sz post ss := by
  induction pre with
  | nil =>
    intro st ss _ hrun
    simp only [ChunkV12.readSections, Flow.run.injEq] at hrun
    rw [List.nil_append, hrun]
  | cons a t ih =>
    intro st ss hnb hrun
    have ha := hnb a (List.mem_cons_self a t)
    have ht : ∀ s ∈ t, tbl.getD s 0 ≠ m := fun s hs => hnb s (List.mem_cons_of_mem a hs)
    rw [List.cons_append]
    by_cases hz : byteAt st.1.data (sz + a) = 0
    · rw [readSections_skip m tbl sz a _ st ha hz] at hrun ⊢
      exact ih _ ss ht hrun
    · cases hg : ChunkV12.readSectionGrids (76 + tbl.getD a 0) (tbl.getD a 0) a
        ((st.1.seek (76 + tbl.getD a 0)).skip 128, st.2) with
      | run s1 =>
        rw [readSections_read m tbl sz a _ st s1 ha hz hg] at hrun ⊢
        exact ih s1 ss ht hrun
      | ret s1 =>
        rw [readSections_return m tbl sz a _ st s1 ha hz hg] at hrun
        cases hrun

theorem range_sixteen_split (k : Nat) (h : k < 16) :
    List.range 16 = List.range k ++ k :: List.range' (k + 1) (15 - k) := by
  interval_cases k <;> rfl

/-! #### `validChunk` is set by `readChunk` alone -/

theorem readGridBody_valid (sectionHeader address sect gridX gridZ gridY : Nat)
    (st : DataManager × ChunkData) :
    (ChunkV12.readGridBody sectionHeader address sect gridX gridZ gridY st).state.2.validChunk =
      st.2.validChunk := by
  unfold ChunkV12.readGridBody
  dsimp only
  split_ifs with hg hf
  · rfl
  · split
    · rfl
    · rfl
    · dsimp only [Flow.state]
  · split
    · rfl
    · rfl
    · dsimp only [Flow.state]

theorem readSectionGrids_valid (sectionHeader address sect : Nat) (v : Bool)
    (st : DataManager × ChunkData) (h : st.2.validChunk = v) :
    (ChunkV12.readSectionGrids sectionHeader address sect st).state.2.validChunk = v := by
  unfold ChunkV12.readSectionGrids
  refine forFlow_state_inv (fun s => s.2.validChunk = v) _ ?_ _ st h
  intro gx s hs
  refine forFlow_state_inv (fun s => s.2.validChunk = v) _ ?_ _ s hs
  intro gz s hs
  refine forFlow_state_inv (fun s => s.2.validChunk = v) _ ?_ _ s hs
  intro gy s hs
  rw [readGridBody_valid]
  exact hs

theorem readSections_valid (m : Nat) (tbl : List Nat) (sz : Nat) (l : List Nat) (v : Bool)
    (st : DataManager × ChunkData) (h : st.2.validChunk = v) :
    (ChunkV12.readSections m tbl sz l st).state.2.validChunk = v := by
  induction l generalizing st with
  | nil => exact h
  | cons sect rest ih =>
    unfold ChunkV12.readSections
    dsimp only
    split_ifs with ha hb
    · exact h
    · exact ih _ h
    · have hg := readSectionGrids_valid
        (DataManager.pos (st.1.seek (76 + tbl.getD sect 0))) (tbl.getD sect 0) sect v
        (DataManager.skip (st.1.seek (76 + tbl.getD sect 0)) 128, st.2) h
      revert hg
      cases ChunkV12.readSectionGrids
        (DataManager.pos (st.1.seek (76 + tbl.getD sect 0))) (tbl.getD sect 0) sect
        (DataManager.skip (st.1.seek (76 + tbl.getD sect 0)) 128, st.2) with
      | run s1 => intro hg; exact ih s1 hg
      | ret s1 => intro hg; exact hg

/-- The function `readBlockData` does not touch `validChunk`. -/
theorem readBlockData_valid (dm : DataManager) (c : ChunkData)
    (st : DataManager × ChunkData) (hr : ChunkV12.readBlockData dm c = some st) :
    st.2.validChunk = c.validChunk := by
  unfold ChunkV12.readBlockData at hr
  dsimp only at hr
  split_ifs at hr with ho hm
  · cases hr; rfl
  · have hs := readSections_valid ((dm.read 2).1 <<< 8 % 2 ^ 32) (ChunkV12.readTable 16 (dm.read 2).2).1
      (ChunkV12.readTable 16 (dm.read 2).2).2.pos (List.range 16) c.validChunk
      ((ChunkV12.readTable 16 (dm.read 2).2).2.skip 16, c) rfl
    revert hr hs
    cases ChunkV12.readSections ((dm.read 2).1 <<< 8 % 2 ^ 32) (ChunkV12.readTable 16 (dm.read 2).2).1
      (ChunkV12.readTable 16 (dm.read 2).2).2.pos (List.range 16)
      ((ChunkV12.readTable 16 (dm.read 2).2).2.skip 16, c) with
    | run s1 => intro hr hs; cases hr; exact hs
    | ret s1 => intro hr hs; cases hr; exact hs

theorem read_oob_false (dm : DataManager) (w : Nat) (h : (dm.read w).2.oob = false) :
    dm.oob = false := by
  rw [DataManager.read_oob] at h
  cases ho : dm.oob with
  | false => rfl
  | true => rw [ho] at h; simp at h

theorem flow_ret_of_returned {σ : Type} (f : Flow σ) (h : f.returned = true) :
    f = Flow.ret f.state := by
  cases f with
  | run s => cases h
  | ret s => rfl

/-- The function `readBlockData` returns at a grid with an unknown tag that it
reaches in section `sect`, with the chunk as it is at that grid. -/
theorem readBlockData_stop (dm : DataManager) (chunk : ChunkData)
    (m : Nat) (tbl : List Nat) (sz : Nat) (d0 : DataManager)
    (hm : m = ((dm.read 2).1 <<< 8) % 2 ^ 32)
    (htbl : tbl = (ChunkV12.readTable 16 (dm.read 2).2).1)
    (hsz : sz = (ChunkV12.readTable 16 (dm.read 2).2).2.pos)
    (hd0 : d0 = (ChunkV12.readTable 16 (dm.read 2).2).2.skip 16)
    (hoob : d0.oob = false) (hm0 : m ≠ 0)
    (sect gridX gridZ gridY : Nat) (hs : sect < 16)
    (hx : gridX < 4) (hz : gridZ < 4) (hy : gridY < 4)
    (ss sa sb sc : DataManager × ChunkData)
    (hnb : ∀ s, s < sect → tbl.getD s 0 ≠ m)
    (hpre : ChunkV12.readSections m tbl sz (List.range sect) (d0, chunk) = Flow.run ss)
    (hend : tbl.getD sect 0 ≠ m)
    (hpresent : byteAt ss.1.data (sz + sect) ≠ 0)
    (h1 : forFlow (List.range gridX) (fun x =>
      forFlow (List.range 4) (fun z =>
        forFlow (List.range 4)
          (ChunkV12.readGridBody (76 + tbl.getD sect 0) (tbl.getD sect 0) sect x z)))
      ((ss.1.seek (76 + tbl.getD sect 0)).skip 128, ss.2) = Flow.run sa)
    (h2 : forFlow (List.range gridZ) (fun z =>
      forFlow (List.range 4)
        (ChunkV12.readGridBody (76 + tbl.getD sect 0) (tbl.getD sect 0) sect gridX z)) sa =
      Flow.run sb)
    (h3 : forFlow (List.range gridY)
      (ChunkV12.readGridBody (76 + tbl.getD sect 0) (tbl.getD sect 0) sect gridX gridZ) sb =
      Flow.run sc)
    (htag : knownTagV12 (sc.1.byte
      (76 + tbl.getD sect 0 + ((gridX * 16 + gridZ * 4 + gridY) * 2 + 1)) >>> 4) = false) :
    ChunkV12.readBlockData dm chunk =
      some ((ChunkV12.readGridBody (76 + tbl.getD sect 0) (tbl.getD sect 0) sect
        gridX gridZ gridY sc).state.1, sc.2) := by
  obtain ⟨hret, hchunk⟩ := readGridBody_unknown (76 + tbl.getD sect 0) (tbl.getD sect 0) sect
    gridX gridZ gridY sc htag
  have h4 := flow_ret_of_returned _ hret
  have hsec := readSectionGrids_stop _ _ _ _ _ _ hx hz hy _ sa sb sc _ h1 h2 h3 h4
  have hret2 := readSections_return m tbl sz sect (List.range' (sect + 1) (15 - sect)) ss _
    hend hpresent hsec
  have hall := readSections_prefix m tbl sz (List.range sect)
    (sect :: List.range' (sect + 1) (15 - sect)) (d0, chunk) ss
    (fun s hs => hnb s (List.mem_range.1 hs)) hpre
  rw [← range_sixteen_split sect hs, hret2] at hall
  unfold ChunkV12.readBlockData
  dsimp only
  rw [← hm, ← htbl, ← hsz, ← hd0, if_neg (by rw [hoob]; decide), if_neg hm0, hall]
  dsimp only
  congr 1
  generalize ChunkV12.readGridBody (76 + tbl.getD sect 0) (tbl.getD sect 0) sect
    gridX gridZ gridY sc = f at hchunk
  rw [← hchunk]

/-- The chunk `readChunk` leaves is valid exactly when no read raised. -/
theorem readChunk_valid_iff (rest : DataManager → Option ChunkRest) (dm : DataManager) :
    (ChunkV12.readChunk rest dm).validChunk = true ↔
      ((((dm.read 4).2.read 4).2.read 8).2.read 8).2.oob = false ∧
      ∃ st r, ChunkV12.readBlockData ((((dm.read 4).2.read 4).2.read 8).2.read 8).2
        { ChunkV12.allocChunk ChunkData.fresh with
          chunkX := toI32 (dm.read 4).1, chunkZ := toI32 ((dm.read 4).2.read 4).1,
          lastUpdate := toI64 (((dm.read 4).2.read 4).2.read 8).1,
          inhabitedTime := toI64 ((((dm.read 4).2.read 4).2.read 8).2.read 8).1 } = some st ∧
        rest st.1 = some r := by
  unfold ChunkV12.readChunk
  dsimp only
  split_ifs with ho1 ho2 ho3 ho
  · constructor
    · intro h; cases h
    · rintro ⟨h, _⟩
      have := read_oob_false _ _ (read_oob_false _ _ (read_oob_false _ _ h))
      rw [this] at ho1
      cases ho1
  · constructor
    · intro h; cases h
    · rintro ⟨h, _⟩
      have := read_oob_false _ _ (read_oob_false _ _ h)
      rw [this] at ho2
      cases ho2
  · constructor
    · intro h; cases h
    · rintro ⟨h, _⟩
      have := read_oob_false _ _ h
      rw [this] at ho3
      cases ho3
  · constructor
    · intro h; cases h
    · rintro ⟨h, _⟩
      rw [h] at ho
      cases ho
  · have hf : ((((dm.read 4).2.read 4).2.read 8).2.read 8).2.oob = false := by
      cases hb : ((((dm.read 4).2.read 4).2.read 8).2.read 8).2.oob with
      | false => rfl
      | true => exact absurd hb ho
    cases hr : ChunkV12.readBlockData ((((dm.read 4).2.read 4).2.read 8).2.read 8).2
        { ChunkV12.allocChunk ChunkData.fresh with
          chunkX := toI32 (dm.read 4).1, chunkZ := toI32 ((dm.read 4).2.read 4).1,
          lastUpdate := toI64 (((dm.read 4).2.read 4).2.read 8).1,
          inhabitedTime := toI64 ((((dm.read 4).2.read 4).2.read 8).2.read 8).1 } with
    | none =>
      dsimp only
      constructor
      · intro h; cases h
      · rintro ⟨_, st, r, h, _⟩
        cases h
    | some st =>
      dsimp only
      have hv := readBlockData_valid _ _ st hr
      cases hrest : rest st.1 with
      | none =>
        dsimp only
        constructor
        · intro h
          rw [hv] at h
          cases h
        · rintro ⟨_, st2, r, h, h2⟩
          cases h
          rw [hrest] at h2
          cases h2
      | some r =>
        dsimp only
        exact ⟨fun _ => ⟨hf, st, r, rfl, hrest⟩, fun _ => rfl⟩

/-- The chunk `readChunk` leaves when no read raised. -/
theorem readChunk_value (rest : DataManager → Option ChunkRest) (dm : DataManager)
    (st : DataManager × ChunkData) (r : ChunkRest)
    (h1 : ((((dm.read 4).2.read 4).2.read 8).2.read 8).2.oob = false)
    (h2 : ChunkV12.readBlockData ((((dm.read 4).2.read 4).2.read 8).2.read 8).2
        { ChunkV12.allocChunk ChunkData.fresh with
          chunkX := toI32 (dm.read 4).1, chunkZ := toI32 ((dm.read 4).2.read 4).1,
          lastUpdate := toI64 (((dm.read 4).2.read 4).2.read 8).1,
          inhabitedTime := toI64 ((((dm.read 4).2.read 4).2.read 8).2.read 8).1 } = some st)
    (h3 : rest st.1 = some r) :
    ChunkV12.readChunk rest dm = { st.2 with lastVersion := 12, validChunk := true } := by
  have g3 := read_oob_false _ _ h1
  have g2 := read_oob_false _ _ g3
  have g1 := read_oob_false _ _ g2
  simp only [ChunkV12.readChunk, g1, g2, g3, h1, Bool.false_eq_true, if_false, h2, h3]

theorem readBlockData_none_iff (dm : DataManager) (c : ChunkData) :
    ChunkV12.readBlockData dm c = none ↔
      ((ChunkV12.readTable 16 (dm.read 2).2).2.skip 16).oob = true := by
  unfold ChunkV12.readBlockData
  dsimp only
  split_ifs with ho hm
  · exact ⟨fun _ => ho, fun _ => rfl⟩
  · exact ⟨fun h => (by cases h), fun h => absurd h ho⟩
  · constructor
    · intro h
      split at h <;> cases h
    · intro h
      exact absurd h ho

theorem forFlow_single_run {α σ : Type} (a : α) (body : α → σ → Flow σ) (s : σ)
    (h : (body a s).returned = false) : forFlow [a] body s = Flow.run (body a s).state := by
  simp only [forFlow]
  cases hb : body a s with
  | run s1 => rfl
  | ret s1 => rw [hb] at h; cases h

/-- C9, amended: when `ChunkV12::readBlockData` reaches, in a present section, a
grid-header word whose format tag is outside the known set, it returns at that
grid.  In the statement `m`, `tbl`, `sz` and `d0` are `max_section_address`, the
jump table, the address of the size table and the cursor after the tables; the
sections before `sect` do not end the loop and leave the state `ss`; section
`sect` is present; the grid columns, rows and grids before `(gridX, gridZ, gridY)`
run and leave the state `sc`; and the header word of that grid has an unknown
tag.  Then `readBlockData` returns with the chunk `sc.2`, the chunk as the grids
decoded before left it: their cells are kept, and no later grid or section is
decoded.  `ChunkV12::readChunk` then goes on: for every continuation and cursor,
`validChunk == true` at its end exactly when none of its reads raised
`OutOfRange` (the header reads, the table reads of `readBlockData`, which are its
only failure, and the reads after the block data), and the chunk is then the one
`readBlockData` left, with `lastVersion == 12`. -/
theorem unknown_tag_stops_decoding (dm : DataManager) (chunk : ChunkData)
    (m : Nat) (tbl : List Nat) (sz : Nat) (d0 : DataManager)
    (hm : m = ((dm.read 2).1 <<< 8) % 2 ^ 32)
    (htbl : tbl = (ChunkV12.readTable 16 (dm.read 2).2).1)
    (hsz : sz = (ChunkV12.readTable 16 (dm.read 2).2).2.pos)
    (hd0 : d0 = (ChunkV12.readTable 16 (dm.read 2).2).2.skip 16)
    (hoob : d0.oob = false) (hm0 : m ≠ 0)
    (sect gridX gridZ gridY : Nat) (hs : sect < 16)
    (hx : gridX < 4) (hz : gridZ < 4) (hy : gridY < 4)
    (ss sa sb sc : DataManager × ChunkData)
    (hnb : ∀ s, s < sect → tbl.getD s 0 ≠ m)
    (hpre : ChunkV12.readSections m tbl sz (List.range sect) (d0, chunk) = Flow.run ss)
    (hend : tbl.getD sect 0 ≠ m)
    (hpresent : byteAt ss.1.data (sz + sect) ≠ 0)
    (h1 : forFlow (List.range gridX) (fun x =>
      forFlow (List.range 4) (fun z =>
        forFlow (List.range 4)
          (ChunkV12.readGridBody (76 + tbl.getD sect 0) (tbl.getD sect 0) sect x z)))
      ((ss.1.seek (76 + tbl.getD sect 0)).skip 128, ss.2) = Flow.run sa)
    (h2 : forFlow (List.range gridZ) (fun z =>
      forFlow (List.range 4)
        (ChunkV12.readGridBody (76 + tbl.getD sect 0) (tbl.getD sect 0) sect gridX z)) sa =
      Flow.run sb)
    (h3 : forFlow (List.range gridY)
      (ChunkV12.readGridBody (76 + tbl.getD sect 0) (tbl.getD sect 0) sect gridX gridZ) sb =
      Flow.run sc)
    (htag : knownTagV12 (sc.1.byte
      (76 + tbl.getD sect 0 + ((gridX * 16 + gridZ * 4 + gridY) * 2 + 1)) >>> 4) = false) :
    ChunkV12.readBlockData dm chunk =
      some ((ChunkV12.readGridBody (76 + tbl.getD sect 0) (tbl.getD sect 0) sect
        gridX gridZ gridY sc).state.1, sc.2) ∧
    (∀ (rest : DataManager → Option ChunkRest) (dmc : DataManager),
      ((ChunkV12.readChunk rest dmc).validChunk = true ↔
        ((((dmc.read 4).2.read 4).2.read 8).2.read 8).2.oob = false ∧
        ∃ st r, ChunkV12.readBlockData ((((dmc.read 4).2.read 4).2.read 8).2.read 8).2
          { ChunkV12.allocChunk ChunkData.fresh with
            chunkX := toI32 (dmc.read 4).1, chunkZ := toI32 ((dmc.read 4).2.read 4).1,
            lastUpdate := toI64 (((dmc.read 4).2.read 4).2.read 8).1,
            inhabitedTime := toI64 ((((dmc.read 4).2.read 4).2.read 8).2.read 8).1 } = some st ∧
          rest st.1 = some r) ∧
      (∀ (st : DataManager × ChunkData) (r : ChunkRest),
        ((((dmc.read 4).2.read 4).2.read 8).2.read 8).2.oob = false →
        ChunkV12.readBlockData ((((dmc.read 4).2.read 4).2.read 8).2.read 8).2
          { ChunkV12.allocChunk ChunkData.fresh with
            chunkX := toI32 (dmc.read 4).1, chunkZ := toI32 ((dmc.read 4).2.read 4).1,
            lastUpdate := toI64 (((dmc.read 4).2.read 4).2.read 8).1,
            inhabitedTime := toI64 ((((dmc.read 4).2.read 4).2.read 8).2.read 8).1 } = some st →
        rest st.1 = some r →
        ChunkV12.readChunk rest dmc = { st.2 with lastVersion := 12, validChunk := true })) ∧
    (∀ (dm2 : DataManager) (c : ChunkData),
      ChunkV12.readBlockData dm2 c = none ↔
        ((ChunkV12.readTable 16 (dm2.read 2).2).2.skip 16).oob = true) :=
  ⟨readBlockData_stop dm chunk m tbl sz d0 hm htbl hsz hd0 hoob hm0 sect gridX gridZ gridY hs
      hx hz hy ss sa sb sc hnb hpre hend hpresent h1 h2 h3 htag,
    fun rest dmc => ⟨readChunk_valid_iff rest dmc, fun st r => readChunk_value rest dmc st r⟩,
    readBlockData_none_iff⟩

set_option maxRecDepth 100000 in
/-- Witness of the amended C9: the block data of `badTagBuffer`, whose second grid
of section 0 has the unknown tag 1; `readBlockData` returns there and the stone of
grid 0 stays in cell 0. -/
theorem unknown_tag_stops_decoding_witness :
    (badTagBuffer.byte 79 >>> 4 = 1 ∧ knownTagV12 1 = false) ∧
    ∃ dm1 c1, ChunkV12.readBlockData (badTagBuffer.seek 26)
        (ChunkV12.allocChunk ChunkData.fresh) = some (dm1, c1) ∧
      c1.newBlocks.get 0 = 0x0010 ∧ c1.newBlocks.get 4 = 0 :=
  ⟨⟨by decide, by decide⟩, _, _,
    (unknown_tag_stops_decoding (badTagBuffer.seek 26) (ChunkV12.allocChunk ChunkData.fresh)
      ((((badTagBuffer.seek 26).read 2).1 <<< 8) % 2 ^ 32)
      (ChunkV12.readTable 16 ((badTagBuffer.seek 26).read 2).2).1
      (ChunkV12.readTable 16 ((badTagBuffer.seek 26).read 2).2).2.pos
      ((ChunkV12.readTable 16 ((badTagBuffer.seek 26).read 2).2).2.skip 16)
      rfl rfl rfl rfl (by decide) (by decide) 0 0 0 1 (by decide) (by decide) (by decide)
      (by decide)
      ((ChunkV12.readTable 16 ((badTagBuffer.seek 26).read 2).2).2.skip 16,
        ChunkV12.allocChunk ChunkData.fresh)
      ((((ChunkV12.readTable 16 ((badTagBuffer.seek 26).read 2).2).2.skip 16).seek
          (76 + (ChunkV12.readTable 16 ((badTagBuffer.seek 26).read 2).2).1.getD 0 0)).skip 128,
        ChunkV12.allocChunk ChunkData.fresh)
      ((((ChunkV12.readTable 16 ((badTagBuffer.seek 26).read 2).2).2.skip 16).seek
          (76 + (ChunkV12.readTable 16 ((badTagBuffer.seek 26).read 2).2).1.getD 0 0)).skip 128,
        ChunkV12.allocChunk ChunkData.fresh)
      (ChunkV12.readGridBody
        (76 + (ChunkV12.readTable 16 ((badTagBuffer.seek 26).read 2).2).1.getD 0 0)
        ((ChunkV12.readTable 16 ((badTagBuffer.seek 26).read 2).2).1.getD 0 0) 0 0 0 0
        ((((ChunkV12.readTable 16 ((badTagBuffer.seek 26).read 2).2).2.skip 16).seek
            (76 + (ChunkV12.readTable 16 ((badTagBuffer.seek 26).read 2).2).1.getD 0 0)).skip 128,
          ChunkV12.allocChunk ChunkData.fresh)).state
      (fun s hs => absurd hs (Nat.not_lt_zero s)) rfl (by decide) (by decide) rfl rfl
      (forFlow_single_run 0 _ _ (by decide)) (by decide)).1,
    by decide, by decide⟩

/-! ### `hasSubmerged` and the decoded content -/

/-- Placing a grid whose bytes are all zero leaves a zero vector zero. -/
theorem placeBlocks_zero (w : U16Vec) (grid : Nat → Nat) (off : Nat)
    (hg : ∀ a, grid a % 256 = 0) (hw : ∀ i, w.get i = 0) (i : Nat) :
    (ChunkV12.placeBlocks w grid off).get i = 0 := by
  rw [placeBlocks_eq, U16Vec.get, foldl_set_const placeTriples _ _ 0 ?_ w i]
  · split_ifs
    · rfl
    · exact hw i
  · intro t _
    rw [hg, hg]
    rfl

theorem subInv_fresh12 : SubInv (ChunkV12.allocChunk ChunkData.fresh) :=
  ⟨rfl, rfl, fun _ _ => rfl⟩

theorem subInv_fresh13 : SubInv (ChunkV13.allocChunk ChunkData.fresh) :=
  ⟨rfl, rfl, fun _ _ => rfl⟩

set_option maxRecDepth 100000 in
/-- C31, counterexample: on `subTagBuffer 0` the one decoded grid carries the tag
8-FULL-SUBMERGED over an all-zero payload; `ChunkV12::readBlockData` on a fresh
chunk ends with `hasSubmerged == true` although every submerged cell is 0. -/
theorem submerged_flag_counterexample :
    ChunkV12.readBlockData (subTagBuffer 0) (ChunkV12.allocChunk ChunkData.fresh) =
      some ((subTagBuffer 0).seek 332, subTagDecoded 0) ∧
    (subTagDecoded 0).hasSubmerged = true ∧ ∀ i, (subTagDecoded 0).submerged.get i = 0 := by
  refine ⟨rfl, rfl, ?_⟩
  intro i
  refine placeBlocks_zero (U16Vec.zeros 65536) _ 0 ?_ (fun _ => rfl) i
  intro a
  simp only [ChunkV12.fillAllBlocks, byteAt, subTagBuffer]
  split_ifs <;> first | rfl | omega

/-- C31, amended: after `ChunkV12::readBlockData` or `ChunkV13::readBlockData` on a
fresh chunk, a non-zero submerged cell implies `hasSubmerged == true`. -/
theorem nonzero_submerged_sets_flag (dm : DataManager) (st : DataManager × ChunkData)
    (h : ChunkV12.readBlockData dm (ChunkV12.allocChunk ChunkData.fresh) = some st ∨
      ChunkV13.readBlockData dm (ChunkV13.allocChunk ChunkData.fresh) = some st)
    (i : Nat) (hi : st.2.submerged.get i ≠ 0) : st.2.hasSubmerged = true := by
  have hinv : SubInv st.2 := by
    rcases h with h | h
    · exact readBlockData_inv dm _ subInv_fresh12 st h
    · exact readBlockData13_inv dm _ subInv_fresh13 st h
  cases hs : st.2.hasSubmerged with
  | true => rfl
  | false => exact absurd (hinv.2.2 hs i) hi

set_option maxRecDepth 100000 in
theorem nonzero_submerged_sets_flag_witness :
    ChunkV12.readBlockData (subTagBuffer 5) (ChunkV12.allocChunk ChunkData.fresh) =
      some ((subTagBuffer 5).seek 332, subTagDecoded 5) ∧
    (subTagDecoded 5).submerged.get 0 = 5 ∧ (subTagDecoded 5).hasSubmerged = true :=
  ⟨rfl, by decide,
    nonzero_submerged_sets_flag (subTagBuffer 5) ((subTagBuffer 5).seek 332, subTagDecoded 5)
      (Or.inl rfl) 0 (by decide)⟩

/-! ### Closed forms of `readGrid` and `readGridSubmerged` -/

theorem foldlM_some_eq {α β : Type} (f : β → α → Option β) (s : β → α → β) (l : List α)
    (h : ∀ a ∈ l, ∀ b, f b a = some (s b a)) (b : β) :
    l.foldlM f b = some (l.foldl s b) := by
  induction l generalizing b with
  | nil => rfl
  | cons a t ih =>
    rw [List.foldlM_cons, h a (List.mem_cons_self a t) b, List.foldl_cons]
    exact ih (fun x hx => h x (List.mem_cons_of_mem a hx)) (s b a)

theorem foldl_pair {α β γ : Type} (s1 : β → α → β) (s2 : γ → α → γ) (l : List α) (b : β) (c : γ) :
    l.foldl (fun (g : β × γ) a => (s1 g.1 a, s2 g.2 a)) (b, c) = (l.foldl s1 b, l.foldl s2 c) := by
  induction l generalizing b c with
  | nil => rfl
  | cons a t ih => rw [List.foldl_cons, List.foldl_cons, List.foldl_cons]; exact ih _ _

theorem foldl_nested_flat {β : Type} (S : β → Nat → Nat → β) (g0 : β) :
    (List.range 8).foldl (fun g i => (List.range 8).foldl (fun g j => S g i j) g) g0 =
      (List.range 64).foldl (fun g k => S g (k / 8) (k % 8)) g0 := by
  rfl

theorem foldl_update_pairs (v0 v1 : Nat → Nat) (n : Nat) (g0 : Nat → Nat) :
    (List.range n).foldl
        (fun g i => Function.update (Function.update g (i * 2 + 0) (v0 i)) (i * 2 + 1) (v1 i)) g0 =
      fun a => if a < 2 * n then (if a % 2 = 0 then v0 (a / 2) else v1 (a / 2)) else g0 a := by
  induction n with
  | zero => funext a; simp
  | succ n ih =>
    rw [List.range_succ, List.foldl_append, ih, List.foldl_cons, List.foldl_nil]
    funext a
    by_cases h1 : a = n * 2 + 1
    · subst h1
      rw [Function.update_same, if_pos (by omega), if_neg (by omega)]
      congr 1; omega
    · rw [Function.update_noteq h1]
      by_cases h0 : a = n * 2 + 0
      · subst h0
        rw [Function.update_same, if_pos (by omega), if_pos (by omega)]
        congr 1; omega
      · rw [Function.update_noteq h0]
        split_ifs <;> first | rfl | omega

theorem size_bound (B : Nat) : (1 <<< B) * 2 = 2 ^ B * 2 := by
  rw [Nat.shiftLeft_eq, Nat.one_mul]

/-- The closed form of the cells a palette fold writes. -/
theorem palette_cells (B : Nat) (d : Nat → Nat) (buffer planes : Nat) :
    (fun a => if a < 2 * 64 then
        (if a % 2 = 0 then paletteByte B d buffer planes (a / 2 / 8) (a / 2 % 8) 0
         else paletteByte B d buffer planes (a / 2 / 8) (a / 2 % 8) 1)
      else (0 : Nat)) = paletteGrid B d buffer planes := by
  funext a
  unfold paletteGrid paletteByte
  have hlt := cellIdx_lt B d planes (a / 2 / 8) (a / 2 % 8) (Nat.mod_lt _ (by norm_num))
  rw [size_bound]
  by_cases h : a < 128
  · rw [if_pos (by omega), if_pos h]
    have hm : ∀ x, byteAt d x % 256 = byteAt d x := fun x => Nat.mod_mod _ _
    by_cases h0 : a % 2 = 0
    · rw [if_pos h0, if_pos (by omega), hm, h0]
    · rw [if_neg h0, if_pos (by omega), hm, show a % 2 = 1 by omega]
  · rw [if_neg (by omega), if_neg h]

theorem readGrid_closed (B : Nat) (d : Nat → Nat) (buffer : Nat) :
    ChunkV12.readGrid B d buffer = some (paletteGrid B d buffer (buffer + (1 <<< B) * 2)) := by
  unfold ChunkV12.readGrid
  dsimp only
  rw [foldlM_some_eq _ (fun g i => Function.update (Function.update g (i * 2 + 0)
      (paletteByte B d buffer (buffer + (1 <<< B) * 2) (i / 8) (i % 8) 0)) (i * 2 + 1)
      (paletteByte B d buffer (buffer + (1 <<< B) * 2) (i / 8) (i % 8) 1))]
  · rw [foldl_update_pairs
      (fun i => paletteByte B d buffer (buffer + (1 <<< B) * 2) (i / 8) (i % 8) 0)
      (fun i => paletteByte B d buffer (buffer + (1 <<< B) * 2) (i / 8) (i % 8) 1)]
    exact congrArg some (palette_cells B d buffer (buffer + (1 <<< B) * 2))
  · intro index _ grid
    have hlt := cellIdx_lt B d (buffer + (1 <<< B) * 2) (index / 8) (index % 8)
      (Nat.mod_lt _ (by norm_num))
    have hsz := size_bound B
    rw [if_neg (by omega)]
    rfl

theorem readGridSubmerged_closed (B : Nat) (d : Nat → Nat) (buffer : Nat) :
    ChunkV12.readGridSubmerged B d buffer =
      some (paletteGrid B d buffer (buffer + (1 <<< B) * 2),
            paletteGrid B d buffer (buffer + (1 <<< B) * 2 + B * 8)) := by
  unfold ChunkV12.readGridSubmerged
  dsimp only
  rw [foldlM_some_eq _ (fun (grids : (Nat → Nat) × (Nat → Nat)) i =>
      (List.range 8).foldl (fun (grids : (Nat → Nat) × (Nat → Nat)) j =>
        (Function.update (Function.update grids.1 ((i * 8 + j) * 2 + 0)
            (paletteByte B d buffer (buffer + (1 <<< B) * 2) i j 0)) ((i * 8 + j) * 2 + 1)
            (paletteByte B d buffer (buffer + (1 <<< B) * 2) i j 1),
         Function.update (Function.update grids.2 ((i * 8 + j) * 2 + 0)
            (paletteByte B d buffer (buffer + (1 <<< B) * 2 + B * 8) i j 0)) ((i * 8 + j) * 2 + 1)
            (paletteByte B d buffer (buffer + (1 <<< B) * 2 + B * 8) i j 1))) grids)]
  · rw [foldl_nested_flat (fun (grids : (Nat → Nat) × (Nat → Nat)) i j =>
        (Function.update (Function.update grids.1 ((i * 8 + j) * 2 + 0)
            (paletteByte B d buffer (buffer + (1 <<< B) * 2) i j 0)) ((i * 8 + j) * 2 + 1)
            (paletteByte B d buffer (buffer + (1 <<< B) * 2) i j 1),
         Function.update (Function.update grids.2 ((i * 8 + j) * 2 + 0)
            (paletteByte B d buffer (buffer + (1 <<< B) * 2 + B * 8) i j 0)) ((i * 8 + j) * 2 + 1)
            (paletteByte B d buffer (buffer + (1 <<< B) * 2 + B * 8) i j 1)))]
    simp only [Nat.div_add_mod']
    have hp := foldl_pair
      (fun (g : Nat → Nat) k => Function.update (Function.update g (k * 2 + 0)
        (paletteByte B d buffer (buffer + (1 <<< B) * 2) (k / 8) (k % 8) 0)) (k * 2 + 1)
        (paletteByte B d buffer (buffer + (1 <<< B) * 2) (k / 8) (k % 8) 1))
      (fun (g : Nat → Nat) k => Function.update (Function.update g (k * 2 + 0)
        (paletteByte B d buffer (buffer + (1 <<< B) * 2 + B * 8) (k / 8) (k % 8) 0)) (k * 2 + 1)
        (paletteByte B d buffer (buffer + (1 <<< B) * 2 + B * 8) (k / 8) (k % 8) 1))
      (List.range 64) (fun _ => 0) (fun _ => 0)
    rw [hp]
    rw [foldl_update_pairs
        (fun k => paletteByte B d buffer (buffer + (1 <<< B) * 2) (k / 8) (k % 8) 0)
        (fun k => paletteByte B d buffer (buffer + (1 <<< B) * 2) (k / 8) (k % 8) 1),
      foldl_update_pairs
        (fun k => paletteByte B d buffer (buffer + (1 <<< B) * 2 + B * 8) (k / 8) (k % 8) 0)
        (fun k => paletteByte B d buffer (buffer + (1 <<< B) * 2 + B * 8) (k / 8) (k % 8) 1)]
    rw [palette_cells B d buffer (buffer + (1 <<< B) * 2),
      palette_cells B d buffer (buffer + (1 <<< B) * 2 + B * 8)]
  · intro i _ grids
    apply foldlM_some_eq
    intro j hj grids
    have hj8 : j < 8 := List.mem_range.1 hj
    have h1 := cellIdx_lt B d (buffer + (1 <<< B) * 2) i j hj8
    have h2 := cellIdx_lt B d (buffer + (1 <<< B) * 2 + B * 8) i j hj8
    have hsz := size_bound B
    rw [if_neg (by omega)]
    rfl

/-! ### Palette index overflow -/

/-- C10: for every `BitsPerBlock` (the source uses `B ∈ {1,2,3,4}`) and every
buffer, every palette index that `readGrid<B>` and `readGridSubmerged<B>` decode
from the bit planes is below the palette size of `2^B` entries, and both functions
succeed: they return the grids whose bytes are those of the palette entries the
indices select.  Hence they fail exactly when some cell's decoded index is at
least `2^B`, and no buffer makes either happen: the check of the source
(`idx >= size`, with `size` the `2·2^B` bytes of the palette) never fires. -/
theorem palette_index_overflow_never_occurs (B : Nat) (d : Nat → Nat) (buffer : Nat) :
    (∀ planes row column, column < 8 → ChunkV12.cellIdx B d planes row column < 2 ^ B) ∧
    ChunkV12.readGrid B d buffer = some (paletteGrid B d buffer (buffer + (1 <<< B) * 2)) ∧
    ChunkV12.readGridSubmerged B d buffer =
      some (paletteGrid B d buffer (buffer + (1 <<< B) * 2),
            paletteGrid B d buffer (buffer + (1 <<< B) * 2 + B * 8)) ∧
    (ChunkV12.readGrid B d buffer = none ↔
      ∃ index, index < 64 ∧
        2 ^ B ≤ ChunkV12.cellIdx B d (buffer + 2 ^ B * 2) (index / 8) (index % 8)) ∧
    (ChunkV12.readGridSubmerged B d buffer = none ↔
      ∃ i j, i < 8 ∧ j < 8 ∧
        (2 ^ B ≤ ChunkV12.cellIdx B d (buffer + 2 ^ B * 2) i j ∨
         2 ^ B ≤ ChunkV12.cellIdx B d (buffer + 2 ^ B * 2 + B * 8) i j)) := by
  refine ⟨fun planes row column h => cellIdx_lt B d planes row column h,
    readGrid_closed B d buffer, readGridSubmerged_closed B d buffer, ?_, ?_⟩
  · constructor
    · intro h
      rw [readGrid_closed] at h
      cases h
    · rintro ⟨index, _, h⟩
      have := cellIdx_lt B d (buffer + 2 ^ B * 2) (index / 8) (index % 8) (Nat.mod_lt _ (by norm_num))
      omega
  · constructor
    · intro h
      rw [readGridSubmerged_closed] at h
      cases h
    · rintro ⟨i, j, _, hj, h⟩
      have h1 := cellIdx_lt B d (buffer + 2 ^ B * 2) i j hj
      have h2 := cellIdx_lt B d (buffer + 2 ^ B * 2 + B * 8) i j hj
      omega

/-! ### The submerged grid layout -/

theorem cellIdx_congr (B : Nat) (d1 d2 : Nat → Nat) (p1 p2 row column : Nat)
    (h : ∀ k, k < B → byteAt d1 (p1 + row + k * 8) = byteAt d2 (p2 + row + k * 8)) :
    ChunkV12.cellIdx B d1 p1 row column = ChunkV12.cellIdx B d2 p2 row column := by
  induction B with
  | zero => rfl
  | succ n ih =>
    rw [cellIdx_succ, cellIdx_succ, ih (fun k hk => h k (Nat.lt_succ_of_lt hk)),
      h n (Nat.lt_succ_self n)]

theorem paletteGrid_replacePlanes (B : Nat) (d : Nat → Nat) (buffer : Nat) :
    paletteGrid B (replacePlanes B d buffer) buffer (buffer + (1 <<< B) * 2) =
      paletteGrid B d buffer (buffer + (1 <<< B) * 2 + B * 8) := by
  funext a
  unfold paletteGrid
  by_cases ha : a < 128
  · rw [if_pos ha, if_pos ha]
    have hc : ChunkV12.cellIdx B (replacePlanes B d buffer) (buffer + (1 <<< B) * 2)
          (a / 2 / 8) (a / 2 % 8) =
        ChunkV12.cellIdx B d (buffer + (1 <<< B) * 2 + B * 8) (a / 2 / 8) (a / 2 % 8) := by
      apply cellIdx_congr
      intro k hk
      unfold byteAt replacePlanes
      rw [if_pos (by omega)]
      congr 2
      omega
    rw [hc]
    have hlt := cellIdx_lt B d (buffer + (1 <<< B) * 2 + B * 8) (a / 2 / 8) (a / 2 % 8)
      (Nat.mod_lt _ (by norm_num))
    have hsz := size_bound B
    unfold byteAt replacePlanes
    rw [if_neg (by omega)]
  · rw [if_neg ha, if_neg ha]

/-- C32: for every `B` (the source uses 1..4) and every buffer, `readGridSubmerged<B>`
succeeds with a block layer equal to the grid of `readGrid<B>` on the same buffer,
and a submerged layer equal to the grid `readGrid<B>` gives when the `8·B` bytes
after the palette are replaced by the `8·B` bytes that follow them; the palette
bytes are the same in both. -/
theorem submerged_grid_layout (B : Nat) (d : Nat → Nat) (buffer : Nat) :
    ∃ g sg, ChunkV12.readGrid B d buffer = some g ∧
      ChunkV12.readGrid B (replacePlanes B d buffer) buffer = some sg ∧
      ChunkV12.readGridSubmerged B d buffer = some (g, sg) ∧
      ∀ i, i < (1 <<< B) * 2 → replacePlanes B d buffer (buffer + i) = d (buffer + i) := by
  refine ⟨_, _, readGrid_closed B d buffer, readGrid_closed B (replacePlanes B d buffer) buffer,
    ?_, ?_⟩
  · rw [readGridSubmerged_closed, paletteGrid_replacePlanes]
  · intro i hi
    unfold replacePlanes
    rw [if_neg (by omega)]

/-! ### Reads of the section grid-header table -/

set_option maxRecDepth 100000 in
/-- C37, failing input: `shortBuffer 0` and `shortBuffer 16` are buffers of 76 bytes
with the same 76 bytes; `ChunkV12::readBlockData` raises nothing on either and
decodes cell 0 as 0 from the first and as 16 from the second, so it has read the
grid-header word of section 0 at offsets 76 and 77, past the end of the buffer. -/
theorem section_header_read_past_buffer :
    (shortBuffer 0).size = 76 ∧ (shortBuffer 16).size = 76 ∧
    (∀ i, i < 76 → (shortBuffer 0).data i = (shortBuffer 16).data i) ∧
    (ChunkV12.readBlockData (shortBuffer 0) (ChunkV12.allocChunk ChunkData.fresh)).map
      (fun st => st.2.newBlocks.get 0) = some 0 ∧
    (ChunkV12.readBlockData (shortBuffer 16) (ChunkV12.allocChunk ChunkData.fresh)).map
      (fun st => st.2.newBlocks.get 0) = some 16 := by
  refine ⟨rfl, rfl, by decide, by decide, by decide⟩

/-! ### Runs of cursor writes -/

theorem div_mod_block (w n t : Nat) (ht : t < w) : (w * n + t) / w = n ∧ (w * n + t) % w = t := by
  have hw : 0 < w := by omega
  constructor
  · rw [Nat.mul_add_div hw, Nat.div_eq_of_lt ht, Nat.add_zero]
  · rw [Nat.mul_add_mod, Nat.mod_eq_of_lt ht]

/-- The bytes and the cursor after `n` consecutive writes of `w`-byte values. -/
theorem writeFold_spec (w : Nat) (hw : 0 < w) (val : Nat → Nat) (n : Nat) (dm : DataManager) :
    ((List.range n).foldl (fun dm i => dm.write w (val i)) dm).pos = dm.pos + w * n ∧
    ((List.range n).foldl (fun dm i => dm.write w (val i)) dm).size = dm.size ∧
    ((List.range n).foldl (fun dm i => dm.write w (val i)) dm).isBig = dm.isBig ∧
    ∀ a, ((List.range n).foldl (fun dm i => dm.write w (val i)) dm).data a =
      if dm.pos ≤ a ∧ a < dm.pos + w * n then
        (if dm.isBig then val ((a - dm.pos) / w) / 256 ^ (w - 1 - (a - dm.pos) % w) % 256
         else val ((a - dm.pos) / w) / 256 ^ ((a - dm.pos) % w) % 256)
      else dm.data a := by
  induction n with
  | zero =>
    refine ⟨rfl, rfl, rfl, ?_⟩
    intro a
    rw [if_neg (by omega)]
    rfl
  | succ n ih =>
    simp only [List.range_succ, List.foldl_append, List.foldl_cons, List.foldl_nil]
    revert ih
    generalize (List.range n).foldl (fun dm i => dm.write w (val i)) dm = r
    rintro ⟨h1, h2, h3, h5⟩
    have hs : w * (n + 1) = w * n + w := Nat.mul_succ w n
    refine ⟨?_, ?_, ?_, ?_⟩
    · rw [DataManager.write_pos, h1, hs]; omega
    · rw [DataManager.write_size, h2]
    · rw [DataManager.write_isBig, h3]
    · intro a
      rw [DataManager.write_data, h1, h3]
      unfold storeInt
      rw [hs]
      by_cases hnew : dm.pos + w * n ≤ a ∧ a < dm.pos + w * n + w
      · have hin : dm.pos ≤ a ∧ a < dm.pos + (w * n + w) := by omega
        rw [if_pos hnew, if_pos hin]
        have ha : a - dm.pos = w * n + (a - (dm.pos + w * n)) := by omega
        obtain ⟨e1, e2⟩ := div_mod_block w n (a - (dm.pos + w * n)) (by omega)
        rw [ha, e1, e2]
      · rw [if_neg hnew, h5 a]
        by_cases hold : dm.pos ≤ a ∧ a < dm.pos + w * n
        · have hin : dm.pos ≤ a ∧ a < dm.pos + (w * n + w) := by omega
          rw [if_pos hold, if_pos hin]
        · have hin : ¬ (dm.pos ≤ a ∧ a < dm.pos + (w * n + w)) := by omega
          rw [if_neg hold, if_neg hin]

/-- The bytes and the cursor after `writeGrid<B, k, e>`: `k` palette entries
little-endian, `e` entries `0xFFFF`, then `B` big-endian position words. -/
theorem writeGrid_spec (B k e : Nat) (bv bl : List Nat) (st : DataManager × (Nat → Nat)) :
    (ChunkV12.writeGrid B k e bv bl st).1.pos = st.1.pos + 2 * k + 2 * e + 8 * B ∧
    (ChunkV12.writeGrid B k e bv bl st).1.size = st.1.size ∧
    (ChunkV12.writeGrid B k e bv bl st).1.isBig = true ∧
    ∀ a, (ChunkV12.writeGrid B k e bv bl st).1.data a =
      if st.1.pos ≤ a ∧ a < st.1.pos + 2 * k then
        bv.getD ((a - st.1.pos) / 2) 0 / 256 ^ ((a - st.1.pos) % 2) % 256
      else if st.1.pos + 2 * k ≤ a ∧ a < st.1.pos + 2 * k + 2 * e then 255
      else if st.1.pos + 2 * k + 2 * e ≤ a ∧ a < st.1.pos + 2 * k + 2 * e + 8 * B then
        ChunkV12.positionWord bl ((a - (st.1.pos + 2 * k + 2 * e)) / 8) /
          256 ^ (7 - (a - (st.1.pos + 2 * k + 2 * e)) % 8) % 256
      else st.1.data a := by
  unfold ChunkV12.writeGrid
  dsimp only
  obtain ⟨a1, a2, a3, a4⟩ := writeFold_spec 2 (by norm_num) (fun i => bv.getD i 0) k
    (st.1.setEndian false)
  revert a1 a2 a3 a4
  generalize (List.range k).foldl (fun dm blockIndex => dm.write 2 (bv.getD blockIndex 0))
    (st.1.setEndian false) = r1
  intro a1 a2 a3 a4
  obtain ⟨b1, b2, b3, b4⟩ := writeFold_spec 2 (by norm_num) (fun _ => 0xFFFF) e
    (r1.setEndian true)
  revert b1 b2 b3 b4
  generalize (List.range e).foldl (fun dm _ => dm.write 2 0xFFFF) (r1.setEndian true) = r2
  intro b1 b2 b3 b4
  obtain ⟨c1, c2, c3, c4⟩ := writeFold_spec 8 (by norm_num)
    (fun bitIndex => ChunkV12.positionWord bl bitIndex) B r2
  revert c1 c2 c3 c4
  generalize (List.range B).foldl (fun dm bitIndex => dm.write 8 (ChunkV12.positionWord bl bitIndex))
    r2 = r3
  intro c1 c2 c3 c4
  simp only [DataManager.setEndian_pos, DataManager.setEndian_size, DataManager.setEndian_isBig,
    DataManager.setEndian_data] at a1 a2 a3 a4 b1 b2 b3 b4
  refine ⟨by omega, by rw [c2, b2, a2], by rw [c3, b3], ?_⟩
  intro a
  rw [c4 a, b4 a, a4 a, b1, a1, b3]
  simp only [if_true, Bool.false_eq_true, if_false]
  by_cases h1 : st.1.pos ≤ a ∧ a < st.1.pos + 2 * k
  · have n2 : ¬ (st.1.pos + 2 * k ≤ a ∧ a < st.1.pos + 2 * k + 2 * e) := by omega
    have n3 : ¬ (st.1.pos + 2 * k + 2 * e ≤ a ∧ a < st.1.pos + 2 * k + 2 * e + 8 * B) := by omega
    rw [if_neg n3, if_neg n2, if_pos h1, if_pos h1]
  · rw [if_neg h1, if_neg h1]
    by_cases h2 : st.1.pos + 2 * k ≤ a ∧ a < st.1.pos + 2 * k + 2 * e
    · have n3 : ¬ (st.1.pos + 2 * k + 2 * e ≤ a ∧ a < st.1.pos + 2 * k + 2 * e + 8 * B) := by omega
      rw [if_neg n3, if_pos h2, if_pos h2]
      have hm : (a - (st.1.pos + 2 * k)) % 2 = 0 ∨ (a - (st.1.pos + 2 * k)) % 2 = 1 := by omega
      rcases hm with hm | hm <;> rw [hm] <;> rfl
    · rw [if_neg h2, if_neg h2]

/-- The cursor after `writeWithMaxBlocks`: 64 cells of two bytes. -/
theorem writeWithMaxBlocks_pos (bv bl : List Nat) (st : DataManager × (Nat → Nat)) :
    (ChunkV12.writeWithMaxBlocks bv bl st).1.pos = st.1.pos + 128 := by
  unfold ChunkV12.writeWithMaxBlocks
  dsimp only
  obtain ⟨a1, _, _, _⟩ := writeFold_spec 2 (by norm_num)
    (fun i => bv.getD (bl.getD i 0) 0) GRID_COUNT (st.1.setEndian false)
  rw [DataManager.setEndian_pos, a1]
  rfl

/-! ### The position words -/

theorem positionFold_testBit (bl : List Nat) (j n m : Nat) (hn : n ≤ 64) :
    ((List.range n).foldl (fun position locIndex =>
      (position ||| ((((bl.getD locIndex 0) >>> j) &&& 1)
        <<< (GRID_COUNT - locIndex - 1))) % 2 ^ 64) 0).testBit m =
      (decide (m < 64) && (decide (63 - m < n) && (bl.getD (63 - m) 0).testBit j)) := by
  induction n with
  | zero => simp
  | succ n ih =>
    rw [List.range_succ, List.foldl_append, List.foldl_cons, List.foldl_nil,
      Nat.testBit_mod_two_pow, Nat.testBit_or, ih (by omega), Nat.testBit_shiftLeft,
      Nat.and_one_is_mod]
    have h2 : ∀ x t, (x % 2).testBit t = (decide (t < 1) && x.testBit t) := by
      intro x t
      have := Nat.testBit_mod_two_pow x 1 t
      rwa [pow_one] at this
    rw [h2, Nat.testBit_shiftRight]
    have hg : GRID_COUNT - n - 1 = 63 - n := by unfold GRID_COUNT; omega
    rw [hg]
    by_cases hm : m < 64
    · have a1 : decide (m < 64) = true := decide_eq_true hm
      by_cases hmn : m = 63 - n
      · have e1 : 63 - m = n := by omega
        have e2 : m - (63 - n) = 0 := by omega
        have a2 : decide (63 - m < n) = false := decide_eq_false (by omega)
        have a3 : decide (63 - m < n + 1) = true := decide_eq_true (by omega)
        have a4 : decide (m ≥ 63 - n) = true := decide_eq_true (by omega)
        have a5 : decide (m - (63 - n) < 1) = true := decide_eq_true (by omega)
        rw [a1, a2, a3, a4, a5, e2, e1, Nat.add_zero]
        simp only [Bool.true_and, Bool.false_and, Bool.false_or]
      · by_cases hlt : 63 - m < n
        · have a2 : decide (63 - m < n) = true := decide_eq_true hlt
          have a3 : decide (63 - m < n + 1) = true := decide_eq_true (by omega)
          have a5 : decide (m - (63 - n) < 1) = false := decide_eq_false (by omega)
          rw [a1, a2, a3, a5]
          simp only [Bool.true_and, Bool.false_and, Bool.and_false, Bool.or_false]
        · have a2 : decide (63 - m < n) = false := decide_eq_false hlt
          have a3 : decide (63 - m < n + 1) = false := decide_eq_false (by omega)
          have a4 : decide (m ≥ 63 - n) = false := decide_eq_false (by omega)
          rw [a1, a2, a3, a4]
          simp only [Bool.true_and, Bool.false_and, Bool.or_false]
    · have a1 : decide (m < 64) = false := decide_eq_false hm
      rw [a1]
      simp only [Bool.false_and]

/-- Bit `63 - i` of the word of plane `j` is bit `j` of the position of cell `i`. -/
theorem positionWord_testBit (bl : List Nat) (j i : Nat) (hi : i < 64) :
    (ChunkV12.positionWord bl j).testBit (63 - i) = (bl.getD i 0).testBit j := by
  unfold ChunkV12.positionWord
  rw [show GRID_COUNT = 64 from rfl]
  have h := positionFold_testBit bl j 64 (63 - i) (le_refl 64)
  rw [show GRID_COUNT = 64 from rfl] at h
  rw [h]
  have e : 63 - (63 - i) = i := by omega
  rw [e]
  have h63 : 63 - i < 64 := by omega
  simp [hi, h63]

theorem positionWord_lt (bl : List Nat) (j : Nat) : ChunkV12.positionWord bl j < 2 ^ 64 := by
  apply Nat.lt_pow_two_of_testBit
  intro m hm
  unfold ChunkV12.positionWord
  rw [show GRID_COUNT = 64 from rfl]
  have h := positionFold_testBit bl j 64 m (le_refl 64)
  rw [show GRID_COUNT = 64 from rfl] at h
  rw [h]
  simp
  intro h1
  omega

/-- Bit `b` of byte `t` (big-endian) of a 64-bit word. -/
theorem word_byte_testBit (W t b : Nat) (hb : b < 8) :
    (W / 256 ^ (7 - t) % 256).testBit b = W.testBit (8 * (7 - t) + b) := by
  rw [show (256 : Nat) = 2 ^ 8 from rfl, ← Nat.pow_mul, ← Nat.shiftRight_eq_div_pow,
    Nat.testBit_mod_two_pow, Nat.testBit_shiftRight]
  simp [hb]

/-- A byte has a bit under the mask `0x80 >> c` exactly when its bit `7 - c` is set. -/
theorem mask_bit (x c : Nat) (hc : c < 8) :
    ((x &&& (128 >>> c)) >>> (7 - c)) = (x.testBit (7 - c)).toNat := by
  have h128 : 128 >>> c = 2 ^ (7 - c) := by
    interval_cases c <;> rfl
  rw [h128, Nat.and_two_pow, Nat.shiftRight_eq_div_pow, Nat.mul_div_cancel _ (by positivity)]

/-! ### The bytes of a palette grid, written and read back -/

theorem toNat_testBit (b : Bool) (s : Nat) : (b.toNat).testBit s = (b && decide (s = 0)) := by
  cases b
  · simp
  · by_cases hs : s = 0
    · subst hs; simp
    · have : (1 : Nat) = 2 ^ 0 := rfl
      simp only [Bool.toNat_true, Bool.true_and]
      rw [this, Nat.testBit_two_pow]
      simp [hs]
      omega

/-- Bit `t` of the palette index `readGrid` computes is the bit of plane `t` under
the cell's mask. -/
theorem cellIdx_testBit (B : Nat) (hB : B ≤ 16) (d : Nat → Nat) (planes row column t : Nat)
    (hc : column < 8) :
    (ChunkV12.cellIdx B d planes row column).testBit t =
      (decide (t < B) && (byteAt d (planes + row + t * 8)).testBit (7 - column)) := by
  induction B with
  | zero => simp [ChunkV12.cellIdx]
  | succ n ih =>
    rw [cellIdx_succ, show (65536 : Nat) = 2 ^ 16 from rfl, Nat.testBit_mod_two_pow,
      Nat.testBit_or, ih (by omega), Nat.testBit_shiftLeft, mask_bit _ _ hc, toNat_testBit]
    by_cases h1 : t < n
    · have a1 : decide (t < 16) = true := decide_eq_true (by omega)
      have a2 : decide (t < n) = true := decide_eq_true h1
      have a3 : decide (t < n + 1) = true := decide_eq_true (by omega)
      have a4 : decide (t ≥ n) = false := decide_eq_false (by omega)
      rw [a1, a2, a3, a4]
      simp only [Bool.true_and, Bool.false_and, Bool.or_false]
    · by_cases h2 : t = n
      · subst h2
        have a1 : decide (t < 16) = true := decide_eq_true (by omega)
        have a2 : decide (t < t) = false := decide_eq_false (by omega)
        have a3 : decide (t < t + 1) = true := decide_eq_true (by omega)
        have a4 : decide (t ≥ t) = true := decide_eq_true (le_refl t)
        have a5 : decide (t - t = 0) = true := decide_eq_true (by omega)
        rw [a1, a2, a3, a4, a5]
        simp only [Bool.true_and, Bool.false_and, Bool.false_or, Bool.and_true]
      · have a2 : decide (t < n) = false := decide_eq_false h1
        have a3 : decide (t < n + 1) = false := decide_eq_false (by omega)
        have a5 : decide (t - n = 0) = false := decide_eq_false (by omega)
        rw [a2, a3, a5]
        simp only [Bool.false_and, Bool.and_false, Bool.or_false, Bool.and_self]

/-- The byte of the position area that holds the bit of cell `i` in plane `j`. -/
theorem position_byte (B k e : Nat) (bv bl : List Nat) (st : DataManager × (Nat → Nat))
    (j r : Nat) (hj : j < B) (hr : r < 8) :
    byteAt (ChunkV12.writeGrid B k e bv bl st).1.data (st.1.pos + 2 * k + 2 * e + r + j * 8) =
      ChunkV12.positionWord bl j / 256 ^ (7 - r) % 256 := by
  obtain ⟨_, _, _, h4⟩ := writeGrid_spec B k e bv bl st
  unfold byteAt
  rw [h4]
  have n1 : ¬ (st.1.pos ≤ st.1.pos + 2 * k + 2 * e + r + j * 8 ∧
      st.1.pos + 2 * k + 2 * e + r + j * 8 < st.1.pos + 2 * k) := by omega
  have n2 : ¬ (st.1.pos + 2 * k ≤ st.1.pos + 2 * k + 2 * e + r + j * 8 ∧
      st.1.pos + 2 * k + 2 * e + r + j * 8 < st.1.pos + 2 * k + 2 * e) := by omega
  have p3 : st.1.pos + 2 * k + 2 * e ≤ st.1.pos + 2 * k + 2 * e + r + j * 8 ∧
      st.1.pos + 2 * k + 2 * e + r + j * 8 < st.1.pos + 2 * k + 2 * e + 8 * B := by omega
  rw [if_neg n1, if_neg n2, if_pos p3]
  have e1 : (st.1.pos + 2 * k + 2 * e + r + j * 8 - (st.1.pos + 2 * k + 2 * e)) / 8 = j := by omega
  have e2 : (st.1.pos + 2 * k + 2 * e + r + j * 8 - (st.1.pos + 2 * k + 2 * e)) % 8 = r := by omega
  rw [e1, e2, Nat.mod_mod]

/-- The bit of cell `i` in plane `j`, as the position area holds it. -/
theorem position_bit (B k e : Nat) (bv bl : List Nat) (st : DataManager × (Nat → Nat))
    (j i : Nat) (hj : j < B) (hi : i < 64) :
    (byteAt (ChunkV12.writeGrid B k e bv bl st).1.data
        (st.1.pos + 2 * k + 2 * e + i / 8 + j * 8)).testBit (7 - i % 8) =
      (bl.getD i 0).testBit j := by
  rw [position_byte B k e bv bl st j (i / 8) hj (by omega),
    word_byte_testBit _ _ _ (by omega), ← positionWord_testBit bl j i hi]
  congr 1
  omega

/-- What `readGrid` computes as the palette index of cell `i` from the bytes of
`writeGrid` is the position of the cell. -/
theorem cellIdx_written (B k e : Nat) (hB : B ≤ 16) (bv bl : List Nat)
    (st : DataManager × (Nat → Nat)) (i : Nat) (hi : i < 64) (hlt : bl.getD i 0 < 2 ^ B) :
    ChunkV12.cellIdx B (ChunkV12.writeGrid B k e bv bl st).1.data (st.1.pos + 2 * k + 2 * e)
      (i / 8) (i % 8) = bl.getD i 0 := by
  apply Nat.eq_of_testBit_eq
  intro t
  rw [cellIdx_testBit B hB _ _ _ _ t (Nat.mod_lt _ (by norm_num))]
  by_cases ht : t < B
  · rw [decide_eq_true ht, Bool.true_and, position_bit B k e bv bl st t i ht hi]
  · rw [decide_eq_false ht, Bool.false_and]
    symm
    apply Nat.testBit_lt_two_pow
    exact lt_of_lt_of_le hlt (Nat.pow_le_pow_right (by norm_num) (by omega))

/-! ### Grid round trip and bit-plane layout -/

theorem loadBE_upto (d : Nat → Nat) (a W : Nat) (hW : W < 2 ^ 64)
    (h : ∀ r, r < 8 → byteAt d (a + r) = W / 256 ^ (7 - r) % 256) (w : Nat) (hw : w ≤ 8) :
    loadBE d a w = W / 256 ^ (8 - w) := by
  induction w with
  | zero =>
    rw [loadBE, Nat.sub_zero]
    symm
    apply Nat.div_eq_of_lt
    calc W < 2 ^ 64 := hW
      _ = 256 ^ 8 := by norm_num
  | succ n ih =>
    rw [loadBE, ih (by omega), h n (by omega)]
    have e1 : 8 - n = (7 - n) + 1 := by omega
    have e2 : 8 - (n + 1) = 7 - n := by omega
    rw [e1, e2, Nat.pow_succ, ← Nat.div_div_eq_div_mul]
    exact Nat.div_add_mod' _ _

/-- Eight bytes that are the big-endian bytes of `W` load as `W`. -/
theorem loadBE_word (d : Nat → Nat) (a W : Nat) (hW : W < 2 ^ 64)
    (h : ∀ r, r < 8 → byteAt d (a + r) = W / 256 ^ (7 - r) % 256) :
    loadBE d a 8 = W := by
  rw [loadBE_upto d a W hW h 8 (le_refl 8), Nat.sub_self, Nat.pow_zero, Nat.div_one]

/-- C23: `writeGrid<B, k, e>` puts after the `k + e` palette slots exactly `B`
big-endian 64-bit words; word `j` is the position word of plane `j`, whose bit
`63 - i` is bit `j` of the position of cell `i`; byte `8·j + i/8` of the position
area holds that bit under the mask `0x80 >> (i mod 8)`. -/
theorem bit_plane_layout (B k e : Nat) (bv bl : List Nat) (st : DataManager × (Nat → Nat))
    (j i : Nat) (hj : j < B) (hi : i < 64) :
    (ChunkV12.writeGrid B k e bv bl st).1.pos = st.1.pos + 2 * k + 2 * e + 8 * B ∧
    loadBE (ChunkV12.writeGrid B k e bv bl st).1.data (st.1.pos + 2 * k + 2 * e + 8 * j) 8 =
      ChunkV12.positionWord bl j ∧
    (ChunkV12.positionWord bl j).testBit (63 - i) = (bl.getD i 0).testBit j ∧
    ((byteAt (ChunkV12.writeGrid B k e bv bl st).1.data
        (st.1.pos + 2 * k + 2 * e + (8 * j + i / 8)) &&& (0x80 >>> (i % 8)) ≠ 0) ↔
      (bl.getD i 0).testBit j = true) := by
  refine ⟨(writeGrid_spec B k e bv bl st).1, ?_, positionWord_testBit bl j i hi, ?_⟩
  · apply loadBE_word _ _ _ (positionWord_lt bl j)
    intro r hr
    rw [← position_byte B k e bv bl st j r hj hr]
    congr 1
    omega
  · have hb := position_bit B k e bv bl st j i hj hi
    rw [show st.1.pos + 2 * k + 2 * e + (8 * j + i / 8) = st.1.pos + 2 * k + 2 * e + i / 8 + j * 8
      by omega]
    rw [← hb]
    generalize byteAt (ChunkV12.writeGrid B k e bv bl st).1.data
      (st.1.pos + 2 * k + 2 * e + i / 8 + j * 8) = x
    have hc : i % 8 < 8 := Nat.mod_lt _ (by norm_num)
    have h128 : 128 >>> (i % 8) = 2 ^ (7 - i % 8) := by
      generalize i % 8 = c at hc
      interval_cases c <;> rfl
    rw [h128, Nat.and_two_pow]
    cases x.testBit (7 - i % 8)
    · simp
    · simp

theorem bit_plane_layout_witness :
    (0 < 2 ∧ 5 < 64) ∧
    ((ChunkV12.writeGrid 2 3 1 [0, 0x0800, 0x0010] [0, 1, 2] (emptyBuffer 65536 204, fun _ => 0)).1.pos =
        (emptyBuffer 65536 204).pos + 2 * 3 + 2 * 1 + 8 * 2 ∧
      loadBE (ChunkV12.writeGrid 2 3 1 [0, 0x0800, 0x0010] [0, 1, 2]
          (emptyBuffer 65536 204, fun _ => 0)).1.data
        ((emptyBuffer 65536 204).pos + 2 * 3 + 2 * 1 + 8 * 0) 8 =
        ChunkV12.positionWord [0, 1, 2] 0 ∧
      (ChunkV12.positionWord [0, 1, 2] 0).testBit (63 - 5) = (([0, 1, 2] : List Nat).getD 5 0).testBit 0 ∧
      ((byteAt (ChunkV12.writeGrid 2 3 1 [0, 0x0800, 0x0010] [0, 1, 2]
          (emptyBuffer 65536 204, fun _ => 0)).1.data
          ((emptyBuffer 65536 204).pos + 2 * 3 + 2 * 1 + (8 * 0 + 5 / 8)) &&& (0x80 >>> (5 % 8)) ≠ 0) ↔
        (([0, 1, 2] : List Nat).getD 5 0).testBit 0 = true)) :=
  ⟨⟨by decide, by decide⟩,
    bit_plane_layout 2 3 1 [0, 0x0800, 0x0010] [0, 1, 2] (emptyBuffer 65536 204, fun _ => 0) 0 5
      (by decide) (by decide)⟩

/-- C22: for every `B ≤ 16` (the source uses 1..4), every palette `bv` with `k ≤ 2^B`
entries and every assignment `bl` of the 64 cells to palette indices below `k`,
`readGrid<B>` on the bytes that `writeGrid<B, k, 2^B − k>` wrote succeeds, and the
grid it returns holds for cell `i` the low byte and the high byte of
`bv[bl[i]]`. -/
theorem grid_round_trip (B k : Nat) (bv bl : List Nat) (st : DataManager × (Nat → Nat))
    (hB : B ≤ 16) (hk : k ≤ 2 ^ B) (hbl : ∀ i, i < 64 → bl.getD i 0 < k) :
    ∃ g, ChunkV12.readGrid B (ChunkV12.writeGrid B k (2 ^ B - k) bv bl st).1.data st.1.pos = some g ∧
      ∀ i, i < 64 →
        g (2 * i) = bv.getD (bl.getD i 0) 0 % 256 ∧
        g (2 * i + 1) = bv.getD (bl.getD i 0) 0 / 256 % 256 := by
  refine ⟨_, readGrid_closed B _ st.1.pos, ?_⟩
  intro i hi
  have hsz : (1 <<< B) * 2 = 2 * k + 2 * (2 ^ B - k) := by rw [size_bound]; omega
  have hplanes : st.1.pos + (1 <<< B) * 2 = st.1.pos + 2 * k + 2 * (2 ^ B - k) := by omega
  have hidx := cellIdx_written B k (2 ^ B - k) hB bv bl st i hi
    (lt_of_lt_of_le (hbl i hi) hk)
  obtain ⟨_, _, _, h4⟩ := writeGrid_spec B k (2 ^ B - k) bv bl st
  have hl := hbl i hi
  constructor
  · unfold paletteGrid
    rw [if_pos (by omega), hplanes, show 2 * i / 2 = i by omega, hidx]
    unfold byteAt
    rw [h4, if_pos (by omega)]
    have e1 : (st.1.pos + (bl.getD i 0 * 2 + 2 * i % 2) - st.1.pos) / 2 = bl.getD i 0 := by omega
    have e2 : (st.1.pos + (bl.getD i 0 * 2 + 2 * i % 2) - st.1.pos) % 2 = 0 := by omega
    rw [e1, e2, Nat.pow_zero, Nat.div_one, Nat.mod_mod]
  · unfold paletteGrid
    rw [if_pos (by omega), hplanes, show (2 * i + 1) / 2 = i by omega, hidx]
    unfold byteAt
    rw [h4, if_pos (by omega)]
    have e1 : (st.1.pos + (bl.getD i 0 * 2 + (2 * i + 1) % 2) - st.1.pos) / 2 = bl.getD i 0 := by
      omega
    have e2 : (st.1.pos + (bl.getD i 0 * 2 + (2 * i + 1) % 2) - st.1.pos) % 2 = 1 := by omega
    rw [e1, e2, Nat.pow_one, Nat.mod_mod]

theorem grid_round_trip_witness :
    (2 ≤ 16 ∧ 3 ≤ 2 ^ 2 ∧ ∀ i, i < 64 → ([0, 1, 2] : List Nat).getD i 0 < 3) ∧
    ∃ g, ChunkV12.readGrid 2 (ChunkV12.writeGrid 2 3 (2 ^ 2 - 3) [0, 0x0800, 0x0010] [0, 1, 2]
        (emptyBuffer 65536 204, fun _ => 0)).1.data (emptyBuffer 65536 204).pos = some g ∧
      ∀ i, i < 64 →
        g (2 * i) = ([0, 0x0800, 0x0010] : List Nat).getD (([0, 1, 2] : List Nat).getD i 0) 0 % 256 ∧
        g (2 * i + 1) =
          ([0, 0x0800, 0x0010] : List Nat).getD (([0, 1, 2] : List Nat).getD i 0) 0 / 256 % 256 :=
  ⟨⟨by decide, by decide, by decide⟩,
    grid_round_trip 2 3 [0, 0x0800, 0x0010] [0, 1, 2] (emptyBuffer 65536 204, fun _ => 0)
      (by decide) (by decide) (by decide)⟩

/-! ### Palette area and payload size -/

/-- For a palette of 2 to 16 entries the format switch calls `writeGrid` with the
least `B` whose capacity holds the palette and the free slots as `EmptyCount`. -/
theorem choosePalette_writeGrid (s : ScanState) (dm : DataManager)
    (h2 : 2 ≤ s.blockVector.length) (h16 : s.blockVector.length ≤ 16) :
    ∃ B e, B = Nat.clog 2 s.blockVector.length ∧ 1 ≤ B ∧ B ≤ 4 ∧
      s.blockVector.length + e = 2 ^ B ∧
      V12_GRID_SIZES (2 * B) = 2 * 2 ^ B + 8 * B ∧
      ChunkV12.choosePalette s dm =
        { gridFormat := 2 * B, uno := false,
          st := ChunkV12.writeGrid B s.blockVector.length e s.blockVector s.blockLocations
            (dm, s.blockMap) } := by
  generalize hk : s.blockVector.length = k at h2 h16
  interval_cases k
  · exact ⟨1, 0, by simp [Nat.clog], by norm_num, by norm_num, rfl, rfl, by
      simp only [ChunkV12.choosePalette, hk]; rfl⟩
  · exact ⟨2, 1, by simp [Nat.clog], by norm_num, by norm_num, rfl, rfl, by
      simp only [ChunkV12.choosePalette, hk]; rfl⟩
  · exact ⟨2, 0, by simp [Nat.clog], by norm_num, by norm_num, rfl, rfl, by
      simp only [ChunkV12.choosePalette, hk]; rfl⟩
  · exact ⟨3, 3, by simp [Nat.clog], by norm_num, by norm_num, rfl, rfl, by
      simp only [ChunkV12.choosePalette, hk]; rfl⟩
  · exact ⟨3, 2, by simp [Nat.clog], by norm_num, by norm_num, rfl, rfl, by
      simp only [ChunkV12.choosePalette, hk]; rfl⟩
  · exact ⟨3, 1, by simp [Nat.clog], by norm_num, by norm_num, rfl, rfl, by
      simp only [ChunkV12.choosePalette, hk]; rfl⟩
  · exact ⟨3, 0, by simp [Nat.clog], by norm_num, by norm_num, rfl, rfl, by
      simp only [ChunkV12.choosePalette, hk]; rfl⟩
  · exact ⟨4, 7, by simp [Nat.clog], by norm_num, by norm_num, rfl, rfl, by
      simp only [ChunkV12.choosePalette, hk]; rfl⟩
  · exact ⟨4, 6, by simp [Nat.clog], by norm_num, by norm_num, rfl, rfl, by
      simp only [ChunkV12.choosePalette, hk]; rfl⟩
  · exact ⟨4, 5, by simp [Nat.clog], by norm_num, by norm_num, rfl, rfl, by
      simp only [ChunkV12.choosePalette, hk]; rfl⟩
  · exact ⟨4, 4, by simp [Nat.clog], by norm_num, by norm_num, rfl, rfl, by
      simp only [ChunkV12.choosePalette, hk]; rfl⟩
  · exact ⟨4, 3, by simp [Nat.clog], by norm_num, by norm_num, rfl, rfl, by
      simp only [ChunkV12.choosePalette, hk]; rfl⟩
  · exact ⟨4, 2, by simp [Nat.clog], by norm_num, by norm_num, rfl, rfl, by
      simp only [ChunkV12.choosePalette, hk]; rfl⟩
  · exact ⟨4, 1, by simp [Nat.clog], by norm_num, by norm_num, rfl, rfl, by
      simp only [ChunkV12.choosePalette, hk]; rfl⟩
  · exact ⟨4, 0, by simp [Nat.clog], by norm_num, by norm_num, rfl, rfl, by
      simp only [ChunkV12.choosePalette, hk]; rfl⟩

/-- For a palette of more than 16 entries the format switch calls
`writeWithMaxBlocks`. -/
theorem choosePalette_full (s : ScanState) (dm : DataManager) (h : 16 < s.blockVector.length) :
    ChunkV12.choosePalette s dm =
      { gridFormat := V12_8_FULL, uno := false,
        st := ChunkV12.writeWithMaxBlocks s.blockVector s.blockLocations (dm, s.blockMap) } := by
  simp only [ChunkV12.choosePalette]
  split <;> rename_i heq <;> first
    | (exfalso; omega)
    | rfl

/-- The little-endian 16-bit value of a palette slot that `writeGrid` wrote. -/
theorem writeGrid_slot (B k e : Nat) (bv bl : List Nat) (st : DataManager × (Nat → Nat))
    (j : Nat) (hj : j < k + e) :
    loadLE (ChunkV12.writeGrid B k e bv bl st).1.data (st.1.pos + 2 * j) 2 =
      if j < k then bv.getD j 0 % 65536 else 0xFFFF := by
  obtain ⟨_, _, _, h4⟩ := writeGrid_spec B k e bv bl st
  simp only [loadLE, byteAt, Nat.mul_zero, Nat.add_zero]
  rw [h4, h4]
  by_cases hk : j < k
  · rw [if_pos (by omega), if_pos (by omega), if_pos hk]
    have e1 : (st.1.pos + 2 * j - st.1.pos) / 2 = j := by omega
    have e2 : (st.1.pos + 2 * j - st.1.pos) % 2 = 0 := by omega
    have e3 : (st.1.pos + 2 * j + 1 - st.1.pos) / 2 = j := by omega
    have e4 : (st.1.pos + 2 * j + 1 - st.1.pos) % 2 = 1 := by omega
    rw [e1, e2, e3, e4, Nat.pow_zero, Nat.pow_one, Nat.div_one]
    omega
  · rw [if_neg (by omega), if_pos (by omega), if_neg (by omega), if_pos (by omega), if_neg hk]

/-- C24: for a grid whose scan collected a palette of `k` entries with
`2 ≤ k ≤ 16`, the encoder chooses the tag `2·B` with `B = ⌈log2 k⌉ ∈ {1,2,3,4}` and
writes at the cursor the `k` entries as little-endian 16-bit values, then
`2^B − k` entries `0xFFFF`, then `8·B` position bytes, `2·2^B + 8·B` bytes in all,
which is the payload size of the tag (12, 24, 40, 64); for `k > 16` it chooses
8-FULL and writes 128 bytes. -/
theorem palette_area_and_payload_size (s : ScanState) (dm : DataManager) :
    (2 ≤ s.blockVector.length → s.blockVector.length ≤ 16 →
      (ChunkV12.choosePalette s dm).gridFormat = 2 * Nat.clog 2 s.blockVector.length ∧
      1 ≤ Nat.clog 2 s.blockVector.length ∧ Nat.clog 2 s.blockVector.length ≤ 4 ∧
      V12_GRID_SIZES (ChunkV12.choosePalette s dm).gridFormat =
        2 * 2 ^ Nat.clog 2 s.blockVector.length + 8 * Nat.clog 2 s.blockVector.length ∧
      (V12_GRID_SIZES 2 = 12 ∧ V12_GRID_SIZES 4 = 24 ∧ V12_GRID_SIZES 6 = 40 ∧
        V12_GRID_SIZES 8 = 64) ∧
      (ChunkV12.choosePalette s dm).st.1.pos =
        dm.pos + V12_GRID_SIZES (ChunkV12.choosePalette s dm).gridFormat ∧
      (∀ j, j < s.blockVector.length →
        loadLE (ChunkV12.choosePalette s dm).st.1.data (dm.pos + 2 * j) 2 =
          s.blockVector.getD j 0 % 65536) ∧
      (∀ j, s.blockVector.length ≤ j → j < 2 ^ Nat.clog 2 s.blockVector.length →
        loadLE (ChunkV12.choosePalette s dm).st.1.data (dm.pos + 2 * j) 2 = 0xFFFF)) ∧
    (16 < s.blockVector.length →
      (ChunkV12.choosePalette s dm).gridFormat = 0xE ∧ V12_GRID_SIZES 0xE = 128 ∧
      (ChunkV12.choosePalette s dm).st.1.pos = dm.pos + 128) := by
  constructor
  · intro h2 h16
    obtain ⟨B, e, hB, hB1, hB4, hke, hsz, hch⟩ := choosePalette_writeGrid s dm h2 h16
    rw [hch, ← hB]
    dsimp only
    obtain ⟨g1, _, _, _⟩ := writeGrid_spec B s.blockVector.length e s.blockVector
      s.blockLocations (dm, s.blockMap)
    dsimp only at g1
    refine ⟨rfl, hB1, hB4, hsz, ⟨rfl, rfl, rfl, rfl⟩, ?_, ?_, ?_⟩
    · rw [g1, hsz]; omega
    · intro j hj
      have := writeGrid_slot B s.blockVector.length e s.blockVector s.blockLocations
        (dm, s.blockMap) j (by omega)
      rw [if_pos hj] at this
      exact this
    · intro j hj1 hj2
      have := writeGrid_slot B s.blockVector.length e s.blockVector s.blockLocations
        (dm, s.blockMap) j (by omega)
      rw [if_neg (by omega)] at this
      exact this
  · intro h
    rw [choosePalette_full s dm h]
    exact ⟨rfl, rfl, writeWithMaxBlocks_pos _ _ _⟩

theorem palette_area_and_payload_size_witness :
    (2 ≤ 3 ∧ 3 ≤ 16) ∧
    (ChunkV12.choosePalette
      { blockVector := [0x0800, 0, 0x0010], blockLocations := [0, 1, 1, 1, 2], sbmgdLocations2 := [],
        noSubmerged := true, blockMap := fun _ => 0 } (emptyBuffer 65536 204)).gridFormat = 2 * 2 :=
  ⟨⟨by decide, by decide⟩,
    ((palette_area_and_payload_size
      { blockVector := [0x0800, 0, 0x0010], blockLocations := [0, 1, 1, 1, 2], sbmgdLocations2 := [],
        noSubmerged := true, blockMap := fun _ => 0 } (emptyBuffer 65536 204)).1
      (by decide) (by decide)).1.trans (by simp [Nat.clog])⟩

/-! ### The palette and the positions of a scanned grid -/

/-- The palette keeps the order of first occurrence. -/
theorem paletteOf_order (l : List Nat) (x y : Nat) (hx : x ∈ l) (hy : y ∈ l) :
    ((paletteOf l).indexOf x < (paletteOf l).indexOf y ↔ l.indexOf x < l.indexOf y) := by
  induction l using List.reverseRecOn with
  | nil => simp at hx
  | append_singleton l a ih =>
    rw [paletteOf_snoc]
    by_cases ha : a ∈ l
    · have hx1 : x ∈ l := by
        rcases List.mem_append.1 hx with h | h
        · exact h
        · rw [List.mem_singleton.1 h]; exact ha
      have hy1 : y ∈ l := by
        rcases List.mem_append.1 hy with h | h
        · exact h
        · rw [List.mem_singleton.1 h]; exact ha
      rw [pushNew, if_pos ((paletteOf_mem l a).2 ha), List.indexOf_append_of_mem hx1,
        List.indexOf_append_of_mem hy1]
      exact ih hx1 hy1
    · have hap : a ∉ paletteOf l := fun h => ha ((paletteOf_mem l a).1 h)
      rw [pushNew, if_neg hap]
      have key : ∀ z, z ∈ l ++ [a] →
          (z ∈ l ∧ (paletteOf l ++ [a]).indexOf z = (paletteOf l).indexOf z ∧
            (l ++ [a]).indexOf z = l.indexOf z ∧ (paletteOf l).indexOf z < (paletteOf l).length ∧
            l.indexOf z < l.length) ∨
          (z ∉ l ∧ (paletteOf l ++ [a]).indexOf z = (paletteOf l).length ∧
            (l ++ [a]).indexOf z = l.length) := by
        intro z hz
        by_cases hzl : z ∈ l
        · left
          have hzp := (paletteOf_mem l z).2 hzl
          exact ⟨hzl, List.indexOf_append_of_mem hzp, List.indexOf_append_of_mem hzl,
            List.indexOf_lt_length.2 hzp, List.indexOf_lt_length.2 hzl⟩
        · right
          have hza : z = a := by
            rcases List.mem_append.1 hz with h | h
            · exact absurd h hzl
            · exact List.mem_singleton.1 h
          subst hza
          refine ⟨hzl, ?_, ?_⟩
          · rw [List.indexOf_append_of_not_mem hap, List.indexOf_cons_self, Nat.add_zero]
          · rw [List.indexOf_append_of_not_mem hzl, List.indexOf_cons_self, Nat.add_zero]
      rcases key x hx with ⟨hxl, e1, e2, e3, e4⟩ | ⟨hxl, e1, e2⟩ <;>
        rcases key y hy with ⟨hyl, f1, f2, f3, f4⟩ | ⟨hyl, f1, f2⟩
      · rw [e1, e2, f1, f2]; exact ih hxl hyl
      · rw [e1, e2, f1, f2]; exact iff_of_true e3 e4
      · rw [e1, e2, f1, f2]; exact iff_of_false (by omega) (by omega)
      · rw [e1, e2, f1, f2]; exact iff_of_false (by omega) (by omega)

theorem scanCell_loc (c : ChunkData) (i : Nat) (blocks vals : List Nat) (s : ScanState)
    (hs : ScanInv vals s) (hl : LocInv blocks s) (hsub : c.submerged.get i = 0)
    (hlen : s.blockLocations.length < 64) :
    LocInv (blocks ++ [c.newBlocks.get i]) (ChunkV12.scanCell c i s) := by
  obtain ⟨hp, hm, hb⟩ := hs
  obtain ⟨l1, l2⟩ := hl
  unfold ChunkV12.scanCell
  simp only [hsub, ne_eq, not_true_eq_false, if_false]
  by_cases hblk : c.newBlocks.get i ∈ s.blockVector
  · have e1 : s.blockMap (c.newBlocks.get i) ≠ 0 := by
      rw [hm, if_pos hblk]; omega
    have e2 : (s.blockMap (c.newBlocks.get i) - 1) % 65536 =
        s.blockVector.indexOf (c.newBlocks.get i) := by
      rw [hm, if_pos hblk, Nat.add_sub_cancel]
      have := List.indexOf_lt_length.2 hblk
      omega
    rw [if_pos e1]
    constructor
    · simp only [List.length_append, List.length_singleton, l1]
    · intro n hn
      simp only [List.length_append, List.length_singleton] at hn
      by_cases hn1 : n < blocks.length
      · rw [List.getD_append _ _ _ _ hn1, List.getD_append _ _ _ _ (by omega)]
        exact l2 n hn1
      · have hn2 : n = blocks.length := by omega
        subst hn2
        rw [List.getD_append_right _ _ _ _ (le_refl _),
          List.getD_append_right _ _ _ _ (by omega), l1, Nat.sub_self]
        exact ⟨hblk, e2⟩
  · have e1 : ¬ s.blockMap (c.newBlocks.get i) ≠ 0 := by
      rw [hm, if_neg hblk]; simp
    rw [if_neg e1]
    constructor
    · simp only [List.length_append, List.length_singleton, l1]
    · intro n hn
      simp only [List.length_append, List.length_singleton] at hn
      by_cases hn1 : n < blocks.length
      · rw [List.getD_append _ _ _ _ hn1, List.getD_append _ _ _ _ (by omega)]
        obtain ⟨m1, m2⟩ := l2 n hn1
        exact ⟨List.mem_append_left _ m1, by rw [List.indexOf_append_of_mem m1]; exact m2⟩
      · have hn2 : n = blocks.length := by omega
        subst hn2
        rw [List.getD_append_right _ _ _ _ (le_refl _),
          List.getD_append_right _ _ _ _ (by omega), l1, Nat.sub_self]
        refine ⟨List.mem_append_right _ (List.mem_singleton_self _), ?_⟩
        dsimp only
        simp only [List.getD_cons_zero]
        rw [List.indexOf_append_of_not_mem hblk, List.indexOf_cons_self, Nat.add_zero]
        omega

theorem scan_foldl_loc (c : ChunkData) (cells : List Nat) (blocks vals : List Nat) (s : ScanState)
    (hs : ScanInv vals s) (hl : LocInv blocks s) (hsub : ∀ i ∈ cells, c.submerged.get i = 0)
    (hlen : s.blockLocations.length + cells.length ≤ 64) :
    LocInv (blocks ++ cells.map c.newBlocks.get)
      (cells.foldl (fun s i => ChunkV12.scanCell c i s) s) := by
  induction cells generalizing blocks vals s with
  | nil => simpa using hl
  | cons i t ih =>
    simp only [List.foldl_cons, List.map_cons]
    have hlt : s.blockLocations.length < 64 := by simp at hlen; omega
    have h1 := scanCell_inv c i vals s hs hlt
    have h2 := scanCell_loc c i blocks vals s hs hl (hsub i (List.mem_cons_self i t)) hlt
    have h3 := ih _ _ _ h1 h2 (fun j hj => hsub j (List.mem_cons_of_mem i hj))
      (by rw [scanCell_locations_length]; simp at hlen; omega)
    rw [List.append_assoc] at h3
    exact h3

theorem scanGrid_loc (c : ChunkData) (off : Nat)
    (hsub : ∀ i ∈ gridCellIndices off, c.submerged.get i = 0) :
    LocInv (gridBlocks c off) (ChunkV12.scanGrid c off (fun _ => 0)) := by
  rw [scanGrid_eq]
  have h0 : ScanInv [] (ScanState.init fun _ => 0) :=
    ⟨rfl, by intro x; simp [ScanState.init], by simp [ScanState.init]⟩
  have l0 : LocInv [] (ScanState.init fun _ => 0) :=
    ⟨rfl, by intro n hn; simp at hn⟩
  have hl : (ScanState.init fun _ => 0).blockLocations.length + (gridCellIndices off).length ≤ 64 := by
    rw [gridCellIndices_length]; simp [ScanState.init]
  have := scan_foldl_loc c (gridCellIndices off) [] [] _ h0 l0 hsub hl
  rw [List.nil_append] at this
  exact this

theorem gridBlocks_length (c : ChunkData) (off : Nat) : (gridBlocks c off).length = 64 := by
  rw [gridBlocks, List.length_map, gridCellIndices_length]

theorem gridBlocks_lt (c : ChunkData) (off x : Nat) (hx : x ∈ gridBlocks c off) : x < 65536 := by
  rw [gridBlocks, List.mem_map] at hx
  obtain ⟨i, _, hi⟩ := hx
  rw [← hi]
  exact Nat.mod_lt _ (by norm_num)

theorem scanGrid_palette (c : ChunkData) (off : Nat)
    (hsub : ∀ i ∈ gridCellIndices off, c.submerged.get i = 0) :
    (ChunkV12.scanGrid c off (fun _ => 0)).blockVector = paletteOf (gridBlocks c off) := by
  rw [(scanGrid_inv c off).palette, scannedValues_noSub c _ hsub]
  rfl

/-- C21: for every grid with no submerged cell and `k` distinct block values,
`2 ≤ k ≤ 16`, the palette of the scan is the list of the distinct values in the
order of their first occurrence in the scan order, without duplicates; the
encoder writes its `k` entries at the cursor; and the position recorded for each of
the 64 cells is the palette index of the cell's value, so that
`palette[position[i]] == cell[i]`. -/
theorem palette_insertion_ordered (c : ChunkData) (off : Nat) (dm : DataManager)
    (hsub : ∀ i ∈ gridCellIndices off, c.submerged.get i = 0)
    (h2 : 2 ≤ (gridBlocks c off).toFinset.card) (h16 : (gridBlocks c off).toFinset.card ≤ 16) :
    (ChunkV12.scanGrid c off (fun _ => 0)).blockVector = paletteOf (gridBlocks c off) ∧
    (paletteOf (gridBlocks c off)).Nodup ∧
    (paletteOf (gridBlocks c off)).length = (gridBlocks c off).toFinset.card ∧
    (∀ x, x ∈ paletteOf (gridBlocks c off) ↔ x ∈ gridBlocks c off) ∧
    (∀ x y, x ∈ gridBlocks c off → y ∈ gridBlocks c off →
      ((paletteOf (gridBlocks c off)).indexOf x < (paletteOf (gridBlocks c off)).indexOf y ↔
        (gridBlocks c off).indexOf x < (gridBlocks c off).indexOf y)) ∧
    (∀ j, j < (gridBlocks c off).toFinset.card →
      loadLE (ChunkV12.choosePalette (ChunkV12.scanGrid c off (fun _ => 0)) dm).st.1.data
        (dm.pos + 2 * j) 2 = (paletteOf (gridBlocks c off)).getD j 0) ∧
    (∀ i, i < 64 →
      (ChunkV12.scanGrid c off (fun _ => 0)).blockLocations.getD i 0 =
        (paletteOf (gridBlocks c off)).indexOf ((gridBlocks c off).getD i 0) ∧
      (paletteOf (gridBlocks c off)).getD
        ((ChunkV12.scanGrid c off (fun _ => 0)).blockLocations.getD i 0) 0 =
        (gridBlocks c off).getD i 0) := by
  have hpal := scanGrid_palette c off hsub
  have hlen := paletteOf_length (gridBlocks c off)
  refine ⟨hpal, paletteOf_nodup _, hlen, paletteOf_mem _, paletteOf_order _, ?_, ?_⟩
  · intro j hj
    have hl2 : 2 ≤ (ChunkV12.scanGrid c off (fun _ => 0)).blockVector.length := by
      rw [hpal, hlen]; exact h2
    have hl16 : (ChunkV12.scanGrid c off (fun _ => 0)).blockVector.length ≤ 16 := by
      rw [hpal, hlen]; exact h16
    obtain ⟨B, e, _, _, _, _, _, hch⟩ :=
      choosePalette_writeGrid (ChunkV12.scanGrid c off (fun _ => 0)) dm hl2 hl16
    rw [hch]
    dsimp only
    have hjl : j < (ChunkV12.scanGrid c off (fun _ => 0)).blockVector.length := by
      rw [hpal, hlen]; exact hj
    have hw := writeGrid_slot B (ChunkV12.scanGrid c off (fun _ => 0)).blockVector.length e
      (ChunkV12.scanGrid c off (fun _ => 0)).blockVector
      (ChunkV12.scanGrid c off (fun _ => 0)).blockLocations
      (dm, (ChunkV12.scanGrid c off (fun _ => 0)).blockMap) j (by omega)
    rw [if_pos hjl] at hw
    dsimp only at hw
    rw [hw, hpal]
    apply Nat.mod_eq_of_lt
    have hjp : j < (paletteOf (gridBlocks c off)).length := by rw [hlen]; exact hj
    rw [List.getD_eq_getElem _ _ hjp]
    exact gridBlocks_lt c off _ ((paletteOf_mem _ _).1 (List.getElem_mem hjp))
  · intro i hi
    obtain ⟨_, l2⟩ := scanGrid_loc c off hsub
    obtain ⟨m1, m2⟩ := l2 i (by rw [gridBlocks_length]; exact hi)
    rw [hpal] at m1 m2
    refine ⟨m2, ?_⟩
    rw [m2]
    have hlt := List.indexOf_lt_length.2 m1
    rw [List.getD_eq_getElem _ _ hlt]
    exact List.getElem_indexOf hlt

set_option maxRecDepth 100000 in
theorem palette_insertion_ordered_witness :
    ((∀ i ∈ gridCellIndices 0, waterChunk.submerged.get i = 0) ∧
      2 ≤ (gridBlocks waterChunk 0).toFinset.card ∧ (gridBlocks waterChunk 0).toFinset.card ≤ 16) ∧
    (ChunkV12.scanGrid waterChunk 0 (fun _ => 0)).blockVector = paletteOf (gridBlocks waterChunk 0) ∧
    paletteOf (gridBlocks waterChunk 0) = [0x0800, 0x0000, 0x0010] ∧
    (ChunkV12.choosePalette (ChunkV12.scanGrid waterChunk 0 (fun _ => 0))
      (emptyBuffer 65536 204)).gridFormat = V12_2_BIT :=
  ⟨⟨fun _ _ => rfl, by decide, by decide⟩,
    (palette_insertion_ordered waterChunk 0 (emptyBuffer 65536 204) (fun _ _ => rfl)
      (by decide) (by decide)).1,
    by decide, by decide⟩

/-! ### The grid body on an arbitrary grid -/

/-- The bytes `writeWithMaxBlocks` leaves below the cursor, and the cursor. -/
theorem writeWithMaxBlocks_spec (bv bl : List Nat) (st : DataManager × (Nat → Nat)) :
    (ChunkV12.writeWithMaxBlocks bv bl st).1.pos = st.1.pos + 128 ∧
    (ChunkV12.writeWithMaxBlocks bv bl st).1.size = st.1.size ∧
    (ChunkV12.writeWithMaxBlocks bv bl st).1.isBig = true ∧
    ∀ a, a < st.1.pos → (ChunkV12.writeWithMaxBlocks bv bl st).1.data a = st.1.data a := by
  unfold ChunkV12.writeWithMaxBlocks
  dsimp only
  obtain ⟨a1, a2, _, a4⟩ := writeFold_spec 2 (by norm_num)
    (fun i => bv.getD (bl.getD i 0) 0) GRID_COUNT (st.1.setEndian false)
  rw [DataManager.setEndian_pos, DataManager.setEndian_size, DataManager.setEndian_isBig,
    DataManager.setEndian_data, a1, a2]
  refine ⟨rfl, rfl, rfl, ?_⟩
  intro a ha
  rw [a4 a, if_neg (by rw [DataManager.setEndian_pos]; omega)]
  rfl

theorem choosePalette_full0 (s : ScanState) (dm : DataManager)
    (h : s.blockVector.length = 0 ∨ 16 < s.blockVector.length) :
    ChunkV12.choosePalette s dm =
      { gridFormat := V12_8_FULL, uno := false,
        st := ChunkV12.writeWithMaxBlocks s.blockVector s.blockLocations (dm, s.blockMap) } := by
  simp only [ChunkV12.choosePalette]
  split <;> rename_i heq <;> first
    | (exfalso; omega)
    | rfl

/-- What the format switch does to the cursor and the bytes, for every scan:
the cursor advances by the payload size of the tag, nothing below it changes, and
`uno` is set exactly for a one-entry palette. -/
theorem choosePalette_spec (s : ScanState) (dm : DataManager) (hbig : dm.isBig = true) :
    (ChunkV12.choosePalette s dm).gridFormat = narrowestTag s.blockVector.length ∧
    ((ChunkV12.choosePalette s dm).uno = true ↔ s.blockVector.length = 1) ∧
    (ChunkV12.choosePalette s dm).st.1.pos =
      dm.pos + V12_GRID_SIZES (narrowestTag s.blockVector.length) ∧
    (ChunkV12.choosePalette s dm).st.1.size = dm.size ∧
    (ChunkV12.choosePalette s dm).st.1.isBig = true ∧
    ∀ a, a < dm.pos → (ChunkV12.choosePalette s dm).st.1.data a = dm.data a := by
  have hf := choosePalette_format s dm
  by_cases h1 : s.blockVector.length = 1
  · obtain ⟨v, hv⟩ : ∃ v, s.blockVector = [v] := List.length_eq_one.1 h1
    rw [choosePalette_uno s dm v hv, hv]
    exact ⟨rfl, by simp, rfl, rfl, hbig, fun _ _ => rfl⟩
  · by_cases h2 : 2 ≤ s.blockVector.length ∧ s.blockVector.length ≤ 16
    · obtain ⟨B, e, hB, _, _, hke, hsz, hch⟩ := choosePalette_writeGrid s dm h2.1 h2.2
      have hfmt : narrowestTag s.blockVector.length = 2 * B := by rw [← hf, hch]
      obtain ⟨g1, g2, g3, g4⟩ := writeGrid_spec B s.blockVector.length e s.blockVector
        s.blockLocations (dm, s.blockMap)
      rw [hch, hfmt]
      dsimp only at g1 g2 g3 g4 ⊢
      refine ⟨rfl, by simp [h1], ?_, g2, g3, ?_⟩
      · rw [g1, hsz]; omega
      · intro a ha
        rw [g4 a, if_neg (by omega), if_neg (by omega), if_neg (by omega)]
    · have h3 : s.blockVector.length = 0 ∨ 16 < s.blockVector.length := by omega
      have hch := choosePalette_full0 s dm h3
      have hfmt : narrowestTag s.blockVector.length = V12_8_FULL := by rw [← hf, hch]
      obtain ⟨g1, g2, g3, g4⟩ := writeWithMaxBlocks_spec s.blockVector s.blockLocations
        (dm, s.blockMap)
      rw [hch, hfmt]
      dsimp only at g1 g2 g3 g4 ⊢
      exact ⟨rfl, by simp [h1], g1, g2, g3, g4⟩

/-- The grid body on any grid, entered with a zeroed `blockMap`. -/
theorem writeGridBody_spec (c : ChunkData) (off : Nat) (ss : SectionState)
    (hbm : ss.blockMap = fun _ => 0) (hbig : ss.dm.isBig = true) :
    (ChunkV12.writeGridBody c off ss).blockMap = (fun _ => 0) ∧
    (ChunkV12.writeGridBody c off ss).gridHeader =
      ss.gridHeader ++ [gridWord c off ss.sectionSize] ∧
    (ChunkV12.writeGridBody c off ss).sectionSize = ss.sectionSize + gridPayload c off ∧
    (ChunkV12.writeGridBody c off ss).dm.pos = ss.dm.pos + gridPayload c off ∧
    (ChunkV12.writeGridBody c off ss).dm.size = ss.dm.size ∧
    (ChunkV12.writeGridBody c off ss).dm.isBig = true ∧
    ∀ a, a < ss.dm.pos → (ChunkV12.writeGridBody c off ss).dm.data a = ss.dm.data a := by
  have hclean := writeGridBody_clean c off ss hbm
  have hpal : (ChunkV12.scanGrid c off ss.blockMap).blockVector = gridPalette c off := by
    rw [hbm]; exact (scanGrid_inv c off).palette
  obtain ⟨f1, f2, f3, f4, f5, f6⟩ :=
    choosePalette_spec (ChunkV12.scanGrid c off ss.blockMap) ss.dm hbig
  rw [hpal] at f1 f2 f3
  refine ⟨hclean, ?_, ?_, ?_, f4, f5, f6⟩
  · simp only [ChunkV12.writeGridBody]
    congr 2
    unfold gridWord
    by_cases h1 : (gridPalette c off).length = 1
    · rw [if_pos (f2.2 h1), if_pos h1, hpal]
    · have hu : ¬ (ChunkV12.choosePalette (ChunkV12.scanGrid c off ss.blockMap) ss.dm).uno = true :=
        fun h => h1 (f2.1 h)
      rw [if_neg hu, if_neg h1, f1]
  · simp only [ChunkV12.writeGridBody]
    rw [f1]
    rfl
  · exact f3

/-! ### The grids of an arbitrary section -/

theorem grids_foldl_spec (c : ChunkData) (l : List Nat) (ss : SectionState)
    (hbm : ss.blockMap = fun _ => 0) (hbig : ss.dm.isBig = true) :
    (l.foldl (fun ss off => ChunkV12.writeGridBody c off ss) ss).blockMap = (fun _ => 0) ∧
    (l.foldl (fun ss off => ChunkV12.writeGridBody c off ss) ss).gridHeader =
      ss.gridHeader ++ gridWordsFrom c l ss.sectionSize ∧
    (l.foldl (fun ss off => ChunkV12.writeGridBody c off ss) ss).sectionSize =
      ss.sectionSize + payloadSum c l ∧
    (l.foldl (fun ss off => ChunkV12.writeGridBody c off ss) ss).dm.pos =
      ss.dm.pos + payloadSum c l ∧
    (l.foldl (fun ss off => ChunkV12.writeGridBody c off ss) ss).dm.size = ss.dm.size ∧
    (l.foldl (fun ss off => ChunkV12.writeGridBody c off ss) ss).dm.isBig = true ∧
    ∀ a, a < ss.dm.pos →
      (l.foldl (fun ss off => ChunkV12.writeGridBody c off ss) ss).dm.data a = ss.dm.data a := by
  induction l generalizing ss with
  | nil =>
    refine ⟨hbm, ?_, ?_, ?_, rfl, hbig, fun _ _ => rfl⟩
    · simp [gridWordsFrom]
    · simp [payloadSum]
    · simp [payloadSum]
  | cons off t ih =>
    obtain ⟨g1, g2, g3, g4, g5, g6, g7⟩ := writeGridBody_spec c off ss hbm hbig
    obtain ⟨i1, i2, i3, i4, i5, i6, i7⟩ := ih (ChunkV12.writeGridBody c off ss) g1 g6
    rw [List.foldl_cons]
    have hps : payloadSum c (off :: t) = gridPayload c off + payloadSum c t := by
      simp [payloadSum]
    refine ⟨i1, ?_, ?_, ?_, ?_, i6, ?_⟩
    · rw [i2, g2, g3, List.append_assoc]
      rfl
    · rw [i3, g3, hps]; omega
    · rw [i4, g4, hps]; omega
    · rw [i5, g5]
    · intro a ha
      rw [i7 a (by omega), g7 a ha]

theorem gridWordsFrom_length (c : ChunkData) (l : List Nat) (sz : Nat) :
    (gridWordsFrom c l sz).length = l.length := by
  induction l generalizing sz with
  | nil => rfl
  | cons off t ih => simp [gridWordsFrom, ih]

theorem gridWordsFrom_getD (c : ChunkData) (l : List Nat) (sz g : Nat) (hg : g < l.length) :
    (gridWordsFrom c l sz).getD g 0 =
      gridWord c (l.getD g 0) (sz + payloadSum c (l.take g)) := by
  induction l generalizing sz g with
  | nil => simp at hg
  | cons off t ih =>
    cases g with
    | zero => simp [gridWordsFrom, payloadSum]
    | succ n =>
      simp only [List.length_cons] at hg
      simp only [gridWordsFrom, List.getD_cons_succ, List.take_succ_cons]
      rw [ih _ n (by omega)]
      congr 1
      simp [payloadSum]
      omega

theorem narrowestTag_size (k : Nat) :
    V12_GRID_SIZES (narrowestTag k) ≤ 128 ∧ V12_GRID_SIZES (narrowestTag k) % 4 = 0 ∧
    narrowestTag k < 16 ∧ (k ≠ 1 → 2 ≤ narrowestTag k) := by
  unfold narrowestTag
  split_ifs with h1 <;> simp [V12_GRID_SIZES, h1]

theorem gridPayload_bound (c : ChunkData) (off : Nat) :
    gridPayload c off ≤ 128 ∧ gridPayload c off % 4 = 0 :=
  ⟨(narrowestTag_size _).1, (narrowestTag_size _).2.1⟩

theorem payloadSum_bound (c : ChunkData) (l : List Nat) :
    payloadSum c l ≤ 128 * l.length ∧ payloadSum c l % 4 = 0 := by
  induction l with
  | nil => simp [payloadSum]
  | cons off t ih =>
    have hps : payloadSum c (off :: t) = gridPayload c off + payloadSum c t := by
      simp [payloadSum]
    obtain ⟨b1, b2⟩ := gridPayload_bound c off
    rw [hps, List.length_cons]
    omega

theorem scannedValues_lt (c : ChunkData) (cells : List Nat) (x : Nat)
    (hx : x ∈ scannedValues c cells) : x < 65536 := by
  simp only [scannedValues, List.mem_flatMap, List.mem_cons] at hx
  obtain ⟨i, _, hi⟩ := hx
  rcases hi with hi | hi
  · rw [hi]; exact Nat.mod_lt _ (by norm_num)
  · split_ifs at hi
    · rw [List.mem_singleton.1 hi]; exact Nat.mod_lt _ (by norm_num)
    · simp at hi

theorem gridWord_lt (c : ChunkData) (off sz : Nat) : gridWord c off sz < 65536 := by
  unfold gridWord
  split_ifs with h1
  · have hlt : 0 < (gridPalette c off).length := by omega
    rw [List.getD_eq_getElem _ _ hlt]
    exact scannedValues_lt c _ _ ((paletteOf_mem _ _).1 (List.getElem_mem hlt))
  · exact Nat.mod_lt _ (by norm_num)

theorem sectionHeaderWords_getD (c : ChunkData) (s g : Nat) (hg : g < 64) :
    (sectionHeaderWords c s).getD g 0 =
      gridWord c ((sectionGridOffsets s).getD g 0) (payloadBefore c s g) := by
  unfold sectionHeaderWords payloadBefore
  rw [gridWordsFrom_getD c _ 0 g (by rw [sectionGridOffsets_length]; exact hg), Nat.zero_add]

theorem sectionHeaderWords_all (c : ChunkData) (s : Nat) :
    (sectionHeaderWords c s).all (fun x => x == 0) = true ↔
      ∀ g, g < 64 → (sectionHeaderWords c s).getD g 0 = 0 := by
  have hlen : (sectionHeaderWords c s).length = 64 := by
    unfold sectionHeaderWords
    rw [gridWordsFrom_length, sectionGridOffsets_length]
  rw [List.all_eq_true]
  constructor
  · intro h g hg
    have hg2 : g < (sectionHeaderWords c s).length := by rw [hlen]; exact hg
    rw [List.getD_eq_getElem _ _ hg2]
    have := h _ (List.getElem_mem hg2)
    simpa using this
  · intro h x hx
    obtain ⟨n, hn, rfl⟩ := List.mem_iff_getElem.1 hx
    have := h n (by rw [← hlen]; exact hn)
    rw [List.getD_eq_getElem _ _ hn] at this
    simp [this]

theorem sectionSizeEntry_le (c : ChunkData) (s : Nat) : sectionSizeEntry c s ≤ 33 := by
  unfold sectionSizeEntry
  have hb := (payloadSum_bound c (sectionGridOffsets s)).1
  rw [sectionGridOffsets_length] at hb
  split_ifs
  · omega
  · omega

/-- The section body on any section, entered with a zeroed `blockMap`: the tables,
`last_section_jump`, the header bytes and the bytes it leaves alone. -/
theorem writeSection_spec (c : ChunkData) (s : Nat) (w : WriteState)
    (hbm : w.blockMap = fun _ => 0) (hbig : w.dm.isBig = true) :
    (ChunkV12.writeSection c s w).blockMap = (fun _ => 0) ∧
    (ChunkV12.writeSection c s w).dm.isBig = true ∧
    (ChunkV12.writeSection c s w).dm.size = w.dm.size ∧
    (ChunkV12.writeSection c s w).last_section_jump =
      w.last_section_jump + sectionSizeEntry c s ∧
    (ChunkV12.writeSection c s w).sectSizeTable s = sectionSizeEntry c s ∧
    (ChunkV12.writeSection c s w).sectJumpTable s = w.last_section_jump * 256 % 2 ^ 32 % 65536 ∧
    (∀ a, a < 76 + w.last_section_jump * 256 % 2 ^ 32 →
      (ChunkV12.writeSection c s w).dm.data a = w.dm.data a) ∧
    (∀ g, g < 64 →
      byteAt (ChunkV12.writeSection c s w).dm.data
          (76 + w.last_section_jump * 256 % 2 ^ 32 + 2 * g) =
        (sectionHeaderWords c s).getD g 0 % 256 ∧
      byteAt (ChunkV12.writeSection c s w).dm.data
          (76 + w.last_section_jump * 256 % 2 ^ 32 + 2 * g + 1) =
        (sectionHeaderWords c s).getD g 0 / 256 % 256) := by
  have hss := sectionStart_eq w
  have p1 : (sectionStart w).gridHeader = [] := by rw [hss]
  have p2 : (sectionStart w).sectionSize = 0 := by rw [hss]
  have p3 : (sectionStart w).dm.pos = 76 + w.last_section_jump * 256 % 2 ^ 32 + 128 := by rw [hss]; rfl
  have p4 : (sectionStart w).dm.size = w.dm.size := by rw [hss]; rfl
  have p5 : (sectionStart w).dm.data = w.dm.data := by rw [hss]; rfl
  obtain ⟨f1, f2, f3, f4, f5, f6, f7⟩ :=
    grids_foldl_spec c (sectionGridOffsets s) (sectionStart w)
      (by rw [hss]; exact hbm) (by rw [hss]; exact hbig)
  rw [← writeSectionGrids_eq] at f1 f2 f3 f4 f5 f6 f7
  rw [p1, p2] at f2
  rw [p2] at f3
  rw [p3] at f4 f7
  rw [p4] at f5
  rw [p5] at f7
  simp only [List.nil_append, Nat.zero_add] at f2 f3
  unfold ChunkV12.writeSection
  generalize ChunkV12.writeSectionGrids c s (sectionStart w) = ss1 at f1 f2 f3 f4 f5 f6 f7 ⊢
  change ss1.gridHeader = sectionHeaderWords c s at f2
  obtain ⟨h1, h2, h3, _, h5⟩ :=
    writeGridHeader_spec ss1.dm (76 + w.last_section_jump * 256 % 2 ^ 32) ss1.gridHeader
  have hwords : ∀ g, g < 64 → ss1.gridHeader.getD g 0 < 65536 := by
    intro g hg
    rw [f2, sectionHeaderWords_getD c s g hg]
    exact gridWord_lt _ _ _
  have hzero := header_is0_iff ss1.dm (76 + w.last_section_jump * 256 % 2 ^ 32)
    ss1.gridHeader hwords
  have hbytes : ∀ (X : DataManager), X.data = (writeGridHeader ss1.dm
      (76 + w.last_section_jump * 256 % 2 ^ 32) ss1.gridHeader).data →
      (∀ a, a < 76 + w.last_section_jump * 256 % 2 ^ 32 → X.data a = w.dm.data a) ∧
      (∀ g, g < 64 →
        byteAt X.data (76 + w.last_section_jump * 256 % 2 ^ 32 + 2 * g) =
          (sectionHeaderWords c s).getD g 0 % 256 ∧
        byteAt X.data (76 + w.last_section_jump * 256 % 2 ^ 32 + 2 * g + 1) =
          (sectionHeaderWords c s).getD g 0 / 256 % 256) := by
    intro X hX
    constructor
    · intro a ha
      rw [hX, h5 a, if_neg (by omega), f7 a (by omega)]
    · intro g hg
      unfold byteAt
      rw [hX, h5, h5, if_pos (by omega), if_pos (by omega), f2]
      have e1 : (76 + w.last_section_jump * 256 % 2 ^ 32 + 2 * g -
          (76 + w.last_section_jump * 256 % 2 ^ 32)) / 2 = g := by omega
      have e2 : (76 + w.last_section_jump * 256 % 2 ^ 32 + 2 * g -
          (76 + w.last_section_jump * 256 % 2 ^ 32)) % 2 = 0 := by omega
      have e3 : (76 + w.last_section_jump * 256 % 2 ^ 32 + 2 * g + 1 -
          (76 + w.last_section_jump * 256 % 2 ^ 32)) / 2 = g := by omega
      have e4 : (76 + w.last_section_jump * 256 % 2 ^ 32 + 2 * g + 1 -
          (76 + w.last_section_jump * 256 % 2 ^ 32)) % 2 = 1 := by omega
      rw [e1, e2, e3, e4, Nat.pow_zero, Nat.pow_one, Nat.div_one, Nat.mod_mod, Nat.mod_mod]
      exact ⟨rfl, rfl⟩
  have hz2 : is0_128_slow (writeGridHeader ss1.dm (76 + w.last_section_jump * 256 % 2 ^ 32)
      ss1.gridHeader).data (76 + w.last_section_jump * 256 % 2 ^ 32) = true ↔
      (sectionHeaderWords c s).all (fun x => x == 0) = true := by
    rw [sectionHeaderWords_all, ← f2]
    exact hzero
  have hb := hbytes (writeGridHeader ss1.dm (76 + w.last_section_jump * 256 % 2 ^ 32)
    ss1.gridHeader) rfl
  have hle := sectionSizeEntry_le c s
  clear hbytes hzero hwords h5 h1
  unfold closeSection
  dsimp only
  rw [show (26 + 50 : Nat) = 76 from rfl]
  generalize writeGridHeader ss1.dm (76 + w.last_section_jump * 256 % 2 ^ 32) ss1.gridHeader = H
    at hz2 hb h2 h3 ⊢
  by_cases habs : is0_128_slow H.data (76 + w.last_section_jump * 256 % 2 ^ 32) = true
  · have hentry : sectionSizeEntry c s = 0 := by
      unfold sectionSizeEntry; rw [if_pos (hz2.1 habs)]
    rw [if_pos habs, hentry]
    dsimp only
    refine ⟨f1, ?_, ?_, ?_, ?_, ?_, ?_, ?_⟩
    · rw [DataManager.skipBack_isBig]; exact h3
    · rw [DataManager.skipBack_size, h2, f5]
    · rfl
    · exact Function.update_same _ _ _
    · exact Function.update_same _ _ _
    · intro a ha
      rw [DataManager.skipBack_data]
      exact hb.1 a ha
    · intro g hg
      rw [DataManager.skipBack_data]
      exact hb.2 g hg
  · have hentry : sectionSizeEntry c s = (128 + ss1.sectionSize + 255) / 256 := by
      unfold sectionSizeEntry; rw [if_neg (fun h => habs (hz2.2 h)), f3]
    rw [if_neg habs]
    dsimp only
    rw [show GRID_SIZE = 128 from rfl, ← hentry]
    refine ⟨f1, h3, ?_, ?_, ?_, ?_, ?_, ?_⟩
    · rw [h2, f5]
    · rfl
    · rw [Function.update_same]
      omega
    · exact Function.update_same _ _ _
    · exact hb.1
    · exact hb.2

/-! ### The section loop on an arbitrary chunk -/

theorem jumpBefore_succ (c : ChunkData) (n : Nat) :
    jumpBefore c (n + 1) = jumpBefore c n + sectionSizeEntry c n := by
  simp [jumpBefore, List.range_succ]

theorem jumpBefore_le (c : ChunkData) (n : Nat) : jumpBefore c n ≤ 33 * n := by
  induction n with
  | zero => simp [jumpBefore]
  | succ n ih =>
    rw [jumpBefore_succ]
    have := sectionSizeEntry_le c n
    omega

theorem jumpBefore_mono (c : ChunkData) (t n : Nat) (h : t ≤ n) :
    jumpBefore c t ≤ jumpBefore c n := by
  induction n with
  | zero =>
    have : t = 0 := by omega
    rw [this]
  | succ n ih =>
    by_cases ht : t = n + 1
    · rw [ht]
    · have := ih (by omega)
      rw [jumpBefore_succ]
      omega

/-- The state of the encoder after the first `n` sections of any chunk. -/
theorem sectionsPrefix_spec (c : ChunkData) (dm : DataManager) (hbig : dm.isBig = true)
    (n : Nat) (hn : n ≤ 16) :
    (ChunkV12.sectionsPrefix n dm c).blockMap = (fun _ => 0) ∧
    (ChunkV12.sectionsPrefix n dm c).dm.isBig = true ∧
    (ChunkV12.sectionsPrefix n dm c).dm.size = dm.size ∧
    (ChunkV12.sectionsPrefix n dm c).last_section_jump = jumpBefore c n ∧
    (∀ t, t < n →
      (ChunkV12.sectionsPrefix n dm c).sectSizeTable t = sectionSizeEntry c t ∧
      (ChunkV12.sectionsPrefix n dm c).sectJumpTable t = jumpBefore c t * 256 % 65536) ∧
    (∀ a, a < 76 → (ChunkV12.sectionsPrefix n dm c).dm.data a = dm.data a) ∧
    (∀ t, t < n → sectionSizeEntry c t ≠ 0 → ∀ g, g < 64 →
      byteAt (ChunkV12.sectionsPrefix n dm c).dm.data (76 + jumpBefore c t * 256 + 2 * g) =
        (sectionHeaderWords c t).getD g 0 % 256 ∧
      byteAt (ChunkV12.sectionsPrefix n dm c).dm.data (76 + jumpBefore c t * 256 + 2 * g + 1) =
        (sectionHeaderWords c t).getD g 0 / 256 % 256) := by
  induction n with
  | zero =>
    refine ⟨rfl, hbig, rfl, rfl, ?_, fun _ _ => rfl, ?_⟩
    · intro t ht; omega
    · intro t ht; omega
  | succ n ih =>
    obtain ⟨i1, i2, i3, i4, i5, i6, i7⟩ := ih (by omega)
    rw [sectionsPrefix_succ]
    obtain ⟨g1, g2, g3, g4, g5, g6, g7, g8⟩ :=
      writeSection_spec c n (ChunkV12.sectionsPrefix n dm c) i1 i2
    have hother := writeSection_tables_other c n
    generalize ChunkV12.sectionsPrefix n dm c = w
      at g1 g2 g3 g4 g5 g6 g7 g8 hother i1 i2 i3 i4 i5 i6 i7 ⊢
    have hjle := jumpBefore_le c n
    have hJ : w.last_section_jump * 256 % 2 ^ 32 = jumpBefore c n * 256 := by
      rw [i4]
      apply Nat.mod_eq_of_lt
      norm_num
      omega
    rw [hJ] at g6 g7 g8
    refine ⟨g1, g2, by rw [g3, i3], by rw [g4, i4, jumpBefore_succ], ?_, ?_, ?_⟩
    · intro t ht
      by_cases htn : t = n
      · subst htn
        exact ⟨g5, g6⟩
      · obtain ⟨o1, o2⟩ := hother t w htn
        rw [o1, o2]
        exact i5 t (by omega)
    · intro a ha
      rw [g7 a (by omega)]
      exact i6 a ha
    · intro t ht hne g hg
      by_cases htn : t = n
      · subst htn
        exact g8 g hg
      · have htlt : t < n := by omega
        have hm := jumpBefore_mono c (t + 1) n (by omega)
        rw [jumpBefore_succ] at hm
        have hpos : 1 ≤ sectionSizeEntry c t := by omega
        unfold byteAt
        rw [g7 _ (by omega), g7 _ (by omega)]
        exact i7 t htlt hne g hg

/-! ### The block data of an arbitrary chunk -/

/-- The bytes `ChunkV12::writeBlockData` leaves for a chunk whose cell vectors are
already normalised: the three header fields, the bytes before the header, and the
grid-header tables of the present sections. -/
theorem writeBlockData_layout (c : ChunkData) (dm : DataManager) (hbig : dm.isBig = true) :
    (patchHeader (ChunkV12.writeSections dm c)).pos = 76 + jumpBefore c 16 * 256 ∧
    (patchHeader (ChunkV12.writeSections dm c)).size = dm.size ∧
    loadBE (patchHeader (ChunkV12.writeSections dm c)).data 26 2 = jumpBefore c 16 ∧
    (∀ s, s < 16 →
      loadBE (patchHeader (ChunkV12.writeSections dm c)).data (28 + 2 * s) 2 =
        jumpBefore c s * 256 % 65536 ∧
      byteAt (patchHeader (ChunkV12.writeSections dm c)).data (60 + s) = sectionSizeEntry c s) ∧
    (∀ a, a < 26 → (patchHeader (ChunkV12.writeSections dm c)).data a = dm.data a) ∧
    (∀ s, s < 16 → sectionSizeEntry c s ≠ 0 → ∀ g, g < 64 →
      byteAt (patchHeader (ChunkV12.writeSections dm c)).data (76 + jumpBefore c s * 256 + 2 * g) =
        (sectionHeaderWords c s).getD g 0 % 256 ∧
      byteAt (patchHeader (ChunkV12.writeSections dm c)).data
          (76 + jumpBefore c s * 256 + 2 * g + 1) =
        (sectionHeaderWords c s).getD g 0 / 256 % 256) := by
  obtain ⟨i1, i2, i3, i4, i5, i6, i7⟩ := sectionsPrefix_spec c dm hbig 16 (le_refl 16)
  unfold ChunkV12.writeSections
  rw [show SECTION_COUNT = 16 from rfl]
  generalize ChunkV12.sectionsPrefix 16 dm c = w at i1 i2 i3 i4 i5 i6 i7 ⊢
  obtain ⟨p1, p2, _, _, p5⟩ := patchHeader_spec w i2
  have hj := jumpBefore_le c 16
  have hJ : w.last_section_jump * 256 % 2 ^ 32 = jumpBefore c 16 * 256 := by
    rw [i4]
    apply Nat.mod_eq_of_lt
    norm_num
    omega
  rw [hJ] at p1 p5
  refine ⟨p1, by rw [p2, i3], ?_, ?_, ?_, ?_⟩
  · rw [loadBE_two]
    unfold byteAt
    rw [p5, p5, if_pos (by omega), if_pos (by omega), Nat.shiftRight_eq_div_pow]
    norm_num
    omega
  · intro s hs
    obtain ⟨t1, t2⟩ := i5 s hs
    have hle := sectionSizeEntry_le c s
    constructor
    · rw [loadBE_two]
      unfold byteAt
      rw [p5, p5, if_neg (by omega), if_pos (by omega), if_neg (by omega), if_pos (by omega)]
      have e1 : (28 + 2 * s - 28) / 2 = s := by omega
      have e2 : (28 + 2 * s - 28) % 2 = 0 := by omega
      have e3 : (28 + 2 * s + 1 - 28) / 2 = s := by omega
      have e4 : (28 + 2 * s + 1 - 28) % 2 = 1 := by omega
      rw [e1, e2, e3, e4, t2]
      norm_num
      omega
    · unfold byteAt
      rw [p5, if_neg (by omega), if_neg (by omega), if_pos (by omega)]
      have e1 : 60 + s - 60 = s := by omega
      rw [e1, t1]
      omega
  · intro a ha
    rw [p5, if_neg (by omega), if_neg (by omega), if_neg (by omega)]
    exact i6 a (by omega)
  · intro s hs hne g hg
    unfold byteAt
    rw [p5, p5, if_neg (by omega), if_neg (by omega), if_neg (by omega), if_neg (by omega),
      if_neg (by omega), if_neg (by omega)]
    exact i7 s hs hne g hg

/-! ### The chunk of pairwise different cells -/

theorem writeGridBody13_eq (c : ChunkData) (off : Nat) (ss : SectionState)
    (hsub : ∀ i, c.submerged.get i = 0) :
    ChunkV13.writeGridBody c off ss = ChunkV12.writeGridBody c off ss := by
  have hs : (ChunkV13.scanGrid c off ss.blockMap).blockVector
        = (ChunkV12.scanGrid c off ss.blockMap).blockVector ∧
      (ChunkV13.scanGrid c off ss.blockMap).blockLocations
        = (ChunkV12.scanGrid c off ss.blockMap).blockLocations ∧
      (ChunkV13.scanGrid c off ss.blockMap).blockMap
        = (ChunkV12.scanGrid c off ss.blockMap).blockMap := by
    rw [scanGrid13_eq, scanGrid_eq]
    exact scan13_agrees c _ _ _ (fun i _ => hsub i) rfl rfl rfl
  obtain ⟨g1, g2, g3⟩ := hs
  have hch := choosePalette13_eq _ _ ss.dm g1 g2 g3
  simp only [ChunkV13.writeGridBody, ChunkV12.writeGridBody, hch, g1]
  rfl

theorem writeSection13_eq (c : ChunkData) (s : Nat) (w : WriteState)
    (hsub : ∀ i, c.submerged.get i = 0) :
    ChunkV13.writeSection c s w = ChunkV12.writeSection c s w := by
  unfold ChunkV13.writeSection ChunkV12.writeSection
  have hg : (fun ss off => ChunkV13.writeGridBody c off ss) =
      (fun ss off => ChunkV12.writeGridBody c off ss) := by
    funext ss off
    exact writeGridBody13_eq c off ss hsub
  rw [writeSectionGrids13_eq, writeSectionGrids_eq, hg]

theorem sectionsPrefix13_eq (c : ChunkData) (dm : DataManager) (n : Nat)
    (hsub : ∀ i, c.submerged.get i = 0) :
    ChunkV13.sectionsPrefix n dm c = ChunkV12.sectionsPrefix n dm c := by
  induction n with
  | zero =>
    simp only [ChunkV13.sectionsPrefix, ChunkV12.sectionsPrefix, List.range_zero, List.foldl_nil]
  | succ n ih => rw [sectionsPrefix13_succ, sectionsPrefix_succ, ih, writeSection13_eq c n _ hsub]

/-- On a chunk with 65 536 cells in both vectors and no submerged cell the v13
encoder writes the block data the v12 encoder writes. -/
theorem writeBlockDataRun13_eq (c : ChunkData) (dm : DataManager)
    (hsub : ∀ i, c.submerged.get i = 0) :
    ChunkV13.writeBlockDataRun dm c = patchHeader (ChunkV12.writeSections dm c) := by
  unfold ChunkV13.writeBlockDataRun ChunkV13.writeSections ChunkV12.writeSections
  rw [sectionsPrefix13_eq c dm _ hsub]

/-! ### Reading the tables -/

theorem readTable_spec (n : Nat) (dm : DataManager) :
    (ChunkV12.readTable n dm).2.pos = dm.pos + 2 * n ∧
    (ChunkV12.readTable n dm).2.size = dm.size ∧
    (ChunkV12.readTable n dm).2.isBig = dm.isBig ∧
    (ChunkV12.readTable n dm).2.data = dm.data ∧
    (ChunkV12.readTable n dm).2.oob = (dm.oob || decide (0 < n ∧ dm.size < dm.pos + 2 * n)) ∧
    (ChunkV12.readTable n dm).1.length = n ∧
    ∀ i, i < n → (ChunkV12.readTable n dm).1.getD i 0 =
      if dm.isBig then loadBE dm.data (dm.pos + 2 * i) 2 else loadLE dm.data (dm.pos + 2 * i) 2 := by
  induction n generalizing dm with
  | zero =>
    refine ⟨rfl, rfl, rfl, rfl, by simp [ChunkV12.readTable], rfl, ?_⟩
    intro i hi
    omega
  | succ n ih =>
    obtain ⟨h1, h2, h3, h4, h5, h6, h7⟩ := ih (dm.read 2).2
    simp only [ChunkV12.readTable]
    refine ⟨?_, ?_, ?_, ?_, ?_, ?_, ?_⟩
    · rw [h1]; simp only [DataManager.read_pos]; omega
    · rw [h2]; rfl
    · rw [h3]; rfl
    · rw [h4]; rfl
    · rw [h5]
      simp only [DataManager.read_oob, DataManager.read_size, DataManager.read_pos]
      by_cases hob : dm.oob = true
      · simp [hob]
      · simp only [Bool.not_eq_true] at hob
        simp only [hob, Bool.false_or]
        by_cases hsz : dm.size < dm.pos + 2 * (n + 1)
        · by_cases h2 : dm.size < dm.pos + 2
          · simp [hsz, h2]
          · have e : 0 < n ∧ dm.size < dm.pos + 2 + 2 * n := by omega
            simp [hsz, h2, e]
        · have e1 : ¬ dm.size < dm.pos + 2 := by omega
          have e2 : ¬ (0 < n ∧ dm.size < dm.pos + 2 + 2 * n) := by omega
          simp [hsz, e1, e2]
    · simp only [List.length_cons, h6]
    · intro i hi
      cases i with
      | zero => simp only [List.getD_cons_zero, DataManager.read_fst, Nat.mul_zero, Nat.add_zero]
      | succ i =>
        simp only [List.getD_cons_succ]
        rw [h7 i (by omega)]
        simp only [DataManager.read_isBig, DataManager.read_data, DataManager.read_pos]
        rw [show dm.pos + 2 + 2 * i = dm.pos + 2 * (i + 1) by omega]

/-! ### The all-air chunk -/

theorem airChunk_zero (i : Nat) : airChunk.newBlocks.get i = 0 ∧ airChunk.submerged.get i = 0 :=
  ⟨rfl, rfl⟩

/-- The encoder state after `n` sections of the all-air chunk. -/
theorem air_prefix (dm : DataManager) (n : Nat) :
    (ChunkV12.sectionsPrefix n dm airChunk).last_section_jump = 0 ∧
    (ChunkV12.sectionsPrefix n dm airChunk).sectSizeTable = (fun _ => 0) ∧
    (ChunkV12.sectionsPrefix n dm airChunk).sectJumpTable = (fun _ => 0) ∧
    (ChunkV12.sectionsPrefix n dm airChunk).dm.pos = 76 ∧
    (ChunkV12.sectionsPrefix n dm airChunk).dm.size = dm.size ∧
    (ChunkV12.sectionsPrefix n dm airChunk).dm.oob
      = (dm.oob || decide (0 < n ∧ dm.size < 204)) ∧
    ∀ a, a < 76 → (ChunkV12.sectionsPrefix n dm airChunk).dm.data a = dm.data a := by
  induction n with
  | zero =>
    refine ⟨rfl, rfl, rfl, rfl, rfl, by simp [ChunkV12.sectionsPrefix, WriteState.init], ?_⟩
    intro a _
    rfl
  | succ n ih =>
    obtain ⟨h1, h2, h3, h4, h5, h6, h7⟩ := ih
    have hw := writeSection_zero airChunk n (ChunkV12.sectionsPrefix n dm airChunk)
      (sectionsPrefix_clean n dm airChunk) (fun _ _ i _ => airChunk_zero i)
    rw [← sectionsPrefix_succ, h1] at hw
    simp only [Nat.zero_mul, Nat.zero_mod, Nat.add_zero, Nat.reduceAdd] at hw
    obtain ⟨g1, g2, g3, g4, g5⟩ := writeGridHeader_spec
      ((ChunkV12.sectionsPrefix n dm airChunk).dm.seek 204) 76
      ((sectionGridOffsets n).map fun _ => 0)
    rw [hw]
    refine ⟨rfl, ?_, ?_, ?_, ?_, ?_, ?_⟩
    · simp only [h2]
      funext t
      by_cases ht : t = n
      · rw [ht, Function.update_same]
      · rw [Function.update_noteq ht]
    · simp only [h3]
      funext t
      by_cases ht : t = n
      · rw [ht, Function.update_same]
      · rw [Function.update_noteq ht]
    · simp only [DataManager.skipBack_pos, g1, DataManager.seek_pos]
    · simp only [DataManager.skipBack_size, g2, DataManager.seek_size, h5]
    · simp only [DataManager.skipBack_oob, g4, DataManager.seek_oob, DataManager.seek_size, h5, h6]
      by_cases hob : dm.oob = true
      · simp [hob]
      · simp only [Bool.not_eq_true] at hob
        by_cases hsz : dm.size < 204
        · simp [hob, hsz]
        · simp [hob, hsz]
    · intro a ha
      simp only [DataManager.skipBack_data, g5 a, DataManager.seek_data]
      rw [if_neg (by omega)]
      exact h7 a ha

/-- Decoding a block-data header whose `max_section_address` is 0: the decoder
stops behind the tables and leaves the fresh chunk as it is. -/
theorem decode_empty_header (r : DataManager) (hbig : r.isBig = true) (hoob : r.oob = false)
    (hsize : 76 ≤ r.size) (h26 : r.data 26 = 0) (h27 : r.data 27 = 0) :
    ∃ st, ChunkV12.readBlockData (r.seek 26) (ChunkV12.allocChunk ChunkData.fresh) = some st ∧
      st.1.pos = 76 ∧
      ∀ i, st.2.newBlocks.get i = 0 ∧ st.2.submerged.get i = 0 := by
  have hmax : loadBE (r.seek 26).data (r.seek 26).pos 2 = 0 := by
    rw [DataManager.seek_data, DataManager.seek_pos, loadBE_two, byteAt, byteAt, h26, h27]
  obtain ⟨c1, c2, c3, c4⟩ := readBlockData_cursor (r.seek 26)
  have he := readBlockData_empty (r.seek 26) (ChunkV12.allocChunk ChunkData.fresh) hbig hoob
    (by rw [DataManager.seek_size, DataManager.seek_pos]; omega) hmax
  refine ⟨((ChunkV12.readTable 16 ((r.seek 26).read 2).2).2.skip 16,
    ChunkV12.allocChunk ChunkData.fresh), he, ?_, ?_⟩
  · show ((ChunkV12.readTable 16 ((r.seek 26).read 2).2).2.skip 16).pos = 76
    rw [c2]
    rfl
  · intro i
    exact ⟨rfl, rfl⟩

/-- C7 (scenario S4): for the all-air chunk, on a buffer that holds at least the 204
bytes the encoder touches, `ChunkV12::writeBlockData` succeeds, writes
`max_section_address == 0`, sixteen zero `section_jump_table` entries and sixteen
zero `section_size_table` entries (the 50 bytes at offsets 26..75 are all 0),
changes no byte below offset 26 and leaves the cursor at offset 76;
`ChunkV12::readBlockData` on those bytes stops with the cursor at 76 and leaves
every block and submerged cell 0. -/
theorem all_air_chunk (dm : DataManager) (hsize : 204 ≤ dm.size) (hoob : dm.oob = false) :
    ∃ r, ChunkV12.writeBlockData dm airChunk = some r ∧
      r.pos = 76 ∧
      loadBE r.data 26 2 = 0 ∧
      (∀ s, s < 16 → loadBE r.data (28 + 2 * s) 2 = 0) ∧
      (∀ s, s < 16 → r.data (60 + s) = 0) ∧
      (∀ a, 26 ≤ a → a < 76 → r.data a = 0) ∧
      (∀ a, a < 26 → r.data a = dm.data a) ∧
      ∃ st, ChunkV12.readBlockData (r.seek 26) (ChunkV12.allocChunk ChunkData.fresh) = some st ∧
        st.1.pos = 76 ∧
        ∀ i, st.2.newBlocks.get i = 0 ∧ st.2.submerged.get i = 0 := by
  obtain ⟨h1, h2, h3, h4, h5, h6, h7⟩ := air_prefix dm 16
  have hbig := sectionsPrefix_isBig 16 (by decide) dm airChunk
  obtain ⟨p1, p2, p3, p4, p5⟩ := patchHeader_spec (ChunkV12.sectionsPrefix 16 dm airChunk) hbig
  have hn : ChunkV12.normalize airChunk = airChunk :=
    normalize_of_size airChunk (by simp [airChunk, chunkOf]) (by simp [airChunk, chunkOf])
  have hrun : ChunkV12.writeBlockDataRun dm airChunk
      = patchHeader (ChunkV12.sectionsPrefix 16 dm airChunk) := by
    rw [ChunkV12.writeBlockDataRun, hn, writeSections_eq]
  have hoobr : (ChunkV12.writeBlockDataRun dm airChunk).oob = false := by
    rw [hrun, p4, h6, h5, hoob]
    have e1 : decide (0 < 16 ∧ dm.size < 204) = false := by
      rw [decide_eq_false_iff_not]; omega
    have e2 : decide (dm.size < 76) = false := by
      rw [decide_eq_false_iff_not]; omega
    rw [e1, e2]
    rfl
  have hdata : ∀ a, 26 ≤ a → a < 76 → (ChunkV12.writeBlockDataRun dm airChunk).data a = 0 := by
    intro a ha hb
    rw [hrun, p5 a, h1, h2, h3]
    by_cases c1 : 26 ≤ a ∧ a < 28
    · rw [if_pos c1]
      simp
    · rw [if_neg c1]
      by_cases c2 : 28 ≤ a ∧ a < 60
      · rw [if_pos c2]
        simp
      · rw [if_neg c2, if_pos (by omega)]
        simp
  refine ⟨ChunkV12.writeBlockDataRun dm airChunk, ?_, ?_, ?_, ?_, ?_, hdata, ?_, ?_⟩
  · simp only [ChunkV12.writeBlockData, hoobr, Bool.false_eq_true, if_false]
  · rw [hrun, p1, h1]
    simp
  · rw [loadBE_two, byteAt, byteAt, hdata 26 (by omega) (by omega),
      hdata 27 (by omega) (by omega)]
  · intro s hs
    rw [loadBE_two, byteAt, byteAt, hdata _ (by omega) (by omega),
      hdata _ (by omega) (by omega)]
  · intro s hs
    exact hdata _ (by omega) (by omega)
  · intro a ha
    rw [hrun, p5 a, if_neg (by omega), if_neg (by omega), if_neg (by omega)]
    exact h7 a (by omega)
  · have hrbig : (ChunkV12.writeBlockDataRun dm airChunk).isBig = true := by rw [hrun, p3]
    have hrsize : 76 ≤ (ChunkV12.writeBlockDataRun dm airChunk).size := by
      rw [hrun, p2, h5]; omega
    exact decode_empty_header (ChunkV12.writeBlockDataRun dm airChunk) hrbig hoobr hrsize
      (hdata 26 (by omega) (by omega)) (hdata 27 (by omega) (by omega))

/-- Witness of C7 on a zero-filled buffer of 65 536 bytes with the cursor at 26. -/
theorem all_air_chunk_witness :
    (204 ≤ (emptyBuffer 65536 26).size ∧ (emptyBuffer 65536 26).oob = false) ∧
    ∃ r, ChunkV12.writeBlockData (emptyBuffer 65536 26) airChunk = some r ∧
      r.pos = 76 ∧
      loadBE r.data 26 2 = 0 ∧
      (∀ s, s < 16 → loadBE r.data (28 + 2 * s) 2 = 0) ∧
      (∀ s, s < 16 → r.data (60 + s) = 0) ∧
      (∀ a, 26 ≤ a → a < 76 → r.data a = 0) ∧
      (∀ a, a < 26 → r.data a = (emptyBuffer 65536 26).data a) ∧
      ∃ st, ChunkV12.readBlockData (r.seek 26) (ChunkV12.allocChunk ChunkData.fresh) = some st ∧
        st.1.pos = 76 ∧
        ∀ i, st.2.newBlocks.get i = 0 ∧ st.2.submerged.get i = 0 :=
  ⟨⟨by decide, rfl⟩, all_air_chunk (emptyBuffer 65536 26) (by decide) rfl⟩

/-! ### The v13 chunk header -/

/-- The first value `ChunkV13::readChunk` returns is the 16-bit value at the cursor. -/
theorem readChunk13_fst (rest : DataManager → Option ChunkRest) (self : Nat) (dm : DataManager)
    (h : (dm.read 2).2.oob = false) :
    (ChunkV13.readChunk rest self dm).1 = (dm.read 2).1 := by
  unfold ChunkV13.readChunk
  dsimp only
  rw [if_neg (by rw [h]; decide)]
  split_ifs
  · rfl
  · rfl
  · rfl
  · rfl
  · split
    · rfl
    · split <;> rfl

/-- The block data of the all-air chunk written by the v13 encoder. -/
theorem air_block_data13 (dm : DataManager) :
    (ChunkV13.writeBlockDataRun dm airChunk).oob = (dm.oob || decide (dm.size < 204)) ∧
    (ChunkV13.writeBlockDataRun dm airChunk).size = dm.size ∧
    (∀ a, 26 ≤ a → a < 76 → (ChunkV13.writeBlockDataRun dm airChunk).data a = 0) ∧
    (∀ a, a < 26 → (ChunkV13.writeBlockDataRun dm airChunk).data a = dm.data a) := by
  rw [writeBlockDataRun13_eq airChunk dm (fun _ => rfl), writeSections_eq]
  obtain ⟨h1, h2, h3, h4, h5, h6, h7⟩ := air_prefix dm 16
  have hb := sectionsPrefix_isBig 16 (by decide) dm airChunk
  obtain ⟨p1, p2, p3, p4, p5⟩ := patchHeader_spec (ChunkV12.sectionsPrefix 16 dm airChunk) hb
  refine ⟨?_, by rw [p2, h5], ?_, ?_⟩
  · rw [p4, h6, h5]
    by_cases hob : dm.oob = true
    · simp [hob]
    · simp only [Bool.not_eq_true] at hob
      by_cases hsz : dm.size < 204
      · simp [hob, hsz]
      · have e : ¬ dm.size < 76 := by omega
        simp [hob, hsz, e]
  · intro a ha hb2
    rw [p5 a, h1, h2, h3]
    by_cases c1 : 26 ≤ a ∧ a < 28
    · rw [if_pos c1]
      simp
    · rw [if_neg c1]
      by_cases c2 : 28 ≤ a ∧ a < 60
      · rw [if_pos c2]
        simp
      · rw [if_neg c2, if_pos (by omega)]
        simp
  · intro a ha
    rw [p5 a, if_neg (by omega), if_neg (by omega), if_neg (by omega)]
    exact h7 a (by omega)

/-- Reading the header of a buffer whose bytes 2, 3, 26 and 27 are zero. -/
theorem zero_header_read (W : DataManager) (h2 : W.data 2 = 0) (h3 : W.data 3 = 0)
    (h26 : W.data 26 = 0) (h27 : W.data 27 = 0) (hs : W.size = 65536) :
    loadBE W.data 26 2 = 0 ∧ (ChunkV13.readChunk restZero 0 (reopen W 2)).1 = 0 := by
  constructor
  · rw [loadBE_two, byteAt, byteAt, h26, h27]
  · rw [readChunk13_fst]
    · show loadBE W.data 2 2 = 0
      rw [loadBE_two, byteAt, byteAt, h2, h3]
    · show (false || decide (W.size < 2 + 2)) = false
      rw [hs]
      decide

/-- The cursor after the five header writes of `ChunkV13::writeChunk` on the all-air
chunk. -/
theorem air_header_cursor :
    ((((((emptyBuffer 65536 2).write 4 (ofI32 airChunk.chunkX)).write 4
      (ofI32 airChunk.chunkZ)).write 8 (ofI64 airChunk.lastUpdate)).write 8
      (ofI64 airChunk.inhabitedTime)).write 2 7).oob = false ∧
    ((((((emptyBuffer 65536 2).write 4 (ofI32 airChunk.chunkX)).write 4
      (ofI32 airChunk.chunkZ)).write 8 (ofI64 airChunk.lastUpdate)).write 8
      (ofI64 airChunk.inhabitedTime)).write 2 7).size = 65536 ∧
    ((((((emptyBuffer 65536 2).write 4 (ofI32 airChunk.chunkX)).write 4
      (ofI32 airChunk.chunkZ)).write 8 (ofI64 airChunk.lastUpdate)).write 8
      (ofI64 airChunk.inhabitedTime)).write 2 7).data 2 = 0 ∧
    ((((((emptyBuffer 65536 2).write 4 (ofI32 airChunk.chunkX)).write 4
      (ofI32 airChunk.chunkZ)).write 8 (ofI64 airChunk.lastUpdate)).write 8
      (ofI64 airChunk.inhabitedTime)).write 2 7).data 3 = 0 := by
  refine ⟨by decide, by decide, by decide, by decide⟩

/-- C2, failing input: `ChunkV13::writeChunk` with `maxGridAmount = 7` on the all-air
chunk, entered at offset 2 of a zero buffer, succeeds; the bytes at 26..27, where it
wrote `maxGridAmount`, hold 0 afterwards (the header patch writes
`max_section_address` there), and `ChunkV13::readChunk`, entered at offset 2 of the
written bytes, returns `maxGridAmount = 0`. -/
theorem v13_max_grid_amount_lost :
    (ChunkV13.writeChunkRun 7 (emptyBuffer 65536 2) airChunk).oob = false ∧
    loadBE (ChunkV13.writeChunkRun 7 (emptyBuffer 65536 2) airChunk).data 26 2 = 0 ∧
    (ChunkV13.readChunk restZero 0
      (reopen (ChunkV13.writeChunkRun 7 (emptyBuffer 65536 2) airChunk) 2)).1 = 0 := by
  have hW : ChunkV13.writeChunkRun 7 (emptyBuffer 65536 2) airChunk =
      ChunkV13.writeBlockDataRun ((((((emptyBuffer 65536 2).write 4 (ofI32 airChunk.chunkX)).write 4
        (ofI32 airChunk.chunkZ)).write 8 (ofI64 airChunk.lastUpdate)).write 8
        (ofI64 airChunk.inhabitedTime)).write 2 7) airChunk := rfl
  rw [hW]
  obtain ⟨a1, a2, a3, a4⟩ := air_block_data13
    ((((((emptyBuffer 65536 2).write 4 (ofI32 airChunk.chunkX)).write 4
      (ofI32 airChunk.chunkZ)).write 8 (ofI64 airChunk.lastUpdate)).write 8
      (ofI64 airChunk.inhabitedTime)).write 2 7)
  obtain ⟨c1, c2, c3, c4⟩ := air_header_cursor
  rw [c1, c2] at a1
  rw [c2] at a2
  have b2 := (a4 2 (by norm_num)).trans c3
  have b3 := (a4 3 (by norm_num)).trans c4
  exact ⟨a1, zero_header_read _ b2 b3 (a3 26 (by norm_num) (by norm_num))
    (a3 27 (by norm_num) (by norm_num)) a2⟩

/-! ### The v13 decoder on the bytes of the v13 encoder -/

theorem foldl_set_other {α : Type} (l : List α) (idx val : α → Nat) (w : U16Vec) (i : Nat)
    (hi : i ∉ l.map idx) :
    (l.foldl (fun w a => w.set (idx a) (val a)) w).cells i = w.cells i := by
  induction l generalizing w with
  | nil => rfl
  | cons a t ih =>
    rw [List.map_cons, List.mem_cons, not_or] at hi
    rw [List.foldl_cons, ih _ hi.2]
    simp only [U16Vec.set]
    exact Function.update_noteq hi.1 _ _

/-- The function `placeBlocks` leaves the cells outside the grid as they are. -/
theorem placeBlocks_other (w : U16Vec) (grid : Nat → Nat) (off i : Nat)
    (hi : i ∉ gridCellIndices off) : (ChunkV12.placeBlocks w grid off).cells i = w.cells i := by
  rw [placeBlocks_eq]
  exact foldl_set_other placeTriples _ _ w i (fun h => hi ((mem_place_indices off i).1 h))

theorem zero_not_in_grid (off : Nat) (h : off ≠ 0) : 0 ∉ gridCellIndices off := by
  intro hm
  obtain ⟨x, z, y, _, _, _, he⟩ := mem_gridCellIndices off 0 hm
  omega

theorem offset_zero (sect gx gz gy : Nat) (h : sect * 16 + gy * 4 + gz * 1024 + gx * 16384 = 0) :
    sect = 0 ∧ gx = 0 ∧ gz = 0 ∧ gy = 0 := by
  omega

theorem cellZero_place (d : Nat → Nat) (dm : DataManager) (c : ChunkData) (grid : Nat → Nat)
    (off : Nat) (hd : dm.data = d) (hc : c.newBlocks.cells 0 = 0) (hoff : off ≠ 0) :
    (ChunkV12.placeBlocks c.newBlocks grid off).cells 0 = 0 := by
  rw [placeBlocks_other _ _ _ _ (zero_not_in_grid off hoff)]
  exact hc

/-- One grid of the v13 decoder keeps cell 0 at 0 when the header word of grid 0 of
section 0 is the word 0. -/
theorem readGridBody13_cell0 (d : Nat → Nat) (sectionHeader address sect gridX gridZ gridY : Nat)
    (st : DataManager × ChunkData) (h : CellZero d st)
    (h0 : sect = 0 → byteAt d sectionHeader = 0 ∧ byteAt d (sectionHeader + 1) = 0) :
    CellZero d (ChunkV13.readGridBody sectionHeader address sect gridX gridZ gridY st).state := by
  obtain ⟨h1, h2⟩ := h
  by_cases hoff : sect * 16 + gridY * 4 + gridZ * 1024 + gridX * 16384 = 0
  · obtain ⟨e1, e2, e3, e4⟩ := offset_zero _ _ _ _ hoff
    subst e1 e2 e3 e4
    obtain ⟨b0, b1⟩ := h0 rfl
    unfold ChunkV13.readGridBody
    dsimp only
    rw [placeBlocks13_eq]
    have hl : st.1.byte (sectionHeader + (0 * 16 + 0 * 4 + 0) * 2) = 0 := by
      unfold DataManager.byte; rw [h1]; exact b0
    have hu : st.1.byte (sectionHeader + ((0 * 16 + 0 * 4 + 0) * 2 + 1)) = 0 := by
      unfold DataManager.byte; rw [h1]; exact b1
    rw [hl, hu]
    rw [if_neg (fun hh => hh.2 rfl)]
    have hdec : ∀ dd p, ChunkV13.decodeGrid (0 >>> 4) 0 0 dd p =
        some (some (unoGrid (0 % 256) (0 / 256), fun _ => 0)) := fun _ _ => rfl
    rw [hdec]
    dsimp only
    rw [if_neg (by decide)]
    refine ⟨h1, ?_⟩
    dsimp only [Flow.state]
    rw [(placeBlocks_uno st.2.newBlocks 0 _ (by norm_num)).2 0]
    split_ifs
    · rfl
    · exact h2
  · unfold ChunkV13.readGridBody
    dsimp only
    rw [placeBlocks13_eq]
    split_ifs with hg hf
    · exact ⟨h1, h2⟩
    · split
      · exact ⟨h1, h2⟩
      · exact ⟨h1, h2⟩
      · exact ⟨h1, cellZero_place d st.1 st.2 _ _ h1 h2 hoff⟩
    · split
      · exact ⟨h1, h2⟩
      · exact ⟨h1, h2⟩
      · exact ⟨h1, cellZero_place d st.1 st.2 _ _ h1 h2 hoff⟩

theorem readSectionGrids13_cell0 (d : Nat → Nat) (sectionHeader address sect : Nat)
    (st : DataManager × ChunkData) (h : CellZero d st)
    (h0 : sect = 0 → byteAt d sectionHeader = 0 ∧ byteAt d (sectionHeader + 1) = 0) :
    CellZero d (ChunkV13.readSectionGrids sectionHeader address sect st).state := by
  unfold ChunkV13.readSectionGrids
  refine forFlow_state_inv (CellZero d) _ ?_ _ st h
  intro gx s hs
  refine forFlow_state_inv (CellZero d) _ ?_ _ s hs
  intro gz s hs
  refine forFlow_state_inv (CellZero d) _ ?_ _ s hs
  intro gy s hs
  exact readGridBody13_cell0 d _ _ _ _ _ _ s hs h0

theorem readSections13_cell0 (d : Nat → Nat) (m : Nat) (tbl : List Nat) (sz : Nat) (l : List Nat)
    (st : DataManager × ChunkData) (h : CellZero d st) (ht : tbl.getD 0 0 = 0)
    (h78 : byteAt d 78 = 0) (h79 : byteAt d 79 = 0) :
    CellZero d (ChunkV13.readSections m tbl sz l st).state := by
  induction l generalizing st with
  | nil => exact h
  | cons sect rest ih =>
    unfold ChunkV13.readSections
    dsimp only
    split_ifs with ha hb
    · exact h
    · exact ih _ h
    · have hg := readSectionGrids13_cell0 d
        (DataManager.pos (st.1.seek (SECTION_HEADER_SIZE + DATA_HEADER_SIZE + tbl.getD sect 0)))
        (tbl.getD sect 0) sect
        (DataManager.skip (st.1.seek (SECTION_HEADER_SIZE + DATA_HEADER_SIZE + tbl.getD sect 0)) 128,
          st.2) h (by
            intro hs
            subst hs
            rw [ht]
            exact ⟨h78, h79⟩)
      revert hg
      cases ChunkV13.readSectionGrids
        (DataManager.pos (st.1.seek (SECTION_HEADER_SIZE + DATA_HEADER_SIZE + tbl.getD sect 0)))
        (tbl.getD sect 0) sect
        (DataManager.skip (st.1.seek (SECTION_HEADER_SIZE + DATA_HEADER_SIZE + tbl.getD sect 0)) 128,
          st.2) with
      | run s1 => intro hg; exact ih s1 hg
      | ret s1 => intro hg; exact hg

/-- The v13 decoder, entered at offset 26 of a buffer whose bytes 28, 29, 78 and 79
are 0, returns a chunk whose cell 0 is 0. -/
theorem readBlockData13_cell0 (W : DataManager) (hsize : 76 ≤ W.size)
    (h28 : byteAt W.data 28 = 0) (h29 : byteAt W.data 29 = 0)
    (h78 : byteAt W.data 78 = 0) (h79 : byteAt W.data 79 = 0) :
    ∃ st, ChunkV13.readBlockData (reopen W 26) (ChunkV13.allocChunk ChunkData.fresh) = some st ∧
      st.2.newBlocks.get 0 = 0 := by
  have hc := readBlockData_cursor (reopen W 26)
  have hoob : ((ChunkV12.readTable 16 ((reopen W 26).read 2).2).2.skip 16).oob = false := by
    cases ho : ((ChunkV12.readTable 16 ((reopen W 26).read 2).2).2.skip 16).oob with
    | false => rfl
    | true =>
      rcases hc.2.2.2.1 ho with h | h
      · exact absurd h (by simp [reopen])
      · simp only [reopen] at h; omega
  have ht : (ChunkV12.readTable 16 ((reopen W 26).read 2).2).1.getD 0 0 = 0 := by
    rw [readTable_getD 16 _ rfl 0 (by norm_num), loadBE_two]
    simp only [DataManager.read_data, DataManager.read_pos, reopen]
    rw [h28, h29]
  have hinit : CellZero W.data
      ((ChunkV12.readTable 16 ((reopen W 26).read 2).2).2.skip 16,
        ChunkV13.allocChunk ChunkData.fresh) := ⟨hc.1, rfl⟩
  have hget : ∀ c : ChunkData, c.newBlocks.cells 0 = 0 → c.newBlocks.get 0 = 0 := by
    intro c h
    unfold U16Vec.get
    rw [h]
  unfold ChunkV13.readBlockData
  dsimp only
  rw [if_neg (by rw [hoob]; decide)]
  split_ifs with hm
  · exact ⟨_, rfl, hget _ rfl⟩
  · have hs := readSections13_cell0 W.data (((reopen W 26).read 2).1 <<< 8 % 2 ^ 32)
      (ChunkV12.readTable 16 ((reopen W 26).read 2).2).1
      (ChunkV12.readTable 16 ((reopen W 26).read 2).2).2.pos (List.range 16) _ hinit ht h78 h79
    revert hs
    cases ChunkV13.readSections (((reopen W 26).read 2).1 <<< 8 % 2 ^ 32)
      (ChunkV12.readTable 16 ((reopen W 26).read 2).2).1
      (ChunkV12.readTable 16 ((reopen W 26).read 2).2).2.pos (List.range 16)
      ((ChunkV12.readTable 16 ((reopen W 26).read 2).2).2.skip 16,
        ChunkV13.allocChunk ChunkData.fresh) with
    | run s1 => intro hs; exact ⟨_, rfl, hget _ hs.2⟩
    | ret s1 => intro hs; exact ⟨_, rfl, hget _ hs.2⟩

/-- The v13 decoder, entered at offset 28 of a buffer whose bytes 28 and 29 are 0,
reads `max_section_address = 0` and returns the chunk it was given. -/
theorem readBlockData13_at28 (W : DataManager) (hsize : 78 ≤ W.size)
    (h28 : byteAt W.data 28 = 0) (h29 : byteAt W.data 29 = 0) (c : ChunkData) :
    ∃ dm1, ChunkV13.readBlockData (reopen W 28) c = some (dm1, c) := by
  have hc := readBlockData_cursor (reopen W 28)
  have hoob : ((ChunkV12.readTable 16 ((reopen W 28).read 2).2).2.skip 16).oob = false := by
    cases ho : ((ChunkV12.readTable 16 ((reopen W 28).read 2).2).2.skip 16).oob with
    | false => rfl
    | true =>
      rcases hc.2.2.2.1 ho with h | h
      · exact absurd h (by simp [reopen])
      · simp only [reopen] at h; omega
  have hm : ((reopen W 28).read 2).1 <<< 8 % 2 ^ 32 = 0 := by
    have h0 : ((reopen W 28).read 2).1 = 0 := by
      simp only [DataManager.read_fst, reopen, if_true]
      rw [loadBE_two, h28, h29]
    rw [h0]
    rfl
  unfold ChunkV13.readBlockData
  dsimp only
  rw [if_neg (by rw [hoob]; decide), if_pos hm]
  exact ⟨_, rfl⟩

theorem sectionSizeEntry_present (c : ChunkData) (s g : Nat) (hg : g < 64)
    (h : (sectionHeaderWords c s).getD g 0 ≠ 0) : sectionSizeEntry c s ≠ 0 := by
  unfold sectionSizeEntry
  have hne : ¬ (sectionHeaderWords c s).all (fun x => x == 0) = true := by
    rw [sectionHeaderWords_all]
    intro hall
    exact h (hall g hg)
  rw [if_neg hne]
  omega

set_option maxRecDepth 100000 in
theorem water_words :
    jumpBefore waterChunk 0 = 0 ∧
    (sectionHeaderWords waterChunk 0).getD 0 0 = 0x4000 ∧
    (sectionHeaderWords waterChunk 0).getD 1 0 = 0 := by
  refine ⟨by simp [jumpBefore], ?_, ?_⟩
  · rw [sectionHeaderWords_getD _ _ _ (by norm_num)]
    decide
  · rw [sectionHeaderWords_getD _ _ _ (by norm_num)]
    unfold gridWord
    rw [if_pos (by decide)]
    decide

/-- The bytes the encoder leaves at 28, 29 and 76 to 79 for the chunk `waterChunk`. -/
theorem water_bytes (dm : DataManager) (hbig : dm.isBig = true) :
    (patchHeader (ChunkV12.writeSections dm waterChunk)).size = dm.size ∧
    byteAt (patchHeader (ChunkV12.writeSections dm waterChunk)).data 28 = 0 ∧
    byteAt (patchHeader (ChunkV12.writeSections dm waterChunk)).data 29 = 0 ∧
    byteAt (patchHeader (ChunkV12.writeSections dm waterChunk)).data 76 = 0x00 ∧
    byteAt (patchHeader (ChunkV12.writeSections dm waterChunk)).data 77 = 0x40 ∧
    byteAt (patchHeader (ChunkV12.writeSections dm waterChunk)).data 78 = 0 ∧
    byteAt (patchHeader (ChunkV12.writeSections dm waterChunk)).data 79 = 0 := by
  obtain ⟨_, h2, _, h4, _, h6⟩ := writeBlockData_layout waterChunk dm hbig
  obtain ⟨hj, hw0, hw1⟩ := water_words
  have hp := sectionSizeEntry_present waterChunk 0 0 (by norm_num) (by rw [hw0]; norm_num)
  have j0 := (h4 0 (by norm_num)).1
  have g0 := h6 0 (by norm_num) hp 0 (by norm_num)
  have g1 := h6 0 (by norm_num) hp 1 (by norm_num)
  generalize (patchHeader (ChunkV12.writeSections dm waterChunk)) = out at h2 j0 g0 g1 ⊢
  rw [hj, loadBE_two] at j0
  rw [hj, hw0] at g0
  rw [hj, hw1] at g1
  norm_num at j0 g0 g1
  exact ⟨h2, j0.1, j0.2, g0.1, g0.2, g1.1, g1.2⟩

theorem water_no_submerged (i : Nat) : waterChunk.submerged.get i = 0 := rfl

theorem water_bytes13 (dm : DataManager) (hbig : dm.isBig = true) :
    (ChunkV13.writeBlockDataRun dm waterChunk).size = dm.size ∧
    byteAt (ChunkV13.writeBlockDataRun dm waterChunk).data 28 = 0 ∧
    byteAt (ChunkV13.writeBlockDataRun dm waterChunk).data 29 = 0 ∧
    byteAt (ChunkV13.writeBlockDataRun dm waterChunk).data 76 = 0x00 ∧
    byteAt (ChunkV13.writeBlockDataRun dm waterChunk).data 77 = 0x40 ∧
    byteAt (ChunkV13.writeBlockDataRun dm waterChunk).data 78 = 0 ∧
    byteAt (ChunkV13.writeBlockDataRun dm waterChunk).data 79 = 0 := by
  rw [writeBlockDataRun13_eq waterChunk dm water_no_submerged]
  exact water_bytes dm hbig

/-- C29 (on the code): `ChunkV13::writeBlockData` puts the grid-header table of the
first section at buffer offset 76, not 78.  For the chunk `waterChunk` (cell 0 holds
`0x0800`, cell 256 holds `0x0010`) written into a zeroed 65 536-byte buffer, bytes
76 and 77 hold the header word `0x4000` of grid 0 of section 0 and bytes 78 and 79
the word 0 of grid 1, while `ChunkV13::readBlockData` starts the table at
`SECTION_HEADER_SIZE + DATA_HEADER_SIZE = 78`.  The decoder entered at offset 28
(its own `DATA_HEADER_SIZE`) returns the empty chunk it was given, and entered at
offset 26 (the `H_BEGIN` of the encoder) it returns a chunk whose cell 0 is 0: the
block `0x0800` of cell 0 is lost either way. -/
theorem v13_section_table_offset_mismatch :
    byteAt (ChunkV13.writeBlockDataRun (emptyBuffer 65536 28) waterChunk).data 76 = 0x00 ∧
    byteAt (ChunkV13.writeBlockDataRun (emptyBuffer 65536 28) waterChunk).data 77 = 0x40 ∧
    byteAt (ChunkV13.writeBlockDataRun (emptyBuffer 65536 28) waterChunk).data 78 = 0 ∧
    byteAt (ChunkV13.writeBlockDataRun (emptyBuffer 65536 28) waterChunk).data 79 = 0 ∧
    SECTION_HEADER_SIZE + DATA_HEADER_SIZE = 78 ∧
    waterChunk.newBlocks.get 0 = 0x0800 ∧
    (∃ dm1, ChunkV13.readBlockData
        (reopen (ChunkV13.writeBlockDataRun (emptyBuffer 65536 28) waterChunk) 28)
        (ChunkV13.allocChunk ChunkData.fresh) =
      some (dm1, ChunkV13.allocChunk ChunkData.fresh)) ∧
    (∃ st, ChunkV13.readBlockData
        (reopen (ChunkV13.writeBlockDataRun (emptyBuffer 65536 28) waterChunk) 26)
        (ChunkV13.allocChunk ChunkData.fresh) = some st ∧
      st.2.newBlocks.get 0 = 0) :=
  have hb := water_bytes13 (emptyBuffer 65536 28) rfl
  ⟨hb.2.2.2.1, hb.2.2.2.2.1, hb.2.2.2.2.2.1, hb.2.2.2.2.2.2, rfl, rfl,
    readBlockData13_at28 _ (by rw [hb.1]; decide) hb.2.1 hb.2.2.1 _,
    readBlockData13_cell0 _ (by rw [hb.1]; decide) hb.2.1 hb.2.2.1 hb.2.2.2.2.2.1
      hb.2.2.2.2.2.2⟩

/-! ### Loads and stores of the listing cursor -/

theorem loadBE_upto_gen (d : Nat → Nat) (a v w : Nat)
    (h : ∀ r, r < w → byteAt d (a + r) = v / 256 ^ (w - 1 - r) % 256) (k : Nat) (hk : k ≤ w) :
    loadBE d a k = v / 256 ^ (w - k) % 256 ^ k := by
  induction k with
  | zero => simp [loadBE, Nat.mod_one]
  | succ n ih =>
    rw [loadBE, ih (by omega), h n (by omega)]
    have e1 : w - n = (w - 1 - n) + 1 := by omega
    have e2 : w - (n + 1) = w - 1 - n := by omega
    rw [e1, e2, Nat.pow_succ, ← Nat.div_div_eq_div_mul]
    generalize v / 256 ^ (w - 1 - n) = q
    rw [Nat.pow_succ, Nat.mul_comm (256 ^ n) 256, Nat.mod_mul]
    omega

theorem loadLE_gen (d : Nat → Nat) (w : Nat) : ∀ (a v : Nat),
    (∀ r, r < w → byteAt d (a + r) = v / 256 ^ r % 256) → loadLE d a w = v % 256 ^ w := by
  induction w with
  | zero => intro a v _; simp [loadLE, Nat.mod_one]
  | succ n ih =>
    intro a v h
    have h0 := h 0 (by omega)
    rw [Nat.add_zero, Nat.pow_zero, Nat.div_one] at h0
    rw [loadLE, ih (a + 1) (v / 256) ?_, h0]
    · rw [Nat.pow_succ, Nat.mul_comm (256 ^ n) 256, Nat.mod_mul]
    · intro r hr
      rw [show a + 1 + r = a + (r + 1) by omega, h (r + 1) (by omega), Nat.pow_succ,
        Nat.mul_comm (256 ^ r) 256, Nat.div_div_eq_div_mul]

theorem byteAt_storeInt_in (big : Bool) (w : Nat) (d : Nat → Nat) (a v r : Nat) (hr : r < w) :
    byteAt (storeInt big w d a v) (a + r) =
      if big then v / 256 ^ (w - 1 - r) % 256 else v / 256 ^ r % 256 := by
  unfold byteAt storeInt
  rw [if_pos ⟨by omega, by omega⟩, Nat.add_sub_cancel_left]
  cases big <;> simp

theorem storeInt_out (big : Bool) (w : Nat) (d : Nat → Nat) (a v i : Nat)
    (h : i < a ∨ a + w ≤ i) : storeInt big w d a v i = d i := by
  unfold storeInt
  rw [if_neg (by omega)]

/-- A load of what was just stored gives the value, truncated to the width. -/
theorem loadInt_storeInt (big : Bool) (w : Nat) (d : Nat → Nat) (a v : Nat) :
    loadInt big (storeInt big w d a v) a w = v % 256 ^ w := by
  unfold loadInt
  cases big with
  | true =>
    rw [if_pos rfl, loadBE_upto_gen _ a v w ?_ w (le_refl w), Nat.sub_self, Nat.pow_zero,
      Nat.div_one]
    intro r hr
    rw [byteAt_storeInt_in _ _ _ _ _ _ hr, if_pos rfl]
  | false =>
    rw [if_neg (by decide)]
    apply loadLE_gen
    intro r hr
    rw [byteAt_storeInt_in _ _ _ _ _ _ hr, if_neg (by decide)]

theorem loadBE_congr (d1 d2 : Nat → Nat) (a w : Nat) (h : ∀ r, r < w → d1 (a + r) = d2 (a + r)) :
    loadBE d1 a w = loadBE d2 a w := by
  induction w with
  | zero => rfl
  | succ n ih =>
    rw [loadBE, loadBE, ih (fun r hr => h r (by omega))]
    unfold byteAt
    rw [h n (by omega)]

theorem loadLE_congr (d1 d2 : Nat → Nat) (w : Nat) : ∀ a : Nat,
    (∀ r, r < w → d1 (a + r) = d2 (a + r)) → loadLE d1 a w = loadLE d2 a w := by
  induction w with
  | zero => intro a _; rfl
  | succ n ih =>
    intro a h
    rw [loadLE, loadLE, ih (a + 1) (fun r hr => by
      rw [show a + 1 + r = a + (r + 1) by omega]; exact h (r + 1) (by omega))]
    unfold byteAt
    have := h 0 (by omega)
    rw [Nat.add_zero] at this
    rw [this]

/-- A load depends only on the bytes it covers. -/
theorem loadInt_congr (big : Bool) (d1 d2 : Nat → Nat) (a w : Nat)
    (h : ∀ r, r < w → d1 (a + r) = d2 (a + r)) : loadInt big d1 a w = loadInt big d2 a w := by
  unfold loadInt
  cases big with
  | true => rw [if_pos rfl, if_pos rfl]; exact loadBE_congr d1 d2 a w h
  | false => rw [if_neg (by decide), if_neg (by decide)]; exact loadLE_congr d1 d2 w a h

theorem read_fst_loadInt (dm : DataManager) (w : Nat) :
    (dm.read w).1 = loadInt dm.isBig dm.data dm.pos w := rfl

theorem Ext.refl (w : DataManager) : Ext w w :=
  ⟨le_refl _, fun _ _ => rfl, rfl, rfl, fun _ h => h⟩

theorem Ext.trans {w1 w2 w3 : DataManager} (h12 : Ext w1 w2) (h23 : Ext w2 w3) : Ext w1 w3 :=
  ⟨le_trans h12.pos h23.pos,
   fun a ha => by rw [h23.data a (lt_of_lt_of_le ha h12.pos), h12.data a ha],
   by rw [h23.size, h12.size],
   by rw [h23.big, h12.big],
   fun hp ho => h23.oob hp (h12.oob (by rw [← h23.size]; exact le_trans h23.pos hp) ho)⟩

theorem Ext.write (w : DataManager) (n v : Nat) : Ext w (w.write n v) := by
  refine ⟨by simp, ?_, rfl, rfl, ?_⟩
  · intro a ha
    rw [DataManager.write_data, storeInt_out _ _ _ _ _ _ (Or.inl ha)]
  · intro hp ho
    rw [DataManager.write_oob, ho]
    simp only [DataManager.write_pos, DataManager.write_size] at hp
    simp only [Bool.false_or, decide_eq_false_iff_not, not_lt]
    exact hp

theorem Ext.writeBytes (w : DataManager) (b : List Nat) : Ext w (w.writeBytes b) := by
  refine ⟨by simp [DataManager.writeBytes], ?_, rfl, rfl, ?_⟩
  · intro a ha
    simp only [DataManager.writeBytes]
    rw [if_neg (by omega)]
  · intro hp ho
    simp only [DataManager.writeBytes] at hp ⊢
    rw [ho]
    simp only [Bool.false_or, decide_eq_false_iff_not, not_lt]
    exact hp

theorem Ext.foldl {α : Type} (f : DataManager → α → DataManager)
    (hf : ∀ w a, Ext w (f w a)) (l : List α) (w : DataManager) : Ext w (l.foldl f w) := by
  induction l generalizing w with
  | nil => exact Ext.refl w
  | cons a t ih => exact Ext.trans (hf w a) (ih (f w a))

/-- A load below the cursor of `w1` is the same in every continuation. -/
theorem Ext.load {w1 w2 : DataManager} (h : Ext w1 w2) (big : Bool) (a n : Nat)
    (ha : a + n ≤ w1.pos) : loadInt big w2.data a n = loadInt big w1.data a n :=
  loadInt_congr big _ _ a n (fun r hr => h.data (a + r) (by omega))

theorem Ext.byte {w1 w2 : DataManager} (h : Ext w1 w2) (a : Nat) (ha : a < w1.pos) :
    byteAt w2.data a = byteAt w1.data a := by
  unfold byteAt
  rw [h.data a ha]

/-- A write, seen from any continuation: the value loads back at the old cursor. -/
theorem write_then_load (w w2 : DataManager) (n v : Nat) (h : Ext (w.write n v) w2) :
    loadInt w.isBig w2.data w.pos n = v % 256 ^ n := by
  rw [h.load w.isBig w.pos n (by simp), DataManager.write_data, loadInt_storeInt]

/-! ### The bytes `writeListing` produces -/

open FileListing

theorem collectFiles_fold (files : List WriteFile) (acc : List FileStruct) (off : Nat) :
    files.foldl (fun (acc : List FileStruct × Nat) file =>
      (acc.1 ++ [{ file := file, buffer := file.data, offset := acc.2 }],
       (acc.2 + file.data.length) % 2 ^ 32)) (acc, off) =
    (acc ++ structsFrom files off, offsetAfter files off) := by
  induction files generalizing acc off with
  | nil => simp [structsFrom, offsetAfter]
  | cons f t ih =>
    rw [List.foldl_cons, ih]
    simp [structsFrom, offsetAfter]

theorem collectFiles_eq (files : List WriteFile) :
    collectFiles files = (structsFrom files 12, offsetAfter files 12) := by
  unfold collectFiles
  rw [collectFiles_fold]
  simp

theorem structsFrom_length (files : List WriteFile) (off : Nat) :
    (structsFrom files off).length = files.length := by
  induction files generalizing off with
  | nil => rfl
  | cons f t ih => simp [structsFrom, ih]

theorem payloadTotal_cons (f : WriteFile) (t : List WriteFile) :
    payloadTotal (f :: t) = f.data.length + payloadTotal t := by
  simp [payloadTotal]

theorem offsetAfter_fit (files : List WriteFile) (off : Nat)
    (h : off + payloadTotal files < 2 ^ 32) : offsetAfter files off = off + payloadTotal files := by
  induction files generalizing off with
  | nil => simp [offsetAfter, payloadTotal]
  | cons f t ih =>
    rw [payloadTotal_cons] at h ⊢
    rw [offsetAfter, Nat.mod_eq_of_lt (by omega), ih _ (by omega)]
    omega

theorem wstring_spec (w : DataManager) (str : List Nat) (n : Nat) :
    Ext w (w.writeWStringFromString str n) ∧
    (w.writeWStringFromString str n).pos = w.pos + 2 * n ∧
    ∀ w2, Ext (w.writeWStringFromString str n) w2 → ∀ j, j < n →
      loadInt w.isBig w2.data (w.pos + 2 * j) 2 = str.getD j 0 % 65536 := by
  unfold DataManager.writeWStringFromString
  induction n with
  | zero =>
    refine ⟨Ext.refl w, rfl, ?_⟩
    intro _ _ j hj
    omega
  | succ n ih =>
    obtain ⟨h1, h2, h3⟩ := ih
    rw [List.range_succ, List.foldl_append, List.foldl_cons, List.foldl_nil]
    generalize (List.range n).foldl (fun w i => w.write 2 (str.getD i 0)) w = wn at h1 h2 h3 ⊢
    refine ⟨Ext.trans h1 (Ext.write wn 2 _), by rw [DataManager.write_pos, h2]; omega, ?_⟩
    intro w2 hw2 j hj
    by_cases hjn : j < n
    · exact h3 w2 (Ext.trans (Ext.write wn 2 _) hw2) j hjn
    · have hj2 : j = n := by omega
      subst hj2
      have := write_then_load wn w2 2 (str.getD j 0) hw2
      rw [h1.big, h2] at this
      rw [this]
      norm_num

/-- One footer entry, seen from any continuation of the writer. -/
theorem writeEntry_spec (cv : Nat) (w : DataManager) (fs : FileStruct) :
    Ext w (writeEntry cv w fs) ∧
    (writeEntry cv w fs).pos = w.pos + entrySize cv ∧
    ∀ w2, Ext (writeEntry cv w fs) w2 →
      (∀ j, j < 64 → loadInt w.isBig w2.data (w.pos + 2 * j) 2 = fs.file.fileName.getD j 0 % 65536) ∧
      loadInt w.isBig w2.data (w.pos + 128) 4 = fs.buffer.length % 2 ^ 32 ∧
      loadInt w.isBig w2.data (w.pos + 132) 4 = fs.offset % 2 ^ 32 ∧
      (cv > 1 → loadInt w.isBig w2.data (w.pos + 136) 8 = fs.file.timestamp % 2 ^ 64) := by
  obtain ⟨a1, a2, a3⟩ := wstring_spec w fs.file.fileName 64
  unfold writeEntry entrySize
  dsimp only
  generalize w.writeWStringFromString fs.file.fileName 64 = w1 at a1 a2 a3 ⊢
  have b1 := Ext.write w1 4 fs.buffer.length
  have b2 := Ext.write (w1.write 4 fs.buffer.length) 4 fs.offset
  have b3 := Ext.write ((w1.write 4 fs.buffer.length).write 4 fs.offset) 8 fs.file.timestamp
  have hs : ∀ w2, Ext ((w1.write 4 fs.buffer.length).write 4 fs.offset) w2 →
      (∀ j, j < 64 → loadInt w.isBig w2.data (w.pos + 2 * j) 2 = fs.file.fileName.getD j 0 % 65536) ∧
      loadInt w.isBig w2.data (w.pos + 128) 4 = fs.buffer.length % 2 ^ 32 ∧
      loadInt w.isBig w2.data (w.pos + 132) 4 = fs.offset % 2 ^ 32 := by
    intro w2 hw2
    refine ⟨a3 w2 (Ext.trans b1 (Ext.trans b2 hw2)), ?_, ?_⟩
    · have := write_then_load w1 w2 4 fs.buffer.length (Ext.trans b2 hw2)
      rw [a1.big, a2] at this
      exact this
    · have := write_then_load (w1.write 4 fs.buffer.length) w2 4 fs.offset hw2
      rw [DataManager.write_isBig, DataManager.write_pos, a1.big, a2] at this
      exact this
  by_cases hcv : cv > 1
  · rw [if_pos hcv, if_pos hcv]
    refine ⟨Ext.trans a1 (Ext.trans b1 (Ext.trans b2 b3)), ?_, ?_⟩
    · simp only [DataManager.write_pos, a2]
    · intro w2 hw2
      obtain ⟨c1, c2, c3⟩ := hs w2 (Ext.trans b3 hw2)
      refine ⟨c1, c2, c3, fun _ => ?_⟩
      have := write_then_load ((w1.write 4 fs.buffer.length).write 4 fs.offset) w2 8
        fs.file.timestamp hw2
      simp only [DataManager.write_isBig, DataManager.write_pos, a1.big, a2] at this
      exact this
  · rw [if_neg hcv, if_neg hcv]
    refine ⟨Ext.trans a1 (Ext.trans b1 b2), ?_, ?_⟩
    · simp only [DataManager.write_pos, a2]
    · intro w2 hw2
      obtain ⟨c1, c2, c3⟩ := hs w2 hw2
      exact ⟨c1, c2, c3, fun h => absurd h hcv⟩

theorem ext_writeEntry (cv : Nat) (w : DataManager) (fs : FileStruct) :
    Ext w (writeEntry cv w fs) := (writeEntry_spec cv w fs).1

theorem payloadTotal_take_succ (f : WriteFile) (t : List WriteFile) (i : Nat) :
    payloadTotal ((f :: t).take (i + 1)) = f.data.length + payloadTotal (t.take i) := by
  rw [List.take_succ_cons, payloadTotal_cons]

/-- Step 4 of `writeListing`: the payloads, one after the other. -/
theorem blobs_spec (files : List WriteFile) : ∀ (off : Nat) (w : DataManager),
    Ext w ((structsFrom files off).foldl (fun w fs => w.writeBytes fs.buffer) w) ∧
    ((structsFrom files off).foldl (fun w fs => w.writeBytes fs.buffer) w).pos =
      w.pos + payloadTotal files ∧
    ∀ w2, Ext ((structsFrom files off).foldl (fun w fs => w.writeBytes fs.buffer) w) w2 →
      ∀ i f, files[i]? = some f → ∀ k, k < f.data.length →
        byteAt w2.data (w.pos + payloadTotal (files.take i) + k) = f.data.getD k 0 % 256 := by
  induction files with
  | nil =>
    intro off w
    refine ⟨Ext.refl w, by simp [structsFrom, payloadTotal], ?_⟩
    intro _ _ i f hf
    simp at hf
  | cons f0 t ih =>
    intro off w
    obtain ⟨h1, h2, h3⟩ := ih ((off + f0.data.length) % 2 ^ 32) (w.writeBytes f0.data)
    rw [structsFrom, List.foldl_cons]
    dsimp only
    refine ⟨Ext.trans (Ext.writeBytes w f0.data) h1, ?_, ?_⟩
    · rw [h2, payloadTotal_cons]
      simp only [DataManager.writeBytes]
      omega
    · intro w2 hw2 i f hf k hk
      cases i with
      | zero =>
        simp only [List.getElem?_cons_zero, Option.some.injEq] at hf
        subst hf
        have hb := (Ext.trans h1 hw2).byte (w.pos + k) (by
          simp only [DataManager.writeBytes]; omega)
        simp only [List.take_zero, payloadTotal, List.map_nil, List.sum_nil, Nat.add_zero]
        rw [hb]
        unfold byteAt
        simp only [DataManager.writeBytes]
        rw [if_pos ⟨by omega, by omega⟩, Nat.add_sub_cancel_left, Nat.mod_mod]
      | succ i =>
        simp only [List.getElem?_cons_succ] at hf
        have := h3 w2 hw2 i f hf k hk
        rw [payloadTotal_take_succ]
        simp only [DataManager.writeBytes] at this
        rw [← this]
        congr 1
        omega

/-- Step 5 of `writeListing`: the footer entries, one after the other. -/
theorem entries_spec (cv : Nat) (files : List WriteFile) : ∀ (off : Nat) (w : DataManager),
    off + payloadTotal files < 2 ^ 32 →
    Ext w ((structsFrom files off).foldl (writeEntry cv) w) ∧
    ((structsFrom files off).foldl (writeEntry cv) w).pos = w.pos + entrySize cv * files.length ∧
    ∀ w2, Ext ((structsFrom files off).foldl (writeEntry cv) w) w2 →
      ∀ i f, files[i]? = some f →
        (∀ j, j < 64 → loadInt w.isBig w2.data (w.pos + entrySize cv * i + 2 * j) 2 =
          f.fileName.getD j 0 % 65536) ∧
        loadInt w.isBig w2.data (w.pos + entrySize cv * i + 128) 4 = f.data.length ∧
        loadInt w.isBig w2.data (w.pos + entrySize cv * i + 132) 4 =
          off + payloadTotal (files.take i) ∧
        (cv > 1 → loadInt w.isBig w2.data (w.pos + entrySize cv * i + 136) 8 =
          f.timestamp % 2 ^ 64) := by
  induction files with
  | nil =>
    intro off w _
    refine ⟨Ext.refl w, by simp [structsFrom], ?_⟩
    intro _ _ i f hf
    simp at hf
  | cons f0 t ih =>
    intro off w hfit
    rw [payloadTotal_cons] at hfit
    obtain ⟨e1, e2, e3⟩ := writeEntry_spec cv w
      { file := f0, buffer := f0.data, offset := off }
    obtain ⟨h1, h2, h3⟩ := ih ((off + f0.data.length) % 2 ^ 32)
      (writeEntry cv w { file := f0, buffer := f0.data, offset := off })
      (by rw [Nat.mod_eq_of_lt (by omega)]; omega)
    rw [structsFrom, List.foldl_cons]
    generalize writeEntry cv w { file := f0, buffer := f0.data, offset := off } = w1
      at e1 e2 e3 h1 h2 h3 ⊢
    refine ⟨Ext.trans e1 h1, ?_, ?_⟩
    · rw [h2, e2, List.length_cons]
      ring
    · intro w2 hw2 i f hf
      cases i with
      | zero =>
        simp only [List.getElem?_cons_zero, Option.some.injEq] at hf
        subst hf
        obtain ⟨c1, c2, c3, c4⟩ := e3 w2 (Ext.trans h1 hw2)
        dsimp only at c1 c2 c3 c4
        rw [Nat.mod_eq_of_lt (by omega)] at c2 c3
        simp only [Nat.mul_zero, Nat.add_zero, List.take_zero, payloadTotal, List.map_nil,
          List.sum_nil]
        exact ⟨c1, c2, c3, c4⟩
      | succ i =>
        simp only [List.getElem?_cons_succ] at hf
        obtain ⟨c1, c2, c3, c4⟩ := h3 w2 hw2 i f hf
        rw [e1.big, e2] at c1 c2 c3 c4
        rw [Nat.mod_eq_of_lt (by omega)] at c3
        rw [payloadTotal_take_succ]
        have ea : ∀ x, w.pos + entrySize cv * (i + 1) + x = w.pos + entrySize cv + entrySize cv * i + x := by
          intro x; ring
        refine ⟨fun j hj => ?_, ?_, ?_, fun h => ?_⟩
        · rw [ea]; exact c1 j hj
        · rw [ea]; exact c2
        · rw [ea, c3]; omega
        · rw [ea]; exact c4 h

/-- Steps 3 to 5 of `writeListing` on a writer at offset 0 of a buffer of the
computed size. -/
theorem writer_steps_spec (ov cv : Nat) (files : List WriteFile) (w0 : DataManager)
    (hfit : 12 + payloadTotal files + entrySize cv * files.length < 2 ^ 32)
    (z1 : w0.pos = 0) (z3 : w0.oob = false)
    (z4 : w0.size = 12 + payloadTotal files + entrySize cv * files.length) :
    ∀ W, W = (structsFrom files 12).foldl (writeEntry cv)
      ((structsFrom files 12).foldl (fun w fs => w.writeBytes fs.buffer)
        ((((w0.write 4 (12 + payloadTotal files)).write 4
          (files.length * (if cv > 1 then 1 else 136))).write 2 ov).write 2 cv)) →
    W.size = 12 + payloadTotal files + entrySize cv * files.length ∧
    W.pos = 12 + payloadTotal files + entrySize cv * files.length ∧
    W.oob = false ∧
    loadInt w0.isBig W.data 0 4 = 12 + payloadTotal files ∧
    loadInt w0.isBig W.data 4 4 = files.length * (if cv > 1 then 1 else 136) ∧
    loadInt w0.isBig W.data 8 2 = ov % 65536 ∧
    loadInt w0.isBig W.data 10 2 = cv % 65536 ∧
    (∀ i f, files[i]? = some f → ∀ k, k < f.data.length →
      byteAt W.data (payloadOffset files i + k) = f.data.getD k 0 % 256) ∧
    (∀ i f, files[i]? = some f →
      (∀ j, j < 64 → loadInt w0.isBig W.data
          (12 + payloadTotal files + entrySize cv * i + 2 * j) 2 = f.fileName.getD j 0 % 65536) ∧
      loadInt w0.isBig W.data (12 + payloadTotal files + entrySize cv * i + 128) 4 =
        f.data.length ∧
      loadInt w0.isBig W.data (12 + payloadTotal files + entrySize cv * i + 132) 4 =
        payloadOffset files i ∧
      (cv > 1 → loadInt w0.isBig W.data (12 + payloadTotal files + entrySize cv * i + 136) 8 =
        f.timestamp % 2 ^ 64)) := by
  intro W hW
  have hEle : 136 ≤ entrySize cv := by unfold entrySize; split_ifs <;> omega
  have hn : files.length * (if cv > 1 then 1 else 136) < 2 ^ 32 := by
    have : files.length * 136 ≤ entrySize cv * files.length := by
      rw [Nat.mul_comm]; exact Nat.mul_le_mul_right _ hEle
    split_ifs <;> omega
  have x1 := Ext.write w0 4 (12 + payloadTotal files)
  have x2 := Ext.write (w0.write 4 (12 + payloadTotal files)) 4
    (files.length * (if cv > 1 then 1 else 136))
  have x3 := Ext.write ((w0.write 4 (12 + payloadTotal files)).write 4
    (files.length * (if cv > 1 then 1 else 136))) 2 ov
  have x4 := Ext.write (((w0.write 4 (12 + payloadTotal files)).write 4
    (files.length * (if cv > 1 then 1 else 136))).write 2 ov) 2 cv
  have l1 := fun w2 => write_then_load w0 w2 4 (12 + payloadTotal files)
  have l2 := fun w2 => write_then_load (w0.write 4 (12 + payloadTotal files)) w2 4
    (files.length * (if cv > 1 then 1 else 136))
  have l3 := fun w2 => write_then_load ((w0.write 4 (12 + payloadTotal files)).write 4
    (files.length * (if cv > 1 then 1 else 136))) w2 2 ov
  have l4 := fun w2 => write_then_load (((w0.write 4 (12 + payloadTotal files)).write 4
    (files.length * (if cv > 1 then 1 else 136))).write 2 ov) w2 2 cv
  simp only [DataManager.write_pos, DataManager.write_isBig, z1] at l1 l2 l3 l4
  have p4 : ((((w0.write 4 (12 + payloadTotal files)).write 4
    (files.length * (if cv > 1 then 1 else 136))).write 2 ov).write 2 cv).pos = 12 := by
    simp only [DataManager.write_pos, z1]
  have b4 : ((((w0.write 4 (12 + payloadTotal files)).write 4
    (files.length * (if cv > 1 then 1 else 136))).write 2 ov).write 2 cv).isBig = w0.isBig := by
    simp only [DataManager.write_isBig]
  generalize (((w0.write 4 (12 + payloadTotal files)).write 4
    (files.length * (if cv > 1 then 1 else 136))).write 2 ov).write 2 cv = w4
    at x4 l4 p4 b4 hW
  generalize ((w0.write 4 (12 + payloadTotal files)).write 4
    (files.length * (if cv > 1 then 1 else 136))).write 2 ov = w3 at x3 x4 l3
  generalize (w0.write 4 (12 + payloadTotal files)).write 4
    (files.length * (if cv > 1 then 1 else 136)) = w2 at x2 x3 l2
  generalize w0.write 4 (12 + payloadTotal files) = w1 at x1 x2 l1
  obtain ⟨g1, g2, g3⟩ := blobs_spec files 12 w4
  rw [p4] at g2 g3
  generalize (structsFrom files 12).foldl (fun w fs => w.writeBytes fs.buffer) w4 = w5
    at g1 g2 g3 hW
  obtain ⟨f1, f2, f3⟩ := entries_spec cv files 12 w5 (by omega)
  rw [g2, g1.big, b4] at f3
  rw [g2] at f2
  rw [← hW] at f1 f2 f3
  have e46 : Ext w4 W := Ext.trans g1 f1
  have e36 : Ext w3 W := Ext.trans x4 e46
  have e26 : Ext w2 W := Ext.trans x3 e36
  have e16 : Ext w1 W := Ext.trans x2 e26
  have e06 : Ext w0 W := Ext.trans x1 e16
  have hsz : W.size = 12 + payloadTotal files + entrySize cv * files.length := by
    rw [e06.size, z4]
  refine ⟨hsz, f2, ?_, ?_, ?_, ?_, ?_, ?_, ?_⟩
  · exact e06.oob (by rw [hsz, f2]) z3
  · rw [l1 W e16]
    apply Nat.mod_eq_of_lt
    norm_num
    omega
  · rw [l2 W e26]
    apply Nat.mod_eq_of_lt
    calc files.length * (if cv > 1 then 1 else 136) < 2 ^ 32 := hn
      _ = 256 ^ 4 := by norm_num
  · rw [l3 W e36]
    norm_num
  · rw [l4 W e46]
    norm_num
  · intro i f hf k hk
    exact g3 W f1 i f hf k hk
  · intro i f hf
    exact f3 W (Ext.refl W) i f hf

/-- The layout of the buffer of `writeListing` when its size fits a `u32`. -/
theorem writeListingRun_spec (ov cv : Nat) (big : Bool) (files : List WriteFile)
    (hfit : 12 + payloadTotal files + entrySize cv * files.length < 2 ^ 32) :
    (writeListingRun ov cv big files).size = 12 + payloadTotal files + entrySize cv * files.length ∧
    (writeListingRun ov cv big files).pos = 12 + payloadTotal files + entrySize cv * files.length ∧
    (writeListingRun ov cv big files).oob = false ∧
    loadInt big (writeListingRun ov cv big files).data 0 4 = 12 + payloadTotal files ∧
    loadInt big (writeListingRun ov cv big files).data 4 4 =
      files.length * (if cv > 1 then 1 else 136) ∧
    loadInt big (writeListingRun ov cv big files).data 8 2 = ov % 65536 ∧
    loadInt big (writeListingRun ov cv big files).data 10 2 = cv % 65536 ∧
    (∀ i f, files[i]? = some f → ∀ k, k < f.data.length →
      byteAt (writeListingRun ov cv big files).data (payloadOffset files i + k) =
        f.data.getD k 0 % 256) ∧
    (∀ i f, files[i]? = some f →
      (∀ j, j < 64 → loadInt big (writeListingRun ov cv big files).data
          (12 + payloadTotal files + entrySize cv * i + 2 * j) 2 = f.fileName.getD j 0 % 65536) ∧
      loadInt big (writeListingRun ov cv big files).data
          (12 + payloadTotal files + entrySize cv * i + 128) 4 = f.data.length ∧
      loadInt big (writeListingRun ov cv big files).data
          (12 + payloadTotal files + entrySize cv * i + 132) 4 = payloadOffset files i ∧
      (cv > 1 → loadInt big (writeListingRun ov cv big files).data
          (12 + payloadTotal files + entrySize cv * i + 136) 8 = f.timestamp % 2 ^ 64)) := by
  have hE : (if cv > 1 then 144 else 136) = entrySize cv := rfl
  refine writer_steps_spec ov cv files
    ⟨fun _ => 0, 12 + payloadTotal files + entrySize cv * files.length, 0, big, false⟩
    hfit rfl rfl rfl _ ?_
  unfold writeListingRun
  rw [collectFiles_eq]
  dsimp only
  rw [hE, structsFrom_length, offsetAfter_fit files 12 (by omega), Nat.mod_eq_of_lt hfit]

/-! ### What `readListing` reads -/

open FileListing

/-- One iteration of the loop of `readListing`. -/
theorem readEntry_spec (idx E cv : Nat) (st : DataManager × List ReadFile) (i : Nat) :
    (readEntry idx E cv st i).1.data = st.1.data ∧
    (readEntry idx E cv st i).1.size = st.1.size ∧
    (readEntry idx E cv st i).1.isBig = st.1.isBig ∧
    (readEntry idx E cv st i).1.oob = (st.1.oob ||
      !(entryInBounds st.1.isBig st.1.data st.1.size cv ((idx + i * E) % 2 ^ 32))) ∧
    (readEntry idx E cv st i).2 =
      st.2 ++ [entryAt st.1.isBig st.1.data cv ((idx + i * E) % 2 ^ 32)] := by
  unfold readEntry
  dsimp only
  generalize (idx + i * E) % 2 ^ 32 = p
  unfold entryAt entryInBounds entrySize nameAt
  by_cases hcv : cv > 1
  · rw [if_pos hcv, if_pos hcv, if_pos hcv]
    refine ⟨rfl, rfl, rfl, ?_, rfl⟩
    simp only [DataManager.readWAsString, DataManager.readSpan,
      DataManager.read, DataManager.seek, loadInt]
    rw [Bool.eq_iff_iff]
    simp only [Bool.or_eq_true, decide_eq_true_eq, Bool.not_eq_true', Bool.and_eq_false_imp,
      decide_eq_false_iff_not, not_le, Bool.and_eq_true]
    constructor
    · rintro (((((h | h) | h) | h) | h) | h)
      · exact Or.inl h
      · right; intro hh; omega
      · right; intro hh; omega
      · right; intro hh; omega
      · right; intro hh; omega
      · right; intro hh; exact h
    · rintro (h | h)
      · exact Or.inl (Or.inl (Or.inl (Or.inl (Or.inl h))))
      · by_cases h1 : p + 144 ≤ st.1.size
        · exact Or.inr (h h1)
        · exact Or.inl (Or.inr (by omega))
  · rw [if_neg hcv, if_neg hcv, if_neg hcv]
    refine ⟨rfl, rfl, rfl, ?_, rfl⟩
    simp only [DataManager.readWAsString, DataManager.readSpan,
      DataManager.read, DataManager.seek, loadInt]
    rw [Bool.eq_iff_iff]
    simp only [Bool.or_eq_true, decide_eq_true_eq, Bool.not_eq_true', Bool.and_eq_false_imp,
      decide_eq_false_iff_not, not_le, Bool.and_eq_true]
    constructor
    · rintro ((((h | h) | h) | h) | h)
      · exact Or.inl h
      · right; intro hh; omega
      · right; intro hh; omega
      · right; intro hh; omega
      · right; intro hh; exact h
    · rintro (h | h)
      · exact Or.inl (Or.inl (Or.inl (Or.inl h)))
      · by_cases h1 : p + 136 ≤ st.1.size
        · exact Or.inr (h h1)
        · exact Or.inl (Or.inr (by omega))

/-- The loop of `readListing` over the first `n` entries. -/
theorem readFold_spec (idx E cv : Nat) (st : DataManager × List ReadFile) (n : Nat) :
    ((List.range n).foldl (readEntry idx E cv) st).1.data = st.1.data ∧
    ((List.range n).foldl (readEntry idx E cv) st).1.size = st.1.size ∧
    ((List.range n).foldl (readEntry idx E cv) st).1.isBig = st.1.isBig ∧
    ((List.range n).foldl (readEntry idx E cv) st).1.oob = (st.1.oob ||
      (List.range n).any fun i =>
        !(entryInBounds st.1.isBig st.1.data st.1.size cv ((idx + i * E) % 2 ^ 32))) ∧
    ((List.range n).foldl (readEntry idx E cv) st).2 =
      st.2 ++ (List.range n).map fun i =>
        entryAt st.1.isBig st.1.data cv ((idx + i * E) % 2 ^ 32) := by
  induction n with
  | zero => simp
  | succ n ih =>
    obtain ⟨h1, h2, h3, h4, h5⟩ := ih
    rw [List.range_succ, List.foldl_append, List.foldl_cons, List.foldl_nil]
    obtain ⟨e1, e2, e3, e4, e5⟩ := readEntry_spec idx E cv
      ((List.range n).foldl (readEntry idx E cv) st) n
    simp only [h1, h2, h3] at e4 e5
    refine ⟨by rw [e1, h1], by rw [e2, h2], by rw [e3, h3], ?_, ?_⟩
    · rw [e4, h4, List.any_append, Bool.or_assoc]
      simp
    · rw [e5, h5, List.map_append, List.append_assoc]
      rfl

/-- The field `fileCount` of `readListing` after the division. -/
theorem readListing_spec (d : Nat → Nat) (size : Nat) (big : Bool) :
    readListing d size big =
      if (decide (size < 12) ||
          (List.range (if loadInt big d 10 2 ≤ 1 then loadInt big d 4 4 / 136
              else loadInt big d 4 4)).any fun i =>
            !(entryInBounds big d size (loadInt big d 10 2)
              ((loadInt big d 0 4 + i * (if loadInt big d 10 2 ≤ 1 then 136 else 144)) % 2 ^ 32)))
        = true
      then none
      else some { oldestVersion := loadInt big d 8 2, currentVersion := loadInt big d 10 2,
                  allFiles := (List.range (if loadInt big d 10 2 ≤ 1 then loadInt big d 4 4 / 136
                      else loadInt big d 4 4)).map fun i =>
                    entryAt big d (loadInt big d 10 2)
                      ((loadInt big d 0 4 + i * (if loadInt big d 10 2 ≤ 1 then 136 else 144))
                        % 2 ^ 32) } := by
  unfold readListing
  dsimp only
  simp only [read_fst_loadInt, DataManager.read_data, DataManager.read_pos,
    DataManager.read_isBig, Nat.zero_add, Nat.reduceAdd]
  generalize hst : ((((({ data := d, size := size, pos := 0, isBig := big, oob := false } :
    DataManager).read 4).2.read 4).2.read 2).2.read 2).2 = r0
  have q1 : r0.data = d := by rw [← hst]; rfl
  have q2 : r0.size = size := by rw [← hst]; rfl
  have q3 : r0.isBig = big := by rw [← hst]; rfl
  have q4 : r0.oob = decide (size < 12) := by
    rw [← hst]
    simp only [DataManager.read_oob, DataManager.read_size, DataManager.read_pos]
    rw [Bool.eq_iff_iff]
    simp only [Bool.or_eq_true, decide_eq_true_eq, Bool.false_eq_true, false_or]
    omega
  obtain ⟨h1, h2, h3, h4, h5⟩ := readFold_spec (loadInt big d 0 4)
    (if loadInt big d 10 2 ≤ 1 then 136 else 144) (loadInt big d 10 2) (r0, [])
    (if loadInt big d 10 2 ≤ 1 then loadInt big d 4 4 / 136 else loadInt big d 4 4)
  simp only [q1, q2, q3, q4, List.nil_append] at h4 h5
  rw [h4, h5]

/-! ### Flat listing: read stride and write layout -/

open FileListing

theorem any_false_of_forall (n : Nat) (f : Nat → Bool) (h : ∀ i, i < n → f i = true) :
    ((List.range n).any fun i => !(f i)) = false := by
  rw [List.any_eq_false]
  intro i hi
  rw [List.mem_range] at hi
  rw [h i hi]
  decide

/-- The function `readListing` on a buffer whose header, entries and payloads lie
inside it. -/
theorem readListing_some (d : Nat → Nat) (size : Nat) (big : Bool) (h12 : 12 ≤ size)
    (hb : ∀ i, i < (if loadInt big d 10 2 ≤ 1 then loadInt big d 4 4 / 136 else loadInt big d 4 4) →
      entryInBounds big d size (loadInt big d 10 2)
        ((loadInt big d 0 4 + i * (if loadInt big d 10 2 ≤ 1 then 136 else 144)) % 2 ^ 32) = true) :
    readListing d size big =
      some { oldestVersion := loadInt big d 8 2, currentVersion := loadInt big d 10 2,
             allFiles := (List.range (if loadInt big d 10 2 ≤ 1 then loadInt big d 4 4 / 136
                 else loadInt big d 4 4)).map fun i =>
               entryAt big d (loadInt big d 10 2)
                 ((loadInt big d 0 4 + i * (if loadInt big d 10 2 ≤ 1 then 136 else 144))
                   % 2 ^ 32) } := by
  rw [readListing_spec, any_false_of_forall _ _ hb, if_neg]
  rw [Bool.or_false, decide_eq_true_eq]
  omega

/-- C18: `FileListing::readListing` on a buffer whose 12-byte header, footer entries
and payloads lie inside it.  When `current_version ≤ 1` the count field is divided
by 136, entry `i` is read at `index_offset + 136·i` (as a `u32`) and its timestamp
is 0; when `current_version > 1` the count is used unchanged, entry `i` is read at
`index_offset + 144·i` and its timestamp is the `u64` at offset 136 of the entry.
In both cases the name is the 64-wide-character window at the entry, the size the
`u32` at offset 128 and `data_offset` the `u32` at offset 132. -/
theorem flat_listing_read_stride (d : Nat → Nat) (size : Nat) (big : Bool) (h12 : 12 ≤ size)
    (hb : ∀ i, i < (if loadInt big d 10 2 ≤ 1 then loadInt big d 4 4 / 136 else loadInt big d 4 4) →
      entryInBounds big d size (loadInt big d 10 2)
        ((loadInt big d 0 4 + i * (if loadInt big d 10 2 ≤ 1 then 136 else 144)) % 2 ^ 32) = true) :
    (loadInt big d 10 2 ≤ 1 →
      readListing d size big =
        some { oldestVersion := loadInt big d 8 2, currentVersion := loadInt big d 10 2,
               allFiles := (List.range (loadInt big d 4 4 / 136)).map fun i =>
                 entryAt big d (loadInt big d 10 2) ((loadInt big d 0 4 + i * 136) % 2 ^ 32) } ∧
      ∀ p, (entryAt big d (loadInt big d 10 2) p).timestamp = 0) ∧
    (1 < loadInt big d 10 2 →
      readListing d size big =
        some { oldestVersion := loadInt big d 8 2, currentVersion := loadInt big d 10 2,
               allFiles := (List.range (loadInt big d 4 4)).map fun i =>
                 entryAt big d (loadInt big d 10 2) ((loadInt big d 0 4 + i * 144) % 2 ^ 32) } ∧
      ∀ p, (entryAt big d (loadInt big d 10 2) p).timestamp = loadInt big d (p + 136) 8) ∧
    (∀ cv p, (entryAt big d cv p).fileName = nameAt big d p ∧
      (entryAt big d cv p).payload =
        (List.range (loadInt big d (p + 128) 4)).map
          fun k => byteAt d (loadInt big d (p + 132) 4 + k)) := by
  have h := readListing_some d size big h12 hb
  refine ⟨fun hcv => ?_, fun hcv => ?_, fun _ _ => ⟨rfl, rfl⟩⟩
  · rw [if_pos hcv, if_pos hcv] at h
    refine ⟨h, fun p => ?_⟩
    unfold entryAt
    dsimp only
    rw [if_neg (by omega)]
  · rw [if_neg (by omega), if_neg (by omega)] at h
    refine ⟨h, fun p => ?_⟩
    unfold entryAt
    dsimp only
    rw [if_pos hcv]

set_option maxRecDepth 100000 in
theorem flat_listing_read_stride_witness :
    (12 ≤ 584 ∧ loadInt true s6Data 10 2 = 1 ∧ loadInt true s6Data 4 4 = 2 * 136) ∧
    readListing s6Data 584 true =
      some { oldestVersion := 1, currentVersion := 1,
             allFiles := [{ fileName := [], timestamp := 0, payload := List.replicate 100 0 },
                          { fileName := [], timestamp := 0, payload := List.replicate 200 0 }] } :=
  ⟨⟨by decide, by decide, by decide⟩,
    (((flat_listing_read_stride s6Data 584 true (by decide) (by decide)).1 (by decide)).1).trans
      (by decide)⟩

theorem payloadTotal_append (a b : List WriteFile) :
    payloadTotal (a ++ b) = payloadTotal a + payloadTotal b := by
  simp [payloadTotal]

theorem payloadOffset_succ (files : List WriteFile) (i : Nat) (f : WriteFile)
    (hf : files[i]? = some f) :
    payloadOffset files (i + 1) = payloadOffset files i + f.data.length := by
  unfold payloadOffset
  have hi : i < files.length := by
    rcases Nat.lt_or_ge i files.length with h | h
    · exact h
    · rw [List.getElem?_eq_none h] at hf; cases hf
  rw [List.getElem?_eq_getElem hi, Option.some.injEq] at hf
  rw [List.take_succ, List.getElem?_eq_getElem hi, payloadTotal_append]
  simp only [Option.toList, payloadTotal, List.map_cons, List.map_nil, List.sum_cons,
    List.sum_nil, hf]
  omega

theorem payloadOffset_le (files : List WriteFile) (i : Nat) (f : WriteFile)
    (hf : files[i]? = some f) :
    payloadOffset files i + f.data.length ≤ 12 + payloadTotal files := by
  rw [← payloadOffset_succ files i f hf]
  unfold payloadOffset
  have : payloadTotal (files.take (i + 1)) + payloadTotal (files.drop (i + 1)) =
      payloadTotal files := by
    rw [← payloadTotal_append, List.take_append_drop]
  omega

theorem writeListing_some (ov cv : Nat) (big : Bool) (files : List WriteFile)
    (hfit : 12 + payloadTotal files + entrySize cv * files.length < 2 ^ 32) :
    writeListing ov cv big files =
      some ((writeListingRun ov cv big files).data,
        12 + payloadTotal files + entrySize cv * files.length) := by
  obtain ⟨h1, _, h3, _⟩ := writeListingRun_spec ov cv big files hfit
  unfold writeListing
  dsimp only
  rw [h3, h1]
  rfl

/-- C19: for every list of files whose listing fits a `u32` size,
`FileListing::writeListing` returns a buffer of exactly `12 + Σ s_i + E·n` bytes
(`E = 144` if `current_version > 1`, else 136); the header `index_offset` is
`12 + Σ s_i`; the payloads are concatenated in listing order from offset 12 (the
payload of file `i` starts at `12 + Σ_{j<i} s_j`); footer entry `i` records the
size `s_i` and the `data_offset` `12 + Σ_{j<i} s_j`. -/
theorem flat_listing_write_layout (ov cv : Nat) (big : Bool) (files : List WriteFile)
    (hfit : 12 + payloadTotal files + entrySize cv * files.length < 2 ^ 32) :
    writeListing ov cv big files =
      some ((writeListingRun ov cv big files).data,
        12 + payloadTotal files + (if cv > 1 then 144 else 136) * files.length) ∧
    loadInt big (writeListingRun ov cv big files).data 0 4 = 12 + payloadTotal files ∧
    payloadOffset files 0 = 12 ∧
    (∀ i f, files[i]? = some f →
      payloadOffset files (i + 1) = payloadOffset files i + f.data.length ∧
      (∀ k, k < f.data.length →
        byteAt (writeListingRun ov cv big files).data (payloadOffset files i + k) =
          f.data.getD k 0 % 256) ∧
      loadInt big (writeListingRun ov cv big files).data
          (12 + payloadTotal files + (if cv > 1 then 144 else 136) * i + 128) 4 =
        f.data.length ∧
      loadInt big (writeListingRun ov cv big files).data
          (12 + payloadTotal files + (if cv > 1 then 144 else 136) * i + 132) 4 =
        payloadOffset files i) := by
  obtain ⟨_, _, _, h4, _, _, _, h8, h9⟩ := writeListingRun_spec ov cv big files hfit
  refine ⟨writeListing_some ov cv big files hfit, h4, ?_, ?_⟩
  · simp [payloadOffset, payloadTotal]
  · intro i f hf
    obtain ⟨_, c2, c3, _⟩ := h9 i f hf
    exact ⟨payloadOffset_succ files i f hf, h8 i f hf, c2, c3⟩

theorem flat_listing_write_layout_witness :
    12 + payloadTotal sampleFiles + entrySize 2 * sampleFiles.length < 2 ^ 32 ∧
    loadInt true (writeListingRun 1 2 true sampleFiles).data 0 4 = 12 + payloadTotal sampleFiles :=
  ⟨by decide, (flat_listing_write_layout 1 2 true sampleFiles (by decide)).2.1⟩

/-! ### Flat listing: round trip -/

open FileListing

theorem takeWhile_append_zeros (p : Nat → Bool) (name : List Nat) (k : Nat)
    (hn : ∀ c ∈ name, p c = true) (h0 : p 0 = false) :
    (name ++ List.replicate k 0).takeWhile p = name := by
  induction name with
  | nil =>
    cases k with
    | zero => rfl
    | succ k => simp [List.replicate_succ, List.takeWhile_cons, h0]
  | cons a t ih =>
    rw [List.cons_append, List.takeWhile_cons, hn a (List.mem_cons_self a t)]
    simp only [if_true]
    rw [ih (fun c hc => hn c (List.mem_cons_of_mem a hc))]

theorem window_chars (name : List Nat) (m : Nat) (h : name.length ≤ m) :
    (List.range m).map (fun j => name.getD j 0) = name ++ List.replicate (m - name.length) 0 := by
  apply List.ext_getElem
  · simp; omega
  · intro i h1 h2
    simp only [List.getElem_map, List.getElem_range]
    by_cases hi : i < name.length
    · rw [List.getElem_append_left hi, List.getD_eq_getElem _ _ hi]
    · rw [List.getElem_append_right (by omega), List.getElem_replicate,
        List.getD_eq_default _ _ (by omega)]

/-- A valid name survives the 64-character window. -/
theorem name_window (name : List Nat) (h : validName name) :
    ((((List.range 64).map fun j => name.getD j 0).takeWhile fun c => decide (c ≠ 0)).map
      fun c => c % 256) = name := by
  obtain ⟨hl, hc⟩ := h
  rw [window_chars name 64 (by omega), takeWhile_append_zeros _ name _ ?_ (by simp)]
  · apply List.ext_getElem
    · simp
    · intro i h1 h2
      simp only [List.getElem_map]
      exact Nat.mod_eq_of_lt (hc _ (List.getElem_mem _)).2
  · intro c hcm
    have := (hc c hcm).1
    simp only [ne_eq, decide_not, Bool.not_eq_true', decide_eq_false_iff_not]
    omega

theorem getD_lt_of_valid (name : List Nat) (h : validName name) (j : Nat) :
    name.getD j 0 < 65536 := by
  by_cases hj : j < name.length
  · rw [List.getD_eq_getElem _ _ hj]
    have := (h.2 _ (List.getElem_mem hj)).2
    omega
  · rw [List.getD_eq_default _ _ (by omega)]
    norm_num

/-- The entry `readListing` builds at entry `i` of the buffer that `writeListing`
made is the file it was made from. -/
theorem entryAt_written (big : Bool) (d : Nat → Nat) (cv p : Nat) (f : WriteFile) (off : Nat)
    (hname : validName f.fileName) (hbytes : ∀ b ∈ f.data, b < 256)
    (hts : f.timestamp < 2 ^ 64)
    (c1 : ∀ j, j < 64 → loadInt big d (p + 2 * j) 2 = f.fileName.getD j 0 % 65536)
    (c2 : loadInt big d (p + 128) 4 = f.data.length)
    (c3 : loadInt big d (p + 132) 4 = off)
    (c4 : cv > 1 → loadInt big d (p + 136) 8 = f.timestamp % 2 ^ 64)
    (c5 : ∀ k, k < f.data.length → byteAt d (off + k) = f.data.getD k 0 % 256) :
    entryAt big d cv p = recovered cv f := by
  unfold entryAt recovered
  congr 1
  · unfold nameAt
    have : ((List.range 64).map fun i => loadInt big d (p + 2 * i) 2) =
        (List.range 64).map fun j => f.fileName.getD j 0 := by
      apply List.map_congr_left
      intro j hj
      rw [List.mem_range] at hj
      rw [c1 j hj, Nat.mod_eq_of_lt (getD_lt_of_valid _ hname j)]
    rw [this]
    exact name_window _ hname
  · by_cases hcv : cv > 1
    · rw [if_pos hcv, if_pos hcv, c4 hcv, Nat.mod_eq_of_lt hts]
    · rw [if_neg hcv, if_neg hcv]
  · rw [c2, c3]
    apply List.ext_getElem
    · simp
    · intro k h1 h2
      simp only [List.getElem_map, List.getElem_range]
      rw [c5 k h2, List.getD_eq_getElem _ _ h2]
      exact Nat.mod_eq_of_lt (hbytes _ (List.getElem_mem h2))

/-- C39: for every list of files whose names are valid (at most 63 characters, no
null, each a byte), whose payload bytes are bytes, whose timestamps are `u64` and
whose listing fits a `u32` size, and for both version classes,
`FileListing::writeListing` returns a buffer on which `FileListing::readListing`,
with the same endianness, returns the two versions and one file per written file,
in the same order, with the same name and payload, and with the same timestamp
when `current_version > 1` (0 otherwise). -/
theorem flat_listing_round_trip (ov cv : Nat) (big : Bool) (files : List WriteFile)
    (hov : ov < 65536) (hcv : cv < 65536)
    (hfit : 12 + payloadTotal files + entrySize cv * files.length < 2 ^ 32)
    (hnames : ∀ f ∈ files, validName f.fileName)
    (hbytes : ∀ f ∈ files, ∀ b ∈ f.data, b < 256)
    (hts : ∀ f ∈ files, f.timestamp < 2 ^ 64) :
    writeListing ov cv big files =
      some ((writeListingRun ov cv big files).data,
        12 + payloadTotal files + entrySize cv * files.length) ∧
    readListing (writeListingRun ov cv big files).data
        (12 + payloadTotal files + entrySize cv * files.length) big =
      some { oldestVersion := ov, currentVersion := cv, allFiles := files.map (recovered cv) } := by
  refine ⟨writeListing_some ov cv big files hfit, ?_⟩
  obtain ⟨_, _, _, h4, h5, h6, h7, h8, h9⟩ := writeListingRun_spec ov cv big files hfit
  generalize (writeListingRun ov cv big files).data = d at h4 h5 h6 h7 h8 h9 ⊢
  rw [Nat.mod_eq_of_lt hov] at h6
  rw [Nat.mod_eq_of_lt hcv] at h7
  have hE : (if cv ≤ 1 then 136 else 144) = entrySize cv := by
    unfold entrySize
    by_cases h : cv > 1
    · rw [if_neg (by omega), if_pos h]
    · rw [if_pos (by omega), if_neg h]
  have hcount : (if cv ≤ 1 then loadInt big d 4 4 / 136 else loadInt big d 4 4) = files.length := by
    rw [h5]
    by_cases h : cv > 1
    · rw [if_neg (by omega), if_pos h, Nat.mul_one]
    · rw [if_pos (by omega), if_neg h, Nat.mul_div_cancel _ (by norm_num)]
  have hEle : entrySize cv ≤ 144 := by unfold entrySize; split_ifs <;> omega
  have hpos : ∀ i, i < files.length →
      (12 + payloadTotal files + i * entrySize cv) % 2 ^ 32 =
        12 + payloadTotal files + entrySize cv * i := by
    intro i hi
    have : entrySize cv * i < entrySize cv * files.length ∨ entrySize cv = 0 := by
      rcases Nat.eq_zero_or_pos (entrySize cv) with h | h
      · exact Or.inr h
      · exact Or.inl (Nat.mul_lt_mul_of_pos_left hi h)
    rw [Nat.mul_comm i, Nat.mod_eq_of_lt]
    rcases this with h | h
    · omega
    · rw [h] at hfit ⊢; omega
  have hstep : ∀ i, i < files.length →
      entrySize cv * i + entrySize cv ≤ entrySize cv * files.length := by
    intro i hi
    calc entrySize cv * i + entrySize cv = entrySize cv * (i + 1) := by ring
      _ ≤ entrySize cv * files.length := Nat.mul_le_mul_left _ hi
  rw [readListing_some d _ big (by omega) ?_]
  · rw [h4, h6, h7, hE, hcount]
    congr 2
    apply List.ext_getElem
    · simp
    · intro i h1 h2
      have hi : i < files.length := by simpa using h2
      simp only [List.getElem_map, List.getElem_range]
      rw [hpos i hi]
      have hf : files[i]? = some files[i] := List.getElem?_eq_getElem hi
      obtain ⟨c1, c2, c3, c4⟩ := h9 i _ hf
      have hmem : files[i] ∈ files := List.getElem_mem hi
      exact entryAt_written big d cv _ _ _ (hnames _ hmem) (hbytes _ hmem) (hts _ hmem)
        c1 c2 c3 c4 (h8 i _ hf)
  · rw [h4, h7, hE, hcount]
    intro i hi
    rw [hpos i hi]
    have hf : files[i]? = some files[i] := List.getElem?_eq_getElem hi
    obtain ⟨_, c2, c3, _⟩ := h9 i _ hf
    have hle := payloadOffset_le files i _ hf
    have hs := hstep i hi
    unfold entryInBounds
    rw [c2, c3, Bool.and_eq_true, decide_eq_true_eq, decide_eq_true_eq]
    constructor
    · omega
    · omega

set_option maxRecDepth 100000 in
theorem flat_listing_round_trip_witness :
    ((1 : Nat) < 65536 ∧ (2 : Nat) < 65536 ∧
      12 + payloadTotal sampleFiles + entrySize 2 * sampleFiles.length < 2 ^ 32) ∧
    readListing (writeListingRun 1 2 true sampleFiles).data
        (12 + payloadTotal sampleFiles + entrySize 2 * sampleFiles.length) true =
      some { oldestVersion := 1, currentVersion := 2,
             allFiles := sampleFiles.map (recovered 2) } :=
  ⟨⟨by decide, by decide, by decide⟩,
    (flat_listing_round_trip 1 2 true sampleFiles (by decide) (by decide) (by decide)
      (by simp [sampleFiles, validName]) (by simp [sampleFiles]) (by simp [sampleFiles])).2⟩

end LegacyEditor
